import Mathlib

/-!
BEWorld: collision engine and motion-control virtual machine

A shallow embedding of `engine/src/collision.c`, `engine/src/inspect.c`,
`engine/src/sprite.c` and `engine/src/motion.c`, with the properties of the
specification stated and settled against it.

Conventions of the embedding

* C `int` values are integers of ℤ; the engine works with pixel coordinates and
  velocities far from the 32-bit limits, and no statement below relies on
  wrap-around.  The one place where wrap-around decides the control flow, the
  `while( len-- )` scans entered with a negative length, uses an explicit
  `% 2^32`.
* A C function returning `int` used as a truth value returns an `Int` here
  (0 or 1 wherever the source writes `return 0` / `return 1`).
* A pointer that may be `NULL` is an `Option`; an array is a `List`, and a read
  outside a pixel mask, a cell array or a table yields 0 or "absent".
* Memory that the program reads before it has written it holds no determined
  value: such a byte is `none`, and a computation that depends on one, or that
  dereferences a null or wild pointer or leaves a buffer, ends as `undef`.
* An out-parameter (`map_collision *res`, `sprite_collision *res`) is a value
  passed in and returned, so that fields the function does not write keep
  what the caller had there.
-/

namespace BEWorld

/-! ## defines.h -/

def MAX_MCP_LENGTH : Nat := 384

def COLLISION_OFF : Int := 0
def COLLISION_BOX : Int := 1
def COLLISION_PIXEL : Int := 2

def COLLISION_ATSTART : Int := -1
def COLLISION_NEVER : Int := 0
def COLLISION_INMOTION : Int := 1

def LIST_HEAD : Int := 0

def ERR : Int := -1
def ERR_BAD_INST : Int := -51
def ERR_BAD_VAR : Int := -52
def ERR_BAD_ARG : Int := -53
def ERR_TOO_LONG : Int := -54
def ERR_BAD_LIST : Int := -60
def ERR_BAD_INST_BC : Int := -61
def ERR_BAD_ARG_BC : Int := -62

/-! ## types.h -/

structure point where
  x : Int
  y : Int
  deriving DecidableEq, Repr

/-- The C type `vector` has the same two `int` fields as `point`. -/
abbrev vector := point

structure dimensions where
  w : Int
  h : Int
  deriving DecidableEq, Repr

structure box where
  x1 : Int
  y1 : Int
  x2 : Int
  y2 : Int
  deriving DecidableEq, Repr

/-- A byte of memory: `none` while the program has stored nothing in it, when
what it holds is indeterminate. -/
abbrev cell := Option Nat

/-- The motion-control program of a sprite: `code` is the byte buffer
(`NULL` when none was allocated), `tick` the tick counter. -/
structure mcp where
  code : Option (List cell)
  tick : Int
  deriving DecidableEq, Repr

/-- The fields of `frame` that the collision engine reads: the size and the
pixel mask (`NULL` when the frame has none), stored row by row. -/
structure frame where
  w : Int
  h : Int
  mask : Option (List Nat)
  deriving DecidableEq, Repr

/-- The sprite struct.  `frames` holds, per frame index, the stack of
composited frames; `bound` the per-index bounding boxes; `bc` the cached
bounds box. -/
structure sprite where
  frame_ct : Int
  cur_frame : Int
  collides : Int
  z_hint : Int
  pos : point
  vel : vector
  scale : point
  frames : List (List frame)
  bound : List box
  bc : box
  motion : mcp
  deriving DecidableEq, Repr

structure tile where
  anim_type : Int
  frame_ct : Int
  cur_frame : Int
  collides : Int
  frames : List frame
  deriving DecidableEq, Repr

/-- The map struct.  `tiles` is the tile table (an entry is `none` for a
`NULL` tile pointer), `data` the cell array of `w * h` tile numbers.  The two
libdivide constants are determined by `tw` and `th` (`map_set_tile_size`
generates them from these values) and are not stored separately. -/
structure map where
  tw : Int
  th : Int
  tiles : List (Option tile)
  w : Int
  h : Int
  data : Option (List Int)
  deriving DecidableEq, Repr

structure map_collision where
  mode : Int
  stop : vector
  go : vector
  deriving DecidableEq, Repr

/-- The sprite-to-sprite collision result; `target` is the address of the
sprite that was hit. -/
structure sprite_collision where
  mode : Int
  dir : vector
  stop : vector
  target : Option Nat
  deriving DecidableEq, Repr

/-! ## private.h: helper macros -/

def sign (a : Int) : Int := if a < 0 then -1 else if a > 0 then 1 else 0

/-- The libc `abs` on values away from `INT_MIN`. -/
def iabs (a : Int) : Int := if a < 0 then -a else a

def fp_set (a : Int) : Int := a * 65536

/-- The macro is `(a) >> 16`, an arithmetic shift: the quotient rounded down. -/
def fp_int (a : Int) : Int := a / 65536

/-- The macro is `(a) & 0xffff`: the low 16 bits. -/
def fp_frac (a : Int) : Int := a % 65536

/-- Modelled from the spec: `libdivide.h` is an external header that is not
among the sources; `libdivide_s32_do(n, gen(d))` is the fast form of the C
division `n / d` ("precomputed fast-division constants"), which truncates
toward zero. -/
def libdivide_s32_do (n d : Int) : Int := Int.tdiv n d

/-! ## Memory reads -/

/-- Read the byte at offset `i` of a pixel mask. -/
def rd (mask : List Nat) (i : Int) : Nat :=
  if 0 ≤ i then mask.getD i.toNat 0 else 0

/-- Number of iterations of `while( len-- )` for a 32-bit `int len`: `len`
itself when it is not negative, and otherwise the count after which the
decrement has wrapped around to 0. -/
def loop_count (len : Int) : Nat := (len % 4294967296).toNat

/-- The frame without mask that stands for a frame pointer read outside its
array. -/
def no_frame : frame := { w := 0, h := 0, mask := none }

/-- The expression `s->frames[s->cur_frame].stack[0]`. -/
def sprite_frame0 (s : sprite) : frame :=
  if 0 ≤ s.cur_frame then ((s.frames.getD s.cur_frame.toNat []).head?).getD no_frame
  else no_frame

/-- The expression `s->bound[s->cur_frame]`. -/
def sprite_bound (s : sprite) : box :=
  if 0 ≤ s.cur_frame then s.bound.getD s.cur_frame.toNat ⟨0, 0, 0, 0⟩ else ⟨0, 0, 0, 0⟩

/-- The expression `t->frames[t->cur_frame]`. -/
def tile_frame (t : tile) : frame :=
  if 0 ≤ t.cur_frame then t.frames.getD t.cur_frame.toNat no_frame else no_frame

/-- The expression `map->tiles[ *(map->data + loc.x + loc.y * map->w) ]`. -/
def map_tile_at (m : map) (locx locy : Int) : Option tile :=
  let idx : Int := (m.data.getD []).getD (locx + locy * m.w).toNat 0
  if 0 ≤ idx then (m.tiles.getD idx.toNat none) else none

/-! ## collision.c: pixel-mask primitives -/

def pixel_region_line_go (mask : List Nat) : Nat → Int → Int
  | 0, _ => 0
  | n + 1, buf => if rd mask buf ≠ 0 then 1 else pixel_region_line_go mask n (buf + 1)

def pixel_region_line (len : Int) (mask : List Nat) (buf : Int) : Int :=
  pixel_region_line_go mask (loop_count len) buf

def pixel_region_line_scaled_go (mask : List Nat) (xf : Int) : Nat → Int → Int → Int
  | 0, _, _ => 0
  | n + 1, xi, buf =>
    if rd mask buf ≠ 0 then 1
    else
      let xi1 := xi + xf
      if xi1 ≥ fp_set 1 then
        pixel_region_line_scaled_go mask xf n (fp_frac xi1) (buf + fp_int xi1)
      else pixel_region_line_scaled_go mask xf n xi1 buf

def pixel_region_line_scaled (len xi xf : Int) (mask : List Nat) (buf : Int) : Int :=
  pixel_region_line_scaled_go mask xf (loop_count len) xi buf

/-- The row loop of `pixel_region_test`: `n` rows remain, `ptr` is the offset
of the first pixel of the current row. -/
def pixel_region_rows (mask : List Nat) (w len : Int) : Nat → Int → Int
  | 0, _ => 0
  | n + 1, ptr =>
    if pixel_region_line len mask ptr ≠ 0 then 1
    else pixel_region_rows mask w len n (ptr + w)

def pixel_region_test (fr : frame) (rect : box) : Int :=
  match fr.mask with
  | none => 0
  | some mask =>
    if rect.x1 ≥ fr.w ∨ rect.x2 ≤ 0 ∨ rect.y1 ≥ fr.h ∨ rect.y2 ≤ 0 then 0
    else
      let x1 := if rect.x1 < 0 then 0 else rect.x1
      let y1 := if rect.y1 < 0 then 0 else rect.y1
      let x2 := if rect.x2 > fr.w then fr.w else rect.x2
      let y2 := if rect.y2 > fr.h then fr.h else rect.y2
      pixel_region_rows mask fr.w (x2 - x1) (y2 - y1).toNat (x1 + y1 * fr.w)

/-- The row loop of `pixel_region_test_scaled`. -/
def pixel_region_rows_scaled (mask : List Nat) (w len scanx incx incy : Int) :
    Nat → Int → Int → Int
  | 0, _, _ => 0
  | n + 1, scany, ptr =>
    if pixel_region_line_scaled len scanx incx mask ptr ≠ 0 then 1
    else
      let scany1 := scany + incy
      if scany1 ≥ fp_set 1 then
        pixel_region_rows_scaled mask w len scanx incx incy n (fp_frac scany1)
          (ptr + fp_int scany1 * w)
      else pixel_region_rows_scaled mask w len scanx incx incy n scany1 ptr

def pixel_region_test_scaled (fr : frame) (span : dimensions) (rect : box) : Int :=
  match fr.mask with
  | none => 0
  | some mask =>
    if span.w < 1 ∨ span.h < 1 then 0
    else if rect.x1 ≥ span.w ∨ rect.x2 ≤ 0 ∨ rect.y1 ≥ span.h ∨ rect.y2 ≤ 0 then 0
    else
      let x1 := if rect.x1 < 0 then 0 else rect.x1
      let y1 := if rect.y1 < 0 then 0 else rect.y1
      let x2 := if rect.x2 > span.w then span.w else rect.x2
      let y2 := if rect.y2 > span.h then span.h else rect.y2
      let incx := Int.tdiv (fp_set fr.w) span.w
      let incy := Int.tdiv (fp_set fr.h) span.h
      pixel_region_rows_scaled mask fr.w (x2 - x1) (fp_frac (x1 * incx)) incx incy
        (y2 - y1).toNat (fp_frac (y1 * incy))
        (fp_int (x1 * incx) + fp_int (y1 * incy) * fr.w)

def pixel_intersect_line_go (smask tmask : List Nat) : Nat → Int → Int → Int
  | 0, _, _ => 0
  | n + 1, src, tgt =>
    if rd smask src ≠ 0 ∧ rd tmask tgt ≠ 0 then 1
    else pixel_intersect_line_go smask tmask n (src + 1) (tgt + 1)

def pixel_intersect_line (len : Int) (smask : List Nat) (src : Int) (tmask : List Nat)
    (tgt : Int) : Int :=
  pixel_intersect_line_go smask tmask (loop_count len) src tgt

def pixel_intersect_line_scaled_go (smask tmask : List Nat) (sxf txf : Int) :
    Nat → Int → Int → Int → Int → Int
  | 0, _, _, _, _ => 0
  | n + 1, sxi, src, txi, tgt =>
    if rd smask src ≠ 0 ∧ rd tmask tgt ≠ 0 then 1
    else
      let sxi1 := sxi + sxf
      let src1 := if sxi1 ≥ fp_set 1 then src + fp_int sxi1 else src
      let sxi2 := if sxi1 ≥ fp_set 1 then fp_frac sxi1 else sxi1
      let txi1 := txi + txf
      let tgt1 := if txi1 ≥ fp_set 1 then tgt + fp_int txi1 else tgt
      let txi2 := if txi1 ≥ fp_set 1 then fp_frac txi1 else txi1
      pixel_intersect_line_scaled_go smask tmask sxf txf n sxi2 src1 txi2 tgt1

def pixel_intersect_line_scaled (len sxi sxf : Int) (smask : List Nat) (src : Int)
    (txi txf : Int) (tmask : List Nat) (tgt : Int) : Int :=
  pixel_intersect_line_scaled_go smask tmask sxf txf (loop_count len) sxi src txi tgt

/-- The row loop of `pixel_intersect_test` (`while( ibox.y1 <= ibox.y2 )`). -/
def pixel_intersect_rows (smask tmask : List Nat) (sw tw len : Int) : Nat → Int → Int → Int
  | 0, _, _ => 0
  | n + 1, sptr, tptr =>
    if pixel_intersect_line len smask sptr tmask tptr ≠ 0 then 1
    else pixel_intersect_rows smask tmask sw tw len n (sptr + sw) (tptr + tw)

def pixel_intersect_test (sfr : frame) (sbox : box) (tfr : frame) (tbox : box) : Int :=
  match sfr.mask, tfr.mask with
  | some smask, some tmask =>
    let ix1 := max sbox.x1 tbox.x1
    let iy1 := max sbox.y1 tbox.y1
    let ix2 := min sbox.x2 tbox.x2
    let iy2 := min sbox.y2 tbox.y2
    pixel_intersect_rows smask tmask sfr.w tfr.w (ix2 - ix1 + 1) (iy2 - iy1 + 1).toNat
      (sfr.w * (iy1 - sbox.y1) + (ix1 - sbox.x1))
      (tfr.w * (iy1 - tbox.y1) + (ix1 - tbox.x1))
  | _, _ => 0

/-- The row loop of `pixel_intersect_test_scaled`. -/
def pixel_intersect_rows_scaled (smask tmask : List Nat) (sw tw len : Int)
    (sscanx sincx sincy tscanx tincx tincy : Int) : Nat → Int → Int → Int → Int → Int
  | 0, _, _, _, _ => 0
  | n + 1, sscany, sptr, tscany, tptr =>
    if pixel_intersect_line_scaled len sscanx sincx smask sptr tscanx tincx tmask tptr ≠ 0
    then 1
    else
      let sscany1 := sscany + sincy
      let sptr1 := if sscany1 ≥ fp_set 1 then sptr + fp_int sscany1 * sw else sptr
      let sscany2 := if sscany1 ≥ fp_set 1 then fp_frac sscany1 else sscany1
      let tscany1 := tscany + tincy
      let tptr1 := if tscany1 ≥ fp_set 1 then tptr + fp_int tscany1 * tw else tptr
      let tscany2 := if tscany1 ≥ fp_set 1 then fp_frac tscany1 else tscany1
      pixel_intersect_rows_scaled smask tmask sw tw len sscanx sincx sincy tscanx tincx tincy
        n sscany2 sptr1 tscany2 tptr1

/-- The scaled mask intersection.  The span failsafe of the source is a
`return;` without a value in a function returning `int`: what the caller
receives there is not determined by the program, and is the parameter
`indet` here. -/
def pixel_intersect_test_scaled (indet : Int) (sfr : frame) (sspan : dimensions) (sbox : box)
    (tfr : frame) (tspan : dimensions) (tbox : box) : Int :=
  match sfr.mask, tfr.mask with
  | some smask, some tmask =>
    if sspan.w < 1 ∨ sspan.h < 1 ∨ tspan.w < 1 ∨ tspan.h < 1 then indet
    else
      let ix1 := max sbox.x1 tbox.x1
      let iy1 := max sbox.y1 tbox.y1
      let ix2 := min sbox.x2 tbox.x2
      let iy2 := min sbox.y2 tbox.y2
      let sincx := Int.tdiv (fp_set sfr.w) sspan.w
      let sincy := Int.tdiv (fp_set sfr.h) sspan.h
      let tincx := Int.tdiv (fp_set tfr.w) tspan.w
      let tincy := Int.tdiv (fp_set tfr.h) tspan.h
      pixel_intersect_rows_scaled smask tmask sfr.w tfr.w (ix2 - ix1 + 1)
        (fp_frac ((ix1 - sbox.x1) * sincx)) sincx sincy
        (fp_frac ((ix1 - tbox.x1) * tincx)) tincx tincy
        (iy2 - iy1 + 1).toNat
        (fp_frac ((iy1 - sbox.y1) * sincy))
        (sfr.w * fp_int ((iy1 - sbox.y1) * sincy) + fp_int ((ix1 - sbox.x1) * sincx))
        (fp_frac ((iy1 - tbox.y1) * tincy))
        (tfr.w * fp_int ((iy1 - tbox.y1) * tincy) + fp_int ((ix1 - tbox.x1) * tincx))
  | _, _ => 0

/-! ## collision.c: sprite against map -/

def box_shift_x (b : box) (d : Int) : box := { b with x1 := b.x1 + d, x2 := b.x2 + d }

def box_shift_y (b : box) (d : Int) : box := { b with y1 := b.y1 + d, y2 := b.y2 + d }

/-- The body of the `if( t )` block of `map_sprite_test`: does the tile `t`
make the function return 1?  `clip`, `sbox` and `tbox` are the clipping
rectangle and the sprite and tile boxes as the loops have advanced them. -/
def map_sprite_tile_hit (indet : Int) (s : sprite) (t : tile) (clip sbox tbox : box) : Bool :=
  let f := sprite_frame0 s
  let tf := tile_frame t
  if t.collides = COLLISION_BOX ∧ s.collides = COLLISION_BOX then true
  else if t.collides = COLLISION_PIXEL ∧ s.collides = COLLISION_BOX then
    decide (pixel_region_test tf clip ≠ 0)
  else if t.collides = COLLISION_BOX ∧ s.collides = COLLISION_PIXEL then
    if s.scale.x ≠ fp_set 1 ∨ s.scale.y ≠ fp_set 1 then
      decide (pixel_region_test_scaled f
        ⟨fp_int (f.w * s.scale.x), fp_int (f.h * s.scale.y)⟩ clip ≠ 0)
    else decide (pixel_region_test f clip ≠ 0)
  else if t.collides = COLLISION_PIXEL ∧ s.collides = COLLISION_PIXEL then
    if s.scale.x ≠ fp_set 1 ∨ s.scale.y ≠ fp_set 1 then
      decide (pixel_intersect_test_scaled indet f
        ⟨fp_int (f.w * s.scale.x), fp_int (f.h * s.scale.y)⟩ sbox tf ⟨tf.w, tf.h⟩ tbox ≠ 0)
    else decide (pixel_intersect_test f sbox tf tbox ≠ 0)
  else false

/-- The cell test of `map_sprite_test` at map cell `(locx, locy)`: the cell is
inside the map, holds a tile, and the tile collides with the sprite. -/
def map_sprite_cell_hit (indet : Int) (m : map) (s : sprite) (locx locy : Int)
    (clip sbox tbox : box) : Bool :=
  if locx ≥ 0 ∧ locx < m.w ∧ locy ≥ 0 ∧ locy < m.h then
    match map_tile_at m locx locy with
    | some t => map_sprite_tile_hit indet s t clip sbox tbox
    | none => false
  else false

/-- The inner loop of `map_sprite_test` over `loc.x`, with `n` cells left in
the row: `none` when a cell made the function return 1, otherwise the
clipping rectangle and tile box as the loop leaves them. -/
def map_sprite_row (indet : Int) (m : map) (s : sprite) (adjx : Int) (locy : Int) (sbox : box) :
    Nat → Int → box → box → Option (box × box)
  | 0, _, clip, tbox => some (clip, tbox)
  | n + 1, locx, clip, tbox =>
    if map_sprite_cell_hit indet m s locx locy clip sbox tbox then none
    else map_sprite_row indet m s adjx locy sbox n (locx + 1)
      (box_shift_x clip adjx) (box_shift_x tbox m.tw)

/-- The outer loop of `map_sprite_test` over `loc.y`, with `n` rows left;
`rx1` and `rx2` are `range.x1` and `range.x2`. -/
def map_sprite_rows (indet : Int) (m : map) (s : sprite) (adj : vector) (rx1 rx2 : Int)
    (sbox : box) : Nat → Int → box → box → Int
  | 0, _, _, _ => 0
  | n + 1, locy, clip, tbox =>
    match map_sprite_row indet m s adj.x locy sbox (rx2 - rx1).toNat rx1 clip tbox with
    | none => 1
    | some (clip1, tbox1) =>
      map_sprite_rows indet m s adj rx1 rx2 sbox n (locy + 1)
        (box_shift_y (box_shift_x clip1 (-((rx2 - rx1) * adj.x))) adj.y)
        (box_shift_y (box_shift_x tbox1 (-((rx2 - rx1) * m.tw))) m.th)

/-- The part of `map_sprite_test` after the clipping rectangle is set up. -/
def map_sprite_scan (indet : Int) (m : map) (s : sprite) (xofs yofs : Int) (clip : box)
    (clip_adj : vector) : Int :=
  let r0 : box := ⟨s.bc.x1 + xofs, s.bc.y1 + yofs, s.bc.x2 + xofs, s.bc.y2 + yofs⟩
  let rx1 := if r0.x1 < 0 then libdivide_s32_do r0.x1 m.tw - 1 else libdivide_s32_do r0.x1 m.tw
  let ry1 := if r0.y1 < 0 then libdivide_s32_do r0.y1 m.th - 1 else libdivide_s32_do r0.y1 m.th
  let rx2 := if r0.x2 < 0 then libdivide_s32_do r0.x2 m.tw else libdivide_s32_do r0.x2 m.tw + 1
  let ry2 := if r0.y2 < 0 then libdivide_s32_do r0.y2 m.th else libdivide_s32_do r0.y2 m.th + 1
  let tbox : box := ⟨rx1 * m.tw, ry1 * m.th, rx1 * m.tw + m.tw, ry1 * m.th + m.th⟩
  map_sprite_rows indet m s clip_adj rx1 rx2 s.bc (ry2 - ry1).toNat ry1 clip tbox

/-- Determine if the sprite, moved by `(xofs, yofs)`, intersects with the map. -/
def map_sprite_test (indet : Int) (m : map) (s : sprite) (xofs yofs : Int) : Int :=
  if s.collides = COLLISION_PIXEL then
    let cx1 := Int.tmod (-(s.bc.x1 + xofs)) m.tw
    let cy1 := Int.tmod (-(s.bc.y1 + yofs)) m.th
    map_sprite_scan indet m s xofs yofs ⟨cx1, cy1, cx1 + m.tw, cy1 + m.th⟩ ⟨m.tw, m.th⟩
  else if s.collides = COLLISION_BOX then
    let r0x1 := s.bc.x1 + xofs
    let r0y1 := s.bc.y1 + yofs
    let cx1 := if r0x1 < 0 then m.tw + Int.tmod r0x1 m.tw else Int.tmod r0x1 m.tw
    let cy1 := if r0y1 < 0 then m.th + Int.tmod r0y1 m.th else Int.tmod r0y1 m.th
    let b := sprite_bound s
    map_sprite_scan indet m s xofs yofs ⟨cx1, cy1, cx1 + (b.x2 - b.x1), cy1 + (b.y2 - b.y1)⟩
      ⟨-m.tw, -m.th⟩
  else 0

/-- The state that one iteration of a trace loop of `collision_with_map`
hands to the next: the offset `ofs`, the Bresenham decision variable `p`, the
remaining `slip`, and the result struct. -/
structure cwm_state where
  ofs : point
  p : Int
  slip : Int
  res : map_collision
  deriving DecidableEq, Repr

/-- Outcome of one loop iteration: the function returned, or the loop goes on. -/
inductive cwm_step where
  | ret (res : map_collision)
  | cont (st : cwm_state)
  deriving DecidableEq, Repr

/-- The statement `if( res->mode == COLLISION_NEVER ) res->mode = COLLISION_INMOTION;`. -/
def cwm_mark (res : map_collision) : map_collision :=
  if res.mode = COLLISION_NEVER then { res with mode := COLLISION_INMOTION } else res

/-- The accounting at the end of an iteration of the x-dominant loop. -/
def cwm_account_x (inc mot : point) (res : map_collision) : map_collision :=
  if res.mode = COLLISION_NEVER then
    { res with stop := ⟨res.stop.x + inc.x, res.stop.y + mot.y⟩ }
  else { res with go := ⟨res.go.x + mot.x, res.go.y + mot.y⟩ }

/-- The accounting at the end of an iteration of the y-dominant loop. -/
def cwm_account_y (inc mot : point) (res : map_collision) : map_collision :=
  if res.mode = COLLISION_NEVER then
    { res with stop := ⟨res.stop.x + mot.x, res.stop.y + inc.y⟩ }
  else { res with go := ⟨res.go.x + mot.x, res.go.y + mot.y⟩ }

/-- One iteration of the loop `while( d.x-- )` of `collision_with_map`
(x changes more than y).  `test x y` is `map_sprite_test(m, s, x, y)`. -/
def cwm_xstep (test : Int → Int → Int) (inc : point) (dpr dpru : Int) (st : cwm_state) :
    cwm_step :=
  let ofsx := st.ofs.x + inc.x
  let p1 := if st.p > 0 then st.p + dpru else st.p + dpr
  let moty := if st.p > 0 then inc.y else 0
  let ofsy := if st.p > 0 then st.ofs.y + inc.y else st.ofs.y
  if test ofsx ofsy ≠ 0 then
    let res1 := cwm_mark st.res
    if st.slip ≠ 0 then
      if moty ≠ 0 then
        let flag := -test (ofsx - inc.x) ofsy + test ofsx (ofsy - inc.y)
        if flag < 0 then
          cwm_step.cont ⟨⟨ofsx, ofsy - inc.y⟩, p1, st.slip - 1,
            cwm_account_x inc ⟨inc.x, 0⟩ res1⟩
        else if flag > 0 then
          cwm_step.cont ⟨⟨ofsx - inc.x, ofsy⟩, p1, st.slip - 1,
            cwm_account_x inc ⟨0, moty⟩ res1⟩
        else cwm_step.ret res1
      else
        let flag := -test ofsx (ofsy + 1) + test ofsx (ofsy - 1)
        if flag < 0 then
          cwm_step.cont ⟨⟨ofsx, ofsy - 1⟩, p1, st.slip - 1,
            cwm_account_x inc ⟨inc.x, -1⟩ res1⟩
        else if flag > 0 then
          cwm_step.cont ⟨⟨ofsx, ofsy + 1⟩, p1, st.slip - 1,
            cwm_account_x inc ⟨inc.x, 1⟩ res1⟩
        else
          cwm_step.cont ⟨⟨ofsx - inc.x, ofsy⟩, p1, st.slip - 1,
            cwm_account_x inc ⟨0, 0⟩ res1⟩
    else cwm_step.ret res1
  else
    cwm_step.cont ⟨⟨ofsx, ofsy⟩, p1, st.slip, cwm_account_x inc ⟨inc.x, moty⟩ st.res⟩

/-- One iteration of the loop `while( d.y-- )` of `collision_with_map`
(y changes more than x). -/
def cwm_ystep (test : Int → Int → Int) (inc : point) (dpr dpru : Int) (st : cwm_state) :
    cwm_step :=
  let ofsy := st.ofs.y + inc.y
  let p1 := if st.p > 0 then st.p + dpru else st.p + dpr
  let motx := if st.p > 0 then inc.x else 0
  let ofsx := if st.p > 0 then st.ofs.x + inc.x else st.ofs.x
  if test ofsx ofsy ≠ 0 then
    let res1 := cwm_mark st.res
    if st.slip ≠ 0 then
      if motx ≠ 0 then
        let flag := -test ofsx (ofsy - inc.y) + test (ofsx - inc.x) ofsy
        if flag < 0 then
          cwm_step.cont ⟨⟨ofsx - inc.x, ofsy⟩, p1, st.slip - 1,
            cwm_account_y inc ⟨0, inc.y⟩ res1⟩
        else if flag > 0 then
          cwm_step.cont ⟨⟨ofsx, ofsy - inc.y⟩, p1, st.slip - 1,
            cwm_account_y inc ⟨motx, 0⟩ res1⟩
        else cwm_step.ret res1
      else
        let flag := -test (ofsx - 1) ofsy + test (ofsx + 1) ofsy
        if flag < 0 then
          cwm_step.cont ⟨⟨ofsx + 1, ofsy⟩, p1, st.slip - 1,
            cwm_account_y inc ⟨1, inc.y⟩ res1⟩
        else if flag > 0 then
          cwm_step.cont ⟨⟨ofsx - 1, ofsy⟩, p1, st.slip - 1,
            cwm_account_y inc ⟨-1, inc.y⟩ res1⟩
        else
          cwm_step.cont ⟨⟨ofsx, ofsy - inc.y⟩, p1, st.slip - 1,
            cwm_account_y inc ⟨0, 0⟩ res1⟩
    else cwm_step.ret res1
  else
    cwm_step.cont ⟨⟨ofsx, ofsy⟩, p1, st.slip, cwm_account_y inc ⟨motx, inc.y⟩ st.res⟩

/-- The loop `while( d.x-- )` with `n` iterations left. -/
def cwm_xloop (test : Int → Int → Int) (inc : point) (dpr dpru : Int) :
    Nat → cwm_state → map_collision
  | 0, st => st.res
  | n + 1, st =>
    match cwm_xstep test inc dpr dpru st with
    | cwm_step.ret res => res
    | cwm_step.cont st1 => cwm_xloop test inc dpr dpru n st1

/-- The loop `while( d.y-- )` with `n` iterations left. -/
def cwm_yloop (test : Int → Int → Int) (inc : point) (dpr dpru : Int) :
    Nat → cwm_state → map_collision
  | 0, st => st.res
  | n + 1, st =>
    match cwm_ystep test inc dpr dpru st with
    | cwm_step.ret res => res
    | cwm_step.cont st1 => cwm_yloop test inc dpr dpru n st1

/-- The motion trace of `collision_with_map`, entered when the sprite does not
collide at offset (0,0); `res` is the preloaded result. -/
def cwm_trace (test : Int → Int → Int) (vel : vector) (slip : Int) (res : map_collision) :
    map_collision :=
  let dx := iabs vel.x
  let dy := iabs vel.y
  let inc : point := ⟨sign vel.x, sign vel.y⟩
  if dx ≥ dy then
    cwm_xloop test inc (dy * 2) (dy * 2 - dx * 2) dx.toNat ⟨⟨0, 0⟩, dy * 2 - dx, slip, res⟩
  else
    cwm_yloop test inc (dx * 2) (dx * 2 - dy * 2) dy.toNat ⟨⟨0, 0⟩, dx * 2 - dy, slip, res⟩

/-- Check the sprite for collision against the map; the result struct `res`
comes in with what the caller had in it and is returned as the function
leaves it. -/
def collision_with_map (indet : Int) (s : Option sprite) (m : Option map) (slip : Int)
    (res : map_collision) : map_collision :=
  match s, m with
  | some s, some m =>
    if m.data.isNone then { res with mode := ERR }
    else
      let res0 : map_collision := ⟨COLLISION_NEVER, ⟨0, 0⟩, ⟨0, 0⟩⟩
      if s.collides = COLLISION_OFF ∨ s.frame_ct = 0 ∨ s.cur_frame < 0 then
        { res0 with stop := ⟨s.vel.x, s.vel.y⟩ }
      else if map_sprite_test indet m s 0 0 ≠ 0 then
        { res0 with mode := COLLISION_ATSTART }
      else cwm_trace (map_sprite_test indet m s) s.vel slip res0
  | _, _ => { res with mode := ERR }

/-! ## sprite.c: the bounds cache -/

/-- Update the sprite's bounding region cache, based on collision mode. -/
def update_bound_cache (s : sprite) : sprite :=
  if s.frame_ct = 0 ∨ s.cur_frame = -1 ∨ s.collides = COLLISION_OFF then
    { s with bc := ⟨0, 0, 0, 0⟩ }
  else
    let b := sprite_bound s
    let x1 := if s.scale.x = fp_set 1 then s.pos.x + b.x1 else s.pos.x + fp_int (b.x1 * s.scale.x)
    let x2 := if s.scale.x = fp_set 1 then s.pos.x + b.x2 - 1
      else s.pos.x + fp_int (b.x2 * s.scale.x) - 1
    let y1 := if s.scale.y = fp_set 1 then s.pos.y + b.y1 else s.pos.y + fp_int (b.y1 * s.scale.y)
    let y2 := if s.scale.y = fp_set 1 then s.pos.y + b.y2 - 1
      else s.pos.y + fp_int (b.y2 * s.scale.y) - 1
    { s with bc := ⟨x1, y1, x2, y2⟩ }

/-! ## The traced line -/

/-- Decision variable of the Bresenham trace after `k` steps. -/
def bres_p (dpr dpru p0 : Int) : Nat → Int
  | 0 => p0
  | k + 1 => if bres_p dpr dpru p0 k > 0 then bres_p dpr dpru p0 k + dpru
             else bres_p dpr dpru p0 k + dpr

/-- Number of steps among the first `k` that also moved on the minor axis. -/
def bres_c (dpr dpru p0 : Int) : Nat → Int
  | 0 => 0
  | k + 1 => if bres_p dpr dpru p0 k > 0 then bres_c dpr dpru p0 k + 1
             else bres_c dpr dpru p0 k

def trace_pt_x (inc : point) (dpr dpru p0 : Int) (k : Nat) : point :=
  ⟨k * inc.x, bres_c dpr dpru p0 k * inc.y⟩

def trace_pt_y (inc : point) (dpr dpru p0 : Int) (k : Nat) : point :=
  ⟨bres_c dpr dpru p0 k * inc.x, k * inc.y⟩

/-- Frozen: what a step yields for mode and stop -/
def step_mode_stop (r : cwm_step) : Int × vector :=
  match r with
  | cwm_step.ret res => (res.mode, res.stop)
  | cwm_step.cont st => (st.res.mode, st.res.stop)

/-- The x-dominant loop is in its first phase at step `k` of the line. -/
def cwm_at_x (inc : point) (dpr dpru p0 : Int) (k : Nat) (st : cwm_state) : Prop :=
  st.res.mode = COLLISION_NEVER ∧ st.ofs = trace_pt_x inc dpr dpru p0 k
    ∧ st.p = bres_p dpr dpru p0 k ∧ st.res.stop = st.ofs

/-- Value of the overlap test at the `j`-th point of the x-dominant line. -/
def trace_hit_x (test : Int → Int → Int) (inc : point) (dpr dpru p0 : Int) (j : Nat) : Int :=
  test (trace_pt_x inc dpr dpru p0 j).x (trace_pt_x inc dpr dpru p0 j).y

/-- The y-dominant loop is in its first phase at step `k` of the line. -/
def cwm_at_y (inc : point) (dpr dpru p0 : Int) (k : Nat) (st : cwm_state) : Prop :=
  st.res.mode = COLLISION_NEVER ∧ st.ofs = trace_pt_y inc dpr dpru p0 k
    ∧ st.p = bres_p dpr dpru p0 k ∧ st.res.stop = st.ofs

/-- Value of the overlap test at the `j`-th point of the y-dominant line. -/
def trace_hit_y (test : Int → Int → Int) (inc : point) (dpr dpru p0 : Int) (j : Nat) : Int :=
  test (trace_pt_y inc dpr dpru p0 j).x (trace_pt_y inc dpr dpru p0 j).y

/-- Number of steps of the motion trace for the velocity `vel`: the extent
of the dominant axis. -/
def trace_len (vel : vector) : Nat :=
  if iabs vel.x ≥ iabs vel.y then (iabs vel.x).toNat else (iabs vel.y).toNat

/-- The `k`-th point of the Bresenham line from (0,0) to `vel`, as the trace
loops step along it (`k = 0` is the origin). -/
def trace_point (vel : vector) (k : Nat) : point :=
  if iabs vel.x ≥ iabs vel.y then
    trace_pt_x ⟨sign vel.x, sign vel.y⟩ (iabs vel.y * 2) (iabs vel.y * 2 - iabs vel.x * 2)
      (iabs vel.y * 2 - iabs vel.x) k
  else
    trace_pt_y ⟨sign vel.x, sign vel.y⟩ (iabs vel.x * 2) (iabs vel.x * 2 - iabs vel.y * 2)
      (iabs vel.x * 2 - iabs vel.y) k

/-! ## Example scenes -/

/-- A Box-collision tile with one 16x16 frame. -/
def ex_box_tile : tile :=
  { anim_type := 0, frame_ct := 1, cur_frame := 0, collides := COLLISION_BOX,
    frames := [⟨16, 16, none⟩] }

/-- A map of 4x1 cells with 16x16 tiles whose only tile is a Box tile at cell (2,0). -/
def ex_map : map :=
  { tw := 16, th := 16, tiles := [none, some ex_box_tile], w := 4, h := 1,
    data := some [0, 0, 1, 0] }

/-- A Box-collision sprite with a 16x16 bounding box at position `pos`, moving
with velocity `vel`, its bounds cache up to date. -/
def ex_sprite (pos : point) (vel : vector) : sprite :=
  update_bound_cache
    { frame_ct := 1, cur_frame := 0, collides := COLLISION_BOX, z_hint := 0, pos := pos,
      vel := vel, scale := ⟨65536, 65536⟩, frames := [[⟨16, 16, none⟩]],
      bound := [⟨0, 0, 16, 16⟩], bc := ⟨0, 0, 0, 0⟩, motion := ⟨none, 0⟩ }

/-- The state that a contact step hands to the next iteration when it slips to
the offset `q`: the budget is one less, the collision is marked in the mode,
`stop` is untouched, and the displacement from the old offset to `q` is added
to `go`.  Used to state what the slip code does. -/
def cwm_slip_to (st : cwm_state) (p1 : Int) (q : point) : cwm_state :=
  ⟨q, p1, st.slip - 1,
    ⟨(cwm_mark st.res).mode, st.res.stop,
      ⟨st.res.go.x + (q.x - st.ofs.x), st.res.go.y + (q.y - st.ofs.y)⟩⟩⟩

/-- A map of 2x2 cells with 16x16 tiles whose right column is a wall of Box tiles. -/
def ex_wall_map : map :=
  { tw := 16, th := 16, tiles := [none, some ex_box_tile], w := 2, h := 2,
    data := some [0, 1, 0, 1] }

/-- A Box-collision tile with one frame of a single pixel. -/
def ex_dot_tile : tile :=
  { anim_type := 0, frame_ct := 1, cur_frame := 0, collides := COLLISION_BOX,
    frames := [⟨1, 1, none⟩] }

/-- A map of 3x3 cells with 1x1 tiles whose only tile is a Box tile at cell (2,1). -/
def ex_dot_map : map :=
  { tw := 1, th := 1, tiles := [none, some ex_dot_tile], w := 3, h := 3,
    data := some [0, 0, 0, 0, 0, 1, 0, 0, 0] }

/-- A Box-collision sprite of one pixel at position (1,1) with velocity `vel`. -/
def ex_dot_sprite (vel : vector) : sprite :=
  update_bound_cache
    { frame_ct := 1, cur_frame := 0, collides := COLLISION_BOX, z_hint := 0, pos := ⟨1, 1⟩,
      vel := vel, scale := ⟨65536, 65536⟩, frames := [[⟨1, 1, none⟩]],
      bound := [⟨0, 0, 1, 1⟩], bc := ⟨0, 0, 0, 0⟩, motion := ⟨none, 0⟩ }

/-! ## collision.c: sprite against sprite -/

/-- Is either scale factor of the sprite different from 1.0? -/
def sprite_scaled (s : sprite) : Bool :=
  decide (s.scale.x ≠ fp_set 1 ∨ s.scale.y ≠ fp_set 1)

/-- The scaled span of a sprite frame: `fp_int(f->w * s->scale.x)` by
`fp_int(f->h * s->scale.y)`. -/
def sprite_span (s : sprite) (f : frame) : dimensions :=
  ⟨fp_int (f.w * s.scale.x), fp_int (f.h * s.scale.y)⟩

/-- Sprite with offset overlaps target? -/
def sprite_sprite_test (indet : Int) (s : sprite) (xofs yofs : Int) (tgt : sprite) : Int :=
  let sbox : box := ⟨s.bc.x1 + xofs, s.bc.y1 + yofs, s.bc.x2 + xofs, s.bc.y2 + yofs⟩
  if sbox.x2 < tgt.bc.x1 ∨ sbox.x1 > tgt.bc.x2 ∨ sbox.y2 < tgt.bc.y1 ∨ sbox.y1 > tgt.bc.y2 then 0
  else
    let tbox := tgt.bc
    let sfr := sprite_frame0 s
    let tfr := sprite_frame0 tgt
    if s.collides = COLLISION_BOX ∧ tgt.collides = COLLISION_BOX then 1
    else if s.collides = COLLISION_PIXEL ∧ tgt.collides = COLLISION_BOX then
      let tb : box := ⟨tbox.x1 - (sbox.x1 + xofs), tbox.y1 - (sbox.y1 + yofs),
        tbox.x2 - (sbox.x1 + xofs), tbox.y2 - (sbox.y1 + yofs)⟩
      if sprite_scaled s then pixel_region_test_scaled sfr (sprite_span s sfr) tb
      else pixel_region_test sfr tb
    else if s.collides = COLLISION_BOX ∧ tgt.collides = COLLISION_PIXEL then
      let sb : box := ⟨sbox.x1 - (tbox.x1 - xofs), sbox.y1 - (tbox.y1 - yofs),
        sbox.x2 - (tbox.x1 - xofs), sbox.y2 - (tbox.y1 - yofs)⟩
      if sprite_scaled tgt then pixel_region_test_scaled tfr (sprite_span tgt tfr) sb
      else pixel_region_test tfr sb
    else
      if sprite_scaled s || sprite_scaled tgt then
        pixel_intersect_test_scaled indet sfr (sprite_span s sfr) sbox tfr (sprite_span tgt tfr)
          tbox
      else pixel_intersect_test sfr sbox tfr tbox

/-- Expand the sprite + motion out into a box and check for overlap with the
target's box. -/
def sprite_sweep_test (spr tgt : sprite) : Int :=
  let sx1 := if spr.vel.x < 0 then spr.bc.x1 + spr.vel.x else spr.bc.x1
  let sx2 := if spr.vel.x < 0 then spr.bc.x2 else if spr.vel.x > 0 then spr.bc.x2 + spr.vel.x
    else spr.bc.x2
  let sy1 := if spr.vel.y < 0 then spr.bc.y1 + spr.vel.y else spr.bc.y1
  let sy2 := if spr.vel.y < 0 then spr.bc.y2 else if spr.vel.y > 0 then spr.bc.y2 + spr.vel.y
    else spr.bc.y2
  if sx2 < tgt.bc.x1 ∨ sx1 > tgt.bc.x2 ∨ sy2 < tgt.bc.y1 ∨ sy1 > tgt.bc.y2 then 0 else 1

/-- The state that one iteration of a trace loop of
`sprite_collision_with_result` hands to the next. -/
structure scr_state where
  ofs : point
  p : Int
  res : sprite_collision
  deriving DecidableEq, Repr

/-- Outcome of one loop iteration: the function returned, or the loop goes on. -/
inductive scr_step where
  | ret (res : sprite_collision)
  | cont (st : scr_state)
  deriving DecidableEq, Repr

/-- One iteration of the loop `while( d.x-- )` of `sprite_collision_with_result`.
`test x y` is `sprite_sprite_test(spr, x, y, tgt)`. -/
def scr_xstep (test : Int → Int → Int) (dpr dpru : Int) (st : scr_state) : scr_step :=
  let dir := st.res.dir
  let ofsx := st.ofs.x + dir.x
  let p1 := if st.p > 0 then st.p + dpru else st.p + dpr
  let mot := if st.p > 0 then dir.y else 0
  let ofsy := if st.p > 0 then st.ofs.y + dir.y else st.ofs.y
  if test ofsx ofsy ≠ 0 then
    let res1 := { st.res with mode := COLLISION_INMOTION }
    if mot ≠ 0 then
      let flag := -test (ofsx - dir.x) ofsy + test ofsx (ofsy - dir.y)
      if flag < 0 then scr_step.ret { res1 with dir := ⟨0, dir.y⟩ }
      else if flag > 0 then scr_step.ret { res1 with dir := ⟨dir.x, 0⟩ }
      else scr_step.ret res1
    else scr_step.ret { res1 with dir := ⟨dir.x, 0⟩ }
  else
    scr_step.cont ⟨⟨ofsx, ofsy⟩, p1,
      { st.res with stop := ⟨st.res.stop.x + dir.x, st.res.stop.y + mot⟩ }⟩

/-- One iteration of the loop `while( d.y-- )` of `sprite_collision_with_result`. -/
def scr_ystep (test : Int → Int → Int) (dpr dpru : Int) (st : scr_state) : scr_step :=
  let dir := st.res.dir
  let ofsy := st.ofs.y + dir.y
  let p1 := if st.p > 0 then st.p + dpru else st.p + dpr
  let mot := if st.p > 0 then dir.x else 0
  let ofsx := if st.p > 0 then st.ofs.x + dir.x else st.ofs.x
  if test ofsx ofsy ≠ 0 then
    let res1 := { st.res with mode := COLLISION_INMOTION }
    if mot ≠ 0 then
      let flag := -test ofsx (ofsy - dir.y) + test (ofsx - dir.x) ofsy
      if flag < 0 then scr_step.ret { res1 with dir := ⟨dir.x, 0⟩ }
      else if flag > 0 then scr_step.ret { res1 with dir := ⟨0, dir.y⟩ }
      else scr_step.ret res1
    else scr_step.ret { res1 with dir := ⟨0, dir.y⟩ }
  else
    scr_step.cont ⟨⟨ofsx, ofsy⟩, p1,
      { st.res with stop := ⟨st.res.stop.x + mot, st.res.stop.y + dir.y⟩ }⟩

/-- The loop `while( d.x-- )` of `sprite_collision_with_result`, `n` iterations left. -/
def scr_xloop (test : Int → Int → Int) (dpr dpru : Int) : Nat → scr_state → sprite_collision
  | 0, st => st.res
  | n + 1, st =>
    match scr_xstep test dpr dpru st with
    | scr_step.ret res => res
    | scr_step.cont st1 => scr_xloop test dpr dpru n st1

/-- The loop `while( d.y-- )` of `sprite_collision_with_result`, `n` iterations left. -/
def scr_yloop (test : Int → Int → Int) (dpr dpru : Int) : Nat → scr_state → sprite_collision
  | 0, st => st.res
  | n + 1, st =>
    match scr_ystep test dpr dpru st with
    | scr_step.ret res => res
    | scr_step.cont st1 => scr_yloop test dpr dpru n st1

/-- The motion trace of `sprite_collision_with_result` along the relative
velocity `rel`, entered when the sprites do not overlap at offset (0,0). -/
def scr_trace (test : Int → Int → Int) (rel : vector) (res : sprite_collision) :
    sprite_collision :=
  let dx := iabs rel.x
  let dy := iabs rel.y
  let res1 := { res with dir := ⟨sign rel.x, sign rel.y⟩ }
  if dx ≥ dy then
    scr_xloop test (dy * 2) (dy * 2 - dx * 2) dx.toNat ⟨⟨0, 0⟩, dy * 2 - dx, res1⟩
  else
    scr_yloop test (dx * 2) (dx * 2 - dy * 2) dy.toNat ⟨⟨0, 0⟩, dx * 2 - dy, res1⟩

/-- Check to see if two sprites collide; `res` comes in with what the caller
had in it. -/
def sprite_collision_with_result (indet : Int) (spr tgt : sprite) (res : sprite_collision) :
    sprite_collision :=
  if tgt.collides = COLLISION_OFF ∨ tgt.frame_ct = 0 ∨ tgt.cur_frame < 0 then
    { res with mode := COLLISION_NEVER }
  else
    let res0 : sprite_collision := { res with mode := COLLISION_NEVER, stop := ⟨0, 0⟩,
                                               dir := ⟨0, 0⟩ }
    if sprite_sweep_test spr tgt = 0 then res0
    else if sprite_sprite_test indet spr 0 0 tgt ≠ 0 then
      { res0 with mode := COLLISION_ATSTART }
    else
      scr_trace (fun x y => sprite_sprite_test indet spr x y tgt)
        ⟨spr.vel.x - tgt.vel.x, spr.vel.y - tgt.vel.y⟩ res0

/-- The broad-phase test as the specification words it: A's cached bounds box
extended by A's velocity on the side of its direction of travel overlaps B's
cached bounds box extended likewise by B's velocity. -/
def sweep_extend (b : box) (v : vector) : box :=
  ⟨if v.x < 0 then b.x1 + v.x else b.x1, if v.y < 0 then b.y1 + v.y else b.y1,
   if v.x > 0 then b.x2 + v.x else b.x2, if v.y > 0 then b.y2 + v.y else b.y2⟩

/-- Two boxes with inclusive corners overlap. -/
def box_overlap (a b : box) : Bool :=
  decide (¬ (a.x2 < b.x1 ∨ a.x1 > b.x2 ∨ a.y2 < b.y1 ∨ a.y1 > b.y2))

/-- The sweep test of the specification: both boxes extended by their own velocity. -/
def sweep_test_spec (a b : sprite) : Bool :=
  box_overlap (sweep_extend a.bc a.vel) (sweep_extend b.bc b.vel)

/-- The state of the x-dominant sprite trace after `k` steps without contact. -/
def scr_state_x (dpr dpru p0 : Int) (res : sprite_collision) (k : Nat) : scr_state :=
  ⟨trace_pt_x res.dir dpr dpru p0 k, bres_p dpr dpru p0 k,
    { res with stop := trace_pt_x res.dir dpr dpru p0 k }⟩

/-- The state of the y-dominant sprite trace after `k` steps without contact. -/
def scr_state_y (dpr dpru p0 : Int) (res : sprite_collision) (k : Nat) : scr_state :=
  ⟨trace_pt_y res.dir dpr dpru p0 k, bres_p dpr dpru p0 k,
    { res with stop := trace_pt_y res.dir dpr dpru p0 k }⟩

/-! ## motion.h -/

/-- The macro `mkbc(a, x)`: `((a)<<2) | x`. -/
def mkbc (a x : Nat) : Nat := (a <<< 2) ||| x

def BC_EOC : Nat := 0
def BC_SET : Nat := mkbc 1 2
def BC_ADD : Nat := mkbc 2 2
def BC_STC : Nat := mkbc 3 2
def BC_TRK : Nat := mkbc 4 2
def BC_AVG : Nat := mkbc 5 2
def BC_BEQ : Nat := mkbc 10 2
def BC_BNE : Nat := mkbc 11 2
def BC_BLT : Nat := mkbc 12 2
def BC_BGT : Nat := mkbc 13 2
def BC_BMP : Nat := mkbc 14 1
def BC_BNM : Nat := mkbc 15 1
def BC_BST : Nat := mkbc 16 1
def BC_BCS : Nat := mkbc 17 1
def BC_BNC : Nat := mkbc 18 1
def BC_COPY : Nat := mkbc 20 1
def BC_LADD : Nat := mkbc 21 1
def BC_LREM : Nat := mkbc 22 1
def BC_DEL : Nat := mkbc 23 0
def BC_SND : Nat := mkbc 30 1
def BC_LOADP : Nat := mkbc 40 1
def BC_XCHGP : Nat := mkbc 41 1

def TYPES_IMM : Nat := 1
def TYPES_PTR : Nat := 2
def TYPES_VAR : Nat := 3
def TYPES_ALL : Nat := 4

def ARG_IMM : Int := 1
def ARG_VAR : Int := 2
def ARG_PTR : Int := 3
def ARG_XPOS : Int := 10
def ARG_YPOS : Int := 11
def ARG_XVEL : Int := 12
def ARG_YVEL : Int := 13
def ARG_FRAME : Int := 14
def ARG_TICK : Int := 15

def MIX_MAX_VOLUME : Int := 128

/-! ## Bytes, C strings and the libc calls of motion.c

An `int` is stored in 4 bytes and a pointer in 8, least significant byte first
(the x86-64 layout the engine is built for). -/

/-- A C string: its bytes before the terminating NUL. -/
abbrev cstr := List Nat

/-- The bytes of a string literal. -/
def cs (s : String) : cstr := s.toList.map Char.toNat

/-- The value of a 32-bit pattern as a signed `int`. -/
def to_int32 (n : Int) : Int := (n + 2147483648) % 4294967296 - 2147483648

/-- The `k` low bytes of `n`, least significant first. -/
def le_bytes : Nat → Nat → List Nat
  | 0, _ => []
  | k + 1, n => n % 256 :: le_bytes k (n / 256)

/-- The number whose bytes, least significant first, are `bs`. -/
def le_value : List Nat → Nat
  | [] => 0
  | b :: bs => b % 256 + 256 * le_value bs

/-- The 32-bit word stored in the 4 bytes at `pc`: `none` when they do not all
lie inside the buffer or one of them is indeterminate. -/
def read_word (buf : List cell) (pc : Nat) : Option Nat :=
  match (buf.drop pc).take 4 with
  | [some a, some b, some c, some d] => some (le_value [a, b, c, d])
  | _ => none

/-- The value `*((int *)&buf[pc])`. -/
def read_int (buf : List cell) (pc : Nat) : Option Int :=
  (read_word buf pc).map (fun n => to_int32 n)

/-- Storage of the union `{ int val; void *ptr; }` of `struct arg`: its 8 bytes
as two 32-bit words, each `none` while indeterminate.  `val` occupies the low
word, `ptr` both. -/
structure ustore where
  lo : Option Nat
  hi : Option Nat
  deriving DecidableEq, Repr

/-- The member `val` of the union. -/
def store_val (u : ustore) : Option Int := u.lo.map (fun n => to_int32 (n % 4294967296))

/-- The member `ptr` of the union. -/
def store_ptr (u : ustore) : Option Nat :=
  match u.lo, u.hi with
  | some l, some h => some (l % 4294967296 + 4294967296 * (h % 4294967296))
  | _, _ => none

/-- Storage of the union after `val` was assigned: the low word changes. -/
def store_set_val (u : ustore) (v : Int) : ustore := ⟨some (v % 4294967296).toNat, u.hi⟩

/-- Storage of the union after `ptr` was assigned. -/
def store_set_ptr (p : Nat) : ustore :=
  ⟨some (p % 4294967296), some (p / 4294967296 % 4294967296)⟩

/-- The 4 bytes of a 32-bit word. -/
def word_bytes (w : Option Nat) : List cell :=
  match w with
  | some n => (le_bytes 4 n).map some
  | none => [none, none, none, none]

/-- The 4 bytes of the member `val`. -/
def store_val_bytes (u : ustore) : List cell := word_bytes u.lo

/-- The 8 bytes of the member `ptr`. -/
def store_ptr_bytes (u : ustore) : List cell := word_bytes u.lo ++ word_bytes u.hi

def c_tolower (c : Nat) : Nat := if 65 ≤ c ∧ c ≤ 90 then c + 32 else c

/-- The libc call `strcasecmp(a, b) == 0`. -/
def strcasecmp_eq (a b : cstr) : Bool := a.map c_tolower == b.map c_tolower

def c_isspace (c : Nat) : Bool := c == 32 || (9 ≤ c && c ≤ 13)

def c_isdigit (c : Nat) : Bool := 48 ≤ c && c ≤ 57

def atoi_digits : List Nat → Nat → Nat
  | [], acc => acc
  | c :: r, acc => if c_isdigit c then atoi_digits r (acc * 10 + (c - 48)) else acc

/-- The libc call `atoi`, which is `(int) strtol(s, NULL, 10)`: optional white
space, an optional sign, decimal digits; 0 when there is no digit.  `strtol`
returns a 64-bit `long` and stops at `LONG_MIN` and `LONG_MAX` for a value
beyond them; the conversion to `int` keeps the low 32 bits. -/
def atoi (s : cstr) : Int :=
  match s.dropWhile c_isspace with
  | 45 :: r => to_int32 (max (-(atoi_digits r 0 : Int)) (-9223372036854775808))
  | 43 :: r => to_int32 (min (atoi_digits r 0 : Int) 9223372036854775807)
  | t => to_int32 (min (atoi_digits t 0 : Int) 9223372036854775807)

def hex_digit (c : Nat) : Option Nat :=
  if 48 ≤ c ∧ c ≤ 57 then some (c - 48)
  else if 97 ≤ c ∧ c ≤ 102 then some (c - 87)
  else if 65 ≤ c ∧ c ≤ 70 then some (c - 55)
  else none

def scan_hex : List Nat → Option Nat → Option Nat
  | [], acc => acc
  | c :: r, acc =>
    match hex_digit c with
    | some d => scan_hex r (some (acc.getD 0 * 16 + d))
    | none => acc

/-- The digits of a pointer operand behind its sign: an optional `0x` or `0X`
and hexadecimal digits, converted as `strtoul` with base 16 does: a value
beyond `ULONG_MAX` gives `ULONG_MAX`, and a value in range that follows a
minus sign is negated as an unsigned 64-bit number.  `none` when there is no
digit. -/
def scan_ptr_digits (neg : Bool) (t : List Nat) : Option Nat :=
  let digits : Option Nat :=
    match t with
    | 48 :: 120 :: r => (scan_hex r none).orElse (fun _ => some 0)
    | 48 :: 88 :: r => (scan_hex r none).orElse (fun _ => some 0)
    | t => scan_hex t none
  digits.map (fun n =>
    if n ≥ 18446744073709551616 then 18446744073709551615
    else if neg then (18446744073709551616 - n) % 18446744073709551616
    else n)

/-- Modelled from the spec: the libc call `sscanf(s, "%p", &ptr)` that reads a
pointer operand ("parsed as a raw address/handle, opaque to the assembler"),
as the C library of the engine's platform converts it: optional white space,
then either `(nil)` in any letter case, which gives the null pointer, or an
optional sign, an optional `0x` and hexadecimal digits.  `none` when nothing
was converted, in which case the call leaves `ptr` as it was. -/
def scan_ptr (s : cstr) : Option Nat :=
  match s.dropWhile c_isspace with
  | 45 :: r => scan_ptr_digits true r
  | 43 :: r => scan_ptr_digits false r
  | 40 :: a :: b :: c :: 41 :: _ =>
    if c_tolower a = 110 ∧ c_tolower b = 105 ∧ c_tolower c = 108 then some 0 else none
  | t => scan_ptr_digits false t

def strtok_go (delim : List Nat) : List Nat → List Nat → List cstr
  | [], cur => if cur.isEmpty then [] else [cur.reverse]
  | c :: r, cur =>
    if delim.contains c then
      (if cur.isEmpty then strtok_go delim r [] else cur.reverse :: strtok_go delim r [])
    else strtok_go delim r (c :: cur)

/-- The tokens that successive `strtok` calls with the delimiter set `delim`
return for the string `s`: the maximal runs of bytes that are not delimiters. -/
def strtok_all (delim : List Nat) (s : cstr) : List cstr := strtok_go delim s []

/-- Outcome of a call: it returns a value, or it runs into behaviour the C
language leaves undefined (a null or wild pointer is dereferenced, a buffer is
written or read past its end). -/
inductive outcome (α : Type) where
  | ret (a : α)
  | undef
  deriving Repr

/-! ## motion.c: the assembler -/

/-- An entry of the instruction table `insts` of `parse_mcp`: mnemonic,
bytecode, argument count and the two argument types. -/
structure inst where
  str : cstr
  bc : Nat
  argc : Nat
  args0 : Nat
  args1 : Nat

def insts : List inst :=
  [ ⟨cs "set", BC_SET, 2, TYPES_VAR, TYPES_ALL⟩,
    ⟨cs "add", BC_ADD, 2, TYPES_VAR, TYPES_ALL⟩,
    ⟨cs "stc", BC_STC, 2, TYPES_VAR, TYPES_ALL⟩,
    ⟨cs "trk", BC_TRK, 2, TYPES_VAR, TYPES_PTR⟩,
    ⟨cs "avg", BC_AVG, 2, TYPES_VAR, TYPES_PTR⟩,
    ⟨cs "beq", BC_BEQ, 2, TYPES_VAR, TYPES_ALL⟩,
    ⟨cs "bne", BC_BNE, 2, TYPES_VAR, TYPES_ALL⟩,
    ⟨cs "blt", BC_BLT, 2, TYPES_VAR, TYPES_ALL⟩,
    ⟨cs "bgt", BC_BGT, 2, TYPES_VAR, TYPES_ALL⟩,
    ⟨cs "bmp", BC_BMP, 1, TYPES_PTR, 0⟩,
    ⟨cs "bnm", BC_BNM, 1, TYPES_PTR, 0⟩,
    ⟨cs "bcs", BC_BCS, 1, TYPES_PTR, 0⟩,
    ⟨cs "bnc", BC_BNC, 1, TYPES_PTR, 0⟩,
    ⟨cs "bst", BC_BST, 1, TYPES_ALL, 0⟩,
    ⟨cs "copy", BC_COPY, 1, TYPES_PTR, 0⟩,
    ⟨cs "ladd", BC_LADD, 1, TYPES_PTR, 0⟩,
    ⟨cs "lrem", BC_LREM, 1, TYPES_PTR, 0⟩,
    ⟨cs "del", BC_DEL, 0, 0, 0⟩,
    ⟨cs "loadp", BC_LOADP, 1, TYPES_PTR, 0⟩,
    ⟨cs "xchgp", BC_XCHGP, 1, TYPES_PTR, 0⟩,
    ⟨cs "sound", BC_SND, 1, TYPES_PTR, 0⟩,
    ⟨cs "eoc", BC_EOC, 0, 0, 0⟩ ]

/-- The argument table `args` of `parse_mcp`: variable names and their codes. -/
def arg_names : List (cstr × Int) :=
  [ (cs "xpos", ARG_XPOS), (cs "ypos", ARG_YPOS), (cs "xvel", ARG_XVEL),
    (cs "yvel", ARG_YVEL), (cs "frame", ARG_FRAME), (cs "tick", ARG_TICK) ]

/-- The instruction lookup loop: the last table entry whose mnemonic matches. -/
def find_inst (s : cstr) : Option inst :=
  insts.foldl (fun acc i => if strcasecmp_eq s i.str then some i else acc) none

/-- The variable lookup loop: the code of the last table entry that matches. -/
def find_arg (s : cstr) : Option Int :=
  arg_names.foldl (fun acc a => if strcasecmp_eq s a.1 then some a.2 else acc) none

/-- The assembler's working state: the write index `ct`, the scratch buffer
`buf` (255 bytes in the source) and the type and union storage of the two
parsed arguments `p_arg`. -/
structure asm_state where
  ct : Nat
  buf : List cell
  type0 : Int
  store0 : ustore
  type1 : Int
  store1 : ustore

/-- What parsing one thing yields: a new state, a jump to `parse_quit` with
an error code, or undefined behaviour. -/
inductive asm_step where
  | ok (st : asm_state)
  | fail (code : Int)
  | undef

/-- Size of the scratch buffer `buf` of `parse_mcp`. -/
def ASM_BUF_SIZE : Nat := 255

/-- The assignment `buf[ct++] = b`. -/
def asm_put (st : asm_state) (b : cell) : asm_step :=
  if st.ct < ASM_BUF_SIZE then
    asm_step.ok { st with ct := st.ct + 1, buf := st.buf.set st.ct b }
  else asm_step.undef

/-- Store the bytes `bs` at `ct` and advance `ct` past them. -/
def asm_put_bytes : List cell → asm_state → asm_step
  | [], st => asm_step.ok st
  | b :: bs, st =>
    match asm_put st b with
    | asm_step.ok st1 => asm_put_bytes bs st1
    | r => r

/-- Parse argument `i` (0 or 1) of an instruction whose table entry asks for
the argument type `ty`; `tok` is `s[i+1]`, `none` when `strtok` returned NULL. -/
def asm_parse_arg (st : asm_state) (i : Nat) (ty : Nat) (tok : Option cstr) : asm_step :=
  let set_arg (t : Int) (store : ustore) : asm_state :=
    if i = 0 then { st with type0 := t, store0 := store }
    else { st with type1 := t, store1 := store }
  let old : ustore := if i = 0 then st.store0 else st.store1
  if ty = TYPES_IMM then
    match tok with
    | none => asm_step.undef
    | some s => asm_step.ok (set_arg ARG_IMM (store_set_val old (atoi s)))
  else if ty = TYPES_PTR then
    match tok with
    | none => asm_step.undef
    | some s =>
      match scan_ptr s with
      | some p => asm_step.ok (set_arg ARG_PTR (store_set_ptr p))
      | none => asm_step.ok (set_arg ARG_PTR old)
  else if ty = TYPES_VAR then
    match tok with
    | none => asm_step.undef
    | some s =>
      match find_arg s with
      | none => asm_step.fail ERR_BAD_VAR
      | some bc => asm_step.ok (set_arg ARG_VAR (store_set_val old bc))
  else if ty = TYPES_ALL then
    match tok with
    | none => asm_step.undef
    | some s =>
      match find_arg s with
      | none => asm_step.ok (set_arg ARG_IMM (store_set_val old (atoi s)))
      | some bc => asm_step.ok (set_arg ARG_VAR (store_set_val old bc))
  else asm_step.fail ERR_BAD_ARG

/-- Pack one parsed argument: the type byte, the alignment of `ct` to a
multiple of 4, and the value (4 bytes) or pointer (8 bytes). -/
def asm_pack_arg (st : asm_state) (type : Int) (store : ustore) : asm_step :=
  match asm_put st (some (type % 256).toNat) with
  | asm_step.ok st1 =>
    let st2 := { st1 with ct := (st1.ct + 3) / 4 * 4 }
    if type = ARG_IMM ∨ type = ARG_VAR then asm_put_bytes (store_val_bytes store) st2
    else if type = ARG_PTR then asm_put_bytes (store_ptr_bytes store) st2
    else asm_step.ok st2
  | r => r

/-- Assemble one line of the program text. -/
def asm_line (st : asm_state) (line : cstr) : asm_step :=
  let s := strtok_all [32, 9, 44] line
  match s.get? 0 with
  | none => asm_step.ok st
  | some s0 =>
    match find_inst s0 with
    | none => asm_step.fail ERR_BAD_INST
    | some this_i =>
      let parsed : asm_step :=
        if this_i.argc = 0 then asm_step.ok st
        else
          match asm_parse_arg st 0 this_i.args0 (s.get? 1) with
          | asm_step.ok st1 =>
            if this_i.argc = 1 then asm_step.ok st1
            else asm_parse_arg st1 1 this_i.args1 (s.get? 2)
          | r => r
      match parsed with
      | asm_step.ok st1 =>
        match asm_put st1 (some (this_i.bc % 256)) with
        | asm_step.ok st2 =>
          let packed : asm_step :=
            if this_i.argc = 0 then asm_step.ok st2
            else
              match asm_pack_arg st2 st2.type0 st2.store0 with
              | asm_step.ok st3 =>
                if this_i.argc = 1 then asm_step.ok st3
                else asm_pack_arg st3 st3.type1 st3.store1
              | r => r
          match packed with
          | asm_step.ok st4 =>
            if st4.ct ≥ MAX_MCP_LENGTH then asm_step.fail ERR_TOO_LONG else asm_step.ok st4
          | r => r
        | r => r
      | r => r

/-- The loop over the lines of the program text. -/
def asm_lines : List cstr → asm_state → asm_step
  | [], st => asm_step.ok st
  | l :: ls, st =>
    match asm_line st l with
    | asm_step.ok st1 => asm_lines ls st1
    | r => r

/-- Number of entries of the array `lines` of `parse_mcp`. -/
def ASM_MAX_LINES : Nat := 200

/-- Parse a motion-control program text into bytecode.  `inp` is the text and
`m` the destination program, each `none` for a NULL pointer; the result is the
returned status together with the destination as the call leaves it. -/
def parse_mcp (inp : Option cstr) (m : Option mcp) : outcome (Int × Option mcp) :=
  match inp, m with
  | some text, some m =>
    if text.isEmpty then
      match m.code with
      | none => outcome.undef
      | some code => outcome.ret (0, some { m with code := some (code.set 0 (some BC_EOC)) })
    else
      let lines := strtok_all [13, 10] text
      if lines.length + 1 ≥ ASM_MAX_LINES then outcome.undef
      else
        match asm_lines lines
            ⟨0, List.replicate ASM_BUF_SIZE none, 0, ⟨none, none⟩, 0, ⟨none, none⟩⟩ with
        | asm_step.undef => outcome.undef
        | asm_step.fail code => outcome.ret (code, some m)
        | asm_step.ok st =>
          match asm_put st (some BC_EOC) with
          | asm_step.ok st1 =>
            let old : List cell := m.code.getD (List.replicate MAX_MCP_LENGTH none)
            outcome.ret (0, some { m with code := some (st1.buf.take st1.ct ++ old.drop st1.ct) })
          | _ => outcome.undef
  | _, _ => outcome.ret (ERR, m)
/-! ## The world of the virtual machine

The bytecode holds raw addresses.  The objects they may point to live in a
`world`: a pointer is a number, 0 is NULL, and an address at which the world
holds no object of the kind that is asked for is a wild pointer.  A list is
its sequence of data pointers from head to tail: the virtual machine uses the
list module only through `list_add`, `list_remove` and iteration. -/

structure world where
  sprites : Nat → Option sprite
  lists : Nat → Option (List Nat)
  maps : Nat → Option map
  brk : Nat
  sounds : List (Nat × Int)
  rand : List Nat

/-- The sprite that the pointer `p` points to; NULL points to none. -/
def world.sprite_at (w : world) (p : Nat) : Option sprite := if p = 0 then none else w.sprites p

/-- The list that the pointer `p` points to. -/
def world.list_at (w : world) (p : Nat) : Option (List Nat) := if p = 0 then none else w.lists p

/-- The map that the pointer `p` points to. -/
def world.map_at (w : world) (p : Nat) : Option map := if p = 0 then none else w.maps p

/-- Replace the sprite stored at address `p`. -/
def world.set_sprite (w : world) (p : Nat) (s : Option sprite) : world :=
  { w with sprites := fun q => if q = p then s else w.sprites q }

/-- Replace the list stored at address `p`. -/
def world.set_list (w : world) (p : Nat) (l : Option (List Nat)) : world :=
  { w with lists := fun q => if q = p then l else w.lists q }

/-- The libc call `rand()`: the next value of the world's random sequence. -/
def world.next_rand (w : world) : Int × world :=
  (((w.rand.head?).getD 0 : Nat), { w with rand := w.rand.tail })

/-! ## sprite.c and list.c as the virtual machine uses them -/

/-- The C remainder `a % b`, which truncates toward zero. -/
def c_mod (a b : Int) : Int := Int.tmod a b

/-- The C quotient `a / b`, which truncates toward zero. -/
def c_div (a b : Int) : Int := Int.tdiv a b

def adjust_sprite_frame (s : sprite) (adj : Int) : sprite :=
  if s.frame_ct = 0 then s
  else update_bound_cache { s with cur_frame := c_mod (s.cur_frame + adj) s.frame_ct }

/-- The value `sprite_copy` stores in the new sprite. -/
def sprite_copy_value (s : sprite) : sprite :=
  { s with
    frames := s.frames.take s.frame_ct.toNat,
    bound := (List.range s.frame_ct.toNat).map (fun i => s.bound.getD i ⟨0, 0, 0, 0⟩),
    motion := match s.motion.code with
      | some code => ⟨some code, 0⟩
      | none => s.motion }

/-- Create a copy of the sprite at address `p`: the address of the copy (NULL
for a NULL argument) and the world that holds it. -/
def sprite_copy (w : world) (p : Nat) : outcome (Nat × world) :=
  if p = 0 then outcome.ret (0, w)
  else
    match w.sprite_at p with
    | none => outcome.undef
    | some s =>
      outcome.ret (w.brk, { (w.set_sprite w.brk (some (sprite_copy_value s))) with
        brk := w.brk + 1 })

def sprite_delete (w : world) (p : Nat) : outcome world :=
  if p = 0 then outcome.ret w
  else
    match w.sprite_at p with
    | none => outcome.undef
    | some _ => outcome.ret (w.set_sprite p none)

def list_add (w : world) (l : Nat) (data : Nat) : outcome world :=
  if l = 0 then outcome.ret w
  else
    match w.list_at l with
    | none => outcome.undef
    | some xs => outcome.ret (w.set_list l (some (xs ++ [data])))

/-- The call `list_remove(l, data, LIST_HEAD)`: the first element that holds
`data` is removed. -/
def list_remove_head (w : world) (l : Nat) (data : Nat) : outcome world :=
  if l = 0 then outcome.ret w
  else
    match w.list_at l with
    | none => outcome.undef
    | some xs => outcome.ret (w.set_list l (some (xs.erase data)))

/-- The call `sound_play(snd, volume)` of the audio module, of which the
virtual machine uses nothing but the call itself: it is recorded. -/
def sound_play (w : world) (snd : Nat) (volume : Int) : world :=
  { w with sounds := (snd, volume) :: w.sounds }

/-! ## collision.c: sprite against a list of sprites -/

/-- The `while` loop of `collision_with_sprites` over the remaining list
elements `l`; `slot` is what `res[resct]` holds, `found` the results stored so
far, latest first. -/
def collision_with_sprites_loop (indet : Int) (w : world) (sp : Nat) (s : sprite) (limit : Int) :
    List Nat → sprite_collision → List sprite_collision → outcome (List sprite_collision)
  | [], _, found => outcome.ret found.reverse
  | tgt :: l, slot, found =>
    if tgt = 0 ∨ ¬ ((found.length : Int) < limit) then outcome.ret found.reverse
    else if sp ≠ tgt then
      match w.sprite_at tgt with
      | none => outcome.undef
      | some t =>
        let r := sprite_collision_with_result indet s t slot
        if r.mode ≠ COLLISION_NEVER then
          collision_with_sprites_loop indet w sp s limit l slot
            ({ r with target := some tgt } :: found)
        else collision_with_sprites_loop indet w sp s limit l r found
    else collision_with_sprites_loop indet w sp s limit l slot found

/-- Given the sprite at address `sp` and the list at address `l`, find all
collisions, at most `limit`; the results are returned in the order they are
stored in the array `res`, whose entries hold `slot` before the call. -/
def collision_with_sprites (indet : Int) (w : world) (sp l : Nat) (limit : Int)
    (slot : sprite_collision) : outcome (List sprite_collision) :=
  if sp = 0 ∨ l = 0 then outcome.ret []
  else
    match w.sprite_at sp, w.list_at l with
    | some s, some xs =>
      if s.collides = COLLISION_OFF ∨ s.frame_ct = 0 ∨ s.cur_frame < 0 then outcome.ret []
      else collision_with_sprites_loop indet w sp s limit xs slot []
    | _, _ => outcome.undef

/-! ## motion.c: the virtual machine -/

/-- Where the member `vptr` of a `struct arg` points: nowhere yet, to the `val`
member of the same argument, or to the variable `sel` of the sprite at `sp`. -/
inductive vref where
  | unset
  | own
  | var (sp : Nat) (sel : Int)
  deriving DecidableEq, Repr

/-- A `struct arg`: the type, `vptr`, and the storage of the union of `val`
and `ptr`. -/
structure arg where
  type : Int
  vptr : vref
  store : ustore
  deriving DecidableEq, Repr

/-- Read the `int` variable `sel` of a sprite. -/
def sprite_get_var (s : sprite) (sel : Int) : Int :=
  if sel = ARG_XPOS then s.pos.x
  else if sel = ARG_YPOS then s.pos.y
  else if sel = ARG_XVEL then s.vel.x
  else if sel = ARG_YVEL then s.vel.y
  else if sel = ARG_FRAME then s.cur_frame
  else s.motion.tick

/-- Write the `int` variable `sel` of a sprite. -/
def sprite_set_var (s : sprite) (sel : Int) (v : Int) : sprite :=
  if sel = ARG_XPOS then { s with pos := ⟨v, s.pos.y⟩ }
  else if sel = ARG_YPOS then { s with pos := ⟨s.pos.x, v⟩ }
  else if sel = ARG_XVEL then { s with vel := ⟨v, s.vel.y⟩ }
  else if sel = ARG_YVEL then { s with vel := ⟨s.vel.x, v⟩ }
  else if sel = ARG_FRAME then { s with cur_frame := v }
  else { s with motion := { s.motion with tick := v } }

/-- The state of a run of `motion_exec_single`: the program counter, the two
decoded arguments, the address of the running sprite and the world. -/
structure vm_state where
  pc : Nat
  a0 : arg
  a1 : arg
  s : Nat
  w : world

/-- The read `*a.vptr`. -/
def vm_read (w : world) (a : arg) : Option Int :=
  match a.vptr with
  | vref.unset => none
  | vref.own => store_val a.store
  | vref.var sp sel =>
    match w.sprite_at sp with
    | some s => some (sprite_get_var s sel)
    | none => none

/-- The write `*a[0].vptr = v`. -/
def vm_write0 (st : vm_state) (v : Int) : Option vm_state :=
  match st.a0.vptr with
  | vref.unset => none
  | vref.own => some { st with a0 := { st.a0 with store := store_set_val st.a0.store v } }
  | vref.var sp sel =>
    match st.w.sprite_at sp with
    | some s => some { st with w := st.w.set_sprite sp (some (sprite_set_var s sel v)) }
    | none => none

/-- The macro `decode(tgt, src)`: the argument and the program counter after it,
`none` when it reads past the end of the buffer or reads an indeterminate byte. -/
def decode (buf : List cell) (pc : Nat) (tgt : arg) : Option (arg × Nat) :=
  match buf.get? pc with
  | some (some t) =>
    let pc1 := (pc + 1 + 3) / 4 * 4
    if (t : Int) = ARG_IMM then
      match read_int buf pc1 with
      | some v => some ({ tgt with type := t, store := store_set_val tgt.store v }, pc1 + 4)
      | none => none
    else if (t : Int) = ARG_VAR then
      match read_int buf pc1 with
      | some v => some ({ tgt with type := v }, pc1 + 4)
      | none => none
    else if (t : Int) = ARG_PTR then
      match read_word buf pc1, read_word buf (pc1 + 4) with
      | some l, some h => some ({ tgt with type := t, store := ⟨some l, some h⟩ }, pc1 + 8)
      | _, _ => none
    else some ({ tgt with type := t }, pc1)
  | _ => none

/-- The macro `setvptr(arg, src)`: `none` stands for its `return ERR_BAD_ARG_BC`.
`src` is `none` for an indeterminate pointer. -/
def setvptr (a : arg) (src : Option Nat) : Option arg :=
  if a.type = ARG_IMM then some { a with vptr := vref.own }
  else if a.type = ARG_PTR then some a
  else if a.type = ARG_XPOS ∨ a.type = ARG_YPOS ∨ a.type = ARG_XVEL ∨ a.type = ARG_YVEL
      ∨ a.type = ARG_FRAME ∨ a.type = ARG_TICK then
    match src with
    | some p => some { a with vptr := vref.var p a.type }
    | none => some { a with vptr := vref.unset }
  else none

/-- What one instruction does to the run. -/
inductive vm_step where
  | next (st : vm_state)
  | quit (st : vm_state)
  | retn (code : Int) (w : world)
  | undef

/-- The statement `if( a[0].type == ARG_FRAME ) adjust_sprite_frame(s, 0);`. -/
def vm_adjust_frame (st : vm_state) : vm_step :=
  if st.a0.type = ARG_FRAME then
    if st.s = 0 then vm_step.next st
    else
      match st.w.sprite_at st.s with
      | some s =>
        vm_step.next { st with w := st.w.set_sprite st.s (some (adjust_sprite_frame s 0)) }
      | none => vm_step.undef
  else vm_step.next st

/-- Store `v` through `a[0].vptr`, then bound the frame if it was the target. -/
def vm_assign (st : vm_state) (v : Int) : vm_step :=
  match vm_write0 st v with
  | some st1 => vm_adjust_frame st1
  | none => vm_step.undef

/-- The cases of the `switch(inst)` of `motion_exec_single` that use the
pointer `a[0].ptr`, here `p`. -/
def vm_action_ptr (indet : Int) (inst : Nat) (st : vm_state) (p : Nat) : vm_step :=
  if inst = BC_BMP ∨ inst = BC_BNM then
    if st.s ≠ 0 ∧ (st.w.sprite_at st.s).isNone then vm_step.undef
    else if p ≠ 0 ∧ (st.w.map_at p).isNone then vm_step.undef
    else
      let res := collision_with_map indet (st.w.sprite_at st.s) (st.w.map_at p) 0
        ⟨0, ⟨0, 0⟩, ⟨0, 0⟩⟩
      if inst = BC_BMP then
        (if res.mode ≠ COLLISION_NEVER then vm_step.quit st else vm_step.next st)
      else (if res.mode = COLLISION_NEVER then vm_step.quit st else vm_step.next st)
  else if inst = BC_BCS ∨ inst = BC_BNC then
    match collision_with_sprites indet st.w st.s p 1 ⟨0, ⟨0, 0⟩, ⟨0, 0⟩, none⟩ with
    | outcome.ret found =>
      if inst = BC_BCS then
        (if found.length ≠ 0 then vm_step.quit st else vm_step.next st)
      else (if found.length = 0 then vm_step.quit st else vm_step.next st)
    | outcome.undef => vm_step.undef
  else if inst = BC_COPY then
    match sprite_copy st.w p with
    | outcome.ret (q, w1) => vm_step.next { st with s := q, w := w1 }
    | outcome.undef => vm_step.undef
  else if inst = BC_LADD then
    match list_add st.w p st.s with
    | outcome.ret w1 => vm_step.next { st with w := w1 }
    | outcome.undef => vm_step.undef
  else if inst = BC_LREM then
    match list_remove_head st.w p st.s with
    | outcome.ret w1 => vm_step.next { st with w := w1 }
    | outcome.undef => vm_step.undef
  else if inst = BC_SND then
    vm_step.next { st with w := sound_play st.w p MIX_MAX_VOLUME }
  else if inst = BC_LOADP then
    match st.w.sprite_at st.s, st.w.sprite_at p with
    | some s, some o =>
      match s.motion.code, o.motion.code with
      | some dst, some src =>
        vm_step.retn 0 (st.w.set_sprite st.s (some { s with
          motion := { s.motion with
            code := some (src.take MAX_MCP_LENGTH ++ dst.drop MAX_MCP_LENGTH) } }))
      | _, _ => vm_step.undef
    | _, _ => vm_step.undef
  else if inst = BC_XCHGP then
    match st.w.sprite_at st.s, st.w.sprite_at p with
    | some s, some o =>
      if st.s = p then vm_step.next st
      else
        vm_step.next { st with
          w := (st.w.set_sprite st.s
                  (some { s with motion := { s.motion with code := o.motion.code } })).set_sprite
                p (some { o with motion := { o.motion with code := s.motion.code } }) }
    | _, _ => vm_step.undef
  else vm_step.next st

/-- The `switch(inst)` of `motion_exec_single`, with the arguments decoded and
their pointers set.  The sums of add, stc and avg are sums of 32-bit `int`s:
each is wrapped to the 32 bits of an `int`. -/
def vm_action (indet : Int) (inst : Nat) (st : vm_state) : vm_step :=
  if inst = BC_SET ∨ inst = BC_TRK then
    match vm_read st.w st.a1 with
    | some v => vm_assign st v
    | none => vm_step.undef
  else if inst = BC_ADD then
    match vm_read st.w st.a0, vm_read st.w st.a1 with
    | some u, some v => vm_assign st (to_int32 (u + v))
    | _, _ => vm_step.undef
  else if inst = BC_STC then
    match vm_read st.w st.a1 with
    | some v =>
      if v ≠ 0 then
        let (r, w1) := st.w.next_rand
        match vm_read w1 st.a0 with
        | some u =>
          vm_assign { st with w := w1 }
            (to_int32 (u + to_int32 (c_mod r (to_int32 (to_int32 (v * 2) + 1)) - v)))
        | none => vm_step.undef
      else vm_step.next st
    | none => vm_step.undef
  else if inst = BC_AVG then
    match vm_read st.w st.a0, vm_read st.w st.a1 with
    | some u, some v => vm_assign st (c_div (to_int32 (u + v)) 2)
    | _, _ => vm_step.undef
  else if inst = BC_BEQ then
    match vm_read st.w st.a0, vm_read st.w st.a1 with
    | some u, some v => if u = v then vm_step.quit st else vm_step.next st
    | _, _ => vm_step.undef
  else if inst = BC_BNE then
    match vm_read st.w st.a0, vm_read st.w st.a1 with
    | some u, some v => if u ≠ v then vm_step.quit st else vm_step.next st
    | _, _ => vm_step.undef
  else if inst = BC_BLT then
    match vm_read st.w st.a0, vm_read st.w st.a1 with
    | some u, some v => if u < v then vm_step.quit st else vm_step.next st
    | _, _ => vm_step.undef
  else if inst = BC_BGT then
    match vm_read st.w st.a0, vm_read st.w st.a1 with
    | some u, some v => if u > v then vm_step.quit st else vm_step.next st
    | _, _ => vm_step.undef
  else if inst = BC_BST then
    match vm_read st.w st.a0 with
    | some v =>
      if v ≠ 0 then
        let (r, w1) := st.w.next_rand
        if c_mod r v ≠ 0 then vm_step.quit { st with w := w1 }
        else vm_step.next { st with w := w1 }
      else vm_step.next st
    | none => vm_step.undef
  else if inst = BC_BMP ∨ inst = BC_BNM ∨ inst = BC_BCS ∨ inst = BC_BNC ∨ inst = BC_COPY
      ∨ inst = BC_LADD ∨ inst = BC_LREM ∨ inst = BC_SND ∨ inst = BC_LOADP
      ∨ inst = BC_XCHGP then
    match store_ptr st.a0.store with
    | some p => vm_action_ptr indet inst st p
    | none => vm_step.undef
  else if inst = BC_DEL then
    match sprite_delete st.w st.s with
    | outcome.ret w1 => vm_step.retn 0 w1
    | outcome.undef => vm_step.undef
  else if inst = BC_EOC then vm_step.quit st
  else vm_step.next st

/-- One pass through the body of the `for(;;)` loop of `motion_exec_single`:
fetch the instruction at `pc`, decode its arguments, set their pointers, act.
A fetch past the end of the working copy `buf`, or of an indeterminate byte,
is undefined. -/
def vm_exec_inst (indet : Int) (buf : List cell) (st : vm_state) : vm_step :=
  match buf.get? st.pc with
  | some (some inst) =>
    let decoded : Option (Option vm_state) :=
      if inst % 4 = 0 then some (some { st with pc := st.pc + 1 })
      else if inst % 4 = 1 then
        match decode buf (st.pc + 1) st.a0 with
        | some (a, pc1) => some (some { st with pc := pc1, a0 := a })
        | none => some none
      else if inst % 4 = 2 then
        match decode buf (st.pc + 1) st.a0 with
        | some (a, pc1) =>
          match decode buf pc1 st.a1 with
          | some (b, pc2) => some (some { st with pc := pc2, a0 := a, a1 := b })
          | none => some none
        | none => some none
      else none
    match decoded with
    | none => vm_step.retn ERR_BAD_INST_BC st.w
    | some none => vm_step.undef
    | some (some st1) =>
      let pointed : Option vm_state :=
        if inst = BC_TRK ∨ inst = BC_AVG then
          match setvptr st1.a0 (some st1.s) with
          | some a =>
            match setvptr { st1.a1 with type := st1.a0.type } (store_ptr st1.a1.store) with
            | some b => some { st1 with a0 := a, a1 := b }
            | none => none
          | none => none
        else if inst % 4 = 0 then some st1
        else
          match setvptr st1.a0 (some st1.s) with
          | some a =>
            if inst % 4 = 1 then some { st1 with a0 := a }
            else
              match setvptr st1.a1 (some st1.s) with
              | some b => some { st1 with a0 := a, a1 := b }
              | none => none
          | none => none
      match pointed with
      | none => vm_step.retn ERR_BAD_ARG_BC st1.w
      | some st2 => vm_action indet inst st2
  | _ => vm_step.undef

/-- The code at the label `mcp_quit`: the tick counter of the running sprite is
incremented, its bounds cache updated, and 0 returned. -/
def vm_quit (st : vm_state) : outcome (Int × world) :=
  match st.w.sprite_at st.s with
  | some s =>
    outcome.ret (0, st.w.set_sprite st.s
      (some (update_bound_cache { s with motion := { s.motion with tick := s.motion.tick + 1 } })))
  | none => outcome.undef

/-- The `for(;;)` loop of `motion_exec_single`, bounded by `fuel` instructions. -/
def vm_loop (indet : Int) (buf : List cell) : Nat → vm_state → outcome (Int × world)
  | 0, _ => outcome.undef
  | fuel + 1, st =>
    match vm_exec_inst indet buf st with
    | vm_step.next st1 => vm_loop indet buf fuel st1
    | vm_step.quit st1 => vm_quit st1
    | vm_step.retn code w => outcome.ret (code, w)
    | vm_step.undef => outcome.undef

/-- Execute the bytecode of the sprite at address `sp`.  Every instruction
advances the program counter, and a fetch past the `MAX_MCP_LENGTH` bytes of
the working copy is undefined, so `MAX_MCP_LENGTH + 1` passes of the loop are
all a run can make. -/
def motion_exec_single (indet : Int) (w : world) (sp : Nat) : outcome (Int × world) :=
  if sp = 0 then outcome.ret (ERR, w)
  else
    match w.sprite_at sp with
    | none => outcome.undef
    | some s =>
      match s.motion.code with
      | none => outcome.ret (0, w)
      | some code =>
        vm_loop indet (code.take MAX_MCP_LENGTH) (MAX_MCP_LENGTH + 1)
          ⟨0, ⟨0, vref.unset, ⟨none, none⟩⟩, ⟨0, vref.unset, ⟨none, none⟩⟩, sp, w⟩

/-! ## The example program of the assembler -/

/-- The four-line example program, as the C string handed to `parse_mcp`. -/
def c2_text : cstr := cs "set xvel, 5\nbgt xvel, 10\nadd xvel, 1\neoc"

/-- The 50 bytes that `parse_mcp` writes for `c2_text`: three instructions of
an opcode byte and two packed operands each (a type byte, three padding bytes
that are never written, and for an immediate the four bytes of its value),
the `eoc` opcode, and the terminating `BC_EOC`. -/
def c2_code : List cell :=
  [some 6, some 2, none, none, some 12, some 0, some 0, some 0,
   some 1, none, none, none, some 5, some 0, some 0, some 0,
   some 54, some 2, none, none, some 12, some 0, some 0, some 0,
   some 1, none, none, none, some 10, some 0, some 0, some 0,
   some 10, some 2, none, none, some 12, some 0, some 0, some 0,
   some 1, none, none, none, some 1, some 0, some 0, some 0,
   some 0, some 0]

/-- A world with one sprite, at address 4096, whose x-velocity is 0. -/
def c2_world : world :=
  ⟨fun q => if q = 4096 then some (ex_sprite ⟨3, 4⟩ ⟨0, 9⟩) else none,
   fun _ => none, fun _ => none, 8192, [], []⟩

/-! ## The hits of a sprite in a list, as the specification counts them -/

/-- A hit as `collision_with_sprites` reports it for the list entry `tgt`: the
entry is not the sprite itself, and the pair result of `s` against the sprite
there has a mode other than Never; the result carries the entry as its target. -/
def sprite_hit (indet : Int) (w : world) (sp : Nat) (s : sprite) (tgt : Nat) :
    Option sprite_collision :=
  if tgt = sp then none
  else
    match w.sprite_at tgt with
    | some t =>
      let r := sprite_collision_with_result indet s t ⟨0, ⟨0, 0⟩, ⟨0, 0⟩, none⟩
      if r.mode ≠ COLLISION_NEVER then some { r with target := some tgt } else none
    | none => none

/-- The hits of `s` among the entries `xs` of a list, in list order. -/
def sprite_hits (indet : Int) (w : world) (sp : Nat) (s : sprite) (xs : List Nat) :
    List sprite_collision :=
  xs.filterMap (sprite_hit indet w sp s)

/-- A world with four 16x16 Box sprites and the list, at address 64, of all of
them; the sprite at 4096 moves right by 40 pixels a tick. -/
def c11_world : world :=
  ⟨fun q => if q = 4096 then some (ex_sprite ⟨0, 0⟩ ⟨40, 0⟩)
            else if q = 8192 then some (ex_sprite ⟨32, 0⟩ ⟨0, 0⟩)
            else if q = 12288 then some (ex_sprite ⟨100, 100⟩ ⟨0, 0⟩)
            else if q = 16384 then some (ex_sprite ⟨20, 8⟩ ⟨0, 0⟩)
            else none,
   fun q => if q = 64 then some [12288, 4096, 8192, 16384] else none,
   fun _ => none, 20480, [], []⟩

/-! ## inspect.c: line of sight -/

/-- The marker of `defines.h` for "a tile boundary was crossed, check the tile". -/
def COLLISION_CK : Int := -1

/-- The variables of `cast_ray` that change from one loop iteration to the
next: the map cell `ray_m` and the pixel `ray_t` within it, the decision
variable `p`, the check flag `ck`, and the frame `fr` points to.  `fr` is read
only while `ck` is `COLLISION_PIXEL`, and it is assigned whenever `ck` gets
that value. -/
structure ray_state where
  ray_m : point
  ray_t : point
  p : Int
  ck : Int
  fr : frame
  deriving DecidableEq, Repr

/-- The step of `cast_ray` along x: `if( ray_t.x == ct.x ) ... else ray_t.x += inc.x`. -/
def ray_move_x (m : map) (inc ct : point) (st : ray_state) : ray_state :=
  if st.ray_t.x = ct.x then
    { st with ray_m := ⟨st.ray_m.x + inc.x, st.ray_m.y⟩,
              ray_t := ⟨if inc.x < 0 then m.tw - 1 else 0, st.ray_t.y⟩,
              ck := COLLISION_CK }
  else { st with ray_t := ⟨st.ray_t.x + inc.x, st.ray_t.y⟩ }

/-- The step of `cast_ray` along y: `if( ray_t.y == ct.y ) ... else ray_t.y += inc.y`. -/
def ray_move_y (m : map) (inc ct : point) (st : ray_state) : ray_state :=
  if st.ray_t.y = ct.y then
    { st with ray_m := ⟨st.ray_m.x, st.ray_m.y + inc.y⟩,
              ray_t := ⟨st.ray_t.x, if inc.y < 0 then m.th - 1 else 0⟩,
              ck := COLLISION_CK }
  else { st with ray_t := ⟨st.ray_t.x, st.ray_t.y + inc.y⟩ }

/-- The block `if( ck == COLLISION_CK ) { ... }` of `cast_ray`: `none` when it
returns 0 (a Box tile), otherwise the state with `ck` and `fr` set. -/
def ray_check (m : map) (st : ray_state) : Option ray_state :=
  if st.ck = COLLISION_CK then
    if 0 ≤ st.ray_m.x ∧ st.ray_m.x < m.w ∧ 0 ≤ st.ray_m.y ∧ st.ray_m.y < m.h then
      match map_tile_at m st.ray_m.x st.ray_m.y with
      | some t =>
        if t.collides = COLLISION_BOX then none
        else if t.collides = COLLISION_PIXEL then
          if (tile_frame t).mask.isNone then some { st with ck := 0, fr := tile_frame t }
          else some { st with ck := COLLISION_PIXEL, fr := tile_frame t }
        else some { st with ck := 0 }
      | none => some { st with ck := 0 }
    else some { st with ck := 0 }
  else some st

/-- The pixel test at the end of a loop iteration of `cast_ray`: is the ray on
a set pixel of the mask of `fr`? -/
def ray_pixel (st : ray_state) : Bool :=
  decide (st.ck = COLLISION_PIXEL ∧ st.ray_t.x < st.fr.w ∧ st.ray_t.y < st.fr.h
    ∧ rd (st.fr.mask.getD []) (st.ray_t.x + st.ray_t.y * st.fr.w) ≠ 0)

/-- The tile and pixel tests that end a loop iteration: `none` for `return 0`. -/
def ray_test (m : map) (st : ray_state) : Option ray_state :=
  match ray_check m st with
  | none => none
  | some st1 => if ray_pixel st1 then none else some st1

/-- One iteration of the loop `while( d.x-- )` of `cast_ray`; `none` for `return 0`. -/
def ray_xstep (m : map) (inc ct : point) (dpr dpru : Int) (st : ray_state) : Option ray_state :=
  let st1 := ray_move_x m inc ct st
  let st2 := if st1.p > 0 then ray_move_y m inc ct { st1 with p := st1.p + dpru }
    else { st1 with p := st1.p + dpr }
  ray_test m st2

/-- One iteration of the loop `while( d.y-- )` of `cast_ray`; `none` for `return 0`. -/
def ray_ystep (m : map) (inc ct : point) (dpr dpru : Int) (st : ray_state) : Option ray_state :=
  let st1 := ray_move_y m inc ct st
  let st2 := if st1.p > 0 then ray_move_x m inc ct { st1 with p := st1.p + dpru }
    else { st1 with p := st1.p + dpr }
  ray_test m st2

/-- The loop `while( d.x-- )` of `cast_ray`, `n` iterations left, followed by
the `return 1` at the end of the function. -/
def ray_xloop (m : map) (inc ct : point) (dpr dpru : Int) : Nat → ray_state → Int
  | 0, _ => 1
  | n + 1, st =>
    match ray_xstep m inc ct dpr dpru st with
    | none => 0
    | some st1 => ray_xloop m inc ct dpr dpru n st1

/-- The loop `while( d.y-- )` of `cast_ray`, `n` iterations left, followed by
the `return 1` at the end of the function. -/
def ray_yloop (m : map) (inc ct : point) (dpr dpru : Int) : Nat → ray_state → Int
  | 0, _ => 1
  | n + 1, st =>
    match ray_ystep m inc ct dpr dpru st with
    | none => 0
    | some st1 => ray_yloop m inc ct dpr dpru n st1

/-- Cast a ray from point `a` to point `b` across the given map: 1 when the
ray got through, 0 when a tile stopped it.  The frame pointer `fr` starts
out unassigned; `no_frame` stands for that, and it is not read before the
first assignment. -/
def cast_ray (a b : point) (m : map) : Int :=
  let dx := iabs (b.x - a.x) + 1
  let dy := iabs (b.y - a.y) + 1
  let inc : point := ⟨sign (b.x - a.x), sign (b.y - a.y)⟩
  let ray_m : point :=
    ⟨if a.x < 0 then libdivide_s32_do a.x m.tw - 1 else libdivide_s32_do a.x m.tw,
     if a.y < 0 then libdivide_s32_do a.y m.th - 1 else libdivide_s32_do a.y m.th⟩
  let ray_t : point :=
    ⟨if a.x < 0 then m.tw + c_mod a.x m.tw else c_mod a.x m.tw,
     if a.y < 0 then m.th + c_mod a.y m.th else c_mod a.y m.th⟩
  let ct : point := ⟨if inc.x < 0 then 0 else m.tw - 1, if inc.y < 0 then 0 else m.th - 1⟩
  if dx ≥ dy then
    ray_xloop m inc ct (dy * 2) (dy * 2 - dx * 2) dx.toNat
      ⟨ray_m, ray_t, dy * 2 - dx, COLLISION_CK, no_frame⟩
  else
    ray_yloop m inc ct (dx * 2) (dx * 2 - dy * 2) dy.toNat
      ⟨ray_m, ray_t, dx * 2 - dy, COLLISION_CK, no_frame⟩

/-- The four corners of the target's bounds cache, in the order of the array
`tpts` of `inspect_line_of_sight`. -/
def los_corners (tgt : sprite) : List point :=
  [⟨tgt.bc.x1, tgt.bc.y1⟩, ⟨tgt.bc.x2, tgt.bc.y1⟩, ⟨tgt.bc.x1, tgt.bc.y2⟩,
   ⟨tgt.bc.x2, tgt.bc.y2⟩]

/-- The range test of `inspect_line_of_sight`,
`(pt.x - c.x) * (pt.x - c.x) + (pt.y - c.y) * (pt.y - c.y) <= dist * dist`,
computed on 32-bit `int`s as the source does: every difference, product and
sum is wrapped to the 32 bits of an `int`. -/
def los_in_range (pt c : point) (dist : Int) : Bool :=
  let dx := to_int32 (pt.x - c.x)
  let dy := to_int32 (pt.y - c.y)
  decide (to_int32 (to_int32 (dx * dx) + to_int32 (dy * dy)) ≤ to_int32 (dist * dist))

/-- The loop `for( i=0; i < 4; i++ )` of `inspect_line_of_sight` over the
corners left, followed by the `return 0` after it. -/
def los_loop (m : map) (pt : point) (dist : Int) : List point → Int
  | [] => 0
  | c :: cs =>
    if los_in_range pt c dist = true ∧ cast_ray pt c m ≠ 0 then 1
    else los_loop m pt dist cs

/-- Perform a line-of-sight test from the given sprite plus offset to the
target sprite on the given map. -/
def inspect_line_of_sight (m : Option map) (s : Option sprite) (xofs yofs dist : Int)
    (tgt : Option sprite) : Int :=
  match m, s, tgt with
  | some m, some s, some tgt =>
    if tgt.collides = COLLISION_OFF then 0
    else los_loop m ⟨to_int32 (s.pos.x + xofs), to_int32 (s.pos.y + yofs)⟩ dist (los_corners tgt)
  | _, _, _ => 0

/-- The rays that `inspect_line_of_sight` casts, in order: to each corner in
range, up to and including the first ray that gets through. -/
def los_cast (m : map) (pt : point) (dist : Int) : List point → List point
  | [] => []
  | c :: cs =>
    if los_in_range pt c dist = true then
      if cast_ray pt c m ≠ 0 then [c] else c :: los_cast m pt dist cs
    else los_cast m pt dist cs

/-- A map of 4x4 cells with 16x16 tiles whose only tile is a Box tile at cell (1,0). -/
def los_map : map :=
  { tw := 16, th := 16, tiles := [none, some ex_box_tile], w := 4, h := 4,
    data := some [0, 1, 0, 0, 0, 0, 0, 0, 0, 0, 0, 0, 0, 0, 0, 0] }

/-- The target of the line-of-sight example: a sprite whose bounds cache is the
box from (40,8) to (47,40). -/
def los_target : sprite :=
  { frame_ct := 1, cur_frame := 0, collides := COLLISION_BOX, z_hint := 0, pos := ⟨40, 8⟩,
    vel := ⟨0, 0⟩, scale := ⟨65536, 65536⟩, frames := [[⟨8, 33, none⟩]],
    bound := [⟨0, 0, 8, 33⟩], bc := ⟨40, 8, 47, 40⟩, motion := ⟨none, 0⟩ }

/-- Does the cell (`cx`, `cy`) of the map hold a Box- or Pixel-collision tile? -/
def cell_collides (m : map) (cx cy : Int) : Bool :=
  decide (0 ≤ cx ∧ cx < m.w ∧ 0 ≤ cy ∧ cy < m.h) &&
    match map_tile_at m cx cy with
    | some t => decide (t.collides = COLLISION_BOX ∨ t.collides = COLLISION_PIXEL)
    | none => false

/-- No map cell that contains a pixel of the axis-aligned rectangle spanned by
`a` and `b` holds a Box- or Pixel-collision tile.  The cells are those from
column `min a.x b.x / tw` to column `max a.x b.x / tw` and likewise for rows. -/
def rect_clear (m : map) (a b : point) : Bool :=
  (List.range (max a.x b.x / m.tw - min a.x b.x / m.tw + 1).toNat).all fun i =>
    (List.range (max a.y b.y / m.th - min a.y b.y / m.th + 1).toNat).all fun j =>
      !cell_collides m (min a.x b.x / m.tw + i) (min a.y b.y / m.th + j)

/-! ## Worlds and programs for the examples of the virtual machine -/

/-- A world that holds the given sprites at the given addresses and nothing
else, in which `rand()` returns the values `rs` in turn. -/
def ex_world (ss : List (Nat × sprite)) (rs : List Nat) : world :=
  ⟨fun q => ss.lookup q, fun _ => none, fun _ => none, 65536, [], rs⟩

/-- The program buffer that `parse_mcp` fills from `text` for a sprite that had
no program: the `MAX_MCP_LENGTH` bytes it allocates, the assembled bytes
first. -/
def assemble (text : String) : List cell :=
  match parse_mcp (some (cs text)) (some ⟨none, 0⟩) with
  | outcome.ret (_, some m) => m.code.getD []
  | _ => []

/-- The 16x16 Box sprite `ex_sprite pos vel` with the program assembled from
`text` and the tick counter at 7. -/
def ex_actor (pos : point) (vel : vector) (text : String) : sprite :=
  { ex_sprite pos vel with motion := ⟨some (assemble text), 7⟩ }

/-- What a run leaves behind at the address `p`: the value returned and the
sprite stored at `p`. -/
def run_result (o : outcome (Int × world)) (p : Nat) : Option (Int × Option sprite) :=
  match o with
  | outcome.ret (r, w) => some (r, w.sprites p)
  | outcome.undef => none

/-- The world of the two-sprite examples: the running sprite at 4096, at
(3,4) with velocity (0,9) and the program `text`, and a second sprite at 8192
(0x2000), at (50,-7) with velocity (-7,2), whose program is `eoc`. -/
def pair_world (text : String) : world :=
  ex_world [(4096, ex_actor ⟨3, 4⟩ ⟨0, 9⟩ text), (8192, ex_actor ⟨50, -7⟩ ⟨-7, 2⟩ "eoc")] []

/-- The arguments `a[0]` and `a[1]` as a run finds them: not yet assigned. -/
def arg_unset : arg := ⟨0, vref.unset, ⟨none, none⟩⟩

/-- A Box sprite with four 16x16 frames, showing frame 1, with the program
assembled from `text`. -/
def ex_actor4 (text : String) : sprite :=
  update_bound_cache
    { frame_ct := 4, cur_frame := 1, collides := COLLISION_BOX, z_hint := 0, pos := ⟨3, 4⟩,
      vel := ⟨0, 9⟩, scale := ⟨65536, 65536⟩,
      frames := [[⟨16, 16, none⟩], [⟨16, 16, none⟩], [⟨16, 16, none⟩], [⟨16, 16, none⟩]],
      bound := [⟨0, 0, 16, 16⟩, ⟨0, 0, 16, 16⟩, ⟨0, 0, 16, 16⟩, ⟨0, 0, 16, 16⟩],
      bc := ⟨0, 0, 0, 0⟩, motion := ⟨some (assemble text), 7⟩ }

/-- The frame index that a run of the program `text` leaves on `ex_actor4`. -/
def frame_after (text : String) : Option Int :=
  match run_result (motion_exec_single 0 (ex_world [(4096, ex_actor4 text)] []) 4096) 4096 with
  | some (_, some s) => some s.cur_frame
  | _ => none

/-- The x-velocity and the tick counter that a run of the program `text`
leaves on the sprite at 4096 (x-velocity 0, tick 7 before the run) when
`rand()` returns `r`. -/
def bst_after (text : String) (r : Nat) : Option (Int × Int) :=
  match run_result (motion_exec_single 0
      (ex_world [(4096, ex_actor ⟨3, 4⟩ ⟨0, 9⟩ text)] [r]) 4096) 4096 with
  | some (_, some s) => some (s.vel.x, s.motion.tick)
  | _ => none

/-- The comparison that ends the run at a branch instruction: `a == b` for
beq, `a != b` for bne, `a < b` for blt, `a > b` for bgt. -/
def branch_holds (inst : Nat) (a b : Int) : Bool :=
  if inst = BC_BEQ then decide (a = b)
  else if inst = BC_BNE then decide (a ≠ b)
  else if inst = BC_BLT then decide (a < b)
  else if inst = BC_BGT then decide (a > b)
  else false

/-- The value that trk and avg store: the other sprite's value for trk, the
`int` sum of both halved by the C division for avg. -/
def trk_avg_value (inst : Nat) (own other : Int) : Int :=
  if inst = BC_TRK then other else c_div (to_int32 (own + other)) 2

/-! ## Sample inputs and readings of the assembler and of raw bytecode -/

/-- The state in which `parse_mcp` starts to assemble: nothing written, the
scratch buffer and the parsed arguments indeterminate. -/
def asm_start : asm_state :=
  ⟨0, List.replicate ASM_BUF_SIZE none, 0, ⟨none, none⟩, 0, ⟨none, none⟩⟩

/-- The text of `n` lines that all read `line`. -/
def rep_lines : Nat → String → cstr
  | 0, _ => []
  | n + 1, line => cs line ++ 10 :: rep_lines n line

/-- The status that `parse_mcp` returns for `text` and a destination without a
program; `none` when the call runs into undefined behaviour. -/
def parse_status (text : cstr) : Option Int :=
  match parse_mcp (some text) (some ⟨none, 0⟩) with
  | outcome.ret (r, _) => some r
  | outcome.undef => none

/-- The sprite `ex_sprite (3,4) (0,9)` with the raw bytes `code` as its
program and the tick counter at 7. -/
def ex_raw_actor (code : List cell) : sprite :=
  { ex_sprite ⟨3, 4⟩ ⟨0, 9⟩ with motion := ⟨some code, 7⟩ }

/-- What a run of the raw program `code` returns and leaves in the x-velocity
and the tick counter of the sprite (0 and 7 before the run). -/
def raw_run (code : List cell) : Option (Int × Int × Int) :=
  match run_result (motion_exec_single 0 (ex_world [(4096, ex_raw_actor code)] []) 4096) 4096 with
  | some (r, some s) => some (r, s.vel.x, s.motion.tick)
  | _ => none

/-- The bytes of "set xvel, 5" placed behind one byte `b`, followed by eoc. -/
def after_byte (b : Nat) : List cell :=
  [some b, some 6, some 2, none, some 12, some 0, some 0, some 0,
   some 1, none, none, none, some 5, some 0, some 0, some 0, some 0]

/-- The byte 26 (opcode number 6 with two operands, which no instruction has)
with two immediate operands, then the bytes of "set xvel, 5" and eoc. -/
def after_two_operands : List cell :=
  [some 26, some 1, none, none, some 9, some 0, some 0, some 0,
   some 1, none, none, none, some 9, some 0, some 0, some 0,
   some 6, some 2, none, none, some 12, some 0, some 0, some 0,
   some 1, none, none, none, some 5, some 0, some 0, some 0, some 0]

/-- The bytes of "set xvel, 5" with the variable selector 99 in place of 12. -/
def bad_selector : List cell :=
  [some 6, some 2, none, none, some 99, some 0, some 0, some 0,
   some 1, none, none, none, some 5, some 0, some 0, some 0, some 0]

/-- The bytes of "set xvel, 5" with the type tag 7 on the first operand. -/
def bad_tag : List cell :=
  [some 6, some 7, none, none, some 1, none, none, none, some 5, some 0, some 0, some 0, some 0]

/-- A frame of 4x5 pixels whose mask is set everywhere. -/
def ex_full_frame : frame :=
  ⟨4, 5, some [1, 1, 1, 1, 1, 1, 1, 1, 1, 1, 1, 1, 1, 1, 1, 1, 1, 1, 1, 1]⟩

/-- A frame of 10x1 pixels whose mask has the pixel at x = 7 set and no other. -/
def ex_row_frame : frame := ⟨10, 1, some [0, 0, 0, 0, 0, 0, 0, 1, 0, 0]⟩

/-! ## Instructions as the program text gives them and as the decoder reads them

The two sides of the round trip of assembling and decoding.  `text_insts`
follows the words of the property: the instructions of the text in order, each
with the kinds and values of its operands, the mnemonic and the operand slots
looked up in the tables of `parse_mcp` (`find_inst`, `find_arg`) and the
values read by `atoi` and `scan_ptr`.  `dis_prog` follows the source of the
virtual machine: the head of the loop of `motion_exec_single`, which fetches
the opcode byte and takes the operand count from its low two bits, and the
macro `decode` for each operand. -/

/-- An operand of an instruction: a variable selector, an immediate integer
or a pointer. -/
inductive operand where
  | var (sel : Int)
  | imm (v : Int)
  | ptr (p : Nat)
  deriving DecidableEq, Repr

/-- An instruction: the opcode and the operands. -/
structure instr where
  bc : Nat
  ops : List operand
  deriving DecidableEq, Repr

/-- The operand that the token `tok` stands for in a slot of the table type
`ty`: an integer in an immediate slot, an address (of pointer size) in a
pointer slot, a variable in a variable slot, and in a slot for either the
variable of that name if there is one and the integer otherwise.  `none` when
the token is no variable name in a variable slot or no address in a pointer
slot. -/
def text_operand (ty : Nat) (tok : cstr) : Option operand :=
  if ty = TYPES_IMM then some (operand.imm (atoi tok))
  else if ty = TYPES_PTR then
    (scan_ptr tok).map (fun p => operand.ptr (p % 18446744073709551616))
  else if ty = TYPES_VAR then (find_arg tok).map operand.var
  else if ty = TYPES_ALL then
    match find_arg tok with
    | some sel => some (operand.var sel)
    | none => some (operand.imm (atoi tok))
  else none

/-- The instruction that a line of the text stands for: `some none` for a
blank line, `none` when the mnemonic is unknown or an operand is missing or
stands for nothing. -/
def text_inst (line : cstr) : Option (Option instr) :=
  let s := strtok_all [32, 9, 44] line
  match s.get? 0 with
  | none => some none
  | some s0 =>
    match find_inst s0 with
    | none => none
    | some i =>
      if i.argc = 0 then some (some ⟨i.bc, []⟩)
      else
        match (s.get? 1).bind (text_operand i.args0) with
        | none => none
        | some o0 =>
          if i.argc = 1 then some (some ⟨i.bc, [o0]⟩)
          else
            match (s.get? 2).bind (text_operand i.args1) with
            | none => none
            | some o1 => some (some ⟨i.bc, [o0, o1]⟩)

/-- The instructions of a list of lines, in order. -/
def text_insts_lines : List cstr → Option (List instr)
  | [] => some []
  | l :: ls =>
    match text_inst l, text_insts_lines ls with
    | some (some i), some is => some (i :: is)
    | some none, some is => some is
    | _, _ => none

/-- The instructions of a program text, in order. -/
def text_insts (text : cstr) : Option (List instr) :=
  text_insts_lines (strtok_all [13, 10] text)

/-- Decode one operand at `pc` by the rules of the virtual machine: the tag
byte tells the kind, the macro `decode` reads the value.  Returns the operand
and the offset behind it. -/
def dis_operand (buf : List cell) (pc : Nat) : Option (operand × Nat) :=
  match buf.get? pc, decode buf pc arg_unset with
  | some (some tag), some (a, pc1) =>
    if (tag : Int) = ARG_IMM then (store_val a.store).map (fun v => (operand.imm v, pc1))
    else if (tag : Int) = ARG_VAR then some (operand.var a.type, pc1)
    else if (tag : Int) = ARG_PTR then (store_ptr a.store).map (fun p => (operand.ptr p, pc1))
    else none
  | _, _ => none

/-- Decode one instruction at `pc` by the rules of the virtual machine: the
opcode byte, whose low two bits give the number of operands, and the operands. -/
def dis_inst (buf : List cell) (pc : Nat) : Option (instr × Nat) :=
  match buf.get? pc with
  | some (some op) =>
    if op % 4 = 0 then some (⟨op, []⟩, pc + 1)
    else if op % 4 = 1 then
      match dis_operand buf (pc + 1) with
      | some (o0, pc1) => some (⟨op, [o0]⟩, pc1)
      | none => none
    else if op % 4 = 2 then
      match dis_operand buf (pc + 1) with
      | some (o0, pc1) =>
        match dis_operand buf pc1 with
        | some (o1, pc2) => some (⟨op, [o0, o1]⟩, pc2)
        | none => none
      | none => none
    else none
  | _ => none

/-- Decode `n` instructions from `pc` on. -/
def dis_prog (buf : List cell) : Nat → Nat → Option (List instr × Nat)
  | 0, pc => some ([], pc)
  | n + 1, pc =>
    match dis_inst buf pc with
    | some (i, pc1) =>
      match dis_prog buf n pc1 with
      | some (is, pc2) => some (i :: is, pc2)
      | none => none
    | none => none

/-- The parsed argument `(type, store)` of the assembler holds the operand `o`:
the type is the tag of its kind and the union stores its value, which is in
the range of its C type. -/
def holds_op (type : Int) (store : ustore) (o : operand) : Prop :=
  match o with
  | operand.imm v =>
    type = ARG_IMM ∧ store.lo = some (v % 4294967296).toNat
      ∧ -2147483648 ≤ v ∧ v < 2147483648
  | operand.var sel =>
    type = ARG_VAR ∧ store.lo = some (sel % 4294967296).toNat ∧ 0 ≤ sel ∧ sel < 256
  | operand.ptr p =>
    type = ARG_PTR ∧ store = ⟨some (p % 4294967296), some (p / 4294967296 % 4294967296)⟩
      ∧ p < 18446744073709551616

/-- A text with a blank line, a pointer operand and an instruction without
operands. -/
def c22_text : cstr := cs "set xvel, 5\ntrk ypos, 0x2000\n \ndel"

/-- A destination whose buffer holds zeros. -/
def c22_dest : mcp := ⟨some (List.replicate MAX_MCP_LENGTH (some 0)), 3⟩

/-- The 38 bytes that `parse_mcp` writes for `c22_text`. -/
def c22_code : List cell :=
  [some 6, some 2, none, none, some 12, some 0, some 0, some 0,
   some 1, none, none, none, some 5, some 0, some 0, some 0,
   some 18, some 2, none, none, some 11, some 0, some 0, some 0,
   some 3, none, none, none, some 0, some 32, some 0, some 0, some 0, some 0, some 0, some 0,
   some 92, some 0]

/-- The instructions of `c22_text`. -/
def c22_insts : List instr :=
  [⟨BC_SET, [operand.var ARG_XVEL, operand.imm 5]⟩,
   ⟨BC_TRK, [operand.var ARG_YPOS, operand.ptr 8192]⟩,
   ⟨BC_DEL, []⟩]

/-! ## sprite.c: creating a sprite and the setters

Each function is given for a sprite pointer that is not `NULL` (with `NULL`
every one of them returns at once). -/

def sprite_set_position (s : sprite) (x y : Int) : sprite :=
  update_bound_cache { s with pos := ⟨x, y⟩ }

/-- Following the words of the property: a coordinate multiplied by a Q16.16
scale, the fraction dropped. -/
def scale_coord (sc v : Int) : Int := fp_int (v * sc)

/-- Following the words of the property: the bounds cache that the state of
the sprite determines, the zero box when the sprite has no frames, frame index
-1 or collision Off, and otherwise the position plus the scaled collision box
of the current frame, the far corner inclusive. -/
def bounds_of_state (s : sprite) : box :=
  if s.frame_ct = 0 ∨ s.cur_frame = -1 ∨ s.collides = COLLISION_OFF then ⟨0, 0, 0, 0⟩
  else
    ⟨s.pos.x + scale_coord s.scale.x (sprite_bound s).x1,
     s.pos.y + scale_coord s.scale.y (sprite_bound s).y1,
     s.pos.x + scale_coord s.scale.x (sprite_bound s).x2 - 1,
     s.pos.y + scale_coord s.scale.y (sprite_bound s).y2 - 1⟩

/-- The world of the map examples: the sprite `s` at 4096 and the map `ex_map`
(a Box tile on the pixels 32..47 of row 0) at 12288 (0x3000). -/
def map_world (s : sprite) : world :=
  ⟨fun q => if q = 4096 then some s else none, fun _ => none,
    fun q => if q = 12288 then some ex_map else none, 65536, [], []⟩

/-- The state in which `motion_exec_single` enters its loop for the sprite at
4096 of the world `w`. -/
def vm_start (w : world) : vm_state :=
  ⟨0, ⟨0, vref.unset, ⟨none, none⟩⟩, ⟨0, vref.unset, ⟨none, none⟩⟩, 4096, w⟩

/-- The running sprite as the virtual machine holds it after the first
instruction of its program, when the second instruction is `bmp`: its
position, its bounds cache, and the box that its state determines. -/
def before_bmp (s : sprite) : Option (point × box × box) :=
  match s.motion.code with
  | none => none
  | some code =>
    match vm_exec_inst 0 (code.take MAX_MCP_LENGTH) (vm_start (map_world s)) with
    | vm_step.next st1 =>
      if (code.take MAX_MCP_LENGTH).get? st1.pc = some (some BC_BMP) then
        (st1.w.sprite_at 4096).map (fun s1 => (s1.pos, s1.bc, bounds_of_state s1))
      else none
    | _ => none

/-- What a run of the sprite `s` in `map_world s` returns and leaves in the
sprite: the returned value, the position and the y-velocity. -/
def map_run (s : sprite) : Option (Int × point × Int) :=
  match run_result (motion_exec_single 0 (map_world s) 4096) 4096 with
  | some (r, some s1) => some (r, s1.pos, s1.vel.y)
  | _ => none

/-! ## A sprite moved as a whole, and a scene with pixel masks -/

/-- The sprite `s` moved by `(dx, dy)`: position and bounds cache translated. -/
def sprite_moved (s : sprite) (dx dy : Int) : sprite :=
  { s with pos := ⟨s.pos.x + dx, s.pos.y + dy⟩,
           bc := ⟨s.bc.x1 + dx, s.bc.y1 + dy, s.bc.x2 + dx, s.bc.y2 + dy⟩ }

/-- A Pixel-collision tile of 4x4 pixels whose mask has the column x = 1 set. -/
def ex_pixel_tile : tile :=
  { anim_type := 0, frame_ct := 1, cur_frame := 0, collides := COLLISION_PIXEL,
    frames := [⟨4, 4, some [0, 1, 0, 0, 0, 1, 0, 0, 0, 1, 0, 0, 0, 1, 0, 0]⟩] }

/-- A map of 2x1 cells with 4x4 tiles whose only tile is `ex_pixel_tile` at
cell (0,0). -/
def ex_pixel_map : map :=
  { tw := 4, th := 4, tiles := [none, some ex_pixel_tile], w := 2, h := 1,
    data := some [1, 0] }

/-- A Pixel-collision sprite of 4x3 pixels at (0,0) whose mask is set
everywhere, its bounds cache up to date. -/
def ex_pixel_sprite : sprite :=
  update_bound_cache
    { frame_ct := 1, cur_frame := 0, collides := COLLISION_PIXEL, z_hint := 0, pos := ⟨0, 0⟩,
      vel := ⟨0, 0⟩, scale := ⟨65536, 65536⟩,
      frames := [[⟨4, 3, some [1, 1, 1, 1, 1, 1, 1, 1, 1, 1, 1, 1]⟩]],
      bound := [⟨0, 0, 4, 3⟩], bc := ⟨0, 0, 0, 0⟩, motion := ⟨none, 0⟩ }

/-- The state of a trace loop of `collision_with_map` is safe for the overlap
test `test`: the result is in mode Never or InMotion, the offset the loop has
reached is `stop + go`, and the test is false there. -/
def cwm_clear (test : Int → Int → Int) (st : cwm_state) : Prop :=
  (st.res.mode = COLLISION_NEVER ∨ st.res.mode = COLLISION_INMOTION)
    ∧ st.ofs = ⟨st.res.stop.x + st.res.go.x, st.res.stop.y + st.res.go.y⟩
    ∧ test (st.res.stop.x + st.res.go.x) (st.res.stop.y + st.res.go.y) = 0

/-- Following the words of the property: the narrow phase of
`sprite_collision_with_result` run without the broad phase, the overlap check
at offset 0 and then the trace of the relative velocity. -/
def narrow_phase (indet : Int) (spr tgt : sprite) (res : sprite_collision) : sprite_collision :=
  let res0 : sprite_collision := { res with mode := COLLISION_NEVER, stop := ⟨0, 0⟩,
                                             dir := ⟨0, 0⟩ }
  if sprite_sprite_test indet spr 0 0 tgt ≠ 0 then { res0 with mode := COLLISION_ATSTART }
  else
    scr_trace (fun x y => sprite_sprite_test indet spr x y tgt)
      ⟨spr.vel.x - tgt.vel.x, spr.vel.y - tgt.vel.y⟩ res0

/-! ## The ray of `cast_ray`, step by step -/

/-- The state in which `cast_ray` enters its loop: the map cell and the pixel
within it that the setup computes for the point `a`, the decision variable of
the loop that is taken, and the check flag set. -/
def ray_begin (a b : point) (m : map) : ray_state :=
  let dx := iabs (b.x - a.x) + 1
  let dy := iabs (b.y - a.y) + 1
  ⟨⟨if a.x < 0 then libdivide_s32_do a.x m.tw - 1 else libdivide_s32_do a.x m.tw,
     if a.y < 0 then libdivide_s32_do a.y m.th - 1 else libdivide_s32_do a.y m.th⟩,
   ⟨if a.x < 0 then m.tw + c_mod a.x m.tw else c_mod a.x m.tw,
     if a.y < 0 then m.th + c_mod a.y m.th else c_mod a.y m.th⟩,
   if dx ≥ dy then dy * 2 - dx else dx * 2 - dy, COLLISION_CK, no_frame⟩

/-- The state of `cast_ray` after `k` iterations of its loop together with the
pixel the ray is on then: the ray starts on `a`, and an iteration moves it by
`inc` on the major axis and, when the decision variable is positive, on the
minor axis as well.  `none` when the ray was stopped before. -/
def ray_walk (a b : point) (m : map) : Nat → Option (ray_state × point)
  | 0 => some (ray_begin a b m, a)
  | k + 1 =>
    match ray_walk a b m k with
    | none => none
    | some (st, pos) =>
      let dx := iabs (b.x - a.x) + 1
      let dy := iabs (b.y - a.y) + 1
      let inc : point := ⟨sign (b.x - a.x), sign (b.y - a.y)⟩
      let ct : point := ⟨if inc.x < 0 then 0 else m.tw - 1, if inc.y < 0 then 0 else m.th - 1⟩
      if dx ≥ dy then
        (ray_xstep m inc ct (dy * 2) (dy * 2 - dx * 2) st).map
          (fun st1 => (st1, ⟨pos.x + inc.x, if st.p > 0 then pos.y + inc.y else pos.y⟩))
      else
        (ray_ystep m inc ct (dx * 2) (dx * 2 - dy * 2) st).map
          (fun st1 => (st1, ⟨if st.p > 0 then pos.x + inc.x else pos.x, pos.y + inc.y⟩))

/-- What `ray_walk` holds after `k` iterations: the tracked map cell, the
tracked pixel within the cell, and the pixel the ray is on. -/
def ray_tracked (a b : point) (m : map) (k : Nat) : Option (point × point × point) :=
  (ray_walk a b m k).map (fun r => (r.1.ray_m, r.1.ray_t, r.2))

/-- The write index that the assembler has reached after the lines of `text`:
`none` when a line fails or a write goes past the end of the scratch buffer. -/
def asm_reach (text : cstr) : Option Nat :=
  match asm_lines (strtok_all [13, 10] text) asm_start with
  | asm_step.ok st => some st.ct
  | _ => none

/-! ## list.c: the doubly linked list, pointer by pointer

The virtual machine above sees a list as the sequence of its data pointers.
Here the list is what `list.c` makes of it: a `list` struct with the pointers
`head` and `tail`, and elements on the heap linked by `next` and `prev`.  A
pointer is a number and 0 is `NULL`.  An element that was freed is gone from
the heap, and a read or write through a pointer to it is undefined.  Every
function is given for a list pointer that is not `NULL`, takes the heap and
the list struct and returns them as the call leaves them. -/

namespace listc

/-- The struct `element`. -/
structure element where
  data : Nat
  next : Nat
  prev : Nat
  deriving DecidableEq, Repr

/-- The struct `list`. -/
structure list where
  head : Nat
  tail : Nat
  deriving DecidableEq, Repr

/-- The elements that are allocated, by address, and the address that
`ck_malloc` hands out next. -/
structure heap where
  els : List (Nat × element)
  brk : Nat
  deriving DecidableEq, Repr

/-- The element at address `p`, `none` when none is allocated there. -/
def heap.get (h : heap) (p : Nat) : Option element := h.els.lookup p

/-- The call `free(p)`. -/
def heap.free (h : heap) (p : Nat) : heap := { h with els := h.els.filter (fun e => e.1 != p) }

/-- Store `el` at the allocated address `p`. -/
def heap.put (h : heap) (p : Nat) (el : element) : heap :=
  { h with els := h.els.map (fun e => if e.1 = p then (p, el) else e) }

/-- Allocate a new element holding `el`: its address and the heap. -/
def heap.alloc (h : heap) (el : element) : Nat × heap :=
  (h.brk, ⟨h.els ++ [(h.brk, el)], h.brk + 1⟩)

def LIST_HEAD : Int := 0
def LIST_TAIL : Int := 1
def LIST_ALL : Int := 2

/-- The heap without any element; addresses start at 100. -/
def heap_start : heap := ⟨[], 100⟩

/-- The list struct that `list_create` returns: both pointers `NULL`. -/
def list_create : list := ⟨0, 0⟩

/-- The loop of `list_empty`, with `n` iterations at most.  Each iteration
frees an allocated element, so the elements allocated bound the iterations. -/
def list_empty_go : Nat → heap → list → outcome (heap × list)
  | 0, _, _ => outcome.undef
  | n + 1, h, l =>
    if l.head = 0 then outcome.ret (h, l)
    else
      match h.get l.head with
      | none => outcome.undef
      | some el => list_empty_go n (h.free l.head) { l with head := el.next }

/-- Empty out a list. -/
def list_empty (h : heap) (l : list) : outcome (heap × list) :=
  list_empty_go (h.els.length + 1) h l

/-- Add an item to the end of the list. -/
def list_add (h : heap) (l : list) (data : Nat) : outcome (heap × list) :=
  let (el, h1) := h.alloc ⟨data, 0, l.tail⟩
  if l.tail ≠ 0 then
    match h1.get l.tail with
    | none => outcome.undef
    | some t => outcome.ret (h1.put l.tail { t with next := el }, { l with tail := el })
  else outcome.ret (h1, ⟨el, el⟩)

/-- Add an item to the start of the list. -/
def list_prepend (h : heap) (l : list) (data : Nat) : outcome (heap × list) :=
  let (el, h1) := h.alloc ⟨data, l.head, 0⟩
  if l.head ≠ 0 then
    match h1.get l.head with
    | none => outcome.undef
    | some t => outcome.ret (h1.put l.head { t with prev := el }, { l with head := el })
  else outcome.ret (h1, ⟨el, el⟩)

/-- Return the first item of the list (0 for none) and remove it. -/
def list_shift (h : heap) (l : list) : outcome (Nat × heap × list) :=
  if l.head ≠ 0 then
    match h.get l.head with
    | none => outcome.undef
    | some el => outcome.ret (el.data, h.free l.head, { l with head := el.next })
  else outcome.ret (0, h, l)

/-- Return the last item of the list (0 for none) and remove it. -/
def list_pop (h : heap) (l : list) : outcome (Nat × heap × list) :=
  if l.tail ≠ 0 then
    match h.get l.tail with
    | none => outcome.undef
    | some el => outcome.ret (el.data, h.free l.tail, { l with tail := el.prev })
  else outcome.ret (0, h, l)

/-- Unlink and free the element `el` at address `p`, the neighbour at `next`
first (the order of the loop from the head). -/
def unlink_next_first (h : heap) (l : list) (p : Nat) (el : element) : outcome (heap × list) :=
  let r1 : outcome (heap × list) :=
    if el.next ≠ 0 then
      match h.get el.next with
      | none => outcome.undef
      | some n => outcome.ret (h.put el.next { n with prev := el.prev }, l)
    else outcome.ret (h, { l with tail := el.prev })
  match r1 with
  | outcome.undef => outcome.undef
  | outcome.ret (h1, l1) =>
    if el.prev ≠ 0 then
      match h1.get el.prev with
      | none => outcome.undef
      | some q => outcome.ret ((h1.put el.prev { q with next := el.next }).free p, l1)
    else outcome.ret (h1.free p, { l1 with head := el.next })

/-- Unlink and free the element `el` at address `p`, the neighbour at `prev`
first (the order of the loop from the tail). -/
def unlink_prev_first (h : heap) (l : list) (p : Nat) (el : element) : outcome (heap × list) :=
  let r1 : outcome (heap × list) :=
    if el.prev ≠ 0 then
      match h.get el.prev with
      | none => outcome.undef
      | some q => outcome.ret (h.put el.prev { q with next := el.next }, l)
    else outcome.ret (h, { l with head := el.next })
  match r1 with
  | outcome.undef => outcome.undef
  | outcome.ret (h1, l1) =>
    if el.next ≠ 0 then
      match h1.get el.next with
      | none => outcome.undef
      | some n => outcome.ret ((h1.put el.next { n with prev := el.prev }).free p, l1)
    else outcome.ret (h1.free p, { l1 with tail := el.prev })

/-- The loop of `list_remove` from the head, at the element `p`, with `n`
iterations at most; a walk that is longer than the elements allocated goes
around a cycle and does not return, which `undef` stands for as well. -/
def list_remove_head_go (data : Nat) (all : Bool) : Nat → Nat → heap → list → outcome (heap × list)
  | 0, _, _, _ => outcome.undef
  | n + 1, p, h, l =>
    if p = 0 then outcome.ret (h, l)
    else
      match h.get p with
      | none => outcome.undef
      | some el =>
        if el.data = data then
          match unlink_next_first h l p el with
          | outcome.undef => outcome.undef
          | outcome.ret (h1, l1) =>
            if all then list_remove_head_go data all n el.next h1 l1
            else outcome.ret (h1, l1)
        else list_remove_head_go data all n el.next h l

/-- The loop of `list_remove` from the tail. -/
def list_remove_tail_go (data : Nat) : Nat → Nat → heap → list → outcome (heap × list)
  | 0, _, _, _ => outcome.undef
  | n + 1, p, h, l =>
    if p = 0 then outcome.ret (h, l)
    else
      match h.get p with
      | none => outcome.undef
      | some el =>
        if el.data = data then unlink_prev_first h l p el
        else list_remove_tail_go data n el.prev h l

/-- Remove one or all of an item from a list. -/
def list_remove (h : heap) (l : list) (data : Nat) (dir : Int) : outcome (heap × list) :=
  if dir = LIST_HEAD ∨ dir = LIST_ALL then
    list_remove_head_go data (decide (dir = LIST_ALL)) (h.els.length + 1) l.head h l
  else if dir = LIST_TAIL then list_remove_tail_go data (h.els.length + 1) l.tail h l
  else outcome.ret (h, l)

/-- The data of the elements met by following `next` from the element `p`, as
the loops of `list_length` and of an iterator meet them; `none` when the walk
reads a freed element or does not end. -/
def list_walk (h : heap) : Nat → Nat → Option (List (Nat × Nat))
  | 0, _ => none
  | n + 1, p =>
    if p = 0 then some []
    else
      match h.get p with
      | none => none
      | some el => (list_walk h n el.next).map (fun r => (p, el.data) :: r)

/-- Get the list length; `none` when the call is undefined or does not return. -/
def list_length (h : heap) (l : list) : Option Int :=
  (list_walk h (h.els.length + 1) l.head).map (fun r => (r.length : Int))

/-- The data that an iteration from the head of the list yields, in order. -/
def list_items (h : heap) (l : list) : Option (List Nat) :=
  (list_walk h (h.els.length + 1) l.head).map (fun r => r.map (fun e => e.2))

/-- Following the words of the property: the list is well formed when `head`
is null exactly when `tail` is null, and `tail` is the last element reachable
from `head`. -/
def well_formed (h : heap) (l : list) : Bool :=
  decide (l.head = 0 ↔ l.tail = 0)
    && (match list_walk h (h.els.length + 1) l.head with
        | none => false
        | some r => (r.map (fun e => e.1)).getLast? == (if l.tail = 0 then none else some l.tail))

/-- What a call leaves behind: the list struct, whether the list is well
formed, its length and the data an iteration yields; `none` when the call is
undefined. -/
def seen (o : outcome (heap × list)) : Option (list × Bool × Option Int × Option (List Nat)) :=
  match o with
  | outcome.undef => none
  | outcome.ret (h, l) => some (l, well_formed h l, list_length h l, list_items h l)

/-- Run `f` on what the call `o` left behind. -/
def and_then (o : outcome (heap × list)) (f : heap → list → outcome (heap × list)) :
    outcome (heap × list) :=
  match o with
  | outcome.undef => outcome.undef
  | outcome.ret (h, l) => f h l

/-- Drop the data that `list_shift` or `list_pop` returned. -/
def dropped (o : outcome (Nat × heap × list)) : outcome (heap × list) :=
  match o with
  | outcome.undef => outcome.undef
  | outcome.ret (_, h, l) => outcome.ret (h, l)

/-- The list made by `list_create` and `list_add` of each of `xs` in turn. -/
def list_of (xs : List Nat) : outcome (heap × list) :=
  xs.foldl (fun o x => and_then o (fun h l => list_add h l x)) (outcome.ret (heap_start, list_create))

end listc

/-! ## Words of the properties: the scaled region test and Box tiles -/

/-- Following the words of the property: the cell `(x, y)` lies in the map and
holds a Box tile. -/
def box_cell (m : map) (x y : Int) : Prop :=
  0 ≤ x ∧ x < m.w ∧ 0 ≤ y ∧ y < m.h
    ∧ ∃ t, map_tile_at m x y = some t ∧ t.collides = COLLISION_BOX

/-- A Box-collision sprite at position (33,1) with one frame of 4x4 pixels
whose mask has no pixel set and whose collision box is `(4, 4, 1, 1)`, the box
that `find_pixel_bounds` leaves for such a mask; its bounds cache is up to
date. -/
def ex_empty_box_sprite : sprite :=
  update_bound_cache
    { frame_ct := 1, cur_frame := 0, collides := COLLISION_BOX, z_hint := 0, pos := ⟨33, 1⟩,
      vel := ⟨0, 0⟩, scale := ⟨65536, 65536⟩,
      frames := [[⟨4, 4, some [0, 0, 0, 0, 0, 0, 0, 0, 0, 0, 0, 0, 0, 0, 0, 0]⟩]],
      bound := [⟨4, 4, 1, 1⟩], bc := ⟨0, 0, 0, 0⟩, motion := ⟨none, 0⟩ }

/-! ## Further words of the properties and example inputs -/

/-- Following the words of the property: the corner `c` lies within the
distance `dist` of the point `pt`, compared by the squares of the distances
as numbers, without the limits of an `int`. -/
def within_distance (pt c : point) (dist : Int) : Bool :=
  decide ((pt.x - c.x) * (pt.x - c.x) + (pt.y - c.y) * (pt.y - c.y) ≤ dist * dist)

/-- A world for the sum of avg: the running sprite at 4096 with x-velocity
`INT_MAX` and the program `avg xvel, 0x2000`, and a second sprite at 8192
(0x2000) with x-velocity `INT_MAX` as well. -/
def avg_world : world :=
  ex_world [(4096, ex_actor ⟨3, 4⟩ ⟨2147483647, 9⟩ "avg xvel, 0x2000"),
    (8192, ex_actor ⟨50, -7⟩ ⟨2147483647, 2⟩ "eoc")] []

/-- A text whose second line has a pointer operand that is no address. -/
def c22_bad_text : cstr := cs "bmp 0x2000\nbmp zz"

/-- The 25 bytes that `parse_mcp` writes for `c22_bad_text`. -/
def c22_bad_code : List cell :=
  [some 57, some 3, none, none, some 0, some 32, some 0, some 0, some 0, some 0, some 0, some 0,
   some 57, some 3, none, none, some 0, some 32, some 0, some 0, some 0, some 0, some 0, some 0,
   some 0]

/-- The 13 bytes that `parse_mcp` writes for the text `bmp zz`. -/
def c22_lone_code : List cell :=
  [some 57, some 3, none, none, none, none, none, none, none, none, none, none, some 0]

/-- A Pixel-collision sprite of one pixel at (0,0), its mask set, with
velocity (1,0) and its bounds cache up to date. -/
def ex_pixel_dot : sprite :=
  update_bound_cache
    { frame_ct := 1, cur_frame := 0, collides := COLLISION_PIXEL, z_hint := 0, pos := ⟨0, 0⟩,
      vel := ⟨1, 0⟩, scale := ⟨65536, 65536⟩, frames := [[⟨1, 1, some [1]⟩]],
      bound := [⟨0, 0, 1, 1⟩], bc := ⟨0, 0, 0, 0⟩, motion := ⟨none, 0⟩ }

/-! # Properties -/

set_option maxRecDepth 20000

/-! ## Bresenham arithmetic and the map trace -/

theorem bres_inv (D d : Int) (hD : 0 < D) (hd : 0 ≤ d) (hdD : d ≤ D) (k : Nat) :
    bres_p (d * 2) (d * 2 - D * 2) (d * 2 - D) k
        = d * 2 * (k + 1) - D - D * 2 * bres_c (d * 2) (d * 2 - D * 2) (d * 2 - D) k
      ∧ d * 2 - D * 2 < bres_p (d * 2) (d * 2 - D * 2) (d * 2 - D) k
      ∧ bres_p (d * 2) (d * 2 - D * 2) (d * 2 - D) k ≤ d * 2
      ∧ 0 ≤ bres_c (d * 2) (d * 2 - D * 2) (d * 2 - D) k := by
  induction k with
  | zero => simp [bres_p, bres_c]; constructor <;> linarith
  | succ k ih =>
    obtain ⟨h1, h2, h3, h4⟩ := ih
    simp only [bres_p, bres_c]
    split_ifs with hp
    · refine ⟨?_, ?_, ?_, ?_⟩
      · rw [h1]; push_cast; ring
      · linarith
      · linarith
      · linarith
    · refine ⟨?_, ?_, ?_, ?_⟩
      · rw [h1]; push_cast; ring
      · linarith
      · linarith
      · linarith

theorem bres_c_le (D d : Int) (hD : 0 < D) (hd : 0 ≤ d) (hdD : d ≤ D) (k : Nat) (hk : (k : Int) ≤ D) :
    bres_c (d * 2) (d * 2 - D * 2) (d * 2 - D) k ≤ d := by
  obtain ⟨h1, h2, _, h4⟩ := bres_inv D d hD hd hdD k
  rw [h1] at h2
  by_contra hc
  push_neg at hc
  nlinarith [mul_nonneg hd (sub_nonneg.mpr hk), mul_nonneg hD.le (sub_nonneg.mpr (Int.add_one_le_iff.mpr hc))]

theorem bres_c_end (D d : Int) (hD : 0 < D) (hd : 0 ≤ d) (hdD : d ≤ D) (k : Nat) (hk : (k : Int) = D) :
    bres_c (d * 2) (d * 2 - D * 2) (d * 2 - D) k = d := by
  have hle := bres_c_le D d hD hd hdD k hk.le
  obtain ⟨h1, _, h3, h4⟩ := bres_inv D d hD hd hdD k
  rw [h1, hk] at h3
  apply le_antisymm hle
  by_contra hc
  push_neg at hc
  nlinarith [mul_nonneg hD.le (sub_nonneg.mpr (Int.add_one_le_iff.mpr hc))]

theorem cwm_xstep_frozen (test : Int → Int → Int) (inc : point) (dpr dpru : Int) (st : cwm_state)
    (h : st.res.mode ≠ COLLISION_NEVER) :
    step_mode_stop (cwm_xstep test inc dpr dpru st) = (st.res.mode, st.res.stop) := by
  unfold cwm_xstep
  simp only [cwm_mark, cwm_account_x, h, if_false]
  split_ifs <;> simp [step_mode_stop]

theorem cwm_xloop_frozen (test : Int → Int → Int) (inc : point) (dpr dpru : Int) (n : Nat) :
    ∀ st : cwm_state, st.res.mode ≠ COLLISION_NEVER →
      (cwm_xloop test inc dpr dpru n st).mode = st.res.mode
        ∧ (cwm_xloop test inc dpr dpru n st).stop = st.res.stop := by
  induction n with
  | zero => intro st _; simp [cwm_xloop]
  | succ n ih =>
    intro st h
    have hs := cwm_xstep_frozen test inc dpr dpru st h
    unfold cwm_xloop
    cases hstep : cwm_xstep test inc dpr dpru st with
    | ret res =>
      rw [hstep] at hs
      simp only [step_mode_stop, Prod.mk.injEq] at hs
      simpa using hs
    | cont st1 =>
      rw [hstep] at hs
      simp only [step_mode_stop, Prod.mk.injEq] at hs
      have := ih st1 (by rw [hs.1]; exact h)
      simp only
      rw [this.1, this.2, hs.1, hs.2]
      exact ⟨rfl, rfl⟩

theorem trace_pt_x_succ (inc : point) (dpr dpru p0 : Int) (k : Nat) :
    trace_pt_x inc dpr dpru p0 (k + 1)
      = ⟨(trace_pt_x inc dpr dpru p0 k).x + inc.x,
         if bres_p dpr dpru p0 k > 0 then (trace_pt_x inc dpr dpru p0 k).y + inc.y
         else (trace_pt_x inc dpr dpru p0 k).y⟩ := by
  simp only [trace_pt_x, bres_c]
  split_ifs
  · rw [point.mk.injEq]; constructor <;> push_cast <;> ring
  · rw [point.mk.injEq]; constructor
    · push_cast; ring
    · rfl

theorem cwm_xstep_clear (test : Int → Int → Int) (inc : point) (dpr dpru p0 : Int) (k : Nat)
    (st : cwm_state) (hat : cwm_at_x inc dpr dpru p0 k st)
    (ht : test (trace_pt_x inc dpr dpru p0 (k + 1)).x (trace_pt_x inc dpr dpru p0 (k + 1)).y = 0) :
    ∃ st1, cwm_xstep test inc dpr dpru st = cwm_step.cont st1
      ∧ cwm_at_x inc dpr dpru p0 (k + 1) st1 ∧ st1.slip = st.slip ∧ st1.res.go = st.res.go := by
  obtain ⟨hm, ho, hp, hs⟩ := hat
  rw [trace_pt_x_succ] at ht
  simp only at ht
  rw [← ho, ← hp] at ht
  have hstep : cwm_xstep test inc dpr dpru st
      = cwm_step.cont ⟨⟨st.ofs.x + inc.x, if st.p > 0 then st.ofs.y + inc.y else st.ofs.y⟩,
          if st.p > 0 then st.p + dpru else st.p + dpr, st.slip,
          cwm_account_x inc ⟨inc.x, if st.p > 0 then inc.y else 0⟩ st.res⟩ := by
    unfold cwm_xstep
    simp only
    rw [if_neg (by simpa using ht)]
  refine ⟨_, hstep, ⟨?_, ?_, ?_, ?_⟩, rfl, ?_⟩
  · simp [cwm_account_x, hm]
  · rw [trace_pt_x_succ, ← ho, ← hp]
  · simp only [bres_p, hp]
  · simp only [cwm_account_x, hm, if_true, hs]
    by_cases hq : st.p > 0 <;> simp [hq]
  · simp [cwm_account_x, hm]

theorem cwm_xstep_contact (test : Int → Int → Int) (inc : point) (dpr dpru p0 : Int) (k : Nat)
    (st : cwm_state) (hat : cwm_at_x inc dpr dpru p0 k st)
    (ht : test (trace_pt_x inc dpr dpru p0 (k + 1)).x (trace_pt_x inc dpr dpru p0 (k + 1)).y ≠ 0) :
    (cwm_xstep test inc dpr dpru st = cwm_step.ret ⟨COLLISION_INMOTION, st.res.stop, st.res.go⟩)
      ∨ (st.slip ≠ 0 ∧ ∃ st1, cwm_xstep test inc dpr dpru st = cwm_step.cont st1
          ∧ st1.res.mode = COLLISION_INMOTION ∧ st1.res.stop = st.res.stop) := by
  obtain ⟨hm, ho, hp, hs⟩ := hat
  rw [trace_pt_x_succ] at ht
  simp only at ht
  rw [← ho, ← hp] at ht
  have hne : COLLISION_INMOTION ≠ COLLISION_NEVER := by decide
  unfold cwm_xstep
  simp only
  rw [if_pos ht]
  by_cases hsl : st.slip = 0
  · left
    simp [hsl, cwm_mark, hm]
  · simp only [hsl, ne_eq, not_false_eq_true, if_true, cwm_mark, hm, cwm_account_x, hne, if_false]
    split_ifs <;> simp

theorem cwm_xloop_never (test : Int → Int → Int) (inc : point) (dpr dpru p0 : Int) (n : Nat) :
    ∀ (k : Nat) (st : cwm_state), cwm_at_x inc dpr dpru p0 k st →
      ((∀ j, k < j → j ≤ k + n → trace_hit_x test inc dpr dpru p0 j = 0)
          ∧ cwm_xloop test inc dpr dpru n st
              = ⟨COLLISION_NEVER, trace_pt_x inc dpr dpru p0 (k + n), st.res.go⟩)
      ∨ (∃ j, k ≤ j ∧ j < k + n
          ∧ (∀ i, k < i → i ≤ j → trace_hit_x test inc dpr dpru p0 i = 0)
          ∧ trace_hit_x test inc dpr dpru p0 (j + 1) ≠ 0
          ∧ (cwm_xloop test inc dpr dpru n st).mode = COLLISION_INMOTION
          ∧ (cwm_xloop test inc dpr dpru n st).stop = trace_pt_x inc dpr dpru p0 j
          ∧ (st.slip = 0 → (cwm_xloop test inc dpr dpru n st).go = st.res.go)) := by
  induction n with
  | zero =>
    intro k st hat
    left
    obtain ⟨hm, ho, _, hs⟩ := hat
    refine ⟨fun j h1 h2 => absurd h2 (by omega), ?_⟩
    simp only [cwm_xloop, Nat.add_zero]
    rw [← ho, ← hs, ← hm]
  | succ n ih =>
    intro k st hat
    by_cases ht : trace_hit_x test inc dpr dpru p0 (k + 1) = 0
    · obtain ⟨st1, hstep, hat1, hsl, hgo⟩ := cwm_xstep_clear test inc dpr dpru p0 k st hat ht
      have hloop : cwm_xloop test inc dpr dpru (n + 1) st = cwm_xloop test inc dpr dpru n st1 := by
        rw [cwm_xloop, hstep]
      rw [hloop]
      rcases ih (k + 1) st1 hat1 with ⟨hall, hres⟩ | ⟨j, hj1, hj2, hall, hhit, hmode, hstop, hg⟩
      · left
        refine ⟨fun j h1 h2 => ?_, ?_⟩
        · by_cases hj : j = k + 1
          · rw [hj]; exact ht
          · exact hall j (by omega) (by omega)
        · rw [hres, hgo]
          have : k + 1 + n = k + (n + 1) := by omega
          rw [this]
      · right
        refine ⟨j, by omega, by omega, fun i h1 h2 => ?_, hhit, hmode, hstop, fun h0 => ?_⟩
        · by_cases hi : i = k + 1
          · rw [hi]; exact ht
          · exact hall i (by omega) h2
        · rw [hg (by rw [hsl]; exact h0), hgo]
    · right
      refine ⟨k, le_refl k, by omega, fun i h1 h2 => absurd h2 (by omega), ht, ?_⟩
      rcases cwm_xstep_contact test inc dpr dpru p0 k st hat ht with hret | ⟨hsl, st1, hstep, hm1, hs1⟩
      · have hloop : cwm_xloop test inc dpr dpru (n + 1) st
            = ⟨COLLISION_INMOTION, st.res.stop, st.res.go⟩ := by
          rw [cwm_xloop, hret]
        rw [hloop]
        exact ⟨rfl, by rw [hat.2.2.2, hat.2.1], fun _ => rfl⟩
      · have hloop : cwm_xloop test inc dpr dpru (n + 1) st = cwm_xloop test inc dpr dpru n st1 := by
          rw [cwm_xloop, hstep]
        rw [hloop]
        have hfr := cwm_xloop_frozen test inc dpr dpru n st1 (by rw [hm1]; decide)
        refine ⟨by rw [hfr.1, hm1], by rw [hfr.2, hs1, hat.2.2.2, hat.2.1], fun h0 => absurd h0 hsl⟩

theorem cwm_ystep_frozen (test : Int → Int → Int) (inc : point) (dpr dpru : Int) (st : cwm_state)
    (h : st.res.mode ≠ COLLISION_NEVER) :
    step_mode_stop (cwm_ystep test inc dpr dpru st) = (st.res.mode, st.res.stop) := by
  unfold cwm_ystep
  simp only [cwm_mark, cwm_account_y, h, if_false]
  split_ifs <;> simp [step_mode_stop]

theorem cwm_yloop_frozen (test : Int → Int → Int) (inc : point) (dpr dpru : Int) (n : Nat) :
    ∀ st : cwm_state, st.res.mode ≠ COLLISION_NEVER →
      (cwm_yloop test inc dpr dpru n st).mode = st.res.mode
        ∧ (cwm_yloop test inc dpr dpru n st).stop = st.res.stop := by
  induction n with
  | zero => intro st _; simp [cwm_yloop]
  | succ n ih =>
    intro st h
    have hs := cwm_ystep_frozen test inc dpr dpru st h
    unfold cwm_yloop
    cases hstep : cwm_ystep test inc dpr dpru st with
    | ret res =>
      rw [hstep] at hs
      simp only [step_mode_stop, Prod.mk.injEq] at hs
      simpa using hs
    | cont st1 =>
      rw [hstep] at hs
      simp only [step_mode_stop, Prod.mk.injEq] at hs
      have := ih st1 (by rw [hs.1]; exact h)
      simp only
      rw [this.1, this.2, hs.1, hs.2]
      exact ⟨rfl, rfl⟩

theorem trace_pt_y_succ (inc : point) (dpr dpru p0 : Int) (k : Nat) :
    trace_pt_y inc dpr dpru p0 (k + 1)
      = ⟨if bres_p dpr dpru p0 k > 0 then (trace_pt_y inc dpr dpru p0 k).x + inc.x
         else (trace_pt_y inc dpr dpru p0 k).x,
         (trace_pt_y inc dpr dpru p0 k).y + inc.y⟩ := by
  simp only [trace_pt_y, bres_c]
  split_ifs
  · rw [point.mk.injEq]; constructor <;> push_cast <;> ring
  · rw [point.mk.injEq]; constructor
    · rfl
    · push_cast; ring

theorem cwm_ystep_clear (test : Int → Int → Int) (inc : point) (dpr dpru p0 : Int) (k : Nat)
    (st : cwm_state) (hat : cwm_at_y inc dpr dpru p0 k st)
    (ht : test (trace_pt_y inc dpr dpru p0 (k + 1)).x (trace_pt_y inc dpr dpru p0 (k + 1)).y = 0) :
    ∃ st1, cwm_ystep test inc dpr dpru st = cwm_step.cont st1
      ∧ cwm_at_y inc dpr dpru p0 (k + 1) st1 ∧ st1.slip = st.slip ∧ st1.res.go = st.res.go := by
  obtain ⟨hm, ho, hp, hs⟩ := hat
  rw [trace_pt_y_succ] at ht
  simp only at ht
  rw [← ho, ← hp] at ht
  have hstep : cwm_ystep test inc dpr dpru st
      = cwm_step.cont ⟨⟨if st.p > 0 then st.ofs.x + inc.x else st.ofs.x, st.ofs.y + inc.y⟩,
          if st.p > 0 then st.p + dpru else st.p + dpr, st.slip,
          cwm_account_y inc ⟨if st.p > 0 then inc.x else 0, inc.y⟩ st.res⟩ := by
    unfold cwm_ystep
    simp only
    rw [if_neg (by simpa using ht)]
  refine ⟨_, hstep, ⟨?_, ?_, ?_, ?_⟩, rfl, ?_⟩
  · simp [cwm_account_y, hm]
  · rw [trace_pt_y_succ, ← ho, ← hp]
  · simp only [bres_p, hp]
  · simp only [cwm_account_y, hm, if_true, hs]
    by_cases hq : st.p > 0 <;> simp [hq]
  · simp [cwm_account_y, hm]

theorem cwm_ystep_contact (test : Int → Int → Int) (inc : point) (dpr dpru p0 : Int) (k : Nat)
    (st : cwm_state) (hat : cwm_at_y inc dpr dpru p0 k st)
    (ht : test (trace_pt_y inc dpr dpru p0 (k + 1)).x (trace_pt_y inc dpr dpru p0 (k + 1)).y ≠ 0) :
    (cwm_ystep test inc dpr dpru st = cwm_step.ret ⟨COLLISION_INMOTION, st.res.stop, st.res.go⟩)
      ∨ (st.slip ≠ 0 ∧ ∃ st1, cwm_ystep test inc dpr dpru st = cwm_step.cont st1
          ∧ st1.res.mode = COLLISION_INMOTION ∧ st1.res.stop = st.res.stop) := by
  obtain ⟨hm, ho, hp, hs⟩ := hat
  rw [trace_pt_y_succ] at ht
  simp only at ht
  rw [← ho, ← hp] at ht
  have hne : COLLISION_INMOTION ≠ COLLISION_NEVER := by decide
  unfold cwm_ystep
  simp only
  rw [if_pos ht]
  by_cases hsl : st.slip = 0
  · left
    simp [hsl, cwm_mark, hm]
  · simp only [hsl, ne_eq, not_false_eq_true, if_true, cwm_mark, hm, cwm_account_y, hne, if_false]
    split_ifs <;> simp

theorem cwm_yloop_never (test : Int → Int → Int) (inc : point) (dpr dpru p0 : Int) (n : Nat) :
    ∀ (k : Nat) (st : cwm_state), cwm_at_y inc dpr dpru p0 k st →
      ((∀ j, k < j → j ≤ k + n → trace_hit_y test inc dpr dpru p0 j = 0)
          ∧ cwm_yloop test inc dpr dpru n st
              = ⟨COLLISION_NEVER, trace_pt_y inc dpr dpru p0 (k + n), st.res.go⟩)
      ∨ (∃ j, k ≤ j ∧ j < k + n
          ∧ (∀ i, k < i → i ≤ j → trace_hit_y test inc dpr dpru p0 i = 0)
          ∧ trace_hit_y test inc dpr dpru p0 (j + 1) ≠ 0
          ∧ (cwm_yloop test inc dpr dpru n st).mode = COLLISION_INMOTION
          ∧ (cwm_yloop test inc dpr dpru n st).stop = trace_pt_y inc dpr dpru p0 j
          ∧ (st.slip = 0 → (cwm_yloop test inc dpr dpru n st).go = st.res.go)) := by
  induction n with
  | zero =>
    intro k st hat
    left
    obtain ⟨hm, ho, _, hs⟩ := hat
    refine ⟨fun j h1 h2 => absurd h2 (by omega), ?_⟩
    simp only [cwm_yloop, Nat.add_zero]
    rw [← ho, ← hs, ← hm]
  | succ n ih =>
    intro k st hat
    by_cases ht : trace_hit_y test inc dpr dpru p0 (k + 1) = 0
    · obtain ⟨st1, hstep, hat1, hsl, hgo⟩ := cwm_ystep_clear test inc dpr dpru p0 k st hat ht
      have hloop : cwm_yloop test inc dpr dpru (n + 1) st = cwm_yloop test inc dpr dpru n st1 := by
        rw [cwm_yloop, hstep]
      rw [hloop]
      rcases ih (k + 1) st1 hat1 with ⟨hall, hres⟩ | ⟨j, hj1, hj2, hall, hhit, hmode, hstop, hg⟩
      · left
        refine ⟨fun j h1 h2 => ?_, ?_⟩
        · by_cases hj : j = k + 1
          · rw [hj]; exact ht
          · exact hall j (by omega) (by omega)
        · rw [hres, hgo]
          have : k + 1 + n = k + (n + 1) := by omega
          rw [this]
      · right
        refine ⟨j, by omega, by omega, fun i h1 h2 => ?_, hhit, hmode, hstop, fun h0 => ?_⟩
        · by_cases hi : i = k + 1
          · rw [hi]; exact ht
          · exact hall i (by omega) h2
        · rw [hg (by rw [hsl]; exact h0), hgo]
    · right
      refine ⟨k, le_refl k, by omega, fun i h1 h2 => absurd h2 (by omega), ht, ?_⟩
      rcases cwm_ystep_contact test inc dpr dpru p0 k st hat ht with hret | ⟨hsl, st1, hstep, hm1, hs1⟩
      · have hloop : cwm_yloop test inc dpr dpru (n + 1) st
            = ⟨COLLISION_INMOTION, st.res.stop, st.res.go⟩ := by
          rw [cwm_yloop, hret]
        rw [hloop]
        exact ⟨rfl, by rw [hat.2.2.2, hat.2.1], fun _ => rfl⟩
      · have hloop : cwm_yloop test inc dpr dpru (n + 1) st = cwm_yloop test inc dpr dpru n st1 := by
          rw [cwm_yloop, hstep]
        rw [hloop]
        have hfr := cwm_yloop_frozen test inc dpr dpru n st1 (by rw [hm1]; decide)
        refine ⟨by rw [hfr.1, hm1], by rw [hfr.2, hs1, hat.2.2.2, hat.2.1], fun h0 => absurd h0 hsl⟩

theorem iabs_nonneg (a : Int) : 0 ≤ iabs a := by
  unfold iabs; split_ifs <;> omega

theorem iabs_mul_sign (a : Int) : iabs a * sign a = a := by
  unfold iabs sign; split_ifs <;> omega

theorem iabs_scaled_sign_le (c a : Int) (hc : 0 ≤ c) : iabs (c * sign a) ≤ c := by
  unfold sign
  split_ifs
  · unfold iabs; split_ifs <;> omega
  · unfold iabs; split_ifs <;> omega
  · unfold iabs; split_ifs <;> omega

theorem sign_scaled_sign (c a : Int) (hc : 0 ≤ c) (h : c * sign a ≠ 0) :
    sign (c * sign a) = sign a := by
  unfold sign at h ⊢
  split_ifs at h ⊢ <;> omega

theorem trace_point_zero (vel : vector) : trace_point vel 0 = ⟨0, 0⟩ := by
  unfold trace_point
  split_ifs <;> simp [trace_pt_x, trace_pt_y, bres_c]

theorem trace_point_end (vel : vector) : trace_point vel (trace_len vel) = vel := by
  unfold trace_point trace_len
  have hx := iabs_nonneg vel.x
  have hy := iabs_nonneg vel.y
  split_ifs with h
  · have hk : (((iabs vel.x).toNat : Nat) : Int) = iabs vel.x := Int.toNat_of_nonneg hx
    rcases eq_or_lt_of_le hx with h0 | hpos
    · have hy0 : iabs vel.y = 0 := by omega
      simp only [trace_pt_x, ← h0, hy0, Int.toNat_zero, bres_c]
      have e1 := iabs_mul_sign vel.x
      have e2 := iabs_mul_sign vel.y
      rw [← h0] at e1
      rw [hy0] at e2
      cases vel
      simp only [point.mk.injEq] at *
      constructor <;> simp_all
    · simp only [trace_pt_x]
      rw [bres_c_end (iabs vel.x) (iabs vel.y) hpos hy h _ hk, hk, iabs_mul_sign, iabs_mul_sign]
  · have h' : iabs vel.x ≤ iabs vel.y := by omega
    have hpos : 0 < iabs vel.y := by omega
    have hk : (((iabs vel.y).toNat : Nat) : Int) = iabs vel.y := Int.toNat_of_nonneg hy
    simp only [trace_pt_y]
    rw [bres_c_end (iabs vel.y) (iabs vel.x) hpos hx h' _ hk, hk, iabs_mul_sign, iabs_mul_sign]

theorem trace_point_bounds (vel : vector) (j : Nat) (hj : j ≤ trace_len vel) :
    iabs (trace_point vel j).x ≤ iabs vel.x ∧ iabs (trace_point vel j).y ≤ iabs vel.y
      ∧ ((trace_point vel j).x ≠ 0 → sign (trace_point vel j).x = sign vel.x)
      ∧ ((trace_point vel j).y ≠ 0 → sign (trace_point vel j).y = sign vel.y) := by
  unfold trace_point
  unfold trace_len at hj
  have hx := iabs_nonneg vel.x
  have hy := iabs_nonneg vel.y
  split_ifs at hj ⊢ with h
  · have hjl : (j : Int) ≤ iabs vel.x := by
      have := Int.toNat_of_nonneg hx
      omega
    have hj0 : (0 : Int) ≤ (j : Int) := Int.ofNat_nonneg j
    simp only [trace_pt_x]
    rcases eq_or_lt_of_le hx with h0 | hpos
    · have hjz : j = 0 := by omega
      subst hjz
      simp [bres_c, iabs, sign] at *
      constructor <;> omega
    · have hc := bres_c_le (iabs vel.x) (iabs vel.y) hpos hy h j hjl
      have hc0 := (bres_inv (iabs vel.x) (iabs vel.y) hpos hy h j).2.2.2
      refine ⟨?_, ?_, ?_, ?_⟩
      · exact le_trans (iabs_scaled_sign_le _ _ hj0) hjl
      · exact le_trans (iabs_scaled_sign_le _ _ hc0) hc
      · exact sign_scaled_sign _ _ hj0
      · exact sign_scaled_sign _ _ hc0
  · have h' : iabs vel.x ≤ iabs vel.y := by omega
    have hpos : 0 < iabs vel.y := by omega
    have hjl : (j : Int) ≤ iabs vel.y := by
      have := Int.toNat_of_nonneg hy
      omega
    have hj0 : (0 : Int) ≤ (j : Int) := Int.ofNat_nonneg j
    simp only [trace_pt_y]
    have hc := bres_c_le (iabs vel.y) (iabs vel.x) hpos hx h' j hjl
    have hc0 := (bres_inv (iabs vel.y) (iabs vel.x) hpos hx h' j).2.2.2
    refine ⟨?_, ?_, ?_, ?_⟩
    · exact le_trans (iabs_scaled_sign_le _ _ hc0) hc
    · exact le_trans (iabs_scaled_sign_le _ _ hj0) hjl
    · exact sign_scaled_sign _ _ hc0
    · exact sign_scaled_sign _ _ hj0

/-- The two outcomes of the motion trace of `collision_with_map` started from
the preloaded result: no point of the line collides, or there is a first
point that does. -/
theorem cwm_trace_cases (test : Int → Int → Int) (vel : vector) (slip : Int) (g : vector) :
    ((∀ j, 0 < j → j ≤ trace_len vel → test (trace_point vel j).x (trace_point vel j).y = 0)
        ∧ cwm_trace test vel slip ⟨COLLISION_NEVER, ⟨0, 0⟩, g⟩ = ⟨COLLISION_NEVER, vel, g⟩)
    ∨ (∃ j, j < trace_len vel
        ∧ (∀ i, 0 < i → i ≤ j → test (trace_point vel i).x (trace_point vel i).y = 0)
        ∧ test (trace_point vel (j + 1)).x (trace_point vel (j + 1)).y ≠ 0
        ∧ (cwm_trace test vel slip ⟨COLLISION_NEVER, ⟨0, 0⟩, g⟩).mode = COLLISION_INMOTION
        ∧ (cwm_trace test vel slip ⟨COLLISION_NEVER, ⟨0, 0⟩, g⟩).stop = trace_point vel j
        ∧ (slip = 0 → (cwm_trace test vel slip ⟨COLLISION_NEVER, ⟨0, 0⟩, g⟩).go = g)) := by
  have hend := trace_point_end vel
  unfold trace_point trace_len at *
  unfold cwm_trace
  simp only
  split_ifs at hend ⊢ with h
  · have hat : cwm_at_x ⟨sign vel.x, sign vel.y⟩ (iabs vel.y * 2) (iabs vel.y * 2 - iabs vel.x * 2)
        (iabs vel.y * 2 - iabs vel.x) 0
        ⟨⟨0, 0⟩, iabs vel.y * 2 - iabs vel.x, slip, ⟨COLLISION_NEVER, ⟨0, 0⟩, g⟩⟩ := by
      refine ⟨rfl, ?_, rfl, rfl⟩
      simp [trace_pt_x, bres_c]
    have := cwm_xloop_never test ⟨sign vel.x, sign vel.y⟩ (iabs vel.y * 2)
      (iabs vel.y * 2 - iabs vel.x * 2) (iabs vel.y * 2 - iabs vel.x) (iabs vel.x).toNat 0 _ hat
    simp only [Nat.zero_add, trace_hit_x, Nat.zero_le, true_and] at this
    rw [hend] at this
    exact this
  · have hat : cwm_at_y ⟨sign vel.x, sign vel.y⟩ (iabs vel.x * 2) (iabs vel.x * 2 - iabs vel.y * 2)
        (iabs vel.x * 2 - iabs vel.y) 0
        ⟨⟨0, 0⟩, iabs vel.x * 2 - iabs vel.y, slip, ⟨COLLISION_NEVER, ⟨0, 0⟩, g⟩⟩ := by
      refine ⟨rfl, ?_, rfl, rfl⟩
      simp [trace_pt_y, bres_c]
    have := cwm_yloop_never test ⟨sign vel.x, sign vel.y⟩ (iabs vel.x * 2)
      (iabs vel.x * 2 - iabs vel.y * 2) (iabs vel.x * 2 - iabs vel.y) (iabs vel.y).toNat 0 _ hat
    simp only [Nat.zero_add, trace_hit_y, Nat.zero_le, true_and] at this
    rw [hend] at this
    exact this

/-! ## Map sweep: the claims -/

/-- C1 (as stated, refuted): in the scenario of the specification, a map of
16x16 tiles with a single Box tile at cell (2,0) and a 16x16 Box sprite at (0,0)
with velocity (40,0) and no slip, the reported `stop` is not (32,0). -/
theorem c1_stop_is_not_32 :
    (collision_with_map 0 (some (ex_sprite ⟨0, 0⟩ ⟨40, 0⟩)) (some ex_map) 0
      ⟨0, ⟨0, 0⟩, ⟨0, 0⟩⟩).stop ≠ ⟨32, 0⟩ := by
  decide

/-- C1 (amended): in that scenario `collision_with_map` with slip 0 returns mode
InMotion, `stop = (16,0)` and `go = (0,0)`: the sprite, whose bounds cache spans
the pixels 0..15, can move 16 pixels before its right edge meets the tile that
starts at pixel 32.  This holds whatever the result struct held before the call. -/
theorem c1_scenario_stop_16 (indet : Int) (res : map_collision) :
    collision_with_map indet (some (ex_sprite ⟨0, 0⟩ ⟨40, 0⟩)) (some ex_map) 0 res
      = ⟨COLLISION_INMOTION, ⟨16, 0⟩, ⟨0, 0⟩⟩ := by
  rfl

/-- C3: a collidable sprite that overlaps a colliding tile at offset (0,0) gets
mode AtStart with `stop = (0,0)` and `go = (0,0)`, for every velocity and slip. -/
theorem c3_at_start_precedence (indet : Int) (s : sprite) (m : map) (slip : Int)
    (res : map_collision) (hdata : m.data.isSome = true)
    (hcol : s.collides ≠ COLLISION_OFF) (hct : s.frame_ct ≠ 0) (hcur : 0 ≤ s.cur_frame)
    (hover : map_sprite_test indet m s 0 0 ≠ 0) :
    collision_with_map indet (some s) (some m) slip res
      = ⟨COLLISION_ATSTART, ⟨0, 0⟩, ⟨0, 0⟩⟩ := by
  have hnone : m.data.isNone = false := by
    cases hd : m.data <;> simp_all
  have hgate : ¬ (s.collides = COLLISION_OFF ∨ s.frame_ct = 0 ∨ s.cur_frame < 0) := by
    rintro (h | h | h)
    · exact hcol h
    · exact hct h
    · omega
  simp only [collision_with_map, hnone, if_neg hgate, if_pos hover]
  simp

theorem c3_at_start_precedence_witness :
    collision_with_map 0 (some (ex_sprite ⟨30, 0⟩ ⟨-5, 3⟩)) (some ex_map) 2 ⟨0, ⟨9, 9⟩, ⟨9, 9⟩⟩
      = ⟨COLLISION_ATSTART, ⟨0, 0⟩, ⟨0, 0⟩⟩ :=
  c3_at_start_precedence 0 (ex_sprite ⟨30, 0⟩ ⟨-5, 3⟩) ex_map 2 ⟨0, ⟨9, 9⟩, ⟨9, 9⟩⟩
    (by decide) (by decide) (by decide) (by decide) (by decide)

/-- C7: against a present map with cell data, a sprite whose collision mode is
Off, or that has no frames, or whose frame index is negative, gets mode Never
with `stop` equal to its velocity and `go = (0,0)`. -/
theorem c7_inactive_sprite_never (indet : Int) (s : sprite) (m : map) (slip : Int)
    (res : map_collision) (hdata : m.data.isSome = true)
    (hoff : s.collides = COLLISION_OFF ∨ s.frame_ct = 0 ∨ s.cur_frame < 0) :
    collision_with_map indet (some s) (some m) slip res = ⟨COLLISION_NEVER, s.vel, ⟨0, 0⟩⟩ := by
  have hnone : m.data.isNone = false := by
    cases hd : m.data <;> simp_all
  simp only [collision_with_map, hnone, if_pos hoff]
  simp

theorem c7_inactive_sprite_never_witness :
    collision_with_map 0 (some { ex_sprite ⟨30, 0⟩ ⟨-5, 3⟩ with collides := COLLISION_OFF })
        (some ex_map) 1 ⟨0, ⟨9, 9⟩, ⟨9, 9⟩⟩
      = ⟨COLLISION_NEVER, ⟨-5, 3⟩, ⟨0, 0⟩⟩ :=
  c7_inactive_sprite_never 0 { ex_sprite ⟨30, 0⟩ ⟨-5, 3⟩ with collides := COLLISION_OFF }
    ex_map 1 ⟨0, ⟨9, 9⟩, ⟨9, 9⟩⟩ (by decide) (Or.inl (by decide))

/-- The three ways `collision_with_map` ends for a present sprite and a map
with cell data: the sprite is inactive, it collides at the start, or the motion
trace runs. -/
theorem collision_with_map_cases (indet : Int) (s : sprite) (m : map) (slip : Int)
    (res : map_collision) (hdata : m.data.isSome = true) :
    ((s.collides = COLLISION_OFF ∨ s.frame_ct = 0 ∨ s.cur_frame < 0)
        ∧ collision_with_map indet (some s) (some m) slip res = ⟨COLLISION_NEVER, s.vel, ⟨0, 0⟩⟩)
    ∨ (map_sprite_test indet m s 0 0 ≠ 0
        ∧ collision_with_map indet (some s) (some m) slip res
            = ⟨COLLISION_ATSTART, ⟨0, 0⟩, ⟨0, 0⟩⟩)
    ∨ (map_sprite_test indet m s 0 0 = 0
        ∧ collision_with_map indet (some s) (some m) slip res
            = cwm_trace (map_sprite_test indet m s) s.vel slip
                ⟨COLLISION_NEVER, ⟨0, 0⟩, ⟨0, 0⟩⟩) := by
  have hnone : m.data.isNone = false := by
    cases hd : m.data <;> simp_all
  by_cases hgate : s.collides = COLLISION_OFF ∨ s.frame_ct = 0 ∨ s.cur_frame < 0
  · left
    refine ⟨hgate, ?_⟩
    simp only [collision_with_map, hnone, if_pos hgate]
    simp
  · by_cases hover : map_sprite_test indet m s 0 0 ≠ 0
    · right; left
      refine ⟨hover, ?_⟩
      simp only [collision_with_map, hnone, if_neg hgate, if_pos hover]
      simp
    · right; right
      refine ⟨not_not.mp hover, ?_⟩
      simp only [collision_with_map, hnone, if_neg hgate, if_neg hover]
      simp

/-- C4: for a Box-collision sprite, the `stop` vector of `collision_with_map` is
bounded by the velocity component-wise and points the same way; when the mode
is Never, `stop` is the velocity and `go = (0,0)`; and the mode is Never when no
point of the traced line from (0,0) to the velocity overlaps a tile. -/
theorem c4_stop_within_velocity (indet : Int) (s : sprite) (m : map) (slip : Int)
    (res : map_collision) (hdata : m.data.isSome = true) (hbox : s.collides = COLLISION_BOX) :
    iabs (collision_with_map indet (some s) (some m) slip res).stop.x ≤ iabs s.vel.x
    ∧ iabs (collision_with_map indet (some s) (some m) slip res).stop.y ≤ iabs s.vel.y
    ∧ ((collision_with_map indet (some s) (some m) slip res).stop.x ≠ 0 →
        sign (collision_with_map indet (some s) (some m) slip res).stop.x = sign s.vel.x)
    ∧ ((collision_with_map indet (some s) (some m) slip res).stop.y ≠ 0 →
        sign (collision_with_map indet (some s) (some m) slip res).stop.y = sign s.vel.y)
    ∧ ((collision_with_map indet (some s) (some m) slip res).mode = COLLISION_NEVER →
        (collision_with_map indet (some s) (some m) slip res).stop = s.vel
        ∧ (collision_with_map indet (some s) (some m) slip res).go = ⟨0, 0⟩)
    ∧ ((∀ j, j ≤ trace_len s.vel →
          map_sprite_test indet m s (trace_point s.vel j).x (trace_point s.vel j).y = 0) →
        collision_with_map indet (some s) (some m) slip res = ⟨COLLISION_NEVER, s.vel, ⟨0, 0⟩⟩) := by
  have _ := hbox
  rcases collision_with_map_cases indet s m slip res hdata with
    ⟨_, hr⟩ | ⟨hover, hr⟩ | ⟨_, hr⟩
  · rw [hr]
    exact ⟨le_refl _, le_refl _, fun _ => rfl, fun _ => rfl, fun _ => ⟨rfl, rfl⟩, fun _ => rfl⟩
  · rw [hr]
    refine ⟨iabs_nonneg _, iabs_nonneg _, fun h => absurd rfl h, fun h => absurd rfl h,
      fun h => absurd h (by decide), fun h => ?_⟩
    have h0 := h 0 (Nat.zero_le _)
    rw [trace_point_zero] at h0
    exact absurd h0 hover
  · rw [hr]
    rcases cwm_trace_cases (map_sprite_test indet m s) s.vel slip ⟨0, 0⟩ with
      ⟨_, ht⟩ | ⟨j, hj, _, hhit, hmode, hstop, _⟩
    · rw [ht]
      exact ⟨le_refl _, le_refl _, fun _ => rfl, fun _ => rfl, fun _ => ⟨rfl, rfl⟩, fun _ => rfl⟩
    · obtain ⟨b1, b2, b3, b4⟩ := trace_point_bounds s.vel j (Nat.le_of_lt hj)
      rw [hstop]
      refine ⟨b1, b2, b3, b4, fun h => ?_, fun h => ?_⟩
      · rw [hmode] at h
        exact absurd h (by decide)
      · exact absurd (h (j + 1) hj) hhit

theorem c4_stop_within_velocity_witness :
    iabs (collision_with_map 0 (some (ex_sprite ⟨0, 0⟩ ⟨40, 0⟩)) (some ex_map) 0
        ⟨0, ⟨0, 0⟩, ⟨0, 0⟩⟩).stop.x ≤ iabs 40 :=
  (c4_stop_within_velocity 0 (ex_sprite ⟨0, 0⟩ ⟨40, 0⟩) ex_map 0 ⟨0, ⟨0, 0⟩, ⟨0, 0⟩⟩
    (by decide) (by decide)).1

/-- C5: with slip budget 0 the sweep stops at the first contact.  `go` is
(0,0).  When the mode is InMotion, `stop` is a point of the Bresenham line from
(0,0) to the velocity such that the overlap test is false at `stop` and at every
earlier point of the line, and true at the next point of the line.  A contact
on the line ends the sweep: for a collidable sprite, when the overlap test is
false at the points 0 to `j` of the line and true at point `j + 1`, the result
is InMotion with `stop` at point `j`; and when the mode is Never, the overlap
test is false at every point of the line. -/
theorem c5_no_slip_first_contact (indet : Int) (s : sprite) (m : map) (res : map_collision)
    (hdata : m.data.isSome = true) :
    (collision_with_map indet (some s) (some m) 0 res).go = ⟨0, 0⟩
    ∧ ((collision_with_map indet (some s) (some m) 0 res).mode = COLLISION_INMOTION →
        ∃ j, j < trace_len s.vel
          ∧ (collision_with_map indet (some s) (some m) 0 res).stop = trace_point s.vel j
          ∧ map_sprite_test indet m s
              (collision_with_map indet (some s) (some m) 0 res).stop.x
              (collision_with_map indet (some s) (some m) 0 res).stop.y = 0
          ∧ (∀ i, i ≤ j →
              map_sprite_test indet m s (trace_point s.vel i).x (trace_point s.vel i).y = 0)
          ∧ map_sprite_test indet m s (trace_point s.vel (j + 1)).x
              (trace_point s.vel (j + 1)).y ≠ 0)
    ∧ (∀ j, ¬ (s.collides = COLLISION_OFF ∨ s.frame_ct = 0 ∨ s.cur_frame < 0) →
        j < trace_len s.vel →
        (∀ i, i ≤ j →
          map_sprite_test indet m s (trace_point s.vel i).x (trace_point s.vel i).y = 0) →
        map_sprite_test indet m s (trace_point s.vel (j + 1)).x
          (trace_point s.vel (j + 1)).y ≠ 0 →
        collision_with_map indet (some s) (some m) 0 res
          = ⟨COLLISION_INMOTION, trace_point s.vel j, ⟨0, 0⟩⟩)
    ∧ ((collision_with_map indet (some s) (some m) 0 res).mode = COLLISION_NEVER →
        ¬ (s.collides = COLLISION_OFF ∨ s.frame_ct = 0 ∨ s.cur_frame < 0) →
        ∀ j, j ≤ trace_len s.vel →
          map_sprite_test indet m s (trace_point s.vel j).x (trace_point s.vel j).y = 0) := by
  rcases collision_with_map_cases indet s m 0 res hdata with
    ⟨hoff, hr⟩ | ⟨hover, hr⟩ | ⟨hclear, hr⟩
  · rw [hr]
    exact ⟨rfl, fun h => absurd h (show COLLISION_NEVER ≠ COLLISION_INMOTION by decide),
      fun _ hon => absurd hoff hon, fun _ hon => absurd hoff hon⟩
  · rw [hr]
    refine ⟨rfl, fun h => absurd h (show COLLISION_ATSTART ≠ COLLISION_INMOTION by decide),
      fun j _ _ hall _ => ?_, fun h => absurd h (show COLLISION_ATSTART ≠ COLLISION_NEVER by decide)⟩
    have h0 := hall 0 (Nat.zero_le _)
    rw [trace_point_zero] at h0
    exact absurd h0 hover
  · rw [hr]
    rcases cwm_trace_cases (map_sprite_test indet m s) s.vel 0 ⟨0, 0⟩ with
      ⟨hfree, ht⟩ | ⟨j, hj, hall, hhit, hmode, hstop, hgo⟩
    · rw [ht]
      refine ⟨rfl, fun h => absurd h (show COLLISION_NEVER ≠ COLLISION_INMOTION by decide),
        fun j _ hj _ hhit => absurd (hfree (j + 1) (Nat.succ_pos _) hj) hhit, fun _ _ j hj => ?_⟩
      rcases Nat.eq_zero_or_pos j with h0 | hpos
      · rw [h0, trace_point_zero]; exact hclear
      · exact hfree j hpos hj
    · have hall0 : ∀ i, i ≤ j →
          map_sprite_test indet m s (trace_point s.vel i).x (trace_point s.vel i).y = 0 := by
        intro i hi
        rcases Nat.eq_zero_or_pos i with h0 | hpos
        · rw [h0, trace_point_zero]; exact hclear
        · exact hall i hpos hi
      refine ⟨hgo rfl, fun _ => ⟨j, hj, hstop, ?_, hall0, hhit⟩, fun k _ hk hallk hhitk => ?_,
        fun h => ?_⟩
      · rw [hstop]
        exact hall0 j (le_refl j)
      · have hkj : k = j := by
          rcases Nat.lt_trichotomy k j with h | h | h
          · exact absurd (hall0 (k + 1) h) hhitk
          · exact h
          · exact absurd (hallk (j + 1) h) hhit
        subst hkj
        have e : ∀ r : map_collision, r.mode = COLLISION_INMOTION → r.stop = trace_point s.vel k →
            r.go = ⟨0, 0⟩ → r = ⟨COLLISION_INMOTION, trace_point s.vel k, ⟨0, 0⟩⟩ := by
          intro r h1 h2 h3
          cases r
          simp only at h1 h2 h3
          rw [h1, h2, h3]
        exact e _ hmode hstop (hgo rfl)
      · rw [hmode] at h
        exact absurd h (by decide)

theorem c5_no_slip_first_contact_witness :
    collision_with_map 0 (some (ex_sprite ⟨0, 0⟩ ⟨40, 0⟩)) (some ex_map) 0 ⟨0, ⟨0, 0⟩, ⟨0, 0⟩⟩
        = ⟨COLLISION_INMOTION, trace_point (ex_sprite ⟨0, 0⟩ ⟨40, 0⟩).vel 16, ⟨0, 0⟩⟩
    ∧ trace_point (ex_sprite ⟨0, 0⟩ ⟨40, 0⟩).vel 16 = ⟨16, 0⟩
    ∧ trace_point (ex_sprite ⟨0, 0⟩ ⟨40, 0⟩).vel 17 = ⟨17, 0⟩
    ∧ map_sprite_test 0 ex_map (ex_sprite ⟨0, 0⟩ ⟨40, 0⟩) 16 0 = 0
    ∧ map_sprite_test 0 ex_map (ex_sprite ⟨0, 0⟩ ⟨40, 0⟩) 17 0 = 1 :=
  ⟨(c5_no_slip_first_contact 0 (ex_sprite ⟨0, 0⟩ ⟨40, 0⟩) ex_map ⟨0, ⟨0, 0⟩, ⟨0, 0⟩⟩
      (by decide)).2.2.1 16 (by decide) (by decide) (by decide) (by decide),
    by decide, by decide, by decide, by decide⟩

/-! ## Map sweep: slip -/

theorem map_sprite_rows_bool (indet : Int) (m : map) (s : sprite) (adj : vector) (rx1 rx2 : Int)
    (sbox : box) (n : Nat) : ∀ (locy : Int) (clip tbox : box),
    map_sprite_rows indet m s adj rx1 rx2 sbox n locy clip tbox = 0
      ∨ map_sprite_rows indet m s adj rx1 rx2 sbox n locy clip tbox = 1 := by
  induction n with
  | zero => intro _ _ _; left; rfl
  | succ n ih =>
    intro locy clip tbox
    unfold map_sprite_rows
    cases map_sprite_row indet m s adj.x locy sbox (rx2 - rx1).toNat rx1 clip tbox with
    | none => right; rfl
    | some q => exact ih _ _ _

/-- The map overlap test only ever returns 0 or 1. -/
theorem map_sprite_test_bool (indet : Int) (m : map) (s : sprite) (x y : Int) :
    map_sprite_test indet m s x y = 0 ∨ map_sprite_test indet m s x y = 1 := by
  unfold map_sprite_test
  split_ifs
  · exact map_sprite_rows_bool _ _ _ _ _ _ _ _ _ _ _
  · exact map_sprite_rows_bool _ _ _ _ _ _ _ _ _ _ _
  · left; rfl

theorem cwm_mark_mode_ne (res : map_collision) : (cwm_mark res).mode ≠ COLLISION_NEVER := by
  unfold cwm_mark
  split_ifs with h
  · exact (show COLLISION_INMOTION ≠ COLLISION_NEVER by decide)
  · exact h

theorem cwm_mark_eq (res : map_collision) :
    cwm_mark res = ⟨(cwm_mark res).mode, res.stop, res.go⟩ := by
  unfold cwm_mark
  split_ifs <;> rfl

theorem cwm_account_x_marked (inc mot : point) (res : map_collision) :
    cwm_account_x inc mot (cwm_mark res)
      = ⟨(cwm_mark res).mode, res.stop, ⟨res.go.x + mot.x, res.go.y + mot.y⟩⟩ := by
  have h := cwm_mark_mode_ne res
  unfold cwm_account_x
  rw [if_neg h]
  unfold cwm_mark
  split_ifs <;> rfl

theorem cwm_account_y_marked (inc mot : point) (res : map_collision) :
    cwm_account_y inc mot (cwm_mark res)
      = ⟨(cwm_mark res).mode, res.stop, ⟨res.go.x + mot.x, res.go.y + mot.y⟩⟩ := by
  have h := cwm_mark_mode_ne res
  unfold cwm_account_y
  rw [if_neg h]
  unfold cwm_mark
  split_ifs <;> rfl

theorem cwm_xstep_slip_diag (T : Int → Int → Int) (hb : ∀ x y, T x y = 0 ∨ T x y = 1)
    (inc : point) (dpr dpru : Int) (st : cwm_state) (hslip : st.slip ≠ 0) (hp : st.p > 0)
    (hy : inc.y ≠ 0) (hc : T (st.ofs.x + inc.x) (st.ofs.y + inc.y) ≠ 0) :
    (T (st.ofs.x + inc.x) st.ofs.y = 0 → T st.ofs.x (st.ofs.y + inc.y) ≠ 0 →
        cwm_xstep T inc dpr dpru st
          = cwm_step.cont (cwm_slip_to st (st.p + dpru) ⟨st.ofs.x + inc.x, st.ofs.y⟩))
    ∧ (T st.ofs.x (st.ofs.y + inc.y) = 0 → T (st.ofs.x + inc.x) st.ofs.y ≠ 0 →
        cwm_xstep T inc dpr dpru st
          = cwm_step.cont (cwm_slip_to st (st.p + dpru) ⟨st.ofs.x, st.ofs.y + inc.y⟩))
    ∧ ((T (st.ofs.x + inc.x) st.ofs.y = 0 ↔ T st.ofs.x (st.ofs.y + inc.y) = 0) →
        cwm_xstep T inc dpr dpru st
          = cwm_step.ret ⟨(cwm_mark st.res).mode, st.res.stop, st.res.go⟩) := by
  have e1 : st.ofs.x + inc.x - inc.x = st.ofs.x := by ring
  have e2 : st.ofs.y + inc.y - inc.y = st.ofs.y := by ring
  have hstep : cwm_xstep T inc dpr dpru st =
      if -T st.ofs.x (st.ofs.y + inc.y) + T (st.ofs.x + inc.x) st.ofs.y < 0 then
        cwm_step.cont ⟨⟨st.ofs.x + inc.x, st.ofs.y⟩, st.p + dpru, st.slip - 1,
          cwm_account_x inc ⟨inc.x, 0⟩ (cwm_mark st.res)⟩
      else if -T st.ofs.x (st.ofs.y + inc.y) + T (st.ofs.x + inc.x) st.ofs.y > 0 then
        cwm_step.cont ⟨⟨st.ofs.x, st.ofs.y + inc.y⟩, st.p + dpru, st.slip - 1,
          cwm_account_x inc ⟨0, inc.y⟩ (cwm_mark st.res)⟩
      else cwm_step.ret (cwm_mark st.res) := by
    unfold cwm_xstep
    simp only [hp, if_true, if_pos hc, hslip, hy, ne_eq, not_false_eq_true, e1, e2]
  rw [hstep]
  simp only [cwm_account_x_marked, cwm_slip_to]
  rw [cwm_mark_eq st.res]
  rcases hb (st.ofs.x + inc.x) st.ofs.y with hA | hA <;>
    rcases hb st.ofs.x (st.ofs.y + inc.y) with hB | hB <;>
    simp [hA, hB]

theorem cwm_xstep_slip_straight (T : Int → Int → Int) (hb : ∀ x y, T x y = 0 ∨ T x y = 1)
    (inc : point) (dpr dpru : Int) (st : cwm_state) (hslip : st.slip ≠ 0)
    (hs : ¬ (st.p > 0 ∧ inc.y ≠ 0)) (hc : T (st.ofs.x + inc.x) st.ofs.y ≠ 0) :
    (T (st.ofs.x + inc.x) (st.ofs.y - 1) = 0 → T (st.ofs.x + inc.x) (st.ofs.y + 1) ≠ 0 →
        cwm_xstep T inc dpr dpru st
          = cwm_step.cont (cwm_slip_to st (if st.p > 0 then st.p + dpru else st.p + dpr)
              ⟨st.ofs.x + inc.x, st.ofs.y - 1⟩))
    ∧ (T (st.ofs.x + inc.x) (st.ofs.y + 1) = 0 → T (st.ofs.x + inc.x) (st.ofs.y - 1) ≠ 0 →
        cwm_xstep T inc dpr dpru st
          = cwm_step.cont (cwm_slip_to st (if st.p > 0 then st.p + dpru else st.p + dpr)
              ⟨st.ofs.x + inc.x, st.ofs.y + 1⟩))
    ∧ ((T (st.ofs.x + inc.x) (st.ofs.y - 1) = 0 ↔ T (st.ofs.x + inc.x) (st.ofs.y + 1) = 0) →
        cwm_xstep T inc dpr dpru st
          = cwm_step.cont (cwm_slip_to st (if st.p > 0 then st.p + dpru else st.p + dpr)
              st.ofs)) := by
  have e1 : st.ofs.x + inc.x - inc.x = st.ofs.x := by ring
  have hmot : (if st.p > 0 then inc.y else 0) = 0 := by
    by_cases hp : st.p > 0
    · rw [if_pos hp]; by_contra h; exact hs ⟨hp, h⟩
    · rw [if_neg hp]
  have hofs : (if st.p > 0 then st.ofs.y + inc.y else st.ofs.y) = st.ofs.y := by
    by_cases hp : st.p > 0
    · rw [if_pos hp]
      have : inc.y = 0 := by by_contra h; exact hs ⟨hp, h⟩
      rw [this]; ring
    · rw [if_neg hp]
  have hstep : cwm_xstep T inc dpr dpru st =
      if -T (st.ofs.x + inc.x) (st.ofs.y + 1) + T (st.ofs.x + inc.x) (st.ofs.y - 1) < 0 then
        cwm_step.cont ⟨⟨st.ofs.x + inc.x, st.ofs.y - 1⟩,
          if st.p > 0 then st.p + dpru else st.p + dpr, st.slip - 1,
          cwm_account_x inc ⟨inc.x, -1⟩ (cwm_mark st.res)⟩
      else if -T (st.ofs.x + inc.x) (st.ofs.y + 1) + T (st.ofs.x + inc.x) (st.ofs.y - 1) > 0 then
        cwm_step.cont ⟨⟨st.ofs.x + inc.x, st.ofs.y + 1⟩,
          if st.p > 0 then st.p + dpru else st.p + dpr, st.slip - 1,
          cwm_account_x inc ⟨inc.x, 1⟩ (cwm_mark st.res)⟩
      else
        cwm_step.cont ⟨⟨st.ofs.x, st.ofs.y⟩,
          if st.p > 0 then st.p + dpru else st.p + dpr, st.slip - 1,
          cwm_account_x inc ⟨0, 0⟩ (cwm_mark st.res)⟩ := by
    unfold cwm_xstep
    simp only [hmot, hofs, if_pos hc, hslip, ne_eq, not_false_eq_true, not_true_eq_false,
      if_true, if_false, e1]
  rw [hstep]
  simp only [cwm_account_x_marked, cwm_slip_to]
  rcases hb (st.ofs.x + inc.x) (st.ofs.y - 1) with hA | hA <;>
    rcases hb (st.ofs.x + inc.x) (st.ofs.y + 1) with hB | hB <;>
    simp [hA, hB]
theorem cwm_ystep_slip_diag (T : Int → Int → Int) (hb : ∀ x y, T x y = 0 ∨ T x y = 1)
    (inc : point) (dpr dpru : Int) (st : cwm_state) (hslip : st.slip ≠ 0) (hp : st.p > 0)
    (hx : inc.x ≠ 0) (hc : T (st.ofs.x + inc.x) (st.ofs.y + inc.y) ≠ 0) :
    (T (st.ofs.x + inc.x) st.ofs.y = 0 → T st.ofs.x (st.ofs.y + inc.y) ≠ 0 →
        cwm_ystep T inc dpr dpru st
          = cwm_step.cont (cwm_slip_to st (st.p + dpru) ⟨st.ofs.x + inc.x, st.ofs.y⟩))
    ∧ (T st.ofs.x (st.ofs.y + inc.y) = 0 → T (st.ofs.x + inc.x) st.ofs.y ≠ 0 →
        cwm_ystep T inc dpr dpru st
          = cwm_step.cont (cwm_slip_to st (st.p + dpru) ⟨st.ofs.x, st.ofs.y + inc.y⟩))
    ∧ ((T (st.ofs.x + inc.x) st.ofs.y = 0 ↔ T st.ofs.x (st.ofs.y + inc.y) = 0) →
        cwm_ystep T inc dpr dpru st
          = cwm_step.ret ⟨(cwm_mark st.res).mode, st.res.stop, st.res.go⟩) := by
  have e1 : st.ofs.x + inc.x - inc.x = st.ofs.x := by ring
  have e2 : st.ofs.y + inc.y - inc.y = st.ofs.y := by ring
  have hstep : cwm_ystep T inc dpr dpru st =
      if -T (st.ofs.x + inc.x) st.ofs.y + T st.ofs.x (st.ofs.y + inc.y) < 0 then
        cwm_step.cont ⟨⟨st.ofs.x, st.ofs.y + inc.y⟩, st.p + dpru, st.slip - 1,
          cwm_account_y inc ⟨0, inc.y⟩ (cwm_mark st.res)⟩
      else if -T (st.ofs.x + inc.x) st.ofs.y + T st.ofs.x (st.ofs.y + inc.y) > 0 then
        cwm_step.cont ⟨⟨st.ofs.x + inc.x, st.ofs.y⟩, st.p + dpru, st.slip - 1,
          cwm_account_y inc ⟨inc.x, 0⟩ (cwm_mark st.res)⟩
      else cwm_step.ret (cwm_mark st.res) := by
    unfold cwm_ystep
    simp only [hp, if_true, if_pos hc, hslip, hx, ne_eq, not_false_eq_true, e1, e2]
  rw [hstep]
  simp only [cwm_account_y_marked, cwm_slip_to]
  rw [cwm_mark_eq st.res]
  rcases hb (st.ofs.x + inc.x) st.ofs.y with hA | hA <;>
    rcases hb st.ofs.x (st.ofs.y + inc.y) with hB | hB <;>
    simp [hA, hB]

theorem cwm_ystep_slip_straight (T : Int → Int → Int) (hb : ∀ x y, T x y = 0 ∨ T x y = 1)
    (inc : point) (dpr dpru : Int) (st : cwm_state) (hslip : st.slip ≠ 0)
    (hs : ¬ (st.p > 0 ∧ inc.x ≠ 0)) (hc : T st.ofs.x (st.ofs.y + inc.y) ≠ 0) :
    (T (st.ofs.x - 1) (st.ofs.y + inc.y) = 0 → T (st.ofs.x + 1) (st.ofs.y + inc.y) ≠ 0 →
        cwm_ystep T inc dpr dpru st
          = cwm_step.cont (cwm_slip_to st (if st.p > 0 then st.p + dpru else st.p + dpr)
              ⟨st.ofs.x - 1, st.ofs.y + inc.y⟩))
    ∧ (T (st.ofs.x + 1) (st.ofs.y + inc.y) = 0 → T (st.ofs.x - 1) (st.ofs.y + inc.y) ≠ 0 →
        cwm_ystep T inc dpr dpru st
          = cwm_step.cont (cwm_slip_to st (if st.p > 0 then st.p + dpru else st.p + dpr)
              ⟨st.ofs.x + 1, st.ofs.y + inc.y⟩))
    ∧ ((T (st.ofs.x - 1) (st.ofs.y + inc.y) = 0 ↔ T (st.ofs.x + 1) (st.ofs.y + inc.y) = 0) →
        cwm_ystep T inc dpr dpru st
          = cwm_step.cont (cwm_slip_to st (if st.p > 0 then st.p + dpru else st.p + dpr)
              st.ofs)) := by
  have e2 : st.ofs.y + inc.y - inc.y = st.ofs.y := by ring
  have hmot : (if st.p > 0 then inc.x else 0) = 0 := by
    by_cases hp : st.p > 0
    · rw [if_pos hp]; by_contra h; exact hs ⟨hp, h⟩
    · rw [if_neg hp]
  have hofs : (if st.p > 0 then st.ofs.x + inc.x else st.ofs.x) = st.ofs.x := by
    by_cases hp : st.p > 0
    · rw [if_pos hp]
      have : inc.x = 0 := by by_contra h; exact hs ⟨hp, h⟩
      rw [this]; ring
    · rw [if_neg hp]
  have hstep : cwm_ystep T inc dpr dpru st =
      if -T (st.ofs.x - 1) (st.ofs.y + inc.y) + T (st.ofs.x + 1) (st.ofs.y + inc.y) < 0 then
        cwm_step.cont ⟨⟨st.ofs.x + 1, st.ofs.y + inc.y⟩,
          if st.p > 0 then st.p + dpru else st.p + dpr, st.slip - 1,
          cwm_account_y inc ⟨1, inc.y⟩ (cwm_mark st.res)⟩
      else if -T (st.ofs.x - 1) (st.ofs.y + inc.y) + T (st.ofs.x + 1) (st.ofs.y + inc.y) > 0 then
        cwm_step.cont ⟨⟨st.ofs.x - 1, st.ofs.y + inc.y⟩,
          if st.p > 0 then st.p + dpru else st.p + dpr, st.slip - 1,
          cwm_account_y inc ⟨-1, inc.y⟩ (cwm_mark st.res)⟩
      else
        cwm_step.cont ⟨⟨st.ofs.x, st.ofs.y⟩,
          if st.p > 0 then st.p + dpru else st.p + dpr, st.slip - 1,
          cwm_account_y inc ⟨0, 0⟩ (cwm_mark st.res)⟩ := by
    unfold cwm_ystep
    simp only [hmot, hofs, if_pos hc, hslip, ne_eq, not_false_eq_true, not_true_eq_false,
      if_true, if_false, e2]
  rw [hstep]
  simp only [cwm_account_y_marked, cwm_slip_to]
  rcases hb (st.ofs.x - 1) (st.ofs.y + inc.y) with hA | hA <;>
    rcases hb (st.ofs.x + 1) (st.ofs.y + inc.y) with hB | hB <;>
    simp [hA, hB]

/-- C6 (as stated, refuted): on a contact step that moved on the dominant axis
only, the call does not return when both alternatives are blocked or both are
clear, and motion of later steps is still added to `go`.
First scene: a 16x16 Box sprite next to a wall, velocity (2,1), slip 2; the first
step, to (1,0), is blocked, and so are both alternatives (1,1) and (1,-1); the
call goes on and the next step adds (0,1) to `go`.
Second scene: a one-pixel sprite, velocity (2,1), slip 1; the first step, to
(1,0), is blocked and both alternatives are clear; the next step adds (1,1). -/
theorem c6_same_alternatives_no_return :
    (trace_point ⟨2, 1⟩ 1 = ⟨1, 0⟩
      ∧ map_sprite_test 0 ex_wall_map (ex_sprite ⟨0, 0⟩ ⟨2, 1⟩) 1 0 ≠ 0
      ∧ map_sprite_test 0 ex_wall_map (ex_sprite ⟨0, 0⟩ ⟨2, 1⟩) 1 1 ≠ 0
      ∧ map_sprite_test 0 ex_wall_map (ex_sprite ⟨0, 0⟩ ⟨2, 1⟩) 1 (-1) ≠ 0
      ∧ collision_with_map 0 (some (ex_sprite ⟨0, 0⟩ ⟨2, 1⟩)) (some ex_wall_map) 2
          ⟨0, ⟨0, 0⟩, ⟨0, 0⟩⟩ = ⟨COLLISION_INMOTION, ⟨0, 0⟩, ⟨0, 1⟩⟩)
    ∧ (map_sprite_test 0 ex_dot_map (ex_dot_sprite ⟨2, 1⟩) 1 0 ≠ 0
      ∧ map_sprite_test 0 ex_dot_map (ex_dot_sprite ⟨2, 1⟩) 1 1 = 0
      ∧ map_sprite_test 0 ex_dot_map (ex_dot_sprite ⟨2, 1⟩) 1 (-1) = 0
      ∧ collision_with_map 0 (some (ex_dot_sprite ⟨2, 1⟩)) (some ex_dot_map) 1
          ⟨0, ⟨0, 0⟩, ⟨0, 0⟩⟩ = ⟨COLLISION_INMOTION, ⟨0, 0⟩, ⟨1, 1⟩⟩) := by
  decide

/-- C6 (amended): with slip budget not 0, on a contact step of `collision_with_map`
(`T` is the map overlap test, `st` the loop state before the step):
if exactly one of the two probed alternatives is clear, the trace continues at
that alternative, the budget decreases by one and the displacement of the step
goes to `go`.  If both alternatives are clear or both are blocked, then on a
step that moved on both axes the call returns at that step, with `stop` and `go`
as they were; on a step that moved on the dominant axis only the call does not
return: the offset goes back to where it was before the step, nothing is added
to `stop` or `go`, the budget still decreases by one and the loop goes on.
The four parts are: x-dominant loop, step on both axes; x-dominant loop, step on
x only; y-dominant loop, step on both axes; y-dominant loop, step on y only. -/
theorem c6_slip_step (indet : Int) (m : map) (s : sprite) (T : Int → Int → Int)
    (hT : T = map_sprite_test indet m s) (inc : point) (dpr dpru : Int) (st : cwm_state)
    (hslip : st.slip ≠ 0) :
    (st.p > 0 → inc.y ≠ 0 → T (st.ofs.x + inc.x) (st.ofs.y + inc.y) ≠ 0 →
        (T (st.ofs.x + inc.x) st.ofs.y = 0 → T st.ofs.x (st.ofs.y + inc.y) ≠ 0 →
          cwm_xstep T inc dpr dpru st
            = cwm_step.cont (cwm_slip_to st (st.p + dpru) ⟨st.ofs.x + inc.x, st.ofs.y⟩))
        ∧ (T st.ofs.x (st.ofs.y + inc.y) = 0 → T (st.ofs.x + inc.x) st.ofs.y ≠ 0 →
          cwm_xstep T inc dpr dpru st
            = cwm_step.cont (cwm_slip_to st (st.p + dpru) ⟨st.ofs.x, st.ofs.y + inc.y⟩))
        ∧ ((T (st.ofs.x + inc.x) st.ofs.y = 0 ↔ T st.ofs.x (st.ofs.y + inc.y) = 0) →
          ∀ n, cwm_xloop T inc dpr dpru (n + 1) st
            = ⟨(cwm_mark st.res).mode, st.res.stop, st.res.go⟩))
    ∧ (¬ (st.p > 0 ∧ inc.y ≠ 0) → T (st.ofs.x + inc.x) st.ofs.y ≠ 0 →
        (T (st.ofs.x + inc.x) (st.ofs.y - 1) = 0 → T (st.ofs.x + inc.x) (st.ofs.y + 1) ≠ 0 →
          cwm_xstep T inc dpr dpru st
            = cwm_step.cont (cwm_slip_to st (if st.p > 0 then st.p + dpru else st.p + dpr)
                ⟨st.ofs.x + inc.x, st.ofs.y - 1⟩))
        ∧ (T (st.ofs.x + inc.x) (st.ofs.y + 1) = 0 → T (st.ofs.x + inc.x) (st.ofs.y - 1) ≠ 0 →
          cwm_xstep T inc dpr dpru st
            = cwm_step.cont (cwm_slip_to st (if st.p > 0 then st.p + dpru else st.p + dpr)
                ⟨st.ofs.x + inc.x, st.ofs.y + 1⟩))
        ∧ ((T (st.ofs.x + inc.x) (st.ofs.y - 1) = 0 ↔ T (st.ofs.x + inc.x) (st.ofs.y + 1) = 0) →
          cwm_xstep T inc dpr dpru st
            = cwm_step.cont (cwm_slip_to st (if st.p > 0 then st.p + dpru else st.p + dpr)
                st.ofs)))
    ∧ (st.p > 0 → inc.x ≠ 0 → T (st.ofs.x + inc.x) (st.ofs.y + inc.y) ≠ 0 →
        (T (st.ofs.x + inc.x) st.ofs.y = 0 → T st.ofs.x (st.ofs.y + inc.y) ≠ 0 →
          cwm_ystep T inc dpr dpru st
            = cwm_step.cont (cwm_slip_to st (st.p + dpru) ⟨st.ofs.x + inc.x, st.ofs.y⟩))
        ∧ (T st.ofs.x (st.ofs.y + inc.y) = 0 → T (st.ofs.x + inc.x) st.ofs.y ≠ 0 →
          cwm_ystep T inc dpr dpru st
            = cwm_step.cont (cwm_slip_to st (st.p + dpru) ⟨st.ofs.x, st.ofs.y + inc.y⟩))
        ∧ ((T (st.ofs.x + inc.x) st.ofs.y = 0 ↔ T st.ofs.x (st.ofs.y + inc.y) = 0) →
          ∀ n, cwm_yloop T inc dpr dpru (n + 1) st
            = ⟨(cwm_mark st.res).mode, st.res.stop, st.res.go⟩))
    ∧ (¬ (st.p > 0 ∧ inc.x ≠ 0) → T st.ofs.x (st.ofs.y + inc.y) ≠ 0 →
        (T (st.ofs.x - 1) (st.ofs.y + inc.y) = 0 → T (st.ofs.x + 1) (st.ofs.y + inc.y) ≠ 0 →
          cwm_ystep T inc dpr dpru st
            = cwm_step.cont (cwm_slip_to st (if st.p > 0 then st.p + dpru else st.p + dpr)
                ⟨st.ofs.x - 1, st.ofs.y + inc.y⟩))
        ∧ (T (st.ofs.x + 1) (st.ofs.y + inc.y) = 0 → T (st.ofs.x - 1) (st.ofs.y + inc.y) ≠ 0 →
          cwm_ystep T inc dpr dpru st
            = cwm_step.cont (cwm_slip_to st (if st.p > 0 then st.p + dpru else st.p + dpr)
                ⟨st.ofs.x + 1, st.ofs.y + inc.y⟩))
        ∧ ((T (st.ofs.x - 1) (st.ofs.y + inc.y) = 0 ↔ T (st.ofs.x + 1) (st.ofs.y + inc.y) = 0) →
          cwm_ystep T inc dpr dpru st
            = cwm_step.cont (cwm_slip_to st (if st.p > 0 then st.p + dpru else st.p + dpr)
                st.ofs))) := by
  have hb : ∀ x y, T x y = 0 ∨ T x y = 1 := by
    intro x y; rw [hT]; exact map_sprite_test_bool indet m s x y
  refine ⟨fun hp hy hc => ?_, fun hs hc => ?_, fun hp hx hc => ?_, fun hs hc => ?_⟩
  · obtain ⟨h1, h2, h3⟩ := cwm_xstep_slip_diag T hb inc dpr dpru st hslip hp hy hc
    refine ⟨h1, h2, fun h n => ?_⟩
    rw [cwm_xloop, h3 h]
  · exact cwm_xstep_slip_straight T hb inc dpr dpru st hslip hs hc
  · obtain ⟨h1, h2, h3⟩ := cwm_ystep_slip_diag T hb inc dpr dpru st hslip hp hx hc
    refine ⟨h1, h2, fun h n => ?_⟩
    rw [cwm_yloop, h3 h]
  · exact cwm_ystep_slip_straight T hb inc dpr dpru st hslip hs hc
theorem c6_slip_step_witness :
    cwm_xstep (map_sprite_test 0 ex_wall_map (ex_sprite ⟨0, 0⟩ ⟨2, 1⟩)) ⟨1, 1⟩ 2 (-2)
        ⟨⟨0, 0⟩, 0, 2, ⟨COLLISION_NEVER, ⟨0, 0⟩, ⟨0, 0⟩⟩⟩
      = cwm_step.cont (cwm_slip_to ⟨⟨0, 0⟩, 0, 2, ⟨COLLISION_NEVER, ⟨0, 0⟩, ⟨0, 0⟩⟩⟩
          (if (0 : Int) > 0 then 0 + -2 else 0 + 2) ⟨0, 0⟩) :=
  ((c6_slip_step 0 ex_wall_map (ex_sprite ⟨0, 0⟩ ⟨2, 1⟩)
      (map_sprite_test 0 ex_wall_map (ex_sprite ⟨0, 0⟩ ⟨2, 1⟩)) rfl ⟨1, 1⟩ 2 (-2)
      ⟨⟨0, 0⟩, 0, 2, ⟨COLLISION_NEVER, ⟨0, 0⟩, ⟨0, 0⟩⟩⟩ (by decide)).2.1
    (by decide) (by decide)).2.2 (by decide)

/-- C8 (the code at the failing inputs): with the sprite, the map or the map's
cell data absent, `collision_with_map` writes the mode `ERR` and nothing else;
and `ERR` is the same integer, -1, as the mode `COLLISION_ATSTART`, while it
differs from `COLLISION_NEVER` and `COLLISION_INMOTION`. -/
theorem c8_error_mode_is_atstart (indet : Int) (s : sprite) (m : map) (slip : Int)
    (res : map_collision) :
    collision_with_map indet none (some m) slip res = { res with mode := ERR }
    ∧ collision_with_map indet (some s) none slip res = { res with mode := ERR }
    ∧ collision_with_map indet (some s) (some { m with data := none }) slip res
        = { res with mode := ERR }
    ∧ ERR = COLLISION_ATSTART ∧ ERR ≠ COLLISION_NEVER ∧ ERR ≠ COLLISION_INMOTION := by
  refine ⟨rfl, rfl, rfl, ?_, ?_, ?_⟩ <;> decide

/-! ## Sprite sweep -/

theorem scr_xstep_clear (test : Int → Int → Int) (dpr dpru p0 : Int) (res : sprite_collision)
    (k : Nat)
    (ht : test (trace_pt_x res.dir dpr dpru p0 (k + 1)).x
      (trace_pt_x res.dir dpr dpru p0 (k + 1)).y = 0) :
    scr_xstep test dpr dpru (scr_state_x dpr dpru p0 res k)
      = scr_step.cont (scr_state_x dpr dpru p0 res (k + 1)) := by
  rw [trace_pt_x_succ] at ht
  simp only at ht
  unfold scr_xstep
  simp only [scr_state_x]
  rw [if_neg (by simpa using ht)]
  rw [trace_pt_x_succ]
  simp only [bres_p]
  by_cases hq : bres_p dpr dpru p0 k > 0 <;> simp [hq]

theorem scr_xstep_hit (test : Int → Int → Int) (dpr dpru p0 : Int) (res : sprite_collision)
    (k : Nat)
    (ht : test (trace_pt_x res.dir dpr dpru p0 (k + 1)).x
      (trace_pt_x res.dir dpr dpru p0 (k + 1)).y ≠ 0) :
    ∃ r, scr_xstep test dpr dpru (scr_state_x dpr dpru p0 res k) = scr_step.ret r := by
  rw [trace_pt_x_succ] at ht
  simp only at ht
  unfold scr_xstep
  simp only [scr_state_x]
  rw [if_pos ht]
  split_ifs <;> exact ⟨_, rfl⟩

theorem scr_xloop_trace (test : Int → Int → Int) (dpr dpru p0 : Int) (res : sprite_collision)
    (n : Nat) : ∀ k : Nat,
    ((∀ j, k < j → j ≤ k + n → trace_hit_x test res.dir dpr dpru p0 j = 0)
        ∧ scr_xloop test dpr dpru n (scr_state_x dpr dpru p0 res k)
            = (scr_state_x dpr dpru p0 res (k + n)).res)
    ∨ (∃ j, k ≤ j ∧ j < k + n
        ∧ (∀ i, k < i → i ≤ j → trace_hit_x test res.dir dpr dpru p0 i = 0)
        ∧ trace_hit_x test res.dir dpr dpru p0 (j + 1) ≠ 0
        ∧ scr_xstep test dpr dpru (scr_state_x dpr dpru p0 res j)
            = scr_step.ret (scr_xloop test dpr dpru n (scr_state_x dpr dpru p0 res k))) := by
  induction n with
  | zero =>
    intro k
    left
    exact ⟨fun j h1 h2 => absurd h2 (by omega), rfl⟩
  | succ n ih =>
    intro k
    by_cases ht : trace_hit_x test res.dir dpr dpru p0 (k + 1) = 0
    · have hstep := scr_xstep_clear test dpr dpru p0 res k ht
      have hloop : scr_xloop test dpr dpru (n + 1) (scr_state_x dpr dpru p0 res k)
          = scr_xloop test dpr dpru n (scr_state_x dpr dpru p0 res (k + 1)) := by
        rw [scr_xloop, hstep]
      rw [hloop]
      rcases ih (k + 1) with ⟨hall, hres⟩ | ⟨j, hj1, hj2, hall, hhit, hret⟩
      · left
        refine ⟨fun j h1 h2 => ?_, ?_⟩
        · by_cases hj : j = k + 1
          · rw [hj]; exact ht
          · exact hall j (by omega) (by omega)
        · rw [hres]
          have : k + 1 + n = k + (n + 1) := by omega
          rw [this]
      · right
        refine ⟨j, by omega, by omega, fun i h1 h2 => ?_, hhit, hret⟩
        by_cases hi : i = k + 1
        · rw [hi]; exact ht
        · exact hall i (by omega) h2
    · right
      obtain ⟨r, hr⟩ := scr_xstep_hit test dpr dpru p0 res k ht
      refine ⟨k, le_refl k, by omega, fun i h1 h2 => absurd h2 (by omega), ht, ?_⟩
      rw [scr_xloop, hr]
theorem scr_ystep_clear (test : Int → Int → Int) (dpr dpru p0 : Int) (res : sprite_collision)
    (k : Nat)
    (ht : test (trace_pt_y res.dir dpr dpru p0 (k + 1)).x
      (trace_pt_y res.dir dpr dpru p0 (k + 1)).y = 0) :
    scr_ystep test dpr dpru (scr_state_y dpr dpru p0 res k)
      = scr_step.cont (scr_state_y dpr dpru p0 res (k + 1)) := by
  rw [trace_pt_y_succ] at ht
  simp only at ht
  unfold scr_ystep
  simp only [scr_state_y]
  rw [if_neg (by simpa using ht)]
  rw [trace_pt_y_succ]
  simp only [bres_p]
  by_cases hq : bres_p dpr dpru p0 k > 0 <;> simp [hq]

theorem scr_ystep_hit (test : Int → Int → Int) (dpr dpru p0 : Int) (res : sprite_collision)
    (k : Nat)
    (ht : test (trace_pt_y res.dir dpr dpru p0 (k + 1)).x
      (trace_pt_y res.dir dpr dpru p0 (k + 1)).y ≠ 0) :
    ∃ r, scr_ystep test dpr dpru (scr_state_y dpr dpru p0 res k) = scr_step.ret r := by
  rw [trace_pt_y_succ] at ht
  simp only at ht
  unfold scr_ystep
  simp only [scr_state_y]
  rw [if_pos ht]
  split_ifs <;> exact ⟨_, rfl⟩

theorem scr_yloop_trace (test : Int → Int → Int) (dpr dpru p0 : Int) (res : sprite_collision)
    (n : Nat) : ∀ k : Nat,
    ((∀ j, k < j → j ≤ k + n → trace_hit_y test res.dir dpr dpru p0 j = 0)
        ∧ scr_yloop test dpr dpru n (scr_state_y dpr dpru p0 res k)
            = (scr_state_y dpr dpru p0 res (k + n)).res)
    ∨ (∃ j, k ≤ j ∧ j < k + n
        ∧ (∀ i, k < i → i ≤ j → trace_hit_y test res.dir dpr dpru p0 i = 0)
        ∧ trace_hit_y test res.dir dpr dpru p0 (j + 1) ≠ 0
        ∧ scr_ystep test dpr dpru (scr_state_y dpr dpru p0 res j)
            = scr_step.ret (scr_yloop test dpr dpru n (scr_state_y dpr dpru p0 res k))) := by
  induction n with
  | zero =>
    intro k
    left
    exact ⟨fun j h1 h2 => absurd h2 (by omega), rfl⟩
  | succ n ih =>
    intro k
    by_cases ht : trace_hit_y test res.dir dpr dpru p0 (k + 1) = 0
    · have hstep := scr_ystep_clear test dpr dpru p0 res k ht
      have hloop : scr_yloop test dpr dpru (n + 1) (scr_state_y dpr dpru p0 res k)
          = scr_yloop test dpr dpru n (scr_state_y dpr dpru p0 res (k + 1)) := by
        rw [scr_yloop, hstep]
      rw [hloop]
      rcases ih (k + 1) with ⟨hall, hres⟩ | ⟨j, hj1, hj2, hall, hhit, hret⟩
      · left
        refine ⟨fun j h1 h2 => ?_, ?_⟩
        · by_cases hj : j = k + 1
          · rw [hj]; exact ht
          · exact hall j (by omega) (by omega)
        · rw [hres]
          have : k + 1 + n = k + (n + 1) := by omega
          rw [this]
      · right
        refine ⟨j, by omega, by omega, fun i h1 h2 => ?_, hhit, hret⟩
        by_cases hi : i = k + 1
        · rw [hi]; exact ht
        · exact hall i (by omega) h2
    · right
      obtain ⟨r, hr⟩ := scr_ystep_hit test dpr dpru p0 res k ht
      refine ⟨k, le_refl k, by omega, fun i h1 h2 => absurd h2 (by omega), ht, ?_⟩
      rw [scr_yloop, hr]
/-! ## The pixel tests return 0 or 1 -/

theorem pixel_region_test_bool (fr : frame) (rect : box) :
    pixel_region_test fr rect = 0 ∨ pixel_region_test fr rect = 1 := by
  have hrows : ∀ (mask : List Nat) (w len : Int) (n : Nat) (ptr : Int),
      pixel_region_rows mask w len n ptr = 0 ∨ pixel_region_rows mask w len n ptr = 1 := by
    intro mask w len n
    induction n with
    | zero => intro _; left; rfl
    | succ n ih =>
      intro ptr
      unfold pixel_region_rows
      split_ifs
      · right; rfl
      · exact ih _
  unfold pixel_region_test
  cases fr.mask with
  | none => left; rfl
  | some mask =>
    simp only
    split
    · left; rfl
    · exact hrows _ _ _ _ _

theorem pixel_region_test_scaled_bool (fr : frame) (span : dimensions) (rect : box) :
    pixel_region_test_scaled fr span rect = 0 ∨ pixel_region_test_scaled fr span rect = 1 := by
  have hrows : ∀ (mask : List Nat) (w len scanx incx incy : Int) (n : Nat) (scany ptr : Int),
      pixel_region_rows_scaled mask w len scanx incx incy n scany ptr = 0
        ∨ pixel_region_rows_scaled mask w len scanx incx incy n scany ptr = 1 := by
    intro mask w len scanx incx incy n
    induction n with
    | zero => intro _ _; left; rfl
    | succ n ih =>
      intro scany ptr
      unfold pixel_region_rows_scaled
      simp only
      split_ifs
      · right; rfl
      · exact ih _ _
      · exact ih _ _
  unfold pixel_region_test_scaled
  cases fr.mask with
  | none => left; rfl
  | some mask =>
    simp only
    split
    · left; rfl
    · split
      · left; rfl
      · exact hrows _ _ _ _ _ _ _ _ _

theorem pixel_intersect_test_bool (sfr : frame) (sbox : box) (tfr : frame) (tbox : box) :
    pixel_intersect_test sfr sbox tfr tbox = 0 ∨ pixel_intersect_test sfr sbox tfr tbox = 1 := by
  have hrows : ∀ (smask tmask : List Nat) (sw tw len : Int) (n : Nat) (sptr tptr : Int),
      pixel_intersect_rows smask tmask sw tw len n sptr tptr = 0
        ∨ pixel_intersect_rows smask tmask sw tw len n sptr tptr = 1 := by
    intro smask tmask sw tw len n
    induction n with
    | zero => intro _ _; left; rfl
    | succ n ih =>
      intro sptr tptr
      unfold pixel_intersect_rows
      split_ifs
      · right; rfl
      · exact ih _ _
  unfold pixel_intersect_test
  cases sfr.mask with
  | none => left; rfl
  | some smask =>
    cases tfr.mask with
    | none => left; rfl
    | some tmask => exact hrows _ _ _ _ _ _ _ _

theorem pixel_intersect_test_scaled_bool (indet : Int) (hind : indet = 0 ∨ indet = 1)
    (sfr : frame) (sspan : dimensions) (sbox : box) (tfr : frame) (tspan : dimensions)
    (tbox : box) :
    pixel_intersect_test_scaled indet sfr sspan sbox tfr tspan tbox = 0
      ∨ pixel_intersect_test_scaled indet sfr sspan sbox tfr tspan tbox = 1 := by
  have hrows : ∀ (smask tmask : List Nat) (sw tw len a b c d e f : Int) (n : Nat)
      (sscany sptr tscany tptr : Int),
      pixel_intersect_rows_scaled smask tmask sw tw len a b c d e f n sscany sptr tscany tptr = 0
        ∨ pixel_intersect_rows_scaled smask tmask sw tw len a b c d e f n sscany sptr tscany tptr
            = 1 := by
    intro smask tmask sw tw len a b c d e f n
    induction n with
    | zero => intro _ _ _ _; left; rfl
    | succ n ih =>
      intro sscany sptr tscany tptr
      unfold pixel_intersect_rows_scaled
      simp only
      split
      · right; rfl
      · exact ih _ _ _ _
  unfold pixel_intersect_test_scaled
  cases sfr.mask with
  | none => left; rfl
  | some smask =>
    cases tfr.mask with
    | none => left; rfl
    | some tmask =>
      simp only
      split
      · exact hind
      · exact hrows _ _ _ _ _ _ _ _ _ _ _ _ _ _ _ _

/-- The sprite overlap test returns 0 or 1, provided the value-less `return;`
of the scaled intersection hands back 0 or 1. -/
theorem sprite_sprite_test_bool (indet : Int) (hind : indet = 0 ∨ indet = 1) (s : sprite)
    (x y : Int) (tgt : sprite) :
    sprite_sprite_test indet s x y tgt = 0 ∨ sprite_sprite_test indet s x y tgt = 1 := by
  unfold sprite_sprite_test
  simp only
  split_ifs
  · left; rfl
  · right; rfl
  · exact pixel_region_test_scaled_bool _ _ _
  · exact pixel_region_test_bool _ _
  · exact pixel_region_test_scaled_bool _ _ _
  · exact pixel_region_test_bool _ _
  · exact pixel_intersect_test_scaled_bool indet hind _ _ _ _ _ _
  · exact pixel_intersect_test_bool _ _ _ _
theorem sign_eq_zero_iff (a : Int) : sign a = 0 ↔ a = 0 := by
  constructor
  · intro h
    unfold sign at h
    split_ifs at h <;> omega
  · intro h
    subst h
    rfl

theorem iabs_eq_zero_iff (a : Int) : iabs a = 0 ↔ a = 0 := by
  unfold iabs; split_ifs <;> constructor <;> intro h <;> omega

/-- What a contact step of the x-dominant sprite trace returns: mode InMotion
and the narrowed direction. -/
theorem scr_xstep_dir (T : Int → Int → Int) (hb : ∀ x y, T x y = 0 ∨ T x y = 1)
    (dpr dpru : Int) (st : scr_state)
    (hc : T (st.ofs.x + st.res.dir.x)
      (if st.p > 0 then st.ofs.y + st.res.dir.y else st.ofs.y) ≠ 0) :
    ∃ d, scr_xstep T dpr dpru st = scr_step.ret { st.res with mode := COLLISION_INMOTION, dir := d }
      ∧ (st.p > 0 ∧ st.res.dir.y ≠ 0 →
          (T (st.ofs.x + st.res.dir.x) st.ofs.y ≠ 0 ∧ T st.ofs.x (st.ofs.y + st.res.dir.y) = 0 →
            d = ⟨st.res.dir.x, 0⟩)
          ∧ (T st.ofs.x (st.ofs.y + st.res.dir.y) ≠ 0 ∧ T (st.ofs.x + st.res.dir.x) st.ofs.y = 0 →
            d = ⟨0, st.res.dir.y⟩)
          ∧ ((T (st.ofs.x + st.res.dir.x) st.ofs.y ≠ 0
                ↔ T st.ofs.x (st.ofs.y + st.res.dir.y) ≠ 0) → d = st.res.dir))
      ∧ (¬ (st.p > 0 ∧ st.res.dir.y ≠ 0) → d = ⟨st.res.dir.x, 0⟩) := by
  have e1 : st.ofs.x + st.res.dir.x - st.res.dir.x = st.ofs.x := by ring
  have e2 : st.ofs.y + st.res.dir.y - st.res.dir.y = st.ofs.y := by ring
  by_cases hd : st.p > 0 ∧ st.res.dir.y ≠ 0
  · obtain ⟨hp, hy⟩ := hd
    rw [if_pos hp] at hc
    have hstep : scr_xstep T dpr dpru st =
        if -T st.ofs.x (st.ofs.y + st.res.dir.y) + T (st.ofs.x + st.res.dir.x) st.ofs.y < 0 then
          scr_step.ret { st.res with mode := COLLISION_INMOTION, dir := ⟨0, st.res.dir.y⟩ }
        else if -T st.ofs.x (st.ofs.y + st.res.dir.y) + T (st.ofs.x + st.res.dir.x) st.ofs.y > 0
        then scr_step.ret { st.res with mode := COLLISION_INMOTION, dir := ⟨st.res.dir.x, 0⟩ }
        else scr_step.ret { st.res with mode := COLLISION_INMOTION, dir := st.res.dir } := by
      unfold scr_xstep
      simp only [hp, if_true, if_pos hc, hy, ne_eq, not_false_eq_true, e1, e2]
    rw [hstep]
    rcases hb (st.ofs.x + st.res.dir.x) st.ofs.y with hA | hA <;>
      rcases hb st.ofs.x (st.ofs.y + st.res.dir.y) with hB | hB
    · exact ⟨st.res.dir, by simp [hA, hB], by simp [hA, hB, hp, hy]⟩
    · exact ⟨⟨0, st.res.dir.y⟩, by simp [hA, hB], by simp [hA, hB, hp, hy]⟩
    · exact ⟨⟨st.res.dir.x, 0⟩, by simp [hA, hB], by simp [hA, hB, hp, hy]⟩
    · exact ⟨st.res.dir, by simp [hA, hB], by simp [hA, hB, hp, hy]⟩
  · have hmot : (if st.p > 0 then st.res.dir.y else 0) = 0 := by
      by_cases hp : st.p > 0
      · rw [if_pos hp]; by_contra h; exact hd ⟨hp, h⟩
      · rw [if_neg hp]
    refine ⟨⟨st.res.dir.x, 0⟩, ?_, fun h => absurd h hd, fun _ => rfl⟩
    unfold scr_xstep
    simp only [hmot, if_pos hc, ne_eq, not_true_eq_false, if_false]

/-- What a contact step of the y-dominant sprite trace returns. -/
theorem scr_ystep_dir (T : Int → Int → Int) (hb : ∀ x y, T x y = 0 ∨ T x y = 1)
    (dpr dpru : Int) (st : scr_state)
    (hc : T (if st.p > 0 then st.ofs.x + st.res.dir.x else st.ofs.x)
      (st.ofs.y + st.res.dir.y) ≠ 0) :
    ∃ d, scr_ystep T dpr dpru st = scr_step.ret { st.res with mode := COLLISION_INMOTION, dir := d }
      ∧ (st.p > 0 ∧ st.res.dir.x ≠ 0 →
          (T (st.ofs.x + st.res.dir.x) st.ofs.y ≠ 0 ∧ T st.ofs.x (st.ofs.y + st.res.dir.y) = 0 →
            d = ⟨st.res.dir.x, 0⟩)
          ∧ (T st.ofs.x (st.ofs.y + st.res.dir.y) ≠ 0 ∧ T (st.ofs.x + st.res.dir.x) st.ofs.y = 0 →
            d = ⟨0, st.res.dir.y⟩)
          ∧ ((T (st.ofs.x + st.res.dir.x) st.ofs.y ≠ 0
                ↔ T st.ofs.x (st.ofs.y + st.res.dir.y) ≠ 0) → d = st.res.dir))
      ∧ (¬ (st.p > 0 ∧ st.res.dir.x ≠ 0) → d = ⟨0, st.res.dir.y⟩) := by
  have e1 : st.ofs.x + st.res.dir.x - st.res.dir.x = st.ofs.x := by ring
  have e2 : st.ofs.y + st.res.dir.y - st.res.dir.y = st.ofs.y := by ring
  by_cases hd : st.p > 0 ∧ st.res.dir.x ≠ 0
  · obtain ⟨hp, hx⟩ := hd
    rw [if_pos hp] at hc
    have hstep : scr_ystep T dpr dpru st =
        if -T (st.ofs.x + st.res.dir.x) st.ofs.y + T st.ofs.x (st.ofs.y + st.res.dir.y) < 0 then
          scr_step.ret { st.res with mode := COLLISION_INMOTION, dir := ⟨st.res.dir.x, 0⟩ }
        else if -T (st.ofs.x + st.res.dir.x) st.ofs.y + T st.ofs.x (st.ofs.y + st.res.dir.y) > 0
        then scr_step.ret { st.res with mode := COLLISION_INMOTION, dir := ⟨0, st.res.dir.y⟩ }
        else scr_step.ret { st.res with mode := COLLISION_INMOTION, dir := st.res.dir } := by
      unfold scr_ystep
      simp only [hp, if_true, if_pos hc, hx, ne_eq, not_false_eq_true, e1, e2]
    rw [hstep]
    rcases hb (st.ofs.x + st.res.dir.x) st.ofs.y with hA | hA <;>
      rcases hb st.ofs.x (st.ofs.y + st.res.dir.y) with hB | hB
    · exact ⟨st.res.dir, by simp [hA, hB], by simp [hA, hB, hp, hx]⟩
    · exact ⟨⟨0, st.res.dir.y⟩, by simp [hA, hB], by simp [hA, hB, hp, hx]⟩
    · exact ⟨⟨st.res.dir.x, 0⟩, by simp [hA, hB], by simp [hA, hB, hp, hx]⟩
    · exact ⟨st.res.dir, by simp [hA, hB], by simp [hA, hB, hp, hx]⟩
  · have hmot : (if st.p > 0 then st.res.dir.x else 0) = 0 := by
      by_cases hp : st.p > 0
      · rw [if_pos hp]; by_contra h; exact hd ⟨hp, h⟩
      · rw [if_neg hp]
    refine ⟨⟨0, st.res.dir.y⟩, ?_, fun h => absurd h hd, fun _ => rfl⟩
    unfold scr_ystep
    simp only [hmot, if_pos hc, ne_eq, not_true_eq_false, if_false]
theorem scr_xloop_contact (T : Int → Int → Int) (hb : ∀ x y, T x y = 0 ∨ T x y = 1)
    (dpr dpru p0 : Int) (res : sprite_collision) (n j : Nat) (hj : j < n)
    (hclear : ∀ i, 0 < i → i ≤ j → trace_hit_x T res.dir dpr dpru p0 i = 0)
    (hhit : trace_hit_x T res.dir dpr dpru p0 (j + 1) ≠ 0) :
    ∃ d, scr_xloop T dpr dpru n (scr_state_x dpr dpru p0 res 0)
        = { res with mode := COLLISION_INMOTION, stop := trace_pt_x res.dir dpr dpru p0 j,
                     dir := d }
      ∧ (bres_p dpr dpru p0 j > 0 ∧ res.dir.y ≠ 0 →
          (T ((trace_pt_x res.dir dpr dpru p0 j).x + res.dir.x) (trace_pt_x res.dir dpr dpru p0 j).y
              ≠ 0
            ∧ T (trace_pt_x res.dir dpr dpru p0 j).x
              ((trace_pt_x res.dir dpr dpru p0 j).y + res.dir.y) = 0 → d = ⟨res.dir.x, 0⟩)
          ∧ (T (trace_pt_x res.dir dpr dpru p0 j).x
              ((trace_pt_x res.dir dpr dpru p0 j).y + res.dir.y) ≠ 0
            ∧ T ((trace_pt_x res.dir dpr dpru p0 j).x + res.dir.x)
              (trace_pt_x res.dir dpr dpru p0 j).y = 0 → d = ⟨0, res.dir.y⟩)
          ∧ ((T ((trace_pt_x res.dir dpr dpru p0 j).x + res.dir.x)
                (trace_pt_x res.dir dpr dpru p0 j).y ≠ 0
              ↔ T (trace_pt_x res.dir dpr dpru p0 j).x
                ((trace_pt_x res.dir dpr dpru p0 j).y + res.dir.y) ≠ 0) → d = res.dir))
      ∧ (¬ (bres_p dpr dpru p0 j > 0 ∧ res.dir.y ≠ 0) → d = ⟨res.dir.x, 0⟩) := by
  rcases scr_xloop_trace T dpr dpru p0 res n 0 with ⟨hall, _⟩ | ⟨j1, _, hj2, hall, hhit1, hret⟩
  · exact absurd (hall (j + 1) (by omega) (by omega)) hhit
  · have hjj : j1 = j := by
      rcases Nat.lt_trichotomy j1 j with h | h | h
      · exact absurd (hclear (j1 + 1) (by omega) (by omega)) hhit1
      · exact h
      · exact absurd (hall (j + 1) (by omega) (by omega)) hhit
    subst hjj
    have hc : T ((scr_state_x dpr dpru p0 res j1).ofs.x + (scr_state_x dpr dpru p0 res j1).res.dir.x)
        (if (scr_state_x dpr dpru p0 res j1).p > 0 then
          (scr_state_x dpr dpru p0 res j1).ofs.y + (scr_state_x dpr dpru p0 res j1).res.dir.y
         else (scr_state_x dpr dpru p0 res j1).ofs.y) ≠ 0 := by
      have := hhit1
      unfold trace_hit_x at this
      rw [trace_pt_x_succ] at this
      exact this
    obtain ⟨d, hd, hdiag, hstr⟩ := scr_xstep_dir T hb dpr dpru _ hc
    refine ⟨d, ?_, hdiag, hstr⟩
    rw [hd] at hret
    exact (scr_step.ret.inj hret).symm

theorem scr_yloop_contact (T : Int → Int → Int) (hb : ∀ x y, T x y = 0 ∨ T x y = 1)
    (dpr dpru p0 : Int) (res : sprite_collision) (n j : Nat) (hj : j < n)
    (hclear : ∀ i, 0 < i → i ≤ j → trace_hit_y T res.dir dpr dpru p0 i = 0)
    (hhit : trace_hit_y T res.dir dpr dpru p0 (j + 1) ≠ 0) :
    ∃ d, scr_yloop T dpr dpru n (scr_state_y dpr dpru p0 res 0)
        = { res with mode := COLLISION_INMOTION, stop := trace_pt_y res.dir dpr dpru p0 j,
                     dir := d }
      ∧ (bres_p dpr dpru p0 j > 0 ∧ res.dir.x ≠ 0 →
          (T ((trace_pt_y res.dir dpr dpru p0 j).x + res.dir.x) (trace_pt_y res.dir dpr dpru p0 j).y
              ≠ 0
            ∧ T (trace_pt_y res.dir dpr dpru p0 j).x
              ((trace_pt_y res.dir dpr dpru p0 j).y + res.dir.y) = 0 → d = ⟨res.dir.x, 0⟩)
          ∧ (T (trace_pt_y res.dir dpr dpru p0 j).x
              ((trace_pt_y res.dir dpr dpru p0 j).y + res.dir.y) ≠ 0
            ∧ T ((trace_pt_y res.dir dpr dpru p0 j).x + res.dir.x)
              (trace_pt_y res.dir dpr dpru p0 j).y = 0 → d = ⟨0, res.dir.y⟩)
          ∧ ((T ((trace_pt_y res.dir dpr dpru p0 j).x + res.dir.x)
                (trace_pt_y res.dir dpr dpru p0 j).y ≠ 0
              ↔ T (trace_pt_y res.dir dpr dpru p0 j).x
                ((trace_pt_y res.dir dpr dpru p0 j).y + res.dir.y) ≠ 0) → d = res.dir))
      ∧ (¬ (bres_p dpr dpru p0 j > 0 ∧ res.dir.x ≠ 0) → d = ⟨0, res.dir.y⟩) := by
  rcases scr_yloop_trace T dpr dpru p0 res n 0 with ⟨hall, _⟩ | ⟨j1, _, hj2, hall, hhit1, hret⟩
  · exact absurd (hall (j + 1) (by omega) (by omega)) hhit
  · have hjj : j1 = j := by
      rcases Nat.lt_trichotomy j1 j with h | h | h
      · exact absurd (hclear (j1 + 1) (by omega) (by omega)) hhit1
      · exact h
      · exact absurd (hall (j + 1) (by omega) (by omega)) hhit
    subst hjj
    have hc : T (if (scr_state_y dpr dpru p0 res j1).p > 0 then
          (scr_state_y dpr dpru p0 res j1).ofs.x + (scr_state_y dpr dpru p0 res j1).res.dir.x
         else (scr_state_y dpr dpru p0 res j1).ofs.x)
        ((scr_state_y dpr dpru p0 res j1).ofs.y + (scr_state_y dpr dpru p0 res j1).res.dir.y)
        ≠ 0 := by
      have := hhit1
      unfold trace_hit_y at this
      rw [trace_pt_y_succ] at this
      exact this
    obtain ⟨d, hd, hdiag, hstr⟩ := scr_ystep_dir T hb dpr dpru _ hc
    refine ⟨d, ?_, hdiag, hstr⟩
    rw [hd] at hret
    exact (scr_step.ret.inj hret).symm

/-- C9 (the code at the failing input): A stands still with bounds box 0..15,
B has bounds box 20..35 and moves left by 10.  B's box extended by its velocity
reaches pixel 10 and overlaps A's, so the sweep test of the specification accepts
the pair; `sprite_sweep_test` extends only the first sprite's box and rejects
it, and `sprite_collision_with_result` reports Never. -/
theorem c9_sweep_ignores_target_velocity :
    sweep_test_spec (ex_sprite ⟨0, 0⟩ ⟨0, 0⟩) (ex_sprite ⟨20, 0⟩ ⟨-10, 0⟩) = true
    ∧ sprite_sweep_test (ex_sprite ⟨0, 0⟩ ⟨0, 0⟩) (ex_sprite ⟨20, 0⟩ ⟨-10, 0⟩) = 0
    ∧ (sprite_collision_with_result 0 (ex_sprite ⟨0, 0⟩ ⟨0, 0⟩) (ex_sprite ⟨20, 0⟩ ⟨-10, 0⟩)
        ⟨0, ⟨0, 0⟩, ⟨0, 0⟩, none⟩).mode = COLLISION_NEVER := by
  decide

/-- C10: in the sprite-vs-sprite trace along the relative velocity `rel`, let the
first contact happen on the step from the line point `a` to the line point `b`
(`T` is the overlap test of the pair, and the value-less return of the scaled
intersection is taken to hand back 0 or 1).  Then the result has mode InMotion
and `stop = a`, and its `dir` is: on a step that moved on both axes, `(sx, 0)`
if the sprites overlap at the X-only position `(b.x, a.y)` but not at the Y-only
position `(a.x, b.y)`, `(0, sy)` if they overlap at the Y-only but not at the
X-only position, and `(sx, sy)` if both or neither overlaps; on a step that moved
on x only, `(sx, 0)`; on a step that moved on y only, `(0, sy)`.  The statement
is the same for the x-dominant and the y-dominant branch. -/
theorem c10_contact_direction (indet : Int) (hind : indet = 0 ∨ indet = 1)
    (spr tgt : sprite) (res : sprite_collision)
    (T : Int → Int → Int) (hT : T = fun x y => sprite_sprite_test indet spr x y tgt)
    (rel : vector) (hrel : rel = ⟨spr.vel.x - tgt.vel.x, spr.vel.y - tgt.vel.y⟩)
    (htgt : ¬ (tgt.collides = COLLISION_OFF ∨ tgt.frame_ct = 0 ∨ tgt.cur_frame < 0))
    (hsweep : sprite_sweep_test spr tgt ≠ 0)
    (j : Nat) (hj : j < trace_len rel)
    (a b : point) (ha : a = trace_point rel j) (hb : b = trace_point rel (j + 1))
    (hclear : ∀ i, i ≤ j → T (trace_point rel i).x (trace_point rel i).y = 0)
    (hhit : T b.x b.y ≠ 0) :
    (sprite_collision_with_result indet spr tgt res).mode = COLLISION_INMOTION
    ∧ (sprite_collision_with_result indet spr tgt res).stop = a
    ∧ (b.x ≠ a.x ∧ b.y ≠ a.y →
        (T b.x a.y ≠ 0 ∧ T a.x b.y = 0 →
          (sprite_collision_with_result indet spr tgt res).dir = ⟨sign rel.x, 0⟩)
        ∧ (T a.x b.y ≠ 0 ∧ T b.x a.y = 0 →
          (sprite_collision_with_result indet spr tgt res).dir = ⟨0, sign rel.y⟩)
        ∧ ((T b.x a.y ≠ 0 ↔ T a.x b.y ≠ 0) →
          (sprite_collision_with_result indet spr tgt res).dir = ⟨sign rel.x, sign rel.y⟩))
    ∧ (b.y = a.y → (sprite_collision_with_result indet spr tgt res).dir = ⟨sign rel.x, 0⟩)
    ∧ (b.x = a.x → (sprite_collision_with_result indet spr tgt res).dir = ⟨0, sign rel.y⟩) := by
  have hbool : ∀ x y, T x y = 0 ∨ T x y = 1 := by
    intro x y; rw [hT]; exact sprite_sprite_test_bool indet hind spr x y tgt
  have h0 : sprite_sprite_test indet spr 0 0 tgt = 0 := by
    have := hclear 0 (Nat.zero_le _)
    rw [trace_point_zero, hT] at this
    exact this
  have hr : sprite_collision_with_result indet spr tgt res
      = scr_trace T rel { res with mode := COLLISION_NEVER, stop := ⟨0, 0⟩, dir := ⟨0, 0⟩ } := by
    unfold sprite_collision_with_result
    rw [if_neg htgt]
    simp only
    rw [if_neg hsweep, if_neg (not_not.mpr h0), hT, hrel]
  rw [hr]
  clear hr h0 hsweep htgt hT hrel hind
  have hax := iabs_nonneg rel.x
  have hay := iabs_nonneg rel.y
  unfold trace_len at hj
  unfold trace_point at ha hb hclear
  unfold scr_trace
  simp only
  by_cases h : iabs rel.x ≥ iabs rel.y
  · rw [if_pos h] at hj ha hb
    simp only [if_pos h] at hclear
    rw [if_pos h]
    have hdx : 0 < iabs rel.x := by
      have := Int.toNat_of_nonneg hax
      omega
    have hsx : sign rel.x ≠ 0 := by
      intro h0
      have := (sign_eq_zero_iff rel.x).mp h0
      rw [this] at hdx
      exact absurd hdx (by decide)
    have hstart : (⟨⟨0, 0⟩, iabs rel.y * 2 - iabs rel.x,
        { res with mode := COLLISION_NEVER, stop := ⟨0, 0⟩, dir := ⟨sign rel.x, sign rel.y⟩ }⟩
          : scr_state)
        = scr_state_x (iabs rel.y * 2) (iabs rel.y * 2 - iabs rel.x * 2)
            (iabs rel.y * 2 - iabs rel.x)
            { res with mode := COLLISION_NEVER, stop := ⟨0, 0⟩,
                       dir := ⟨sign rel.x, sign rel.y⟩ } 0 := by
      simp [scr_state_x, trace_pt_x, bres_p, bres_c]
    rw [hstart]
    obtain ⟨d, hloop, hdiag, hstr⟩ := scr_xloop_contact T hbool (iabs rel.y * 2)
      (iabs rel.y * 2 - iabs rel.x * 2) (iabs rel.y * 2 - iabs rel.x)
      { res with mode := COLLISION_NEVER, stop := ⟨0, 0⟩, dir := ⟨sign rel.x, sign rel.y⟩ }
      (iabs rel.x).toNat j hj
      (fun i _ hi => hclear i hi)
      (by unfold trace_hit_x; rw [← hb]; exact hhit)
    rw [hloop]
    simp only at hdiag hstr ⊢
    rw [← ha] at hdiag
    rw [trace_pt_x_succ, ← ha] at hb
    have hbx : b.x = a.x + sign rel.x := by rw [hb]
    have hby : b.y = if bres_p (iabs rel.y * 2) (iabs rel.y * 2 - iabs rel.x * 2)
        (iabs rel.y * 2 - iabs rel.x) j > 0 then a.y + sign rel.y else a.y := by rw [hb]
    refine ⟨trivial, ha.symm, fun hd => ?_, fun hy => ?_, fun hx => ?_⟩
    · have hpy : bres_p (iabs rel.y * 2) (iabs rel.y * 2 - iabs rel.x * 2)
          (iabs rel.y * 2 - iabs rel.x) j > 0 ∧ sign rel.y ≠ 0 := by
        by_cases hp : bres_p (iabs rel.y * 2) (iabs rel.y * 2 - iabs rel.x * 2)
            (iabs rel.y * 2 - iabs rel.x) j > 0
        · rw [if_pos hp] at hby
          refine ⟨hp, fun h0 => hd.2 ?_⟩
          rw [hby, h0]; ring
        · rw [if_neg hp] at hby
          exact absurd hby hd.2
      rw [if_pos hpy.1] at hby
      have := hdiag hpy
      rw [← hbx, ← hby] at this
      exact this
    · apply hstr
      rintro ⟨hp, hsy⟩
      rw [if_pos hp] at hby
      apply hsy
      omega
    · exfalso
      apply hsx
      omega
  · rw [if_neg h] at hj ha hb
    simp only [if_neg h] at hclear
    rw [if_neg h]
    have hdy : 0 < iabs rel.y := by omega
    have hsy : sign rel.y ≠ 0 := by
      intro h0
      have := (sign_eq_zero_iff rel.y).mp h0
      rw [this] at hdy
      exact absurd hdy (by decide)
    have hstart : (⟨⟨0, 0⟩, iabs rel.x * 2 - iabs rel.y,
        { res with mode := COLLISION_NEVER, stop := ⟨0, 0⟩, dir := ⟨sign rel.x, sign rel.y⟩ }⟩
          : scr_state)
        = scr_state_y (iabs rel.x * 2) (iabs rel.x * 2 - iabs rel.y * 2)
            (iabs rel.x * 2 - iabs rel.y)
            { res with mode := COLLISION_NEVER, stop := ⟨0, 0⟩,
                       dir := ⟨sign rel.x, sign rel.y⟩ } 0 := by
      simp [scr_state_y, trace_pt_y, bres_p, bres_c]
    rw [hstart]
    obtain ⟨d, hloop, hdiag, hstr⟩ := scr_yloop_contact T hbool (iabs rel.x * 2)
      (iabs rel.x * 2 - iabs rel.y * 2) (iabs rel.x * 2 - iabs rel.y)
      { res with mode := COLLISION_NEVER, stop := ⟨0, 0⟩, dir := ⟨sign rel.x, sign rel.y⟩ }
      (iabs rel.y).toNat j hj
      (fun i _ hi => hclear i hi)
      (by unfold trace_hit_y; rw [← hb]; exact hhit)
    rw [hloop]
    simp only at hdiag hstr ⊢
    rw [← ha] at hdiag
    rw [trace_pt_y_succ, ← ha] at hb
    have hby : b.y = a.y + sign rel.y := by rw [hb]
    have hbx : b.x = if bres_p (iabs rel.x * 2) (iabs rel.x * 2 - iabs rel.y * 2)
        (iabs rel.x * 2 - iabs rel.y) j > 0 then a.x + sign rel.x else a.x := by rw [hb]
    refine ⟨trivial, ha.symm, fun hd => ?_, fun hy => ?_, fun hx => ?_⟩
    · have hpx : bres_p (iabs rel.x * 2) (iabs rel.x * 2 - iabs rel.y * 2)
          (iabs rel.x * 2 - iabs rel.y) j > 0 ∧ sign rel.x ≠ 0 := by
        by_cases hp : bres_p (iabs rel.x * 2) (iabs rel.x * 2 - iabs rel.y * 2)
            (iabs rel.x * 2 - iabs rel.y) j > 0
        · rw [if_pos hp] at hbx
          refine ⟨hp, fun h0 => hd.1 ?_⟩
          rw [hbx, h0]; ring
        · rw [if_neg hp] at hbx
          exact absurd hbx hd.1
      rw [if_pos hpx.1] at hbx
      have := hdiag hpx
      rw [← hbx, ← hby] at this
      exact this
    · exfalso
      apply hsy
      omega
    · apply hstr
      rintro ⟨hp, hsx⟩
      rw [if_pos hp] at hbx
      apply hsx
      omega
theorem c10_contact_direction_witness :
    (sprite_collision_with_result 0 (ex_sprite ⟨0, 0⟩ ⟨10, 7⟩) (ex_sprite ⟨20, 20⟩ ⟨0, 0⟩)
        ⟨0, ⟨0, 0⟩, ⟨0, 0⟩, none⟩).mode = COLLISION_INMOTION
    ∧ (sprite_collision_with_result 0 (ex_sprite ⟨0, 0⟩ ⟨10, 7⟩) (ex_sprite ⟨20, 20⟩ ⟨0, 0⟩)
        ⟨0, ⟨0, 0⟩, ⟨0, 0⟩, none⟩).stop = ⟨6, 4⟩
    ∧ (sprite_collision_with_result 0 (ex_sprite ⟨0, 0⟩ ⟨10, 7⟩) (ex_sprite ⟨20, 20⟩ ⟨0, 0⟩)
        ⟨0, ⟨0, 0⟩, ⟨0, 0⟩, none⟩).dir = ⟨0, sign 7⟩ :=
  have h := c10_contact_direction 0 (Or.inl rfl) (ex_sprite ⟨0, 0⟩ ⟨10, 7⟩)
    (ex_sprite ⟨20, 20⟩ ⟨0, 0⟩) ⟨0, ⟨0, 0⟩, ⟨0, 0⟩, none⟩
    (fun x y => sprite_sprite_test 0 (ex_sprite ⟨0, 0⟩ ⟨10, 7⟩) x y (ex_sprite ⟨20, 20⟩ ⟨0, 0⟩))
    rfl ⟨10, 7⟩ (by decide) (by decide) (by decide) 6 (by decide) ⟨6, 4⟩ ⟨7, 5⟩ (by decide)
    (by decide) (by decide) (by decide)
  ⟨h.1, h.2.1, (h.2.2.1 ⟨by decide, by decide⟩).2.1 ⟨by decide, by decide⟩⟩

/-! ## The motion-control assembler and interpreter on the example program -/

theorem c2_take (rest : List cell) :
    (c2_code ++ rest).take MAX_MCP_LENGTH = c2_code ++ rest.take 334 := rfl

theorem c2_fetch (tail : List cell) :
    (c2_code ++ tail).get? 0 = some (some 6) ∧ (c2_code ++ tail).get? 16 = some (some 54)
    ∧ (c2_code ++ tail).get? 32 = some (some 10) ∧ (c2_code ++ tail).get? 48 = some (some 0) :=
  ⟨rfl, rfl, rfl, rfl⟩

theorem c2_decode (tail : List cell) (a : arg) :
    decode (c2_code ++ tail) 1 a = some (⟨12, a.vptr, a.store⟩, 8)
    ∧ decode (c2_code ++ tail) 8 a = some (⟨1, a.vptr, ⟨some 5, a.store.hi⟩⟩, 16)
    ∧ decode (c2_code ++ tail) 17 a = some (⟨12, a.vptr, a.store⟩, 24)
    ∧ decode (c2_code ++ tail) 24 a = some (⟨1, a.vptr, ⟨some 10, a.store.hi⟩⟩, 32)
    ∧ decode (c2_code ++ tail) 33 a = some (⟨12, a.vptr, a.store⟩, 40)
    ∧ decode (c2_code ++ tail) 40 a = some (⟨1, a.vptr, ⟨some 1, a.store.hi⟩⟩, 48) :=
  ⟨rfl, rfl, rfl, rfl, rfl, rfl⟩


theorem bc_values :
    BC_EOC = 0 ∧ BC_SET = 6 ∧ BC_ADD = 10 ∧ BC_STC = 14 ∧ BC_TRK = 18 ∧ BC_AVG = 22
    ∧ BC_BEQ = 42 ∧ BC_BNE = 46 ∧ BC_BLT = 50 ∧ BC_BGT = 54 ∧ BC_BMP = 57 ∧ BC_BNM = 61
    ∧ BC_BST = 65 ∧ BC_BCS = 69 ∧ BC_BNC = 73 ∧ BC_COPY = 81 ∧ BC_LADD = 85 ∧ BC_LREM = 89
    ∧ BC_DEL = 92 ∧ BC_SND = 121 ∧ BC_LOADP = 161 ∧ BC_XCHGP = 165 := by
  decide

theorem c2_step1 (indet : Int) (w : world) (sp : Nat) (s : sprite) (tail : List cell)
    (a0 a1 : arg) (hsp : sp ≠ 0) (hs : w.sprites sp = some s) :
    vm_exec_inst indet (c2_code ++ tail) ⟨0, a0, a1, sp, w⟩
      = vm_step.next ⟨16, ⟨12, vref.var sp 12, a0.store⟩, ⟨1, vref.own, ⟨some 5, a1.store.hi⟩⟩, sp,
          w.set_sprite sp (some { s with vel := ⟨5, s.vel.y⟩ })⟩ := by
  have hf := c2_fetch tail
  have hd0 := c2_decode tail a0
  have hd1 := c2_decode tail a1
  obtain ⟨e0, e1, e2, e3, e4, e5, e6, e7, e8, e9, e10, e11, e12, e13, e14, e15, e16, e17, e18,
    e19, e20, e21⟩ := bc_values
  simp only [vm_exec_inst, hf.1]
  simp [hd0.1, hd1.2.1, setvptr, vm_action, e0, e1, e2, e3, e4, e5, e6, e7, e8, e9, e10, e11,
    e12, e13, e14, e15, e16, e17, e18, e19, e20, e21, ARG_IMM, ARG_VAR, ARG_PTR, ARG_XPOS,
    ARG_YPOS, ARG_XVEL, ARG_YVEL, ARG_FRAME, ARG_TICK, vm_read, store_val, vm_assign, vm_write0,
    world.sprite_at, hsp, hs, vm_adjust_frame, sprite_set_var, to_int32]

theorem c2_step2 (indet : Int) (w : world) (sp : Nat) (s : sprite) (tail : List cell)
    (a0 a1 : arg) (hsp : sp ≠ 0) (hs : w.sprites sp = some s) (hx : s.vel.x = 5) :
    vm_exec_inst indet (c2_code ++ tail) ⟨16, a0, a1, sp, w⟩
      = vm_step.next ⟨32, ⟨12, vref.var sp 12, a0.store⟩, ⟨1, vref.own, ⟨some 10, a1.store.hi⟩⟩,
          sp, w⟩ := by
  have hf := c2_fetch tail
  have hd0 := c2_decode tail a0
  have hd1 := c2_decode tail a1
  obtain ⟨e0, e1, e2, e3, e4, e5, e6, e7, e8, e9, e10, e11, e12, e13, e14, e15, e16, e17, e18,
    e19, e20, e21⟩ := bc_values
  simp only [vm_exec_inst, hf.2.1]
  simp [hd0.2.2.1, hd1.2.2.2.1, setvptr, vm_action, e0, e1, e2, e3, e4, e5, e6, e7, e8, e9, e10,
    e11, e12, e13, e14, e15, e16, e17, e18, e19, e20, e21, ARG_IMM, ARG_VAR, ARG_PTR, ARG_XPOS,
    ARG_YPOS, ARG_XVEL, ARG_YVEL, ARG_FRAME, ARG_TICK, vm_read, store_val, vm_assign, vm_write0,
    world.sprite_at, hsp, hs, vm_adjust_frame, sprite_set_var, sprite_get_var, to_int32, hx]

theorem c2_step3 (indet : Int) (w : world) (sp : Nat) (s : sprite) (tail : List cell)
    (a0 a1 : arg) (hsp : sp ≠ 0) (hs : w.sprites sp = some s) (hx : s.vel.x = 5) :
    vm_exec_inst indet (c2_code ++ tail) ⟨32, a0, a1, sp, w⟩
      = vm_step.next ⟨48, ⟨12, vref.var sp 12, a0.store⟩, ⟨1, vref.own, ⟨some 1, a1.store.hi⟩⟩,
          sp, w.set_sprite sp (some { s with vel := ⟨6, s.vel.y⟩ })⟩ := by
  have hf := c2_fetch tail
  have hd0 := c2_decode tail a0
  have hd1 := c2_decode tail a1
  obtain ⟨e0, e1, e2, e3, e4, e5, e6, e7, e8, e9, e10, e11, e12, e13, e14, e15, e16, e17, e18,
    e19, e20, e21⟩ := bc_values
  simp only [vm_exec_inst, hf.2.2.1]
  simp [hd0.2.2.2.2.1, hd1.2.2.2.2.2, setvptr, vm_action, e0, e1, e2, e3, e4, e5, e6, e7, e8, e9,
    e10, e11, e12, e13, e14, e15, e16, e17, e18, e19, e20, e21, ARG_IMM, ARG_VAR, ARG_PTR,
    ARG_XPOS, ARG_YPOS, ARG_XVEL, ARG_YVEL, ARG_FRAME, ARG_TICK, vm_read, store_val, vm_assign,
    vm_write0, world.sprite_at, hsp, hs, vm_adjust_frame, sprite_set_var, sprite_get_var,
    to_int32, hx]

theorem c2_step4 (indet : Int) (w : world) (sp : Nat) (tail : List cell) (a0 a1 : arg) :
    vm_exec_inst indet (c2_code ++ tail) ⟨48, a0, a1, sp, w⟩
      = vm_step.quit ⟨49, a0, a1, sp, w⟩ := by
  have hf := c2_fetch tail
  obtain ⟨e0, e1, e2, e3, e4, e5, e6, e7, e8, e9, e10, e11, e12, e13, e14, e15, e16, e17, e18,
    e19, e20, e21⟩ := bc_values
  simp only [vm_exec_inst, hf.2.2.2]
  simp [setvptr, vm_action, e0, e1, e2, e3, e4, e5, e6, e7, e8, e9,
    e10, e11, e12, e13, e14, e15, e16, e17, e18, e19, e20, e21]

theorem set_sprite_get (w : world) (p : Nat) (x : Option sprite) :
    (w.set_sprite p x).sprites p = x := by
  simp [world.set_sprite]

theorem set_sprite_set (w : world) (p : Nat) (x y : Option sprite) :
    (w.set_sprite p x).set_sprite p y = w.set_sprite p y := by
  simp only [world.set_sprite, world.mk.injEq, and_true, true_and]
  funext q
  by_cases h : q = p <;> simp [h]

theorem update_bound_cache_vel (s : sprite) :
    (update_bound_cache s).vel = s.vel ∧ (update_bound_cache s).motion = s.motion := by
  unfold update_bound_cache
  split <;> exact ⟨rfl, rfl⟩

theorem c2_run (indet : Int) (w : world) (sp : Nat) (s : sprite) (tail : List cell)
    (hsp : sp ≠ 0) (hs : w.sprites sp = some s)
    (hcode : s.motion.code = some (c2_code ++ tail)) :
    motion_exec_single indet w sp
      = outcome.ret (0, w.set_sprite sp (some (update_bound_cache
          { s with vel := ⟨6, s.vel.y⟩,
                   motion := { s.motion with tick := s.motion.tick + 1 } }))) := by
  unfold motion_exec_single
  rw [if_neg hsp]
  simp only [world.sprite_at, if_neg hsp, hs, hcode, c2_take]
  show vm_loop indet _ (381 + 1 + 1 + 1 + 1) _ = _
  rw [vm_loop, c2_step1 indet w sp s _ _ _ hsp hs]
  simp only
  rw [vm_loop, c2_step2 indet _ sp _ _ _ _ hsp (set_sprite_get _ _ _) rfl]
  simp only
  rw [vm_loop, c2_step3 indet _ sp _ _ _ _ hsp (set_sprite_get _ _ _) rfl]
  simp only
  rw [vm_loop, c2_step4]
  simp only [vm_quit, world.sprite_at, if_neg hsp, set_sprite_get, set_sprite_set, hcode]

theorem c2_parse (m : mcp) :
    parse_mcp (some c2_text) (some m)
      = outcome.ret (0, some ⟨some (c2_code
          ++ (m.code.getD (List.replicate MAX_MCP_LENGTH none)).drop 50), m.tick⟩) := by
  rfl

/-- C2: the text "set xvel, 5", "bgt xvel, 10", "add xvel, 1", "eoc" (one instruction a line)
assembles with result 0 into the motion-control program of a sprite, keeping its tick counter;
one run of `motion_exec_single` on that sprite then returns 0 and leaves the sprite with
x-velocity 6, the tick counter one higher, and position and y-velocity as they were (the
bounds cache is recomputed on the way out).  The x-velocity before the run is immaterial,
since the first instruction overwrites it; 0 is one case. -/
theorem c2_assemble_and_run (indet : Int) (w : world) (sp : Nat) (s : sprite)
    (hsp : sp ≠ 0) :
    ∃ m1 : mcp, parse_mcp (some c2_text) (some s.motion) = outcome.ret (0, some m1)
      ∧ m1.tick = s.motion.tick
      ∧ ∃ s1 : sprite,
          motion_exec_single indet (w.set_sprite sp (some { s with motion := m1 })) sp
            = outcome.ret (0, w.set_sprite sp (some s1))
          ∧ s1.vel.x = 6 ∧ s1.vel.y = s.vel.y ∧ s1.pos = s.pos
          ∧ s1.motion.tick = s.motion.tick + 1 ∧ s1.motion.code = m1.code
          ∧ s1 = update_bound_cache
              { s with vel := ⟨6, s.vel.y⟩, motion := { m1 with tick := m1.tick + 1 } } := by
  refine ⟨_, c2_parse s.motion, rfl, update_bound_cache
    { s with vel := ⟨6, s.vel.y⟩,
             motion := ⟨some (c2_code
               ++ (s.motion.code.getD (List.replicate MAX_MCP_LENGTH none)).drop 50),
               s.motion.tick + 1⟩ }, ?_, ?_⟩
  · rw [c2_run indet _ sp { s with motion := _ } _ hsp (set_sprite_get _ _ _) rfl,
      set_sprite_set]
  · have h := update_bound_cache_vel
      { s with vel := ⟨6, s.vel.y⟩,
               motion := ⟨some (c2_code
                 ++ (s.motion.code.getD (List.replicate MAX_MCP_LENGTH none)).drop 50),
                 s.motion.tick + 1⟩ }
    have hp : (update_bound_cache
      { s with vel := ⟨6, s.vel.y⟩,
               motion := ⟨some (c2_code
                 ++ (s.motion.code.getD (List.replicate MAX_MCP_LENGTH none)).drop 50),
                 s.motion.tick + 1⟩ }).pos = s.pos := by
      unfold update_bound_cache
      split <;> rfl
    exact ⟨by rw [h.1], by rw [h.1], hp, by rw [h.2], by rw [h.2], rfl⟩

theorem c2_assemble_and_run_witness :
    (4096 ≠ 0 ∧ c2_world.sprites 4096 = some (ex_sprite ⟨3, 4⟩ ⟨0, 9⟩)
      ∧ (ex_sprite ⟨3, 4⟩ ⟨0, 9⟩).vel.x = 0)
    ∧ ∃ m1 : mcp, parse_mcp (some c2_text) (some (ex_sprite ⟨3, 4⟩ ⟨0, 9⟩).motion)
          = outcome.ret (0, some m1)
      ∧ m1.tick = (ex_sprite ⟨3, 4⟩ ⟨0, 9⟩).motion.tick
      ∧ ∃ s1 : sprite,
          motion_exec_single 0
              (c2_world.set_sprite 4096 (some { ex_sprite ⟨3, 4⟩ ⟨0, 9⟩ with motion := m1 })) 4096
            = outcome.ret (0, c2_world.set_sprite 4096 (some s1))
          ∧ s1.vel.x = 6 ∧ s1.vel.y = (ex_sprite ⟨3, 4⟩ ⟨0, 9⟩).vel.y
          ∧ s1.pos = (ex_sprite ⟨3, 4⟩ ⟨0, 9⟩).pos
          ∧ s1.motion.tick = (ex_sprite ⟨3, 4⟩ ⟨0, 9⟩).motion.tick + 1
          ∧ s1.motion.code = m1.code
          ∧ s1 = update_bound_cache
              { ex_sprite ⟨3, 4⟩ ⟨0, 9⟩ with
                vel := ⟨6, (ex_sprite ⟨3, 4⟩ ⟨0, 9⟩).vel.y⟩,
                motion := { m1 with tick := m1.tick + 1 } } :=
  ⟨⟨by decide, rfl, rfl⟩, c2_assemble_and_run 0 c2_world 4096 (ex_sprite ⟨3, 4⟩ ⟨0, 9⟩)
    (by decide)⟩

/-! ## A sprite against a list of sprites -/

theorem scr_xstep_retarget (test : Int → Int → Int) (dpr dpru : Int) (st : scr_state)
    (x : Option Nat) :
    scr_xstep test dpr dpru ⟨st.ofs, st.p, { st.res with target := x }⟩
      = match scr_xstep test dpr dpru st with
        | scr_step.ret r => scr_step.ret { r with target := x }
        | scr_step.cont st1 => scr_step.cont ⟨st1.ofs, st1.p, { st1.res with target := x }⟩ := by
  unfold scr_xstep
  simp only
  split_ifs <;> rfl

theorem scr_ystep_retarget (test : Int → Int → Int) (dpr dpru : Int) (st : scr_state)
    (x : Option Nat) :
    scr_ystep test dpr dpru ⟨st.ofs, st.p, { st.res with target := x }⟩
      = match scr_ystep test dpr dpru st with
        | scr_step.ret r => scr_step.ret { r with target := x }
        | scr_step.cont st1 => scr_step.cont ⟨st1.ofs, st1.p, { st1.res with target := x }⟩ := by
  unfold scr_ystep
  simp only
  split_ifs <;> rfl

theorem scr_xloop_retarget (test : Int → Int → Int) (dpr dpru : Int) (x : Option Nat)
    (n : Nat) : ∀ st : scr_state,
    scr_xloop test dpr dpru n ⟨st.ofs, st.p, { st.res with target := x }⟩
      = { scr_xloop test dpr dpru n st with target := x } := by
  induction n with
  | zero => intro st; rfl
  | succ n ih =>
    intro st
    rw [scr_xloop, scr_xloop, scr_xstep_retarget]
    cases h : scr_xstep test dpr dpru st with
    | ret r => rfl
    | cont st1 => exact ih st1

theorem scr_yloop_retarget (test : Int → Int → Int) (dpr dpru : Int) (x : Option Nat)
    (n : Nat) : ∀ st : scr_state,
    scr_yloop test dpr dpru n ⟨st.ofs, st.p, { st.res with target := x }⟩
      = { scr_yloop test dpr dpru n st with target := x } := by
  induction n with
  | zero => intro st; rfl
  | succ n ih =>
    intro st
    rw [scr_yloop, scr_yloop, scr_ystep_retarget]
    cases h : scr_ystep test dpr dpru st with
    | ret r => rfl
    | cont st1 => exact ih st1

theorem scr_trace_retarget (test : Int → Int → Int) (rel : vector) (res : sprite_collision)
    (x : Option Nat) :
    scr_trace test rel { res with target := x } = { scr_trace test rel res with target := x } := by
  unfold scr_trace
  simp only
  split_ifs
  · exact scr_xloop_retarget test (iabs rel.y * 2) (iabs rel.y * 2 - iabs rel.x * 2) x
      (iabs rel.x).toNat
      ⟨⟨0, 0⟩, iabs rel.y * 2 - iabs rel.x, { res with dir := ⟨sign rel.x, sign rel.y⟩ }⟩
  · exact scr_yloop_retarget test (iabs rel.x * 2) (iabs rel.x * 2 - iabs rel.y * 2) x
      (iabs rel.y).toNat
      ⟨⟨0, 0⟩, iabs rel.x * 2 - iabs rel.y, { res with dir := ⟨sign rel.x, sign rel.y⟩ }⟩

/-- Apart from the early exit for a target that cannot collide, the pair result
depends on what the caller had in `res` through the member `target` alone. -/
theorem sprite_collision_with_result_slot (indet : Int) (s t : sprite) (slot : sprite_collision) :
    sprite_collision_with_result indet s t slot
      = if t.collides = COLLISION_OFF ∨ t.frame_ct = 0 ∨ t.cur_frame < 0 then
          { slot with mode := COLLISION_NEVER }
        else
          { sprite_collision_with_result indet s t ⟨0, ⟨0, 0⟩, ⟨0, 0⟩, none⟩ with
            target := slot.target } := by
  unfold sprite_collision_with_result
  split_ifs with h1 h2 h3
  · rfl
  · rfl
  · rfl
  · simp only
    have := scr_trace_retarget (fun x y => sprite_sprite_test indet s x y t)
      ⟨s.vel.x - t.vel.x, s.vel.y - t.vel.y⟩
      ⟨COLLISION_NEVER, ⟨0, 0⟩, ⟨0, 0⟩, none⟩ slot.target
    exact this

theorem sprite_collision_with_result_hit (indet : Int) (s t : sprite) (slot : sprite_collision)
    (x : Option Nat) :
    (sprite_collision_with_result indet s t slot).mode
        = (sprite_collision_with_result indet s t ⟨0, ⟨0, 0⟩, ⟨0, 0⟩, none⟩).mode
    ∧ ((sprite_collision_with_result indet s t slot).mode ≠ COLLISION_NEVER →
        { sprite_collision_with_result indet s t slot with target := x }
          = { sprite_collision_with_result indet s t ⟨0, ⟨0, 0⟩, ⟨0, 0⟩, none⟩ with
              target := x }) := by
  rw [sprite_collision_with_result_slot indet s t slot]
  split_ifs with h
  · have h0 : (sprite_collision_with_result indet s t ⟨0, ⟨0, 0⟩, ⟨0, 0⟩, none⟩).mode
        = COLLISION_NEVER := by
      unfold sprite_collision_with_result
      rw [if_pos h]
    exact ⟨h0.symm, fun hne => absurd rfl hne⟩
  · exact ⟨rfl, fun _ => rfl⟩

theorem sprite_hits_cons (indet : Int) (w : world) (sp : Nat) (s : sprite) (tgt : Nat)
    (l : List Nat) :
    sprite_hits indet w sp s (tgt :: l)
      = match sprite_hit indet w sp s tgt with
        | some r => r :: sprite_hits indet w sp s l
        | none => sprite_hits indet w sp s l := by
  unfold sprite_hits
  rw [List.filterMap_cons]
  cases sprite_hit indet w sp s tgt <;> rfl

theorem collision_with_sprites_loop_eq (indet : Int) (w : world) (sp : Nat) (s : sprite)
    (limit : Int) (hlim : 0 ≤ limit) (xs : List Nat) :
    ∀ (slot : sprite_collision) (found : List sprite_collision),
    (∀ tgt ∈ xs, tgt ≠ 0 ∧ (w.sprites tgt).isSome = true) →
    collision_with_sprites_loop indet w sp s limit xs slot found
      = outcome.ret (found.reverse
          ++ (sprite_hits indet w sp s xs).take (limit.toNat - found.length)) := by
  induction xs with
  | nil =>
    intro slot found _
    simp [collision_with_sprites_loop, sprite_hits]
  | cons tgt l ih =>
    intro slot found hent
    have htgt := hent tgt (List.mem_cons_self _ _)
    have hl : ∀ x ∈ l, x ≠ 0 ∧ (w.sprites x).isSome = true :=
      fun x hx => hent x (List.mem_cons_of_mem _ hx)
    obtain ⟨t, ht⟩ := Option.isSome_iff_exists.mp htgt.2
    have hat : w.sprite_at tgt = some t := by
      unfold world.sprite_at
      rw [if_neg htgt.1, ht]
    rw [collision_with_sprites_loop]
    by_cases hfull : ((found.length : Int) < limit)
    · have hlen : found.length < limit.toNat := by omega
      rw [if_neg (by simp [htgt.1, hfull])]
      by_cases hself : sp = tgt
      · rw [if_neg (by simp [hself]), ih slot found hl, sprite_hits_cons]
        have : sprite_hit indet w sp s tgt = none := by
          unfold sprite_hit
          rw [if_pos hself.symm]
        rw [this]
      · rw [if_pos hself]
        simp only [hat]
        have hh := sprite_collision_with_result_hit indet s t slot (some tgt)
        by_cases hm : (sprite_collision_with_result indet s t slot).mode ≠ COLLISION_NEVER
        · rw [if_pos hm, ih slot _ hl, sprite_hits_cons]
          have : sprite_hit indet w sp s tgt
              = some { sprite_collision_with_result indet s t ⟨0, ⟨0, 0⟩, ⟨0, 0⟩, none⟩ with
                  target := some tgt } := by
            unfold sprite_hit
            rw [if_neg (fun h => hself h.symm)]
            simp only [hat]
            rw [if_pos (by rw [← hh.1]; exact hm)]
          rw [this, hh.2 hm]
          simp only [List.reverse_cons, List.length_cons, List.append_assoc,
            List.singleton_append]
          have e : limit.toNat - found.length = (limit.toNat - (found.length + 1)) + 1 := by
            omega
          rw [e, List.take_succ_cons]
        · rw [if_neg hm, ih _ found hl, sprite_hits_cons]
          have : sprite_hit indet w sp s tgt = none := by
            unfold sprite_hit
            rw [if_neg (fun h => hself h.symm)]
            simp only [hat]
            rw [if_neg (by rw [← hh.1]; exact hm)]
          rw [this]
    · rw [if_pos (Or.inr hfull)]
      have e : limit.toNat - found.length = 0 := by omega
      rw [e]
      simp

theorem sprite_hit_target (indet : Int) (w : world) (sp : Nat) (s : sprite) (tgt : Nat)
    (r : sprite_collision) (h : sprite_hit indet w sp s tgt = some r) :
    r.target = some tgt ∧ tgt ≠ sp ∧ r.mode ≠ COLLISION_NEVER := by
  unfold sprite_hit at h
  split_ifs at h with h1
  split at h
  · simp only at h
    split_ifs at h with h2
    have := Option.some.inj h
    subst this
    exact ⟨rfl, h1, h2⟩
  · exact absurd h (by simp)

/-- C11: for a present, collidable sprite `s` at address `sp`, a list whose
entries are sprites, and a limit that is not negative, `collision_with_sprites`
stores the hits of `s` among the list entries in list order, at most `limit` of
them: the number returned (the length of what is stored) is the minimum of
`limit` and the number `k` of entries other than `s` whose pair result has a
mode other than Never; every stored result has such a mode and has an entry of
the list as its target, and `s` itself is never a target. -/
theorem c11_collision_with_sprites (indet : Int) (w : world) (sp l : Nat) (s : sprite)
    (xs : List Nat) (limit : Int) (slot : sprite_collision)
    (hsp : sp ≠ 0) (hl : l ≠ 0) (hs : w.sprites sp = some s) (hxs : w.lists l = some xs)
    (hcol : ¬ (s.collides = COLLISION_OFF ∨ s.frame_ct = 0 ∨ s.cur_frame < 0))
    (hlim : 0 ≤ limit)
    (hent : ∀ tgt ∈ xs, tgt ≠ 0 ∧ (w.sprites tgt).isSome = true) :
    collision_with_sprites indet w sp l limit slot
        = outcome.ret ((sprite_hits indet w sp s xs).take limit.toNat)
    ∧ (((sprite_hits indet w sp s xs).take limit.toNat).length : Int)
        = min limit ((sprite_hits indet w sp s xs).length : Int)
    ∧ ∀ r ∈ (sprite_hits indet w sp s xs).take limit.toNat,
        r.mode ≠ COLLISION_NEVER ∧ r.target ≠ some sp
          ∧ ∃ tgt ∈ xs, tgt ≠ sp ∧ r.target = some tgt := by
  refine ⟨?_, ?_, ?_⟩
  · unfold collision_with_sprites
    rw [if_neg (by simp [hsp, hl])]
    simp only [world.sprite_at, world.list_at, if_neg hsp, if_neg hl, hs, hxs]
    rw [if_neg hcol, collision_with_sprites_loop_eq indet w sp s limit hlim xs slot [] hent]
    simp
  · rw [List.length_take]
    omega
  · intro r hr
    have hr1 := List.mem_of_mem_take hr
    unfold sprite_hits at hr1
    obtain ⟨tgt, htgt, hhit⟩ := List.mem_filterMap.mp hr1
    obtain ⟨h1, h2, h3⟩ := sprite_hit_target indet w sp s tgt r hhit
    refine ⟨h3, ?_, tgt, htgt, h2, h1⟩
    rw [h1]
    exact fun h => h2 (Option.some.inj h)

theorem c11_collision_with_sprites_witness :
    (4096 ≠ 0 ∧ 64 ≠ 0 ∧ c11_world.sprites 4096 = some (ex_sprite ⟨0, 0⟩ ⟨40, 0⟩)
      ∧ c11_world.lists 64 = some [12288, 4096, 8192, 16384]
      ∧ ¬ ((ex_sprite ⟨0, 0⟩ ⟨40, 0⟩).collides = COLLISION_OFF
          ∨ (ex_sprite ⟨0, 0⟩ ⟨40, 0⟩).frame_ct = 0 ∨ (ex_sprite ⟨0, 0⟩ ⟨40, 0⟩).cur_frame < 0)
      ∧ (0 : Int) ≤ 1
      ∧ ∀ tgt ∈ [12288, 4096, 8192, 16384],
          tgt ≠ 0 ∧ (c11_world.sprites tgt).isSome = true)
    ∧ (collision_with_sprites 0 c11_world 4096 64 1 ⟨0, ⟨0, 0⟩, ⟨0, 0⟩, none⟩
        = outcome.ret ((sprite_hits 0 c11_world 4096 (ex_sprite ⟨0, 0⟩ ⟨40, 0⟩)
            [12288, 4096, 8192, 16384]).take (1 : Int).toNat)
      ∧ (((sprite_hits 0 c11_world 4096 (ex_sprite ⟨0, 0⟩ ⟨40, 0⟩)
            [12288, 4096, 8192, 16384]).take (1 : Int).toNat).length : Int)
          = min 1 ((sprite_hits 0 c11_world 4096 (ex_sprite ⟨0, 0⟩ ⟨40, 0⟩)
              [12288, 4096, 8192, 16384]).length : Int)
      ∧ ∀ r ∈ (sprite_hits 0 c11_world 4096 (ex_sprite ⟨0, 0⟩ ⟨40, 0⟩)
            [12288, 4096, 8192, 16384]).take (1 : Int).toNat,
          r.mode ≠ COLLISION_NEVER ∧ r.target ≠ some 4096
            ∧ ∃ tgt ∈ [12288, 4096, 8192, 16384], tgt ≠ 4096 ∧ r.target = some tgt) :=
  ⟨⟨by decide, by decide, rfl, rfl, by decide, by decide, by decide⟩,
    c11_collision_with_sprites 0 c11_world 4096 64 (ex_sprite ⟨0, 0⟩ ⟨40, 0⟩)
      [12288, 4096, 8192, 16384] 1 ⟨0, ⟨0, 0⟩, ⟨0, 0⟩, none⟩
      (by decide) (by decide) rfl rfl (by decide) (by decide) (by decide)⟩

/-! ## Line of sight -/

theorem los_loop_eq_one (m : map) (pt : point) (dist : Int) (cs : List point) :
    los_loop m pt dist cs = 1
      ↔ ∃ c ∈ cs, los_in_range pt c dist = true ∧ cast_ray pt c m ≠ 0 := by
  induction cs with
  | nil => simp [los_loop]
  | cons c cs ih =>
    rw [los_loop]
    by_cases h : los_in_range pt c dist = true ∧ cast_ray pt c m ≠ 0
    · rw [if_pos h]
      exact ⟨fun _ => ⟨c, List.mem_cons_self _ _, h⟩, fun _ => rfl⟩
    · rw [if_neg h, ih]
      constructor
      · rintro ⟨d, hd, hr⟩
        exact ⟨d, List.mem_cons_of_mem _ hd, hr⟩
      · rintro ⟨d, hd, hr⟩
        rcases List.mem_cons.mp hd with rfl | hd
        · exact absurd hr h
        · exact ⟨d, hd, hr⟩

theorem los_loop_bool (m : map) (pt : point) (dist : Int) (cs : List point) :
    los_loop m pt dist cs = 0 ∨ los_loop m pt dist cs = 1 := by
  induction cs with
  | nil => left; rfl
  | cons c cs ih =>
    rw [los_loop]
    split_ifs
    · right; rfl
    · exact ih

/-- C12, counterexample: on `los_map` the origin point (8,8) has the corners
(40,8), (47,8) and (40,40) of the target in range; `inspect_line_of_sight`
casts a ray to each of them in this order, the Box tile of cell (1,0) blocks
the first two, the third gets through, and the result is 1: true although
rays that were cast were blocked. -/
theorem c12_true_with_blocked_ray :
    inspect_line_of_sight (some los_map) (some (ex_sprite ⟨0, 0⟩ ⟨0, 0⟩)) 8 8 100
        (some los_target) = 1
    ∧ los_cast los_map ⟨8, 8⟩ 100 (los_corners los_target) = [⟨40, 8⟩, ⟨47, 8⟩, ⟨40, 40⟩]
    ∧ cast_ray ⟨8, 8⟩ ⟨40, 8⟩ los_map = 0
    ∧ cast_ray ⟨8, 8⟩ ⟨47, 8⟩ los_map = 0
    ∧ cast_ray ⟨8, 8⟩ ⟨40, 40⟩ los_map = 1 := by
  decide

theorem to_int32_of_range (v : Int) (h1 : -2147483648 ≤ v) (h2 : v < 2147483648) :
    to_int32 v = v := by
  unfold to_int32
  omega

theorem abs_le_mul_self (a : Int) : a ≤ a * a ∧ -a ≤ a * a := by
  have h0 : 0 ≤ a * a := mul_self_nonneg a
  rcases Int.lt_trichotomy a 0 with h | h | h
  · have h1 : -a * 1 ≤ -a * -a := Int.mul_le_mul_of_nonneg_left (by omega) (by omega)
    have e : -a * -a = a * a := by ring
    rw [e] at h1
    exact ⟨by omega, by omega⟩
  · subst h
    exact ⟨by decide, by decide⟩
  · have h1 : a * 1 ≤ a * a := Int.mul_le_mul_of_nonneg_left (by omega) (by omega)
    exact ⟨by omega, by omega⟩

/-- Where the squared distance and the square of `dist` fit in an `int`, the
range test of the source decides whether the corner is within `dist`. -/
theorem los_in_range_exact (pt c : point) (dist : Int)
    (hc : (pt.x - c.x) * (pt.x - c.x) + (pt.y - c.y) * (pt.y - c.y) < 2147483648)
    (hd : dist * dist < 2147483648) :
    los_in_range pt c dist = within_distance pt c dist := by
  have x0 : 0 ≤ (pt.x - c.x) * (pt.x - c.x) := mul_self_nonneg _
  have y0 : 0 ≤ (pt.y - c.y) * (pt.y - c.y) := mul_self_nonneg _
  have d0 : 0 ≤ dist * dist := mul_self_nonneg _
  obtain ⟨x1, x2⟩ := abs_le_mul_self (pt.x - c.x)
  obtain ⟨y1, y2⟩ := abs_le_mul_self (pt.y - c.y)
  unfold los_in_range within_distance
  simp only
  rw [to_int32_of_range (pt.x - c.x) (by omega) (by omega),
    to_int32_of_range (pt.y - c.y) (by omega) (by omega),
    to_int32_of_range ((pt.x - c.x) * (pt.x - c.x)) (by omega) (by omega),
    to_int32_of_range ((pt.y - c.y) * (pt.y - c.y)) (by omega) (by omega),
    to_int32_of_range _ (by omega) hc, to_int32_of_range (dist * dist) (by omega) hd]

/-- C12, amended: for a present map, origin sprite and target, with an origin
point `pos + offset` in the range of `int` and with the squared distance from
it to each corner of the target's bounds cache and the square of `dist` in the
range of `int`, `inspect_line_of_sight` returns 1 exactly when the target's
collision mode is not Off and some corner of its bounds cache lies within
`dist` of the origin point and has a ray that `cast_ray` lets through (one
clear ray is enough); in every other case it returns 0, so that 0 means that
every corner in range has a blocked ray, or that the target's collision is
Off.  With the map, the origin sprite or the target absent it returns 0 as
well. -/
theorem c12_line_of_sight_any_ray (m : map) (s : sprite) (xofs yofs dist : Int)
    (tgt : sprite)
    (hpx : -2147483648 ≤ s.pos.x + xofs ∧ s.pos.x + xofs < 2147483648)
    (hpy : -2147483648 ≤ s.pos.y + yofs ∧ s.pos.y + yofs < 2147483648)
    (hnear : ∀ c ∈ los_corners tgt,
      (s.pos.x + xofs - c.x) * (s.pos.x + xofs - c.x)
        + (s.pos.y + yofs - c.y) * (s.pos.y + yofs - c.y) < 2147483648)
    (hdist : dist * dist < 2147483648) :
    (inspect_line_of_sight (some m) (some s) xofs yofs dist (some tgt) = 1
      ↔ tgt.collides ≠ COLLISION_OFF
        ∧ ∃ c ∈ los_corners tgt,
            within_distance ⟨s.pos.x + xofs, s.pos.y + yofs⟩ c dist = true
            ∧ cast_ray ⟨s.pos.x + xofs, s.pos.y + yofs⟩ c m ≠ 0)
    ∧ (inspect_line_of_sight (some m) (some s) xofs yofs dist (some tgt) = 0
      ↔ tgt.collides = COLLISION_OFF
        ∨ ∀ c ∈ los_corners tgt,
            within_distance ⟨s.pos.x + xofs, s.pos.y + yofs⟩ c dist = true →
            cast_ray ⟨s.pos.x + xofs, s.pos.y + yofs⟩ c m = 0)
    ∧ inspect_line_of_sight none (some s) xofs yofs dist (some tgt) = 0
    ∧ inspect_line_of_sight (some m) none xofs yofs dist (some tgt) = 0
    ∧ inspect_line_of_sight (some m) (some s) xofs yofs dist none = 0 := by
  have h1 := los_loop_eq_one m ⟨s.pos.x + xofs, s.pos.y + yofs⟩ dist (los_corners tgt)
  have h2 := los_loop_bool m ⟨s.pos.x + xofs, s.pos.y + yofs⟩ dist (los_corners tgt)
  have hr : ∀ c ∈ los_corners tgt,
      los_in_range ⟨s.pos.x + xofs, s.pos.y + yofs⟩ c dist
        = within_distance ⟨s.pos.x + xofs, s.pos.y + yofs⟩ c dist :=
    fun c hc => los_in_range_exact _ c dist (hnear c hc) hdist
  refine ⟨?_, ?_, rfl, rfl, rfl⟩ <;>
    simp only [inspect_line_of_sight, to_int32_of_range _ hpx.1 hpx.2,
      to_int32_of_range _ hpy.1 hpy.2]
  · by_cases hoff : tgt.collides = COLLISION_OFF
    · rw [if_pos hoff]
      exact ⟨fun h => absurd h (by decide), fun h => absurd hoff h.1⟩
    · rw [if_neg hoff]
      constructor
      · intro h
        obtain ⟨c, hc, hin, hray⟩ := h1.mp h
        exact ⟨hoff, c, hc, by rw [← hr c hc]; exact hin, hray⟩
      · rintro ⟨_, c, hc, hin, hray⟩
        exact h1.mpr ⟨c, hc, by rw [hr c hc]; exact hin, hray⟩
  · by_cases hoff : tgt.collides = COLLISION_OFF
    · rw [if_pos hoff]
      exact ⟨fun _ => Or.inl hoff, fun _ => rfl⟩
    · rw [if_neg hoff]
      refine ⟨fun h => Or.inr ?_, fun h => ?_⟩
      · intro c hc hin
        by_contra hne
        have h3 := h1.mpr ⟨c, hc, by rw [hr c hc]; exact hin, hne⟩
        rw [h] at h3
        exact absurd h3 (by decide)
      · rcases h with h | h
        · exact absurd h hoff
        · rcases h2 with h0 | h0
          · exact h0
          · obtain ⟨c, hc, hin, hne⟩ := h1.mp h0
            exact absurd (h c hc (by rw [← hr c hc]; exact hin)) hne

theorem c12_line_of_sight_any_ray_witness :
    (inspect_line_of_sight (some los_map) (some (ex_sprite ⟨0, 0⟩ ⟨0, 0⟩)) 8 8 100
        (some los_target) = 1
      ↔ los_target.collides ≠ COLLISION_OFF
        ∧ ∃ c ∈ los_corners los_target,
            within_distance ⟨(ex_sprite ⟨0, 0⟩ ⟨0, 0⟩).pos.x + 8,
              (ex_sprite ⟨0, 0⟩ ⟨0, 0⟩).pos.y + 8⟩ c 100 = true
            ∧ cast_ray ⟨(ex_sprite ⟨0, 0⟩ ⟨0, 0⟩).pos.x + 8,
                (ex_sprite ⟨0, 0⟩ ⟨0, 0⟩).pos.y + 8⟩ c los_map ≠ 0)
    ∧ inspect_line_of_sight (some los_map) (some (ex_sprite ⟨0, 0⟩ ⟨0, 0⟩)) 8 8 100
        (some los_target) = 1
    ∧ within_distance ⟨8, 8⟩ ⟨40, 40⟩ 100 = true
    ∧ within_distance ⟨8, 8⟩ ⟨47, 40⟩ 36 = false :=
  ⟨(c12_line_of_sight_any_ray los_map (ex_sprite ⟨0, 0⟩ ⟨0, 0⟩) 8 8 100 los_target
      (by decide) (by decide) (by decide) (by decide)).1,
    by decide, by decide, by decide⟩

/-- C13, failing input: on `ex_map` (16x16 tiles, a Box tile at cell (2,0)
alone) the ray from (0,0) to (31,0) spans the pixels 0..31 of row 0, which lie
in the cells (0,0) and (1,0); neither holds a colliding tile, and `cast_ray`
returns 0.  The loop makes `|dx| + 1 = 32` steps from the start, so that its
last step enters pixel 32, in cell (2,0), one pixel past the end point; with
the end point one pixel nearer the ray is clear. -/
theorem c13_ray_blocked_past_end :
    rect_clear ex_map ⟨0, 0⟩ ⟨31, 0⟩ = true
    ∧ cast_ray ⟨0, 0⟩ ⟨31, 0⟩ ex_map = 0
    ∧ cast_ray ⟨0, 0⟩ ⟨30, 0⟩ ex_map = 1 := by
  decide

/-! ## The virtual machine: instructions and runs -/

theorem decode_pc_lt (buf : List cell) (pc : Nat) (tgt a : arg) (pc1 : Nat)
    (h : decode buf pc tgt = some (a, pc1)) : pc < pc1 := by
  unfold decode at h
  have hal : pc < (pc + 1 + 3) / 4 * 4 := by omega
  split at h
  · simp only at h
    split_ifs at h
    · split at h
      · have := (Prod.mk.inj (Option.some.inj h)).2
        omega
      · exact absurd h (by simp)
    · split at h
      · have := (Prod.mk.inj (Option.some.inj h)).2
        omega
      · exact absurd h (by simp)
    · split at h
      · have := (Prod.mk.inj (Option.some.inj h)).2
        omega
      · exact absurd h (by simp)
    · have := (Prod.mk.inj (Option.some.inj h)).2
      omega
  · exact absurd h (by simp)

theorem vm_adjust_frame_pc (st st1 : vm_state) (h : vm_adjust_frame st = vm_step.next st1) :
    st1.pc = st.pc := by
  unfold vm_adjust_frame at h
  split_ifs at h
  · injection h with h; subst h; rfl
  · split at h
    · injection h with h; subst h; rfl
    · exact absurd h (by simp)
  · injection h with h; subst h; rfl

theorem vm_assign_pc (st st1 : vm_state) (v : Int) (h : vm_assign st v = vm_step.next st1) :
    st1.pc = st.pc := by
  unfold vm_assign at h
  split at h
  · rename_i st2 hw
    have h2 := vm_adjust_frame_pc _ _ h
    unfold vm_write0 at hw
    split at hw
    · exact absurd hw (by simp)
    · have := Option.some.inj hw; subst this; exact h2
    · split at hw
      · have := Option.some.inj hw; subst this; exact h2
      · exact absurd hw (by simp)
  · exact absurd h (by simp)

theorem vm_action_ptr_pc (indet : Int) (inst : Nat) (st st1 : vm_state) (p : Nat)
    (h : vm_action_ptr indet inst st p = vm_step.next st1) : st1.pc = st.pc := by
  unfold vm_action_ptr at h
  repeat' first
    | (cases h <;> rfl)
    | split at h
    | simp only at h

theorem vm_action_pc (indet : Int) (inst : Nat) (st st1 : vm_state)
    (h : vm_action indet inst st = vm_step.next st1) : st1.pc = st.pc := by
  unfold vm_action at h
  by_cases h1 : inst = BC_SET ∨ inst = BC_TRK
  · rw [if_pos h1] at h
    split at h
    · exact vm_assign_pc _ _ _ h
    · cases h
  rw [if_neg h1] at h
  by_cases h2 : inst = BC_ADD
  · rw [if_pos h2] at h
    split at h
    · exact vm_assign_pc _ _ _ h
    · cases h
  rw [if_neg h2] at h
  by_cases h3 : inst = BC_STC
  · rw [if_pos h3] at h
    split at h
    · split_ifs at h
      · simp only at h
        split at h
        · exact vm_assign_pc ⟨st.pc, st.a0, st.a1, st.s, st.w.next_rand.2⟩ _ _ h
        · cases h
      · cases h; rfl
    · cases h
  rw [if_neg h3] at h
  by_cases h4 : inst = BC_AVG
  · rw [if_pos h4] at h
    split at h
    · exact vm_assign_pc _ _ _ h
    · cases h
  rw [if_neg h4] at h
  by_cases h5 : inst = BC_BEQ
  · rw [if_pos h5] at h
    split at h
    · split_ifs at h
      cases h; rfl
    · cases h
  rw [if_neg h5] at h
  by_cases h6 : inst = BC_BNE
  · rw [if_pos h6] at h
    split at h
    · split_ifs at h
      cases h; rfl
    · cases h
  rw [if_neg h6] at h
  by_cases h7 : inst = BC_BLT
  · rw [if_pos h7] at h
    split at h
    · split_ifs at h
      cases h; rfl
    · cases h
  rw [if_neg h7] at h
  by_cases h8 : inst = BC_BGT
  · rw [if_pos h8] at h
    split at h
    · split_ifs at h
      cases h; rfl
    · cases h
  rw [if_neg h8] at h
  by_cases h9 : inst = BC_BST
  · rw [if_pos h9] at h
    split at h
    · split_ifs at h
      · simp only at h
        split_ifs at h
        cases h; rfl
      · cases h; rfl
    · cases h
  rw [if_neg h9] at h
  by_cases h10 : inst = BC_BMP ∨ inst = BC_BNM ∨ inst = BC_BCS ∨ inst = BC_BNC ∨ inst = BC_COPY
      ∨ inst = BC_LADD ∨ inst = BC_LREM ∨ inst = BC_SND ∨ inst = BC_LOADP ∨ inst = BC_XCHGP
  · rw [if_pos h10] at h
    split at h
    · exact vm_action_ptr_pc _ _ _ _ _ h
    · cases h
  rw [if_neg h10] at h
  by_cases h11 : inst = BC_DEL
  · rw [if_pos h11] at h
    split at h <;> cases h
  rw [if_neg h11] at h
  split_ifs at h
  cases h; rfl

theorem setvptr_some (a b : arg) (src : Option Nat) (h : setvptr a src = some b) :
    b.type = a.type ∧ b.store = a.store := by
  unfold setvptr at h
  split_ifs at h
  · cases h; exact ⟨rfl, rfl⟩
  · cases h; exact ⟨rfl, rfl⟩
  · split at h <;> (cases h; exact ⟨rfl, rfl⟩)

/-- Every instruction that lets the run go on leaves the program counter
behind the instruction: there is no jump. -/
theorem vm_exec_inst_pc_lt (indet : Int) (buf : List cell) (st st1 : vm_state)
    (h : vm_exec_inst indet buf st = vm_step.next st1) : st.pc < st1.pc := by
  unfold vm_exec_inst at h
  split at h
  · rename_i inst hf
    simp only at h
    split at h
    · cases h
    · cases h
    · rename_i sd hdec
      have hpc : st.pc < sd.pc := by
        split_ifs at hdec with c0 c1 c2
        · cases hdec; exact Nat.lt_succ_self _
        · split at hdec
          · rename_i a pc1 hd
            cases hdec
            have := decode_pc_lt _ _ _ _ _ hd
            show st.pc < pc1
            omega
          · cases hdec
        · split at hdec
          · rename_i a pc1 hd
            split at hdec
            · rename_i b pc2 hd2
              cases hdec
              have := decode_pc_lt _ _ _ _ _ hd
              have := decode_pc_lt _ _ _ _ _ hd2
              show st.pc < pc2
              omega
            · cases hdec
          · cases hdec
      split at h
      · cases h
      · rename_i st2 hp
        have hpc2 : st2.pc = sd.pc := by
          split_ifs at hp
          all_goals repeat' first
            | (cases hp <;> rfl)
            | split at hp
        have := vm_action_pc _ _ _ _ h
        omega
  · cases h

/-- An instruction with two operands, other than trk and avg: both are
decoded, both get their pointer from the running sprite, then the action. -/
theorem vm_exec_inst_two (indet : Int) (buf : List cell) (st : vm_state) (inst : Nat)
    (a b a1 b1 : arg) (pc1 pc2 : Nat)
    (hf : buf.get? st.pc = some (some inst)) (hm : inst % 4 = 2)
    (htrk : inst ≠ BC_TRK) (havg : inst ≠ BC_AVG)
    (hd0 : decode buf (st.pc + 1) st.a0 = some (a, pc1))
    (hd1 : decode buf pc1 st.a1 = some (b, pc2))
    (hs0 : setvptr a (some st.s) = some a1) (hs1 : setvptr b (some st.s) = some b1) :
    vm_exec_inst indet buf st = vm_action indet inst ⟨pc2, a1, b1, st.s, st.w⟩ := by
  simp only [vm_exec_inst, hf]
  simp [hm, hd0, hd1, htrk, havg, hs0, hs1]

theorem update_bound_cache_keeps (s : sprite) :
    (update_bound_cache s).pos = s.pos ∧ (update_bound_cache s).vel = s.vel
    ∧ (update_bound_cache s).cur_frame = s.cur_frame
    ∧ (update_bound_cache s).frame_ct = s.frame_ct
    ∧ (update_bound_cache s).motion = s.motion := by
  unfold update_bound_cache
  split <;> exact ⟨rfl, rfl, rfl, rfl, rfl⟩

theorem vm_action_branch (indet : Int) (inst : Nat) (st : vm_state) (u v : Int)
    (hin : inst = BC_BEQ ∨ inst = BC_BNE ∨ inst = BC_BLT ∨ inst = BC_BGT)
    (hu : vm_read st.w st.a0 = some u) (hv : vm_read st.w st.a1 = some v) :
    vm_action indet inst st
      = if branch_holds inst u v = true then vm_step.quit st else vm_step.next st := by
  obtain ⟨e0, e1, e2, e3, e4, e5, e6, e7, e8, e9, e10, e11, e12, e13, e14, e15, e16, e17, e18,
    e19, e20, e21⟩ := bc_values
  rcases hin with h | h | h | h <;> subst h <;>
    simp [vm_action, branch_holds, hu, hv, e0, e1, e2, e3, e4, e5, e6, e7, e8, e9, e10, e11,
      e12, e13, e14, e15, e16, e17, e18, e19, e20, e21]

/-- C15: a branch instruction (beq, bne, blt, bgt) whose operands decode and
read as `u` and `v` ends the run when its comparison holds: the run is then the
code at `mcp_quit` on the world as it is, whatever follows in the program; when
the comparison does not hold the run goes on with the instruction behind the
operands, on the same world.  And no instruction of any kind moves the
program counter back or leaves it in place: what goes on, goes on further
down the program. -/
theorem c15_branch_ends_run (indet : Int) (buf : List cell) (st : vm_state) (inst : Nat)
    (a b a1 b1 : arg) (pc1 pc2 : Nat) (u v : Int)
    (hin : inst = BC_BEQ ∨ inst = BC_BNE ∨ inst = BC_BLT ∨ inst = BC_BGT)
    (hf : buf.get? st.pc = some (some inst))
    (hd0 : decode buf (st.pc + 1) st.a0 = some (a, pc1))
    (hd1 : decode buf pc1 st.a1 = some (b, pc2))
    (hs0 : setvptr a (some st.s) = some a1) (hs1 : setvptr b (some st.s) = some b1)
    (hu : vm_read st.w a1 = some u) (hv : vm_read st.w b1 = some v) :
    (branch_holds inst u v = true →
        vm_exec_inst indet buf st = vm_step.quit ⟨pc2, a1, b1, st.s, st.w⟩
        ∧ ∀ fuel, vm_loop indet buf (fuel + 1) st = vm_quit ⟨pc2, a1, b1, st.s, st.w⟩)
    ∧ (branch_holds inst u v = false →
        vm_exec_inst indet buf st = vm_step.next ⟨pc2, a1, b1, st.s, st.w⟩
        ∧ st.pc < pc2
        ∧ ∀ fuel, vm_loop indet buf (fuel + 1) st
            = vm_loop indet buf fuel ⟨pc2, a1, b1, st.s, st.w⟩)
    ∧ ∀ (i : Int) (c : List cell) (t t1 : vm_state),
        vm_exec_inst i c t = vm_step.next t1 → t.pc < t1.pc := by
  obtain ⟨e0, e1, e2, e3, e4, e5, e6, e7, e8, e9, e10, e11, e12, e13, e14, e15, e16, e17, e18,
    e19, e20, e21⟩ := bc_values
  have hm : inst % 4 = 2 := by
    rcases hin with h | h | h | h <;> subst h <;> simp [e6, e7, e8, e9]
  have htrk : inst ≠ BC_TRK := by
    rcases hin with h | h | h | h <;> subst h <;> simp [e4, e6, e7, e8, e9]
  have havg : inst ≠ BC_AVG := by
    rcases hin with h | h | h | h <;> subst h <;> simp [e5, e6, e7, e8, e9]
  have hx := vm_exec_inst_two indet buf st inst a b a1 b1 pc1 pc2 hf hm htrk havg hd0 hd1 hs0 hs1
  rw [vm_action_branch indet inst ⟨pc2, a1, b1, st.s, st.w⟩ u v hin hu hv] at hx
  refine ⟨fun h => ?_, fun h => ?_, fun i c t t1 h => vm_exec_inst_pc_lt i c t t1 h⟩
  · rw [if_pos h] at hx
    refine ⟨hx, fun fuel => ?_⟩
    rw [vm_loop, hx]
  · rw [if_neg (by simp [h])] at hx
    refine ⟨hx, vm_exec_inst_pc_lt _ _ _ _ hx, fun fuel => ?_⟩
    rw [vm_loop, hx]

theorem c15_branch_ends_run_witness :
    ((42 = BC_BEQ ∨ 42 = BC_BNE ∨ 42 = BC_BLT ∨ 42 = BC_BGT)
      ∧ (assemble "beq xvel, 0\nset xvel, 5").get? 0 = some (some 42)
      ∧ decode (assemble "beq xvel, 0\nset xvel, 5") (0 + 1) arg_unset
          = some (⟨12, vref.unset, ⟨none, none⟩⟩, 8)
      ∧ decode (assemble "beq xvel, 0\nset xvel, 5") 8 arg_unset
          = some (⟨1, vref.unset, ⟨some 0, none⟩⟩, 16)
      ∧ setvptr ⟨12, vref.unset, ⟨none, none⟩⟩ (some 4096)
          = some ⟨12, vref.var 4096 12, ⟨none, none⟩⟩
      ∧ setvptr ⟨1, vref.unset, ⟨some 0, none⟩⟩ (some 4096)
          = some ⟨1, vref.own, ⟨some 0, none⟩⟩
      ∧ vm_read (pair_world "beq xvel, 0\nset xvel, 5") ⟨12, vref.var 4096 12, ⟨none, none⟩⟩
          = some 0
      ∧ vm_read (pair_world "beq xvel, 0\nset xvel, 5") ⟨1, vref.own, ⟨some 0, none⟩⟩ = some 0
      ∧ branch_holds 42 0 0 = true)
    ∧ vm_exec_inst 0 (assemble "beq xvel, 0\nset xvel, 5")
          ⟨0, arg_unset, arg_unset, 4096, pair_world "beq xvel, 0\nset xvel, 5"⟩
        = vm_step.quit ⟨16, ⟨12, vref.var 4096 12, ⟨none, none⟩⟩,
            ⟨1, vref.own, ⟨some 0, none⟩⟩, 4096, pair_world "beq xvel, 0\nset xvel, 5"⟩ :=
  ⟨⟨by decide, by decide, by decide, by decide, by decide, by decide, by decide, by decide,
      by decide⟩,
    ((c15_branch_ends_run 0 (assemble "beq xvel, 0\nset xvel, 5")
      ⟨0, arg_unset, arg_unset, 4096, pair_world "beq xvel, 0\nset xvel, 5"⟩ 42
      ⟨12, vref.unset, ⟨none, none⟩⟩ ⟨1, vref.unset, ⟨some 0, none⟩⟩
      ⟨12, vref.var 4096 12, ⟨none, none⟩⟩ ⟨1, vref.own, ⟨some 0, none⟩⟩ 8 16 0 0
      (by decide) (by decide) (by decide) (by decide) (by decide) (by decide) (by decide)
      (by decide)).1 (by decide)).1⟩

/-- C16, failing input: the program "add xpos, 1", "loadp 0x2000" on the sprite
at 4096, with a sprite that has a program at 8192 (0x2000).  The run executes
no del and does not write the tick variable; loadp ends it with `return 0`, and
the sprite that is left is the sprite before the run with x one higher and the
loaded program: the tick counter is still 7 and the bounds cache is still the
box of the old position (3,4), which `update_bound_cache` would replace.  The
same program ended by eoc leaves tick 8 and the cache of the new position. -/
theorem c16_loadp_skips_bookkeeping :
    run_result (motion_exec_single 0 (pair_world "add xpos, 1\nloadp 0x2000") 4096) 4096
      = some (0, some { ex_actor ⟨3, 4⟩ ⟨0, 9⟩ "add xpos, 1\nloadp 0x2000" with
          pos := ⟨4, 4⟩, motion := ⟨some (assemble "eoc"), 7⟩ })
    ∧ (ex_actor ⟨3, 4⟩ ⟨0, 9⟩ "add xpos, 1\nloadp 0x2000").motion.tick = 7
    ∧ (ex_actor ⟨3, 4⟩ ⟨0, 9⟩ "add xpos, 1\nloadp 0x2000").bc = ⟨3, 4, 18, 19⟩
    ∧ (update_bound_cache { ex_actor ⟨3, 4⟩ ⟨0, 9⟩ "add xpos, 1\nloadp 0x2000" with
          pos := ⟨4, 4⟩, motion := ⟨some (assemble "eoc"), 7⟩ }).bc = ⟨4, 4, 19, 19⟩
    ∧ run_result (motion_exec_single 0 (pair_world "add xpos, 1\neoc") 4096) 4096
      = some (0, some { ex_actor ⟨3, 4⟩ ⟨0, 9⟩ "add xpos, 1\neoc" with
          pos := ⟨4, 4⟩, bc := ⟨4, 4, 19, 19⟩,
          motion := ⟨some (assemble "add xpos, 1\neoc"), 8⟩ }) := by
  decide

/-- C17, counterexample: the program "xchgp 0x2000", "set xvel, 5", "eoc" on
the sprite at 4096 (x-velocity 0).  After the run the sprite has the program
of the sprite at 8192, and its x-velocity is 5: the instruction that follows
xchgp was executed in the same run. -/
theorem c17_xchgp_does_not_end_run :
    run_result (motion_exec_single 0 (pair_world "xchgp 0x2000\nset xvel, 5\neoc") 4096) 4096
      = some (0, some { ex_actor ⟨3, 4⟩ ⟨0, 9⟩ "xchgp 0x2000\nset xvel, 5\neoc" with
          vel := ⟨5, 9⟩, motion := ⟨some (assemble "eoc"), 8⟩ })
    ∧ (ex_actor ⟨3, 4⟩ ⟨0, 9⟩ "xchgp 0x2000\nset xvel, 5\neoc").vel.x = 0 := by
  decide

/-- An instruction with one operand: it is decoded and gets its pointer from
the running sprite, then the action. -/
theorem vm_exec_inst_one (indet : Int) (buf : List cell) (st : vm_state) (inst : Nat)
    (a a1 : arg) (pc1 : Nat)
    (hf : buf.get? st.pc = some (some inst)) (hm : inst % 4 = 1)
    (hd0 : decode buf (st.pc + 1) st.a0 = some (a, pc1))
    (hs0 : setvptr a (some st.s) = some a1) :
    vm_exec_inst indet buf st = vm_action indet inst ⟨pc1, a1, st.a1, st.s, st.w⟩ := by
  obtain ⟨e0, e1, e2, e3, e4, e5, e6, e7, e8, e9, e10, e11, e12, e13, e14, e15, e16, e17, e18,
    e19, e20, e21⟩ := bc_values
  have htrk : inst ≠ BC_TRK := by
    intro h; rw [h, e4] at hm; exact absurd hm (by decide)
  have havg : inst ≠ BC_AVG := by
    intro h; rw [h, e5] at hm; exact absurd hm (by decide)
  simp only [vm_exec_inst, hf]
  simp [hm, hd0, htrk, havg, hs0]

theorem setvptr_ptr (a : arg) (src : Option Nat) (h : a.type = ARG_PTR) :
    setvptr a src = some a := by
  unfold setvptr
  rw [h]
  simp [ARG_PTR, ARG_IMM]

/-- C17, amended: loadp ends the run as soon as it executes, with the
`return 0` of its case: the running sprite gets the first `MAX_MCP_LENGTH`
bytes of the other sprite's program, nothing else in the world changes (the
tick counter and the bounds cache included), and what follows in the program
is not executed.  xchgp does not end the run: the two sprites exchange their
programs and the run goes on with the instruction that follows xchgp in the
working copy of the old program. -/
theorem c17_loadp_ends_xchgp_goes_on (indet : Int) (buf : List cell) (st : vm_state)
    (inst : Nat) (a : arg) (pc1 p : Nat) (s o : sprite)
    (hf : buf.get? st.pc = some (some inst))
    (hd0 : decode buf (st.pc + 1) st.a0 = some (a, pc1))
    (hty : a.type = ARG_PTR) (hp : store_ptr a.store = some p)
    (hs : st.w.sprite_at st.s = some s) (ho : st.w.sprite_at p = some o) (hne : st.s ≠ p) :
    (inst = BC_LOADP → ∀ dst src : List cell,
        s.motion.code = some dst → o.motion.code = some src → ∀ fuel,
        vm_loop indet buf (fuel + 1) st
          = outcome.ret (0, st.w.set_sprite st.s (some { s with
              motion := { s.motion with
                code := some (src.take MAX_MCP_LENGTH ++ dst.drop MAX_MCP_LENGTH) } })))
    ∧ (inst = BC_XCHGP → ∀ fuel,
        vm_loop indet buf (fuel + 1) st
          = vm_loop indet buf fuel ⟨pc1, a, st.a1, st.s,
              (st.w.set_sprite st.s
                (some { s with motion := { s.motion with code := o.motion.code } })).set_sprite
                  p (some { o with motion := { o.motion with code := s.motion.code } })⟩) := by
  obtain ⟨e0, e1, e2, e3, e4, e5, e6, e7, e8, e9, e10, e11, e12, e13, e14, e15, e16, e17, e18,
    e19, e20, e21⟩ := bc_values
  constructor
  · intro hi dst src hdst hsrc fuel
    subst hi
    rw [vm_loop, vm_exec_inst_one indet buf st BC_LOADP a a pc1 hf (by rw [e20])
      hd0 (setvptr_ptr a _ hty)]
    simp [vm_action, vm_action_ptr, e0, e1, e2, e3, e4, e5, e6, e7, e8, e9, e10, e11, e12, e13,
      e14, e15, e16, e17, e18, e19, e20, e21, hp, hs, ho, hdst, hsrc]
  · intro hi fuel
    subst hi
    rw [vm_loop, vm_exec_inst_one indet buf st BC_XCHGP a a pc1 hf (by rw [e21])
      hd0 (setvptr_ptr a _ hty)]
    simp [vm_action, vm_action_ptr, e0, e1, e2, e3, e4, e5, e6, e7, e8, e9, e10, e11, e12, e13,
      e14, e15, e16, e17, e18, e19, e20, e21, hp, hs, ho, hne]

theorem c17_loadp_ends_xchgp_goes_on_witness :
    (((assemble "loadp 0x2000").get? 0 = some (some 161)
        ∧ decode (assemble "loadp 0x2000") (0 + 1) arg_unset
            = some (⟨3, vref.unset, ⟨some 8192, some 0⟩⟩, 12)
        ∧ (3 : Int) = ARG_PTR ∧ store_ptr ⟨some 8192, some 0⟩ = some 8192
        ∧ (pair_world "loadp 0x2000").sprite_at 4096
            = some (ex_actor ⟨3, 4⟩ ⟨0, 9⟩ "loadp 0x2000")
        ∧ (pair_world "loadp 0x2000").sprite_at 8192
            = some (ex_actor ⟨50, -7⟩ ⟨-7, 2⟩ "eoc")
        ∧ 4096 ≠ 8192 ∧ 161 = BC_LOADP
        ∧ (ex_actor ⟨3, 4⟩ ⟨0, 9⟩ "loadp 0x2000").motion.code = some (assemble "loadp 0x2000")
        ∧ (ex_actor ⟨50, -7⟩ ⟨-7, 2⟩ "eoc").motion.code = some (assemble "eoc"))
      ∧ vm_loop 0 (assemble "loadp 0x2000") (0 + 1)
            ⟨0, arg_unset, arg_unset, 4096, pair_world "loadp 0x2000"⟩
          = outcome.ret (0, (pair_world "loadp 0x2000").set_sprite 4096
              (some { ex_actor ⟨3, 4⟩ ⟨0, 9⟩ "loadp 0x2000" with
                motion := { (ex_actor ⟨3, 4⟩ ⟨0, 9⟩ "loadp 0x2000").motion with
                  code := some ((assemble "eoc").take MAX_MCP_LENGTH
                    ++ (assemble "loadp 0x2000").drop MAX_MCP_LENGTH) } })))
    ∧ (((assemble "xchgp 0x2000\nset xvel, 5\neoc").get? 0 = some (some 165)
        ∧ decode (assemble "xchgp 0x2000\nset xvel, 5\neoc") (0 + 1) arg_unset
            = some (⟨3, vref.unset, ⟨some 8192, some 0⟩⟩, 12)
        ∧ (pair_world "xchgp 0x2000\nset xvel, 5\neoc").sprite_at 4096
            = some (ex_actor ⟨3, 4⟩ ⟨0, 9⟩ "xchgp 0x2000\nset xvel, 5\neoc")
        ∧ (pair_world "xchgp 0x2000\nset xvel, 5\neoc").sprite_at 8192
            = some (ex_actor ⟨50, -7⟩ ⟨-7, 2⟩ "eoc")
        ∧ 165 = BC_XCHGP)
      ∧ vm_loop 0 (assemble "xchgp 0x2000\nset xvel, 5\neoc") (0 + 1)
            ⟨0, arg_unset, arg_unset, 4096, pair_world "xchgp 0x2000\nset xvel, 5\neoc"⟩
          = vm_loop 0 (assemble "xchgp 0x2000\nset xvel, 5\neoc") 0
              ⟨12, ⟨3, vref.unset, ⟨some 8192, some 0⟩⟩, arg_unset, 4096,
                ((pair_world "xchgp 0x2000\nset xvel, 5\neoc").set_sprite 4096
                  (some { ex_actor ⟨3, 4⟩ ⟨0, 9⟩ "xchgp 0x2000\nset xvel, 5\neoc" with
                    motion := { (ex_actor ⟨3, 4⟩ ⟨0, 9⟩
                        "xchgp 0x2000\nset xvel, 5\neoc").motion with
                      code := (ex_actor ⟨50, -7⟩ ⟨-7, 2⟩ "eoc").motion.code } })).set_sprite
                  8192 (some { ex_actor ⟨50, -7⟩ ⟨-7, 2⟩ "eoc" with
                    motion := { (ex_actor ⟨50, -7⟩ ⟨-7, 2⟩ "eoc").motion with
                      code := (ex_actor ⟨3, 4⟩ ⟨0, 9⟩
                        "xchgp 0x2000\nset xvel, 5\neoc").motion.code } })⟩) :=
  ⟨⟨⟨by decide, by decide, by decide, by decide, by decide, by decide, by decide, by decide,
        by decide, by decide⟩,
      (c17_loadp_ends_xchgp_goes_on 0 (assemble "loadp 0x2000")
        ⟨0, arg_unset, arg_unset, 4096, pair_world "loadp 0x2000"⟩ 161
        ⟨3, vref.unset, ⟨some 8192, some 0⟩⟩ 12 8192
        (ex_actor ⟨3, 4⟩ ⟨0, 9⟩ "loadp 0x2000") (ex_actor ⟨50, -7⟩ ⟨-7, 2⟩ "eoc")
        (by decide) (by decide) (by decide) (by decide) (by decide) (by decide)
        (by decide)).1 (by decide) (assemble "loadp 0x2000") (assemble "eoc") (by decide)
        (by decide) 0⟩,
    ⟨⟨by decide, by decide, by decide, by decide, by decide⟩,
      (c17_loadp_ends_xchgp_goes_on 0 (assemble "xchgp 0x2000\nset xvel, 5\neoc")
        ⟨0, arg_unset, arg_unset, 4096, pair_world "xchgp 0x2000\nset xvel, 5\neoc"⟩ 165
        ⟨3, vref.unset, ⟨some 8192, some 0⟩⟩ 12 8192
        (ex_actor ⟨3, 4⟩ ⟨0, 9⟩ "xchgp 0x2000\nset xvel, 5\neoc")
        (ex_actor ⟨50, -7⟩ ⟨-7, 2⟩ "eoc")
        (by decide) (by decide) (by decide) (by decide) (by decide) (by decide)
        (by decide)).2 (by decide) 0⟩⟩

/-- What `adjust_sprite_frame(s, 0)` leaves in `cur_frame`: the C remainder of
the frame index by `frame_ct`. -/
theorem adjust_sprite_frame_zero (s : sprite) :
    (adjust_sprite_frame s 0).cur_frame
      = if s.frame_ct = 0 then s.cur_frame else Int.tmod s.cur_frame s.frame_ct := by
  unfold adjust_sprite_frame
  split_ifs
  · rfl
  · rw [(update_bound_cache_keeps _).2.2.1]
    simp [c_mod]

/-- C18, failing input: a sprite with `frame_ct = 4` showing frame 1.  The
programs "set frame, -2" and "add frame, -3" both leave the frame index at -2,
which is not in the range 0..3: `adjust_sprite_frame` takes the C remainder,
which keeps the sign of a negative value.  Values that are not negative are
brought into range: "set frame, 6" leaves 2.  The last part is
`adjust_sprite_frame(s, 0)` on every sprite: the frame index becomes its
remainder by `frame_ct`, truncated toward zero, and -2 by 4 leaves -2. -/
theorem c18_negative_frame_stays_negative :
    ((ex_actor4 "set frame, -2").frame_ct = 4
      ∧ (ex_actor4 "set frame, -2").cur_frame = 1
      ∧ frame_after "set frame, -2" = some (-2)
      ∧ frame_after "add frame, -3" = some (-2)
      ∧ frame_after "set frame, 6" = some 2
      ∧ Int.tmod (-2) 4 = -2)
    ∧ ∀ s : sprite, (adjust_sprite_frame s 0).cur_frame
        = if s.frame_ct = 0 then s.cur_frame else Int.tmod s.cur_frame s.frame_ct :=
  ⟨by decide, adjust_sprite_frame_zero⟩

/-- The case `BC_BST` of the switch on an immediate operand `n`, with `r` the
next value of `rand()`. -/
theorem vm_action_bst (indet : Int) (pc : Nat) (a1 : arg) (sp : Nat) (w : world) (n : Nat)
    (hi : Option Nat) (r : Nat) (rs : List Nat) :
    vm_action indet BC_BST ⟨pc, ⟨ARG_IMM, vref.own, ⟨some n, hi⟩⟩, a1, sp,
        { w with rand := r :: rs }⟩
      = if to_int32 (n % 4294967296 : Nat) = 0 then
          vm_step.next ⟨pc, ⟨ARG_IMM, vref.own, ⟨some n, hi⟩⟩, a1, sp, { w with rand := r :: rs }⟩
        else if c_mod r (to_int32 (n % 4294967296 : Nat)) ≠ 0 then
          vm_step.quit ⟨pc, ⟨ARG_IMM, vref.own, ⟨some n, hi⟩⟩, a1, sp, { w with rand := rs }⟩
        else
          vm_step.next ⟨pc, ⟨ARG_IMM, vref.own, ⟨some n, hi⟩⟩, a1, sp, { w with rand := rs }⟩ := by
  obtain ⟨e0, e1, e2, e3, e4, e5, e6, e7, e8, e9, e10, e11, e12, e13, e14, e15, e16, e17, e18,
    e19, e20, e21⟩ := bc_values
  simp [vm_action, vm_read, store_val, world.next_rand, e0, e1, e2, e3, e4, e5, e6, e7, e8, e9,
    e10, e11, e12, e13, e14, e15, e16, e17, e18, e19, e20, e21]

/-- C19, failing input: the program "bst 4", "set xvel, 5" on a sprite with
x-velocity 0 and tick 7.  When `rand()` returns 0, so that `r mod n = 0`, the
run goes on and sets the x-velocity; when it returns 1, 2 or 3 the run ends at
bst with the x-velocity unchanged: the instruction ends the run when
`r mod n` is not 0, in `n - 1` cases of `n`.  "bst 1" never ends the run, and
neither does "bst 0".  The last part is the case `BC_BST` of the switch for
every immediate operand `n` and every value `r` of `rand()`: no call of
`rand()` and no end of the run when the operand is 0, otherwise the end of
the run exactly when the C remainder of `r` by the operand is not 0. -/
theorem c19_bst_quits_on_nonzero :
    (bst_after "bst 4\nset xvel, 5" 0 = some (5, 8)
      ∧ bst_after "bst 4\nset xvel, 5" 1 = some (0, 8)
      ∧ bst_after "bst 4\nset xvel, 5" 2 = some (0, 8)
      ∧ bst_after "bst 4\nset xvel, 5" 3 = some (0, 8)
      ∧ bst_after "bst 4\nset xvel, 5" 4 = some (5, 8)
      ∧ bst_after "bst 1\nset xvel, 5" 0 = some (5, 8)
      ∧ bst_after "bst 1\nset xvel, 5" 3 = some (5, 8)
      ∧ bst_after "bst 0\nset xvel, 5" 3 = some (5, 8))
    ∧ ∀ (indet : Int) (pc : Nat) (a1 : arg) (sp : Nat) (w : world) (n : Nat) (hi : Option Nat)
        (r : Nat) (rs : List Nat),
        vm_action indet BC_BST ⟨pc, ⟨ARG_IMM, vref.own, ⟨some n, hi⟩⟩, a1, sp,
            { w with rand := r :: rs }⟩
          = if to_int32 (n % 4294967296 : Nat) = 0 then
              vm_step.next ⟨pc, ⟨ARG_IMM, vref.own, ⟨some n, hi⟩⟩, a1, sp,
                { w with rand := r :: rs }⟩
            else if c_mod r (to_int32 (n % 4294967296 : Nat)) ≠ 0 then
              vm_step.quit ⟨pc, ⟨ARG_IMM, vref.own, ⟨some n, hi⟩⟩, a1, sp,
                { w with rand := rs }⟩
            else
              vm_step.next ⟨pc, ⟨ARG_IMM, vref.own, ⟨some n, hi⟩⟩, a1, sp,
                { w with rand := rs }⟩ :=
  ⟨by decide, vm_action_bst⟩

theorem set_sprite_other (w : world) (p q : Nat) (x : Option sprite) (h : q ≠ p) :
    (w.set_sprite p x).sprite_at q = w.sprite_at q := by
  simp [world.set_sprite, world.sprite_at, h]

theorem sprite_get_set_var (s : sprite) (v x : Int)
    (hv : v = ARG_XPOS ∨ v = ARG_YPOS ∨ v = ARG_XVEL ∨ v = ARG_YVEL) :
    sprite_get_var (sprite_set_var s v x) v = x := by
  rcases hv with h | h | h | h <;> subst h <;>
    simp [sprite_get_var, sprite_set_var, ARG_XPOS, ARG_YPOS, ARG_XVEL, ARG_YVEL]

/-- C20, amended: trk and avg with a position or velocity variable `v` as first operand
and a pointer `p` to another sprite as second operand.  The second argument
gets the type of the first, and its pointer is set to the variable `v` of the
sprite at `p`; the running sprite's `v` becomes the value of `v` of the sprite
at `p` (trk), or the `int` sum of its own `v` and that value divided by 2 by
the C division, which truncates toward zero (avg); the run goes on behind the
two operands, and the sprite at `p` is what it was.  Where the sum of the two
values lies in the range of `int`, avg stores that sum divided by 2. -/
theorem c20_trk_avg (indet : Int) (buf : List cell) (st : vm_state) (inst : Nat)
    (a b : arg) (pc1 pc2 p : Nat) (s t : sprite)
    (hin : inst = BC_TRK ∨ inst = BC_AVG)
    (hf : buf.get? st.pc = some (some inst))
    (hd0 : decode buf (st.pc + 1) st.a0 = some (a, pc1))
    (hd1 : decode buf pc1 st.a1 = some (b, pc2))
    (hv : a.type = ARG_XPOS ∨ a.type = ARG_YPOS ∨ a.type = ARG_XVEL ∨ a.type = ARG_YVEL)
    (hp : store_ptr b.store = some p)
    (hs : st.w.sprite_at st.s = some s) (ht : st.w.sprite_at p = some t) (hne : p ≠ st.s) :
    vm_exec_inst indet buf st
        = vm_step.next ⟨pc2, { a with vptr := vref.var st.s a.type },
            { b with type := a.type, vptr := vref.var p a.type }, st.s,
            st.w.set_sprite st.s (some (sprite_set_var s a.type
              (trk_avg_value inst (sprite_get_var s a.type) (sprite_get_var t a.type))))⟩
    ∧ sprite_get_var (sprite_set_var s a.type
          (trk_avg_value inst (sprite_get_var s a.type) (sprite_get_var t a.type))) a.type
        = trk_avg_value inst (sprite_get_var s a.type) (sprite_get_var t a.type)
    ∧ (st.w.set_sprite st.s (some (sprite_set_var s a.type
          (trk_avg_value inst (sprite_get_var s a.type) (sprite_get_var t a.type))))).sprite_at p
        = some t
    ∧ trk_avg_value BC_TRK (sprite_get_var s a.type) (sprite_get_var t a.type)
        = sprite_get_var t a.type
    ∧ trk_avg_value BC_AVG (sprite_get_var s a.type) (sprite_get_var t a.type)
        = Int.tdiv (to_int32 (sprite_get_var s a.type + sprite_get_var t a.type)) 2
    ∧ (-2147483648 ≤ sprite_get_var s a.type + sprite_get_var t a.type →
        sprite_get_var s a.type + sprite_get_var t a.type < 2147483648 →
        trk_avg_value BC_AVG (sprite_get_var s a.type) (sprite_get_var t a.type)
          = Int.tdiv (sprite_get_var s a.type + sprite_get_var t a.type) 2) := by
  obtain ⟨e0, e1, e2, e3, e4, e5, e6, e7, e8, e9, e10, e11, e12, e13, e14, e15, e16, e17, e18,
    e19, e20, e21⟩ := bc_values
  have havg : trk_avg_value BC_AVG (sprite_get_var s a.type) (sprite_get_var t a.type)
      = Int.tdiv (to_int32 (sprite_get_var s a.type + sprite_get_var t a.type)) 2 := by
    simp [trk_avg_value, e4, e5, c_div]
  refine ⟨?_, sprite_get_set_var s a.type _ hv, ?_, ?_, havg, fun h1 h2 => ?_⟩
  · simp only [vm_exec_inst, hf]
    rcases hin with hi | hi <;> subst hi <;>
    rcases hv with h | h | h | h <;>
      simp [hd0, hd1, setvptr, hp, h, vm_action, vm_read, vm_assign, vm_write0, vm_adjust_frame,
        hs, ht, trk_avg_value, ARG_IMM, ARG_PTR, ARG_XPOS, ARG_YPOS, ARG_XVEL, ARG_YVEL,
        ARG_FRAME, ARG_TICK, e0, e1, e2, e3, e4, e5, e6, e7, e8, e9, e10, e11, e12, e13, e14,
        e15, e16, e17, e18, e19, e20, e21]
  · rw [set_sprite_other _ _ _ _ hne, ht]
  · simp [trk_avg_value]
  · rw [havg, to_int32_of_range _ h1 h2]

theorem c20_trk_avg_witness :
    ((22 = BC_TRK ∨ 22 = BC_AVG)
      ∧ (assemble "avg ypos, 0x2000").get? 0 = some (some 22)
      ∧ decode (assemble "avg ypos, 0x2000") (0 + 1) arg_unset
          = some (⟨11, vref.unset, ⟨none, none⟩⟩, 8)
      ∧ decode (assemble "avg ypos, 0x2000") 8 arg_unset
          = some (⟨3, vref.unset, ⟨some 8192, some 0⟩⟩, 20)
      ∧ ((11 : Int) = ARG_XPOS ∨ (11 : Int) = ARG_YPOS ∨ (11 : Int) = ARG_XVEL
          ∨ (11 : Int) = ARG_YVEL)
      ∧ store_ptr ⟨some 8192, some 0⟩ = some 8192
      ∧ (pair_world "avg ypos, 0x2000").sprite_at 4096
          = some (ex_actor ⟨3, 4⟩ ⟨0, 9⟩ "avg ypos, 0x2000")
      ∧ (pair_world "avg ypos, 0x2000").sprite_at 8192
          = some (ex_actor ⟨50, -7⟩ ⟨-7, 2⟩ "eoc")
      ∧ 8192 ≠ 4096)
    ∧ vm_exec_inst 0 (assemble "avg ypos, 0x2000")
          ⟨0, arg_unset, arg_unset, 4096, pair_world "avg ypos, 0x2000"⟩
        = vm_step.next ⟨20, ⟨11, vref.var 4096 11, ⟨none, none⟩⟩,
            ⟨11, vref.var 8192 11, ⟨some 8192, some 0⟩⟩, 4096,
            (pair_world "avg ypos, 0x2000").set_sprite 4096
              (some (sprite_set_var (ex_actor ⟨3, 4⟩ ⟨0, 9⟩ "avg ypos, 0x2000") 11
                (trk_avg_value 22
                  (sprite_get_var (ex_actor ⟨3, 4⟩ ⟨0, 9⟩ "avg ypos, 0x2000") 11)
                  (sprite_get_var (ex_actor ⟨50, -7⟩ ⟨-7, 2⟩ "eoc") 11))))⟩
    ∧ trk_avg_value 22 (sprite_get_var (ex_actor ⟨3, 4⟩ ⟨0, 9⟩ "avg ypos, 0x2000") 11)
          (sprite_get_var (ex_actor ⟨50, -7⟩ ⟨-7, 2⟩ "eoc") 11) = -1
    ∧ Int.tdiv (4 + -7) 2 = -1 :=
  ⟨⟨by decide, by decide, by decide, by decide, by decide, by decide, by decide, by decide,
      by decide⟩,
    (c20_trk_avg 0 (assemble "avg ypos, 0x2000")
      ⟨0, arg_unset, arg_unset, 4096, pair_world "avg ypos, 0x2000"⟩ 22
      ⟨11, vref.unset, ⟨none, none⟩⟩ ⟨3, vref.unset, ⟨some 8192, some 0⟩⟩ 8 20 8192
      (ex_actor ⟨3, 4⟩ ⟨0, 9⟩ "avg ypos, 0x2000") (ex_actor ⟨50, -7⟩ ⟨-7, 2⟩ "eoc")
      (by decide) (by decide) (by decide) (by decide) (by decide) (by decide) (by decide)
      (by decide) (by decide)).1,
    by decide, by decide⟩

/-- C20, counterexample: the running sprite and the sprite at 0x2000 both have
the x-velocity 2147483647, the largest `int`.  After a run of
`avg xvel, 0x2000` the running sprite's x-velocity is -1: the `int` sum of the
two values is -2.  The sum of the two numbers divided by 2 is 2147483647. -/
theorem c20_avg_sum_wraps :
    (avg_world.sprite_at 4096).map (fun s => s.vel.x) = some 2147483647
    ∧ (avg_world.sprite_at 8192).map (fun s => s.vel.x) = some 2147483647
    ∧ (run_result (motion_exec_single 0 avg_world 4096) 4096).map
        (fun r => (r.1, r.2.map (fun s => s.vel.x))) = some (0, some (-1))
    ∧ Int.tdiv (2147483647 + 2147483647) 2 = 2147483647
    ∧ to_int32 (2147483647 + 2147483647) = -2 := by
  decide

/-! ## The assembler: statuses, failures, and what it leaves behind -/

theorem find_inst_foldl_mem (tok : cstr) (l : List inst) (acc : Option inst) (i : inst)
    (h : l.foldl (fun acc i => if strcasecmp_eq tok i.str then some i else acc) acc = some i) :
    acc = some i ∨ i ∈ l := by
  induction l generalizing acc with
  | nil => left; exact h
  | cons j l ih =>
    simp only [List.foldl_cons] at h
    rcases ih _ h with h1 | h1
    · split_ifs at h1
      · right
        cases h1
        exact List.mem_cons_self _ _
      · left; exact h1
    · right; exact List.mem_cons_of_mem _ h1

theorem find_inst_mem (tok : cstr) (i : inst) (h : find_inst tok = some i) : i ∈ insts := by
  rcases find_inst_foldl_mem tok insts none i h with h1 | h1
  · cases h1
  · exact h1

/-- The argument types of the table are all among the ones the parser handles. -/
theorem insts_types :
    ∀ i ∈ insts, (i.argc ≠ 0 → i.args0 = TYPES_PTR ∨ i.args0 = TYPES_VAR ∨ i.args0 = TYPES_ALL)
      ∧ (i.argc ≠ 0 → i.argc ≠ 1 →
          i.args1 = TYPES_PTR ∨ i.args1 = TYPES_VAR ∨ i.args1 = TYPES_ALL) := by
  decide

theorem asm_parse_arg_fail (st : asm_state) (i ty : Nat) (tok : Option cstr) (c : Int)
    (hty : ty = TYPES_PTR ∨ ty = TYPES_VAR ∨ ty = TYPES_ALL)
    (h : asm_parse_arg st i ty tok = asm_step.fail c) : c = ERR_BAD_VAR := by
  unfold asm_parse_arg at h
  simp only at h
  rcases hty with e | e | e <;> subst e <;>
    simp only [TYPES_PTR, TYPES_VAR, TYPES_ALL, TYPES_IMM] at h <;>
    norm_num at h <;>
    (repeat' split at h) <;> (cases h <;> rfl)

theorem asm_put_ok_or_undef (st : asm_state) (b : cell) (c : Int) :
    asm_put st b ≠ asm_step.fail c := by
  unfold asm_put
  split_ifs <;> simp

theorem asm_put_ct (st st1 : asm_state) (b : cell) (h : asm_put st b = asm_step.ok st1) :
    st1.ct = st.ct + 1 ∧ st1.ct ≤ ASM_BUF_SIZE ∧ st1.buf = st.buf.set st.ct b
      ∧ st1.type0 = st.type0 ∧ st1.store0 = st.store0 ∧ st1.type1 = st.type1
      ∧ st1.store1 = st.store1 := by
  unfold asm_put at h
  split_ifs at h with hlt
  · cases h
    exact ⟨rfl, hlt, rfl, rfl, rfl, rfl, rfl⟩

theorem asm_put_bytes_not_fail (bs : List cell) : ∀ (st : asm_state) (c : Int),
    asm_put_bytes bs st ≠ asm_step.fail c := by
  induction bs with
  | nil => intro st c; simp [asm_put_bytes]
  | cons b bs ih =>
    intro st c
    rw [asm_put_bytes]
    cases h : asm_put st b with
    | ok st1 => exact ih st1 c
    | fail d => exact absurd h (asm_put_ok_or_undef st b d)
    | undef => simp

theorem asm_put_bytes_ct (bs : List cell) : ∀ (st st1 : asm_state),
    asm_put_bytes bs st = asm_step.ok st1 →
    st1.ct = st.ct + bs.length ∧ (bs ≠ [] → st1.ct ≤ ASM_BUF_SIZE) := by
  induction bs with
  | nil =>
    intro st st1 h
    simp only [asm_put_bytes] at h
    cases h
    exact ⟨rfl, fun h => absurd rfl h⟩
  | cons b bs ih =>
    intro st st1 h
    rw [asm_put_bytes] at h
    cases hp : asm_put st b with
    | ok st2 =>
      rw [hp] at h
      obtain ⟨h1, h2⟩ := ih st2 st1 h
      obtain ⟨h3, h4, _⟩ := asm_put_ct st st2 b hp
      refine ⟨by simp only [List.length_cons]; omega, fun _ => ?_⟩
      cases bs with
      | nil =>
        simp only [asm_put_bytes] at h
        cases h
        exact h4
      | cons b2 bs2 => exact h2 (by simp)
    | fail d => rw [hp] at h; cases h
    | undef => rw [hp] at h; cases h

theorem asm_pack_arg_not_fail (st : asm_state) (type : Int) (store : ustore) (c : Int) :
    asm_pack_arg st type store ≠ asm_step.fail c := by
  unfold asm_pack_arg
  cases h : asm_put st (some (type % 256).toNat) with
  | ok st1 =>
    simp only
    split_ifs
    · exact asm_put_bytes_not_fail _ _ c
    · exact asm_put_bytes_not_fail _ _ c
    · simp
  | fail d => exact absurd h (asm_put_ok_or_undef _ _ d)
  | undef => simp

theorem asm_pack_arg_ct (st st1 : asm_state) (type : Int) (store : ustore)
    (h : asm_pack_arg st type store = asm_step.ok st1) : st1.ct ≤ ASM_BUF_SIZE + 1 := by
  unfold asm_pack_arg at h
  cases hp : asm_put st (some (type % 256).toNat) with
  | ok st2 =>
    rw [hp] at h
    simp only at h
    obtain ⟨_, h4, _⟩ := asm_put_ct _ _ _ hp
    split_ifs at h
    · have := (asm_put_bytes_ct _ _ _ h).2 (by
        unfold store_val_bytes word_bytes
        split <;> simp [le_bytes])
      omega
    · have := (asm_put_bytes_ct _ _ _ h).2 (by
        unfold store_ptr_bytes word_bytes
        split <;> simp [le_bytes])
      omega
    · cases h
      simp only [ASM_BUF_SIZE] at h4 ⊢
      omega
  | fail d => rw [hp] at h; cases h
  | undef => rw [hp] at h; cases h

/-- The only failures of a line: an unknown mnemonic or an unknown variable. -/
theorem asm_line_fail (st : asm_state) (line : cstr) (c : Int)
    (h : asm_line st line = asm_step.fail c) : c = ERR_BAD_INST ∨ c = ERR_BAD_VAR := by
  unfold asm_line at h
  simp only at h
  cases h0 : (strtok_all [32, 9, 44] line).get? 0 with
  | none => rw [h0] at h; cases h
  | some s0 =>
    rw [h0] at h
    simp only at h
    cases hi : find_inst s0 with
    | none =>
      rw [hi] at h
      cases h
      left; rfl
    | some this_i =>
      rw [hi] at h
      simp only at h
      have hty := insts_types this_i (find_inst_mem s0 this_i hi)
      split at h
      · rename_i st1 hparsed
        split at h
        · rename_i st2 hput
          have hct2 := (asm_put_ct _ _ _ hput).2.1
          split at h
          · rename_i st4 hpacked
            have hct4 : st4.ct ≤ ASM_BUF_SIZE + 1 := by
              by_cases ha : this_i.argc = 0
              · rw [if_pos ha] at hpacked; cases hpacked; omega
              rw [if_neg ha] at hpacked
              cases hp : asm_pack_arg st2 st2.type0 st2.store0 with
              | ok st3 =>
                rw [hp] at hpacked
                simp only at hpacked
                by_cases hb : this_i.argc = 1
                · rw [if_pos hb] at hpacked
                  cases hpacked
                  exact asm_pack_arg_ct _ _ _ _ hp
                · rw [if_neg hb] at hpacked
                  exact asm_pack_arg_ct _ _ _ _ hpacked
              | fail e => rw [hp] at hpacked; cases hpacked
              | undef => rw [hp] at hpacked; cases hpacked
            split_ifs at h with hge
            simp only [MAX_MCP_LENGTH, ASM_BUF_SIZE] at hge hct4
            omega
          · exfalso
            by_cases ha : this_i.argc = 0
            · rw [if_pos ha] at h; cases h
            rw [if_neg ha] at h
            cases hp : asm_pack_arg st2 st2.type0 st2.store0 with
            | ok st3 =>
              rw [hp] at h
              simp only at h
              by_cases hb : this_i.argc = 1
              · rw [if_pos hb] at h; cases h
              · rw [if_neg hb] at h
                exact asm_pack_arg_not_fail _ _ _ _ h
            | fail e => exact asm_pack_arg_not_fail _ _ _ _ hp
            | undef => rw [hp] at h; cases h
        · exact absurd h (asm_put_ok_or_undef _ _ c)
      · right
        by_cases ha : this_i.argc = 0
        · rw [if_pos ha] at h; cases h
        rw [if_neg ha] at h
        cases hp : asm_parse_arg st 0 this_i.args0 ((strtok_all [32, 9, 44] line).get? 1) with
        | ok st1 =>
          rw [hp] at h
          simp only at h
          by_cases hb : this_i.argc = 1
          · rw [if_pos hb] at h; cases h
          rw [if_neg hb] at h
          exact asm_parse_arg_fail _ _ _ _ _ (hty.2 ha hb) h
        | fail e =>
          rw [hp] at h
          simp only at h
          cases h
          exact asm_parse_arg_fail _ _ _ _ _ (hty.1 ha) hp
        | undef => rw [hp] at h; cases h

theorem asm_lines_fail (ls : List cstr) : ∀ (st : asm_state) (c : Int),
    asm_lines ls st = asm_step.fail c → c = ERR_BAD_INST ∨ c = ERR_BAD_VAR := by
  induction ls with
  | nil => intro st c h; cases h
  | cons l ls ih =>
    intro st c h
    rw [asm_lines] at h
    cases hl : asm_line st l with
    | ok st1 => rw [hl] at h; exact ih st1 c h
    | fail d =>
      rw [hl] at h
      cases h
      exact asm_line_fail st l c hl
    | undef => rw [hl] at h; cases h

/-- Every status that `parse_mcp` can return. -/
theorem parse_mcp_status (inp : Option cstr) (m : Option mcp) (r : Int) (m1 : Option mcp)
    (h : parse_mcp inp m = outcome.ret (r, m1)) :
    r = 0 ∨ r = ERR ∨ r = ERR_BAD_INST ∨ r = ERR_BAD_VAR := by
  unfold parse_mcp at h
  split at h
  · rename_i text m0
    simp only at h
    by_cases he : text.isEmpty = true
    · rw [if_pos he] at h
      split at h
      · cases h
      · cases h; left; rfl
    rw [if_neg he] at h
    by_cases hl : (strtok_all [13, 10] text).length + 1 ≥ ASM_MAX_LINES
    · rw [if_pos hl] at h; cases h
    rw [if_neg hl] at h
    split at h
    · cases h
    · rename_i code hfail
      cases h
      right; right
      exact asm_lines_fail _ _ _ hfail
    · split at h
      · cases h; left; rfl
      · cases h
  · cases h
    right; left; rfl

theorem list_split_at {α : Type} (l : List α) : ∀ (k : Nat) (x : α),
    l.get? k = some x → l = l.take k ++ x :: l.drop (k + 1) := by
  induction l with
  | nil => intro k x h; cases h
  | cons a l ih =>
    intro k x h
    cases k with
    | zero =>
      simp only [List.get?] at h
      cases h
      rfl
    | succ k =>
      simp only [List.get?] at h
      simp only [List.take_succ_cons, List.drop_succ_cons, List.cons_append]
      rw [← ih k x h]

theorem asm_lines_append (a b : List cstr) : ∀ st : asm_state,
    asm_lines (a ++ b) st
      = match asm_lines a st with
        | asm_step.ok st1 => asm_lines b st1
        | r => r := by
  induction a with
  | nil => intro st; rfl
  | cons l ls ih =>
    intro st
    simp only [List.cons_append, asm_lines]
    cases h : asm_line st l with
    | ok st1 => exact ih st1
    | fail c => rfl
    | undef => rfl

theorem find_inst_foldl_none (tok : cstr) (l : List inst)
    (h : ∀ i ∈ l, strcasecmp_eq tok i.str = false) (acc : Option inst) :
    l.foldl (fun acc i => if strcasecmp_eq tok i.str then some i else acc) acc = acc := by
  induction l generalizing acc with
  | nil => rfl
  | cons i l ih =>
    simp only [List.foldl_cons]
    rw [h i (List.mem_cons_self _ _)]
    exact ih (fun j hj => h j (List.mem_cons_of_mem _ hj)) acc

theorem find_inst_none (tok : cstr) (h : ∀ i ∈ insts, strcasecmp_eq tok i.str = false) :
    find_inst tok = none :=
  find_inst_foldl_none tok insts h none

/-- The result of `parse_mcp` on a text that is not empty and has fewer lines
than the array `lines` can take, in terms of the loop over the lines. -/
theorem parse_mcp_lines (text : cstr) (m : mcp) (htext : text ≠ [])
    (hlen : (strtok_all [13, 10] text).length + 1 < ASM_MAX_LINES) :
    parse_mcp (some text) (some m)
      = match asm_lines (strtok_all [13, 10] text) asm_start with
        | asm_step.undef => outcome.undef
        | asm_step.fail code => outcome.ret (code, some m)
        | asm_step.ok st =>
          match asm_put st (some BC_EOC) with
          | asm_step.ok st1 =>
            outcome.ret (0, some { m with
              code := some (st1.buf.take st1.ct
                ++ (m.code.getD (List.replicate MAX_MCP_LENGTH none)).drop st1.ct) })
          | _ => outcome.undef := by
  unfold parse_mcp
  simp only
  have he : text.isEmpty = false := by
    cases text with
    | nil => exact absurd rfl htext
    | cons a b => rfl
  rw [he]
  simp only [Bool.false_eq_true, if_false]
  rw [if_neg (by omega)]
  rfl

/-- C24: a text that is not empty and has fewer lines than the array `lines`
holds, in which the lines before line `k` assemble and the first token of line
`k` matches no mnemonic of the instruction table when letter case is ignored:
`parse_mcp` returns `ERR_BAD_INST`, and the destination program is untouched. -/
theorem c24_unknown_instruction (text : cstr) (m : mcp) (k : Nat) (line tok : cstr)
    (st : asm_state) (htext : text ≠ [])
    (hlen : (strtok_all [13, 10] text).length + 1 < ASM_MAX_LINES)
    (hline : (strtok_all [13, 10] text).get? k = some line)
    (hearlier : asm_lines ((strtok_all [13, 10] text).take k) asm_start = asm_step.ok st)
    (htok : (strtok_all [32, 9, 44] line).get? 0 = some tok)
    (hno : ∀ i ∈ insts, strcasecmp_eq tok i.str = false) :
    parse_mcp (some text) (some m) = outcome.ret (ERR_BAD_INST, some m) := by
  rw [parse_mcp_lines text m htext hlen]
  have hsplit := list_split_at (strtok_all [13, 10] text) k line hline
  have hl : asm_line st line = asm_step.fail ERR_BAD_INST := by
    unfold asm_line
    simp only [htok, find_inst_none tok hno]
  rw [hsplit, asm_lines_append, hearlier]
  simp only [asm_lines, hl]

theorem c24_unknown_instruction_witness :
    (cs "foo bar" ≠ []
      ∧ (strtok_all [13, 10] (cs "foo bar")).length + 1 < ASM_MAX_LINES
      ∧ (strtok_all [13, 10] (cs "foo bar")).get? 0 = some (cs "foo bar")
      ∧ asm_lines ((strtok_all [13, 10] (cs "foo bar")).take 0) asm_start
          = asm_step.ok asm_start
      ∧ (strtok_all [32, 9, 44] (cs "foo bar")).get? 0 = some (cs "foo")
      ∧ ∀ i ∈ insts, strcasecmp_eq (cs "foo") i.str = false)
    ∧ parse_mcp (some (cs "foo bar")) (some ⟨some (assemble "add xpos, 1"), 7⟩)
        = outcome.ret (ERR_BAD_INST, some ⟨some (assemble "add xpos, 1"), 7⟩) :=
  ⟨⟨by decide, by decide, by rfl, by rfl, by rfl, by decide⟩,
    c24_unknown_instruction (cs "foo bar") ⟨some (assemble "add xpos, 1"), 7⟩ 0 (cs "foo bar")
      (cs "foo") asm_start (by decide) (by decide) (by rfl) (by rfl) (by rfl) (by decide)⟩

/-- C23: in the instruction table of `parse_mcp` every opcode fits one byte and
its low two bits are the number of operands of the entry, which is 0, 1 or 2;
two entries with different mnemonics have different opcodes (the mnemonics
and the opcodes of the table are each without repetition, also when letter
case is ignored). -/
theorem c23_opcode_low_bits :
    (∀ i ∈ insts, i.bc % 4 = i.argc ∧ i.argc ≤ 2 ∧ i.bc < 256)
    ∧ (∀ i ∈ insts, ∀ j ∈ insts, i.str ≠ j.str → i.bc ≠ j.bc)
    ∧ (insts.map (fun i => i.bc)).Nodup
    ∧ (insts.map (fun i => i.str.map c_tolower)).Nodup
    ∧ insts.length = 22 := by
  decide

/-- C27: when `parse_mcp` returns a status other than 0 for a text that is not
empty, the destination program is what it was before the call, code bytes and
tick counter alike. -/
theorem c27_failure_keeps_program (text : cstr) (m : mcp) (r : Int) (m1 : Option mcp)
    (htext : text ≠ []) (hret : parse_mcp (some text) (some m) = outcome.ret (r, m1))
    (hfail : r ≠ 0) : m1 = some m := by
  unfold parse_mcp at hret
  simp only at hret
  have he : text.isEmpty = false := by
    cases text with
    | nil => exact absurd rfl htext
    | cons a b => rfl
  rw [he] at hret
  simp only [Bool.false_eq_true, if_false] at hret
  by_cases hl : (strtok_all [13, 10] text).length + 1 ≥ ASM_MAX_LINES
  · rw [if_pos hl] at hret
    cases hret
  · rw [if_neg hl] at hret
    split at hret
    · cases hret
    · injection hret with h
      exact (Prod.mk.inj h).2.symm
    · split at hret
      · injection hret with h
        exact absurd (Prod.mk.inj h).1.symm hfail
      · cases hret

theorem c27_failure_keeps_program_witness :
    (cs "set zpos, 1" ≠ []
      ∧ parse_mcp (some (cs "set zpos, 1")) (some ⟨some (assemble "add xpos, 1"), 7⟩)
          = outcome.ret (ERR_BAD_VAR, some ⟨some (assemble "add xpos, 1"), 7⟩)
      ∧ ERR_BAD_VAR ≠ 0)
    ∧ (some ⟨some (assemble "add xpos, 1"), 7⟩ : Option mcp)
        = some ⟨some (assemble "add xpos, 1"), 7⟩ :=
  ⟨⟨by decide, rfl, by decide⟩,
    c27_failure_keeps_program (cs "set zpos, 1") ⟨some (assemble "add xpos, 1"), 7⟩ ERR_BAD_VAR
      (some ⟨some (assemble "add xpos, 1"), 7⟩) (by decide) rfl (by decide)⟩

/-- C25, failing input: the operand "abc" in the value-or-variable slot of set
is no variable name and no integer; `parse_mcp` returns 0 and has assembled
"set xvel, 0".  With the operand missing ("set xvel", "bst") the call passes
the NULL that `strtok` returned to `strcasecmp`, which is undefined.  And no
input at all makes `parse_mcp` return `ERR_BAD_ARG`. -/
theorem c25_bad_operand_not_reported :
    parse_mcp (some (cs "set xvel, abc")) (some ⟨none, 0⟩)
        = outcome.ret (0, some ⟨some (assemble "set xvel, 0"), 0⟩)
    ∧ parse_status (cs "set xvel, abc") = some 0
    ∧ parse_status (cs "set xvel") = none
    ∧ parse_status (cs "bst") = none
    ∧ ∀ (inp : Option cstr) (m m1 : Option mcp),
        parse_mcp inp m ≠ outcome.ret (ERR_BAD_ARG, m1) := by
  refine ⟨rfl, by decide, by decide, by decide, fun inp m m1 h => ?_⟩
  rcases parse_mcp_status inp m _ m1 h with h1 | h1 | h1 | h1 <;> exact absurd h1 (by decide)

/-- C26, failing input: sixteen lines "set xvel, 5" are valid and assemble to
256 bytes, which with the final eoc byte are 257 and fit in `MAX_MCP_LENGTH`;
`parse_mcp` writes them to its scratch buffer `buf` of 255 bytes and runs over
its end, which is undefined.  Fifteen such lines (241 bytes with eoc) assemble;
fifteen of them followed by fifteen lines "del" fill the 255 bytes, and the
final eoc byte is written past the end.  No input at all makes `parse_mcp`
return `ERR_TOO_LONG`: the write index would have to reach 384. -/
theorem c26_buffer_overrun_before_too_long :
    parse_status (rep_lines 15 "set xvel, 5") = some 0
    ∧ parse_status (rep_lines 16 "set xvel, 5") = none
    ∧ parse_status (rep_lines 15 "set xvel, 5" ++ rep_lines 14 "del") = some 0
    ∧ parse_status (rep_lines 15 "set xvel, 5" ++ rep_lines 15 "del") = none
    ∧ ASM_BUF_SIZE = 255 ∧ MAX_MCP_LENGTH = 384
    ∧ ∀ (inp : Option cstr) (m m1 : Option mcp),
        parse_mcp inp m ≠ outcome.ret (ERR_TOO_LONG, m1) := by
  refine ⟨by decide, by decide, by decide, by decide, rfl, rfl, fun inp m m1 h => ?_⟩
  rcases parse_mcp_status inp m _ m1 h with h1 | h1 | h1 | h1 <;> exact absurd h1 (by decide)

/-- C21: an opcode byte that is no defined opcode stops the run only when its
low two bits are 3 (status `ERR_BAD_INST_BC`).  The bytes 4 and 100 (no
operands) and 26 (two operands) are opcodes of no instruction, yet a run that
meets one of them skips it, goes on with the "set xvel, 5" behind it and
returns 0, as a normal termination does.  An undefined variable selector or
type tag does stop the run with `ERR_BAD_ARG_BC`, the sprite untouched. -/
theorem c21_unknown_opcode_skipped :
    (∀ i ∈ insts, i.bc ≠ 4 ∧ i.bc ≠ 100 ∧ i.bc ≠ 26)
      ∧ raw_run (after_byte 4) = some (0, 5, 8)
      ∧ raw_run (after_byte 100) = some (0, 5, 8)
      ∧ raw_run after_two_operands = some (0, 5, 8)
      ∧ raw_run (after_byte 3) = some (ERR_BAD_INST_BC, 0, 7)
      ∧ raw_run (after_byte 7) = some (ERR_BAD_INST_BC, 0, 7)
      ∧ raw_run bad_selector = some (ERR_BAD_ARG_BC, 0, 7)
      ∧ raw_run bad_tag = some (ERR_BAD_ARG_BC, 0, 7) := by
  decide

/-! ## Assembling and decoding again -/

theorem get_set_eq {α : Type} (l : List α) : ∀ (i : Nat) (b : α), i < l.length →
    (l.set i b).get? i = some b := by
  induction l with
  | nil => intro i b h; exact absurd h (Nat.not_lt_zero _)
  | cons a l ih =>
    intro i b h
    cases i with
    | zero => rfl
    | succ i => exact ih i b (Nat.lt_of_succ_lt_succ h)

theorem get_set_ne {α : Type} (l : List α) : ∀ (i j : Nat) (b : α), i ≠ j →
    (l.set i b).get? j = l.get? j := by
  induction l with
  | nil => intro i j b _; rfl
  | cons a l ih =>
    intro i j b h
    cases i with
    | zero =>
      cases j with
      | zero => exact absurd rfl h
      | succ j => rfl
    | succ i =>
      cases j with
      | zero => rfl
      | succ j => exact ih i j b (fun e => h (by rw [e]))

theorem drop_get_cons {α : Type} (l : List α) : ∀ (pc : Nat) (x : α), l.get? pc = some x →
    l.drop pc = x :: l.drop (pc + 1) := by
  induction l with
  | nil => intro pc x h; cases h
  | cons a l ih =>
    intro pc x h
    cases pc with
    | zero =>
      simp only [List.get?] at h
      cases h
      rfl
    | succ pc => exact ih pc x h

theorem drop_get_none {α : Type} (l : List α) : ∀ (pc : Nat), l.get? pc = none →
    l.drop pc = [] := by
  induction l with
  | nil => intro pc _; cases pc <;> rfl
  | cons a l ih =>
    intro pc h
    cases pc with
    | zero => cases h
    | succ pc => exact ih pc h

/-- The `k` elements of a list from index `pc` on are determined by what
`get?` returns at these indices. -/
theorem window_congr {α : Type} (l l1 : List α) (k : Nat) : ∀ pc : Nat,
    (∀ j, j < k → l1.get? (pc + j) = l.get? (pc + j)) →
    (l1.drop pc).take k = (l.drop pc).take k := by
  induction k with
  | zero => intro pc _; rfl
  | succ k ih =>
    intro pc h
    have h0 := h 0 (Nat.succ_pos _)
    rw [Nat.add_zero] at h0
    cases hg : l.get? pc with
    | none =>
      rw [hg] at h0
      rw [drop_get_none l pc hg, drop_get_none l1 pc h0]
    | some x =>
      rw [hg] at h0
      rw [drop_get_cons l pc x hg, drop_get_cons l1 pc x h0, List.take_succ_cons,
        List.take_succ_cons, ih (pc + 1) (fun j hj => by
          have := h (j + 1) (by omega)
          rw [show pc + 1 + j = pc + (j + 1) by omega]
          exact this)]

theorem read_word_congr (buf buf1 : List cell) (pc : Nat)
    (h : ∀ j, j < 4 → buf1.get? (pc + j) = buf.get? (pc + j)) :
    read_word buf1 pc = read_word buf pc := by
  unfold read_word
  rw [window_congr buf buf1 4 pc h]

theorem read_word_of_get (buf : List cell) (pc a b c d : Nat)
    (h0 : buf.get? pc = some (some a)) (h1 : buf.get? (pc + 1) = some (some b))
    (h2 : buf.get? (pc + 2) = some (some c)) (h3 : buf.get? (pc + 3) = some (some d)) :
    read_word buf pc = some (le_value [a, b, c, d]) := by
  unfold read_word
  rw [drop_get_cons buf pc _ h0, drop_get_cons buf (pc + 1) _ h1,
    drop_get_cons buf (pc + 2) _ h2, drop_get_cons buf (pc + 3) _ h3]
  rfl

theorem le_value_le_bytes (n : Nat) : le_value (le_bytes 4 n) = n % 4294967296 := by
  simp only [le_bytes, le_value]
  omega

/-- Bytes stored at successive indices from `ct` on can be read back there,
and what lies before `ct` stays. -/
theorem asm_put_bytes_spec (bs : List cell) : ∀ (st st1 : asm_state),
    asm_put_bytes bs st = asm_step.ok st1 → st.buf.length = ASM_BUF_SIZE →
    st1.ct = st.ct + bs.length ∧ st1.buf.length = ASM_BUF_SIZE
      ∧ (∀ k, k < bs.length → st1.buf.get? (st.ct + k) = bs.get? k)
      ∧ (∀ j, j < st.ct → st1.buf.get? j = st.buf.get? j)
      ∧ st1.type0 = st.type0 ∧ st1.store0 = st.store0 ∧ st1.type1 = st.type1
      ∧ st1.store1 = st.store1 := by
  induction bs with
  | nil =>
    intro st st1 h hlen
    simp only [asm_put_bytes] at h
    cases h
    exact ⟨rfl, hlen, fun k hk => absurd hk (Nat.not_lt_zero _), fun _ _ => rfl, rfl, rfl, rfl,
      rfl⟩
  | cons b bs ih =>
    intro st st1 h hlen
    rw [asm_put_bytes] at h
    cases hp : asm_put st b with
    | ok st2 =>
      rw [hp] at h
      obtain ⟨p1, p2, p3, p4, p5, p6, p7⟩ := asm_put_ct st st2 b hp
      have hlen2 : st2.buf.length = ASM_BUF_SIZE := by rw [p3, List.length_set]; exact hlen
      obtain ⟨q1, q2, q3, q4, q5, q6, q7, q8⟩ := ih st2 st1 h hlen2
      have hct : st.ct < st.buf.length := by
        rw [hlen]
        omega
      refine ⟨by simp only [List.length_cons]; omega, q2, ?_, ?_, by rw [q5, p4], by rw [q6, p5],
        by rw [q7, p6], by rw [q8, p7]⟩
      · intro k hk
        cases k with
        | zero =>
          rw [Nat.add_zero, q4 st.ct (by omega), p3, get_set_eq _ _ _ hct]
          rfl
        | succ k =>
          have := q3 k (by simp only [List.length_cons] at hk; omega)
          rw [p1] at this
          rw [show st.ct + (k + 1) = st.ct + 1 + k by omega, this]
          rfl
      · intro j hj
        rw [q4 j (by omega), p3, get_set_ne _ _ _ _ (by omega)]
    | fail d => rw [hp] at h; cases h
    | undef => rw [hp] at h; cases h

/-- Reading back a word whose four bytes were stored at `pc`. -/
theorem read_word_stored (buf : List cell) (pc n : Nat)
    (h : ∀ k, k < 4 → buf.get? (pc + k) = (word_bytes (some n)).get? k) :
    read_word buf pc = some (n % 4294967296) := by
  have h0 := h 0 (by omega)
  have h1 := h 1 (by omega)
  have h2 := h 2 (by omega)
  have h3 := h 3 (by omega)
  simp only [word_bytes, le_bytes, List.map, List.get?, Nat.add_zero] at h0 h1 h2 h3
  rw [read_word_of_get buf pc _ _ _ _ h0 h1 h2 h3]
  simp only [le_value]
  congr 1
  omega

theorem decode_congr (buf buf1 : List cell) (pc : Nat) (tgt a : arg) (pc1 : Nat)
    (h : decode buf pc tgt = some (a, pc1))
    (hag : ∀ j, j < pc1 → buf1.get? j = buf.get? j) :
    decode buf1 pc tgt = some (a, pc1) := by
  have hlt := decode_pc_lt buf pc tgt a pc1 h
  unfold decode at h ⊢
  rw [hag pc hlt]
  split at h
  · rename_i t hget
    simp only at h ⊢
    by_cases c1 : (t : Int) = ARG_IMM
    · rw [if_pos c1] at h ⊢
      split at h
      · rename_i v hv
        have hp := (Prod.mk.inj (Option.some.inj h)).2
        have : read_int buf1 ((pc + 1 + 3) / 4 * 4) = read_int buf ((pc + 1 + 3) / 4 * 4) := by
          unfold read_int
          rw [read_word_congr buf buf1 _ (fun j hj => hag _ (by omega))]
        rw [this, hv]
        exact h
      · cases h
    rw [if_neg c1] at h ⊢
    by_cases c2 : (t : Int) = ARG_VAR
    · rw [if_pos c2] at h ⊢
      split at h
      · rename_i v hv
        have hp := (Prod.mk.inj (Option.some.inj h)).2
        have : read_int buf1 ((pc + 1 + 3) / 4 * 4) = read_int buf ((pc + 1 + 3) / 4 * 4) := by
          unfold read_int
          rw [read_word_congr buf buf1 _ (fun j hj => hag _ (by omega))]
        rw [this, hv]
        exact h
      · cases h
    rw [if_neg c2] at h ⊢
    by_cases c3 : (t : Int) = ARG_PTR
    · rw [if_pos c3] at h ⊢
      split at h
      · rename_i l hh hl hhh
        have hp := (Prod.mk.inj (Option.some.inj h)).2
        rw [read_word_congr buf buf1 _ (fun j hj => hag _ (by omega)),
          read_word_congr buf buf1 ((pc + 1 + 3) / 4 * 4 + 4) (fun j hj => hag _ (by omega)),
          hl, hhh]
        exact h
      · cases h
    rw [if_neg c3] at h ⊢
    exact h
  · cases h

theorem dis_operand_congr (buf buf1 : List cell) (pc : Nat) (o : operand) (pc1 : Nat)
    (h : dis_operand buf pc = some (o, pc1))
    (hag : ∀ j, j < pc1 → buf1.get? j = buf.get? j) :
    dis_operand buf1 pc = some (o, pc1) := by
  unfold dis_operand at h ⊢
  split at h
  · rename_i tag a pc2 hget hdec
    have hpc : pc2 = pc1 := by
      split_ifs at h
      · cases hs : store_val a.store with
        | none => rw [hs] at h; cases h
        | some v =>
          rw [hs] at h
          exact (Prod.mk.inj (Option.some.inj h)).2
      · exact (Prod.mk.inj (Option.some.inj h)).2
      · cases hs : store_ptr a.store with
        | none => rw [hs] at h; cases h
        | some v =>
          rw [hs] at h
          exact (Prod.mk.inj (Option.some.inj h)).2
    subst hpc
    have hlt := decode_pc_lt buf pc arg_unset a pc2 hdec
    rw [hag pc hlt, hget, decode_congr buf buf1 pc arg_unset a pc2 hdec hag]
    exact h
  · cases h

theorem dis_operand_pc_lt (buf : List cell) (pc : Nat) (o : operand) (pc1 : Nat)
    (h : dis_operand buf pc = some (o, pc1)) : pc < pc1 := by
  unfold dis_operand at h
  split at h
  · rename_i tag a pc2 hget hdec
    have hlt := decode_pc_lt buf pc arg_unset a pc2 hdec
    split_ifs at h
    · cases hs : store_val a.store with
      | none => rw [hs] at h; cases h
      | some v =>
        rw [hs] at h
        have := (Prod.mk.inj (Option.some.inj h)).2
        omega
    · have := (Prod.mk.inj (Option.some.inj h)).2
      omega
    · cases hs : store_ptr a.store with
      | none => rw [hs] at h; cases h
      | some v =>
        rw [hs] at h
        have := (Prod.mk.inj (Option.some.inj h)).2
        omega
  · cases h

theorem dis_inst_pc_lt (buf : List cell) (pc : Nat) (i : instr) (pc1 : Nat)
    (h : dis_inst buf pc = some (i, pc1)) : pc < pc1 := by
  unfold dis_inst at h
  split at h
  · rename_i op hget
    by_cases c0 : op % 4 = 0
    · rw [if_pos c0] at h
      have := (Prod.mk.inj (Option.some.inj h)).2
      omega
    rw [if_neg c0] at h
    by_cases c1 : op % 4 = 1
    · rw [if_pos c1] at h
      split at h
      · rename_i o0 p1 h0
        have := (Prod.mk.inj (Option.some.inj h)).2
        have := dis_operand_pc_lt _ _ _ _ h0
        omega
      · cases h
    rw [if_neg c1] at h
    by_cases c2 : op % 4 = 2
    · rw [if_pos c2] at h
      split at h
      · rename_i o0 p1 h0
        split at h
        · rename_i o1 p2 h1
          have := (Prod.mk.inj (Option.some.inj h)).2
          have := dis_operand_pc_lt _ _ _ _ h0
          have := dis_operand_pc_lt _ _ _ _ h1
          omega
        · cases h
      · cases h
    rw [if_neg c2] at h
    cases h
  · cases h

theorem dis_inst_congr (buf buf1 : List cell) (pc : Nat) (i : instr) (pc1 : Nat)
    (h : dis_inst buf pc = some (i, pc1))
    (hag : ∀ j, j < pc1 → buf1.get? j = buf.get? j) :
    dis_inst buf1 pc = some (i, pc1) := by
  have hlt := dis_inst_pc_lt buf pc i pc1 h
  unfold dis_inst at h ⊢
  rw [hag pc hlt]
  split at h
  · rename_i op hget
    by_cases c0 : op % 4 = 0
    · rw [if_pos c0] at h ⊢
      exact h
    rw [if_neg c0] at h ⊢
    by_cases c1 : op % 4 = 1
    · rw [if_pos c1] at h ⊢
      split at h
      · rename_i o0 p1 h0
        have hp := (Prod.mk.inj (Option.some.inj h)).2
        rw [dis_operand_congr buf buf1 _ o0 p1 h0 (fun j hj => hag j (by omega))]
        exact h
      · cases h
    rw [if_neg c1] at h ⊢
    by_cases c2 : op % 4 = 2
    · rw [if_pos c2] at h ⊢
      split at h
      · rename_i o0 p1 h0
        split at h
        · rename_i o1 p2 h1
          have hp := (Prod.mk.inj (Option.some.inj h)).2
          have := dis_operand_pc_lt _ _ _ _ h1
          rw [dis_operand_congr buf buf1 _ o0 p1 h0 (fun j hj => hag j (by omega))]
          simp only
          rw [dis_operand_congr buf buf1 _ o1 p2 h1 (fun j hj => hag j (by omega))]
          exact h
        · cases h
      · cases h
    rw [if_neg c2] at h
    cases h
  · cases h

theorem dis_prog_pc_le (buf : List cell) (n : Nat) : ∀ (pc : Nat) (is : List instr) (pc1 : Nat),
    dis_prog buf n pc = some (is, pc1) → pc ≤ pc1 ∧ is.length = n := by
  induction n with
  | zero =>
    intro pc is pc1 h
    simp only [dis_prog] at h
    cases h
    exact ⟨Nat.le_refl _, rfl⟩
  | succ n ih =>
    intro pc is pc1 h
    rw [dis_prog] at h
    split at h
    · rename_i i p1 hi
      split at h
      · rename_i is1 p2 hrest
        cases h
        have := dis_inst_pc_lt _ _ _ _ hi
        have := ih _ _ _ hrest
        exact ⟨by omega, by simp only [List.length_cons]; omega⟩
      · cases h
    · cases h

theorem dis_prog_congr (buf buf1 : List cell) (n : Nat) :
    ∀ (pc : Nat) (is : List instr) (pc1 : Nat),
    dis_prog buf n pc = some (is, pc1) → (∀ j, j < pc1 → buf1.get? j = buf.get? j) →
    dis_prog buf1 n pc = some (is, pc1) := by
  induction n with
  | zero => intro pc is pc1 h _; exact h
  | succ n ih =>
    intro pc is pc1 h hag
    rw [dis_prog] at h ⊢
    split at h
    · rename_i i p1 hi
      split at h
      · rename_i is1 p2 hrest
        cases h
        have hle := (dis_prog_pc_le buf n p1 is1 pc1 hrest).1
        rw [dis_inst_congr buf buf1 pc i p1 hi (fun j hj => hag j (by omega))]
        simp only
        rw [ih p1 is1 pc1 hrest hag]
      · cases h
    · cases h

theorem dis_prog_snoc (buf : List cell) (n : Nat) :
    ∀ (pc : Nat) (is : List instr) (pc1 : Nat) (i : instr) (pc2 : Nat),
    dis_prog buf n pc = some (is, pc1) → dis_inst buf pc1 = some (i, pc2) →
    dis_prog buf (n + 1) pc = some (is ++ [i], pc2) := by
  induction n with
  | zero =>
    intro pc is pc1 i pc2 h hi
    simp only [dis_prog] at h
    cases h
    simp only [dis_prog, hi, List.nil_append]
  | succ n ih =>
    intro pc is pc1 i pc2 h hi
    rw [dis_prog] at h
    split at h
    · rename_i i0 p1 hi0
      split at h
      · rename_i is1 p2 hrest
        cases h
        rw [dis_prog, hi0]
        simp only
        rw [ih p1 is1 pc1 i pc2 hrest hi]
        rfl
      · cases h
    · cases h

theorem decode_imm (buf : List cell) (pc : Nat) (tgt : arg) (n : Nat)
    (htag : buf.get? pc = some (some 1))
    (hw : read_word buf ((pc + 1 + 3) / 4 * 4) = some n) :
    decode buf pc tgt
      = some ({ tgt with type := 1, store := store_set_val tgt.store (to_int32 n) },
          (pc + 1 + 3) / 4 * 4 + 4) := by
  unfold decode
  rw [htag]
  simp only [read_int, hw]
  rfl

theorem decode_var (buf : List cell) (pc : Nat) (tgt : arg) (n : Nat)
    (htag : buf.get? pc = some (some 2))
    (hw : read_word buf ((pc + 1 + 3) / 4 * 4) = some n) :
    decode buf pc tgt
      = some ({ tgt with type := to_int32 n }, (pc + 1 + 3) / 4 * 4 + 4) := by
  unfold decode
  rw [htag]
  simp only [read_int, hw]
  rfl

theorem decode_ptr (buf : List cell) (pc : Nat) (tgt : arg) (l h : Nat)
    (htag : buf.get? pc = some (some 3))
    (hl : read_word buf ((pc + 1 + 3) / 4 * 4) = some l)
    (hh : read_word buf ((pc + 1 + 3) / 4 * 4 + 4) = some h) :
    decode buf pc tgt
      = some ({ tgt with type := 3, store := ⟨some l, some h⟩ }, (pc + 1 + 3) / 4 * 4 + 8) := by
  unfold decode
  rw [htag]
  simp only [hl, hh]
  rfl

theorem dis_operand_imm (buf : List cell) (pc n : Nat)
    (htag : buf.get? pc = some (some 1))
    (hw : read_word buf ((pc + 1 + 3) / 4 * 4) = some n) :
    dis_operand buf pc
      = some (operand.imm (to_int32 (((to_int32 n) % 4294967296).toNat % 4294967296)),
          (pc + 1 + 3) / 4 * 4 + 4) := by
  unfold dis_operand
  rw [htag, decode_imm buf pc arg_unset n htag hw]
  rfl

theorem dis_operand_var (buf : List cell) (pc n : Nat)
    (htag : buf.get? pc = some (some 2))
    (hw : read_word buf ((pc + 1 + 3) / 4 * 4) = some n) :
    dis_operand buf pc = some (operand.var (to_int32 n), (pc + 1 + 3) / 4 * 4 + 4) := by
  unfold dis_operand
  rw [htag, decode_var buf pc arg_unset n htag hw]
  rfl

theorem dis_operand_ptr (buf : List cell) (pc l h : Nat)
    (htag : buf.get? pc = some (some 3))
    (hl : read_word buf ((pc + 1 + 3) / 4 * 4) = some l)
    (hh : read_word buf ((pc + 1 + 3) / 4 * 4 + 4) = some h) :
    dis_operand buf pc
      = some (operand.ptr (l % 4294967296 + 4294967296 * (h % 4294967296)),
          (pc + 1 + 3) / 4 * 4 + 8) := by
  unfold dis_operand
  rw [htag, decode_ptr buf pc arg_unset l h htag hl hh]
  rfl

theorem to_int32_wrap (v : Int) (h1 : -2147483648 ≤ v) (h2 : v < 2147483648) :
    to_int32 (((v % 4294967296).toNat % 4294967296 : Nat) : Int) = v := by
  unfold to_int32
  omega

theorem to_int32_range (n : Int) : -2147483648 ≤ to_int32 n ∧ to_int32 n < 2147483648 := by
  unfold to_int32
  omega

theorem asm_pack_arg_spec (st st1 : asm_state) (type : Int) (store : ustore) (o : operand)
    (h : asm_pack_arg st type store = asm_step.ok st1) (ho : holds_op type store o)
    (hlen : st.buf.length = ASM_BUF_SIZE) :
    dis_operand st1.buf st.ct = some (o, st1.ct) ∧ st1.buf.length = ASM_BUF_SIZE
      ∧ (∀ j, j < st.ct → st1.buf.get? j = st.buf.get? j)
      ∧ st1.type0 = st.type0 ∧ st1.store0 = st.store0 ∧ st1.type1 = st.type1
      ∧ st1.store1 = st.store1 := by
  unfold asm_pack_arg at h
  cases hp : asm_put st (some (type % 256).toNat) with
  | ok sta =>
    rw [hp] at h
    simp only at h
    obtain ⟨p1, p2, p3, p4, p5, p6, p7⟩ := asm_put_ct st sta _ hp
    have hlen2 : sta.buf.length = ASM_BUF_SIZE := by rw [p3, List.length_set]; exact hlen
    have hct : st.ct < st.buf.length := by rw [hlen]; omega
    have htag0 : sta.buf.get? st.ct = some (some (type % 256).toNat) := by
      rw [p3]; exact get_set_eq _ _ _ hct
    have hal : st.ct < (sta.ct + 3) / 4 * 4 := by omega
    have hkeep : ∀ j, j < st.ct → sta.buf.get? j = st.buf.get? j := by
      intro j hj
      rw [p3]
      exact get_set_ne _ _ _ _ (by omega)
    cases o with
    | imm v =>
      obtain ⟨ht, hlo, hv1, hv2⟩ := ho
      subst ht
      rw [if_pos (Or.inl rfl)] at h
      obtain ⟨q1, q2, q3, q4, q5, q6, q7, q8⟩ :=
        asm_put_bytes_spec _ { sta with ct := (sta.ct + 3) / 4 * 4 } st1 h hlen2
      simp only at q1 q3 q4 q5 q6 q7 q8
      have hbl : (store_val_bytes store).length = 4 := by
        simp only [store_val_bytes, hlo]; rfl
      have htag : st1.buf.get? st.ct = some (some 1) := by
        rw [q4 _ hal]; exact htag0
      have hw : read_word st1.buf ((st.ct + 1 + 3) / 4 * 4)
          = some ((v % 4294967296).toNat % 4294967296) := by
        apply read_word_stored
        intro k hk
        have := q3 k (by omega)
        simp only [store_val_bytes, hlo, p1] at this
        exact this
      refine ⟨?_, q2, fun j hj => ?_, by rw [q5, p4], by rw [q6, p5], by rw [q7, p6],
        by rw [q8, p7]⟩
      · rw [dis_operand_imm _ _ _ htag hw, q1, hbl, p1]
        simp only [Option.some.injEq, Prod.mk.injEq, operand.imm.injEq, and_true]
        clear * - hv1 hv2
        unfold to_int32
        omega
      · rw [q4 j (show j < (sta.ct + 3) / 4 * 4 by omega)]
        exact hkeep j hj
    | var sel =>
      obtain ⟨ht, hlo, hv1, hv2⟩ := ho
      subst ht
      rw [if_pos (Or.inr rfl)] at h
      obtain ⟨q1, q2, q3, q4, q5, q6, q7, q8⟩ :=
        asm_put_bytes_spec _ { sta with ct := (sta.ct + 3) / 4 * 4 } st1 h hlen2
      simp only at q1 q3 q4 q5 q6 q7 q8
      have hbl : (store_val_bytes store).length = 4 := by
        simp only [store_val_bytes, hlo]; rfl
      have htag : st1.buf.get? st.ct = some (some 2) := by
        rw [q4 _ hal]; exact htag0
      have hw : read_word st1.buf ((st.ct + 1 + 3) / 4 * 4)
          = some ((sel % 4294967296).toNat % 4294967296) := by
        apply read_word_stored
        intro k hk
        have := q3 k (by omega)
        simp only [store_val_bytes, hlo, p1] at this
        exact this
      refine ⟨?_, q2, fun j hj => ?_, by rw [q5, p4], by rw [q6, p5], by rw [q7, p6],
        by rw [q8, p7]⟩
      · rw [dis_operand_var _ _ _ htag hw, q1, hbl, p1]
        simp only [Option.some.injEq, Prod.mk.injEq, operand.var.injEq, and_true]
        clear * - hv1 hv2
        unfold to_int32
        omega
      · rw [q4 j (show j < (sta.ct + 3) / 4 * 4 by omega)]
        exact hkeep j hj
    | ptr p =>
      obtain ⟨ht, hst, hp1⟩ := ho
      subst ht
      rw [if_neg (by decide), if_pos rfl] at h
      obtain ⟨q1, q2, q3, q4, q5, q6, q7, q8⟩ :=
        asm_put_bytes_spec _ { sta with ct := (sta.ct + 3) / 4 * 4 } st1 h hlen2
      simp only at q1 q3 q4 q5 q6 q7 q8
      have hbl : (store_ptr_bytes store).length = 8 := by
        simp only [store_ptr_bytes, hst]; rfl
      have htag : st1.buf.get? st.ct = some (some 3) := by
        rw [q4 _ hal]; exact htag0
      have hl : read_word st1.buf ((st.ct + 1 + 3) / 4 * 4)
          = some (p % 4294967296 % 4294967296) := by
        apply read_word_stored
        intro k hk
        have := q3 k (by omega)
        rw [p1] at this
        rw [this]
        simp only [store_ptr_bytes, hst, word_bytes, le_bytes, List.map, List.cons_append,
          List.nil_append]
        match k, hk with
        | 0, _ => simp only [List.get?]
        | 1, _ => simp only [List.get?]
        | 2, _ => simp only [List.get?]
        | 3, _ => simp only [List.get?]
      have hh : read_word st1.buf ((st.ct + 1 + 3) / 4 * 4 + 4)
          = some (p / 4294967296 % 4294967296 % 4294967296) := by
        apply read_word_stored
        intro k hk
        have := q3 (4 + k) (by omega)
        rw [p1] at this
        rw [Nat.add_assoc, this]
        simp only [store_ptr_bytes, hst, word_bytes, le_bytes, List.map, List.cons_append,
          List.nil_append]
        match k, hk with
        | 0, _ => simp only [List.get?]
        | 1, _ => simp only [List.get?]
        | 2, _ => simp only [List.get?]
        | 3, _ => simp only [List.get?]
      refine ⟨?_, q2, fun j hj => ?_, by rw [q5, p4], by rw [q6, p5], by rw [q7, p6],
        by rw [q8, p7]⟩
      · rw [dis_operand_ptr _ _ _ _ htag hl hh, q1, hbl, p1]
        simp only [Option.some.injEq, Prod.mk.injEq, operand.ptr.injEq, and_true]
        clear * - hp1
        omega
      · rw [q4 j (show j < (sta.ct + 3) / 4 * 4 by omega)]
        exact hkeep j hj
  | fail c => rw [hp] at h; cases h
  | undef => rw [hp] at h; cases h

theorem find_arg_range (s : cstr) (v : Int) (h : find_arg s = some v) : 0 ≤ v ∧ v < 256 := by
  unfold find_arg arg_names at h
  simp only [List.foldl] at h
  split_ifs at h <;> cases h <;> decide

theorem atoi_eq (s : cstr) : ∃ n, atoi s = to_int32 n := by
  unfold atoi
  cases List.dropWhile c_isspace s with
  | nil => exact ⟨min ((atoi_digits [] 0 : Nat) : Int) 9223372036854775807, rfl⟩
  | cons c r =>
    by_cases h1 : c = 45
    · subst h1
      exact ⟨max (-((atoi_digits r 0 : Nat) : Int)) (-9223372036854775808), rfl⟩
    · by_cases h2 : c = 43
      · subst h2
        refine ⟨min ((atoi_digits r 0 : Nat) : Int) 9223372036854775807, ?_⟩
        unfold atoi.match_1
        simp only [dif_neg h1]
        exact dif_pos trivial
      · refine ⟨min ((atoi_digits (c :: r) 0 : Nat) : Int) 9223372036854775807, ?_⟩
        unfold atoi.match_1
        simp only [dif_neg h1, dif_neg h2]

theorem atoi_range (s : cstr) : -2147483648 ≤ atoi s ∧ atoi s < 2147483648 := by
  obtain ⟨n, hn⟩ := atoi_eq s
  rw [hn]
  exact to_int32_range n

theorem holds_op_set_imm (old : ustore) (s : cstr) :
    holds_op ARG_IMM (store_set_val old (atoi s)) (operand.imm (atoi s)) :=
  ⟨rfl, rfl, (atoi_range s).1, (atoi_range s).2⟩

theorem holds_op_set_var (old : ustore) (s : cstr) (v : Int) (h : find_arg s = some v) :
    holds_op ARG_VAR (store_set_val old v) (operand.var v) :=
  ⟨rfl, rfl, (find_arg_range s v h).1, (find_arg_range s v h).2⟩

theorem holds_op_set_ptr (p : Nat) :
    holds_op ARG_PTR (store_set_ptr p) (operand.ptr (p % 18446744073709551616)) := by
  refine ⟨rfl, ?_, Nat.mod_lt _ (by norm_num)⟩
  unfold store_set_ptr
  have e1 : p % 18446744073709551616 % 4294967296 = p % 4294967296 := by omega
  have e2 : p % 18446744073709551616 / 4294967296 % 4294967296 = p / 4294967296 % 4294967296 := by
    omega
  rw [e1, e2]

/-- The effect of parsing one operand that stands for `o`: slot `i` holds `o`,
everything else is unchanged. -/
theorem asm_parse_arg_spec (st st1 : asm_state) (i ty : Nat) (tok : Option cstr) (o : operand)
    (h : asm_parse_arg st i ty tok = asm_step.ok st1)
    (ho : tok.bind (text_operand ty) = some o) :
    st1.ct = st.ct ∧ st1.buf = st.buf
      ∧ (i = 0 → holds_op st1.type0 st1.store0 o ∧ st1.type1 = st.type1
          ∧ st1.store1 = st.store1)
      ∧ (i ≠ 0 → holds_op st1.type1 st1.store1 o ∧ st1.type0 = st.type0
          ∧ st1.store0 = st.store0) := by
  have key : ∀ (t : Int) (u : ustore), holds_op t u o →
      st1 = (if i = 0 then { st with type0 := t, store0 := u }
        else { st with type1 := t, store1 := u }) →
      st1.ct = st.ct ∧ st1.buf = st.buf
      ∧ (i = 0 → holds_op st1.type0 st1.store0 o ∧ st1.type1 = st.type1
          ∧ st1.store1 = st.store1)
      ∧ (i ≠ 0 → holds_op st1.type1 st1.store1 o ∧ st1.type0 = st.type0
          ∧ st1.store0 = st.store0) := by
    intro t u hu e
    by_cases hi : i = 0
    · rw [if_pos hi] at e
      subst e
      exact ⟨rfl, rfl, fun _ => ⟨hu, rfl, rfl⟩, fun c => absurd hi c⟩
    · rw [if_neg hi] at e
      subst e
      exact ⟨rfl, rfl, fun c => absurd c hi, fun _ => ⟨hu, rfl, rfl⟩⟩
  cases tok with
  | none => cases ho
  | some s =>
    have ho1 : text_operand ty s = some o := ho
    unfold text_operand at ho1
    unfold asm_parse_arg at h
    simp only at h
    by_cases c1 : ty = TYPES_IMM
    · rw [if_pos c1] at h ho1
      cases ho1
      exact key _ _ (holds_op_set_imm _ s) (asm_step.ok.inj h).symm
    rw [if_neg c1] at h ho1
    by_cases c2 : ty = TYPES_PTR
    · rw [if_pos c2] at h ho1
      cases hs : scan_ptr s with
      | none => rw [hs] at ho1; cases ho1
      | some p =>
        rw [hs] at h ho1
        cases ho1
        exact key _ _ (holds_op_set_ptr p) (asm_step.ok.inj h).symm
    rw [if_neg c2] at h ho1
    by_cases c3 : ty = TYPES_VAR
    · rw [if_pos c3] at h ho1
      cases hs : find_arg s with
      | none => rw [hs] at ho1; cases ho1
      | some v =>
        rw [hs] at h ho1
        cases ho1
        exact key _ _ (holds_op_set_var _ s v hs) (asm_step.ok.inj h).symm
    rw [if_neg c3] at h ho1
    by_cases c4 : ty = TYPES_ALL
    · rw [if_pos c4] at h ho1
      cases hs : find_arg s with
      | none =>
        rw [hs] at h ho1
        cases ho1
        exact key _ _ (holds_op_set_imm _ s) (asm_step.ok.inj h).symm
      | some v =>
        rw [hs] at h ho1
        cases ho1
        exact key _ _ (holds_op_set_var _ s v hs) (asm_step.ok.inj h).symm
    rw [if_neg c4] at h
    cases h

theorem insts_bc : ∀ i ∈ insts, i.bc % 4 = i.argc ∧ i.argc ≤ 2 ∧ i.bc < 256 := by decide

/-- One assembled line: a blank line changes nothing, and an instruction line
leaves its instruction to be decoded at the old write index, with everything
below that index unchanged. -/
theorem asm_line_spec (st st1 : asm_state) (line : cstr) (r : Option instr)
    (h : asm_line st line = asm_step.ok st1) (ht : text_inst line = some r)
    (hlen : st.buf.length = ASM_BUF_SIZE) :
    st1.buf.length = ASM_BUF_SIZE ∧ st.ct ≤ st1.ct
      ∧ (∀ j, j < st.ct → st1.buf.get? j = st.buf.get? j)
      ∧ (r = none → st1.ct = st.ct)
      ∧ (∀ i, r = some i → dis_inst st1.buf st.ct = some (i, st1.ct)) := by
  unfold asm_line at h
  unfold text_inst at ht
  simp only at h ht
  cases hs0 : (strtok_all [32, 9, 44] line).get? 0 with
  | none =>
    rw [hs0] at h ht
    simp only at h ht
    cases h
    cases ht
    exact ⟨hlen, Nat.le_refl _, fun _ _ => rfl, fun _ => rfl, fun i hi => by cases hi⟩
  | some s0 =>
    rw [hs0] at h ht
    simp only at h ht
    cases hf : find_inst s0 with
    | none => rw [hf] at ht; cases ht
    | some ti =>
      rw [hf] at h ht
      simp only at h ht
      obtain ⟨hbc, hargc, hbc2⟩ := insts_bc ti (find_inst_mem s0 ti hf)
      have hmod : ti.bc % 256 = ti.bc := Nat.mod_eq_of_lt hbc2
      rw [hmod] at h
      have tail : ∀ st4 : asm_state,
          (if st4.ct ≥ MAX_MCP_LENGTH then asm_step.fail ERR_TOO_LONG else asm_step.ok st4)
            = asm_step.ok st1 → st1 = st4 := by
        intro st4 h4
        split_ifs at h4
        exact (asm_step.ok.inj h4).symm
      by_cases c0 : ti.argc = 0
      · simp only [if_pos c0] at h ht
        cases ht
        cases hp : asm_put st (some ti.bc) with
        | ok st2 =>
          rw [hp] at h
          simp only at h
          have e := tail st2 h
          subst e
          obtain ⟨p1, p2, p3, p4, p5, p6, p7⟩ := asm_put_ct st st1 _ hp
          have hct : st.ct < st.buf.length := by rw [hlen]; omega
          refine ⟨by rw [p3, List.length_set]; exact hlen, by omega, fun j hj => ?_,
            (fun c => by cases c), fun i hi => ?_⟩
          · rw [p3]
            exact get_set_ne _ _ _ _ (by omega)
          · cases hi
            unfold dis_inst
            rw [p3, get_set_eq _ _ _ hct]
            simp only
            rw [if_pos (by omega), p1]
        | fail c => rw [hp] at h; cases h
        | undef => rw [hp] at h; cases h
      · simp only [if_neg c0] at h ht
        cases ho0 : ((strtok_all [32, 9, 44] line).get? 1).bind (text_operand ti.args0) with
        | none => rw [ho0] at ht; cases ht
        | some o0 =>
          rw [ho0] at ht
          simp only at ht
          cases hpa : asm_parse_arg st 0 ti.args0 ((strtok_all [32, 9, 44] line).get? 1) with
          | fail c => rw [hpa] at h; cases h
          | undef => rw [hpa] at h; cases h
          | ok sta =>
            rw [hpa] at h
            simp only at h
            obtain ⟨a1, a2, a3, _⟩ := asm_parse_arg_spec st sta 0 _ _ o0 hpa ho0
            obtain ⟨a3, a4, a5⟩ := a3 rfl
            by_cases c1 : ti.argc = 1
            · simp only [if_pos c1] at h ht
              cases ht
              cases hp : asm_put sta (some ti.bc) with
              | fail c => rw [hp] at h; cases h
              | undef => rw [hp] at h; cases h
              | ok st2 =>
                rw [hp] at h
                simp only at h
                obtain ⟨p1, p2, p3, p4, p5, p6, p7⟩ := asm_put_ct sta st2 _ hp
                have hct : st.ct < st.buf.length := by rw [hlen]; omega
                have hlen2 : st2.buf.length = ASM_BUF_SIZE := by
                  rw [p3, List.length_set, a2]; exact hlen
                cases hk : asm_pack_arg st2 st2.type0 st2.store0 with
                | fail c => rw [hk] at h; cases h
                | undef => rw [hk] at h; cases h
                | ok st3 =>
                  rw [hk] at h
                  simp only at h
                  have e := tail st3 h
                  subst e
                  obtain ⟨k1, k2, k3, _⟩ :=
                    asm_pack_arg_spec st2 st1 _ _ o0 hk (by rw [p4, p5]; exact a3) hlen2
                  have hlt := dis_operand_pc_lt _ _ _ _ k1
                  refine ⟨k2, by omega, fun j hj => ?_, (fun c => by cases c), fun i hi => ?_⟩
                  · rw [k3 j (by omega), p3, a2]
                    exact get_set_ne _ _ _ _ (by omega)
                  · cases hi
                    unfold dis_inst
                    rw [k3 _ (show st.ct < st2.ct by omega), p3, a2, a1,
                      get_set_eq _ _ _ hct]
                    simp only
                    rw [if_neg (by omega), if_pos (by omega)]
                    rw [p1, a1] at k1
                    rw [k1]
            · have c2 : ti.argc = 2 := by omega
              simp only [if_neg c1] at h ht
              cases ho1 : ((strtok_all [32, 9, 44] line).get? 2).bind (text_operand ti.args1) with
              | none => rw [ho1] at ht; cases ht
              | some o1 =>
                rw [ho1] at ht
                cases ht
                cases hpb : asm_parse_arg sta 1 ti.args1 ((strtok_all [32, 9, 44] line).get? 2) with
                | fail c => rw [hpb] at h; cases h
                | undef => rw [hpb] at h; cases h
                | ok stb =>
                  rw [hpb] at h
                  simp only at h
                  obtain ⟨b1, b2, _, b3⟩ := asm_parse_arg_spec sta stb 1 _ _ o1 hpb ho1
                  obtain ⟨b3, b4, b5⟩ := b3 (by decide)
                  cases hp : asm_put stb (some ti.bc) with
                  | fail c => rw [hp] at h; cases h
                  | undef => rw [hp] at h; cases h
                  | ok st2 =>
                    rw [hp] at h
                    simp only at h
                    obtain ⟨p1, p2, p3, p4, p5, p6, p7⟩ := asm_put_ct stb st2 _ hp
                    have hct : st.ct < st.buf.length := by rw [hlen]; omega
                    have hlen2 : st2.buf.length = ASM_BUF_SIZE := by
                      rw [p3, List.length_set, b2, a2]; exact hlen
                    cases hk : asm_pack_arg st2 st2.type0 st2.store0 with
                    | fail c => rw [hk] at h; cases h
                    | undef => rw [hk] at h; cases h
                    | ok st3 =>
                      rw [hk] at h
                      simp only at h
                      obtain ⟨k1, k2, k3, _, _, k6, k7⟩ :=
                        asm_pack_arg_spec st2 st3 _ _ o0 hk
                          (by rw [p4, p5, b4, b5]; exact a3) hlen2
                      cases hk1 : asm_pack_arg st3 st3.type1 st3.store1 with
                      | fail c => rw [hk1] at h; cases h
                      | undef => rw [hk1] at h; cases h
                      | ok st4 =>
                        rw [hk1] at h
                        simp only at h
                        have e := tail st4 h
                        subst e
                        obtain ⟨m1, m2, m3, _⟩ :=
                          asm_pack_arg_spec st3 st1 _ _ o1 hk1
                            (by rw [k6, k7, p6, p7]; exact b3) k2
                        have hlt := dis_operand_pc_lt _ _ _ _ k1
                        have hlt1 := dis_operand_pc_lt _ _ _ _ m1
                        refine ⟨m2, by omega, fun j hj => ?_, (fun c => by cases c),
                          fun i hi => ?_⟩
                        · rw [m3 j (by omega), k3 j (by omega), p3, b2, a2]
                          exact get_set_ne _ _ _ _ (by omega)
                        · cases hi
                          unfold dis_inst
                          rw [m3 _ (show st.ct < st3.ct by omega),
                            k3 _ (show st.ct < st2.ct by omega), p3, b2, a2, b1, a1,
                            get_set_eq _ _ _ hct]
                          simp only
                          rw [if_neg (by omega), if_neg (by omega), if_pos (by omega)]
                          rw [p1, b1, a1] at k1
                          rw [dis_operand_congr st3.buf st1.buf _ o0 st3.ct k1 m3]
                          simp only
                          rw [m1]

theorem take_append_drop_get {α : Type} : ∀ (n : Nat) (a b : List α) (j : Nat),
    n ≤ a.length →
    (a.take n ++ b.drop n).get? j = if j < n then a.get? j else b.get? j := by
  intro n
  induction n with
  | zero =>
    intro a b j _
    rw [if_neg (Nat.not_lt_zero _)]
    rfl
  | succ n ih =>
    intro a b j h
    cases a with
    | nil => exact absurd h (by simp)
    | cons x a =>
      have h1 : n ≤ a.length := Nat.le_of_succ_le_succ h
      cases b with
      | nil =>
        cases j with
        | zero => rw [if_pos (Nat.succ_pos n)]; rfl
        | succ j =>
          have := ih a [] j h1
          rw [List.drop_nil] at this
          show (List.take n a ++ []).get? j = _
          rw [this]
          by_cases c : j < n
          · rw [if_pos c, if_pos (Nat.succ_lt_succ c)]
            rfl
          · rw [if_neg c, if_neg (fun c1 => c (Nat.lt_of_succ_lt_succ c1))]
            rfl
      | cons y b =>
        cases j with
        | zero => rw [if_pos (Nat.succ_pos n)]; rfl
        | succ j =>
          have := ih a b j h1
          show (List.take n a ++ List.drop n b).get? j = _
          rw [this]
          by_cases c : j < n
          · rw [if_pos c, if_pos (Nat.succ_lt_succ c)]
            rfl
          · rw [if_neg c, if_neg (fun c1 => c (Nat.lt_of_succ_lt_succ c1))]
            rfl

/-- The lines assembled so far decode to the instructions of the text so far. -/
theorem asm_lines_spec (lines : List cstr) : ∀ (st st1 : asm_state) (is pre : List instr)
    (n pc0 : Nat), asm_lines lines st = asm_step.ok st1 → text_insts_lines lines = some is →
    st.buf.length = ASM_BUF_SIZE → dis_prog st.buf n pc0 = some (pre, st.ct) →
    dis_prog st1.buf (n + is.length) pc0 = some (pre ++ is, st1.ct)
      ∧ st1.buf.length = ASM_BUF_SIZE := by
  induction lines with
  | nil =>
    intro st st1 is pre n pc0 h ht hlen hd
    simp only [asm_lines] at h
    simp only [text_insts_lines] at ht
    cases h
    cases ht
    exact ⟨by rw [List.append_nil]; exact hd, hlen⟩
  | cons l ls ih =>
    intro st st1 is pre n pc0 h ht hlen hd
    rw [asm_lines] at h
    rw [text_insts_lines] at ht
    cases hl : asm_line st l with
    | fail c => rw [hl] at h; cases h
    | undef => rw [hl] at h; cases h
    | ok sta =>
      rw [hl] at h
      simp only at h
      cases hti : text_inst l with
      | none => rw [hti] at ht; cases ht
      | some r =>
        cases htl : text_insts_lines ls with
        | none => rw [hti, htl] at ht; cases r <;> cases ht
        | some is1 =>
          rw [hti, htl] at ht
          obtain ⟨s1, s2, s3, s4, s5⟩ := asm_line_spec st sta l r hl hti hlen
          have hd1 : dis_prog sta.buf n pc0 = some (pre, st.ct) :=
            dis_prog_congr st.buf sta.buf n pc0 pre st.ct hd s3
          cases r with
          | none =>
            cases ht
            rw [← s4 rfl] at hd1
            exact ih sta st1 is pre n pc0 h htl s1 hd1
          | some i =>
            cases ht
            have hd2 := dis_prog_snoc sta.buf n pc0 pre st.ct i sta.ct hd1 (s5 i rfl)
            have := ih sta st1 is1 (pre ++ [i]) (n + 1) pc0 h htl s1 hd2
            rw [List.length_cons, List.append_assoc] at *
            rw [show n + (is1.length + 1) = n + 1 + is1.length by omega]
            exact this

theorem asm_start_length : asm_start.buf.length = ASM_BUF_SIZE :=
  List.length_replicate _ _

/-- The round trip of the assembler: when `parse_mcp` assembles a text with
status 0 and the text's instructions are defined (each pointer operand holds
an address), decoding the code it leaves in the destination from offset 0 by
the rules of the virtual machine yields exactly the instructions of the text,
in order and with their operands, and the byte behind them is the `eoc`
opcode, the last byte written: the bytes behind it are the ones the
destination held before.  The destination's buffer, if it has one, is not of
size 0. -/
theorem assemble_then_decode (text : cstr) (m m1 : mcp) (is : List instr)
    (hm : ∀ c, m.code = some c → 0 < c.length)
    (hret : parse_mcp (some text) (some m) = outcome.ret (0, some m1))
    (htext : text_insts text = some is) :
    ∃ code pc, m1.code = some code
      ∧ dis_prog code is.length 0 = some (is, pc)
      ∧ code.get? pc = some (some BC_EOC)
      ∧ ∀ j, pc < j →
          code.get? j = (m.code.getD (List.replicate MAX_MCP_LENGTH none)).get? j := by
  by_cases he : text = []
  · subst he
    cases htext
    unfold parse_mcp at hret
    simp only [List.isEmpty_nil, if_true] at hret
    cases hc : m.code with
    | none => rw [hc] at hret; cases hret
    | some code =>
      rw [hc] at hret
      simp only at hret
      cases hret
      refine ⟨_, 0, rfl, rfl, get_set_eq _ _ _ (hm code hc), fun j hj => ?_⟩
      exact get_set_ne _ _ _ _ (by omega)
  · have hlen : (strtok_all [13, 10] text).length + 1 < ASM_MAX_LINES := by
      by_contra hcon
      unfold parse_mcp at hret
      have hne : text.isEmpty = false := by
        cases text with
        | nil => exact absurd rfl he
        | cons a b => rfl
      simp only [hne, Bool.false_eq_true, if_false] at hret
      rw [if_pos (by omega)] at hret
      cases hret
    rw [parse_mcp_lines text m he hlen] at hret
    cases hal : asm_lines (strtok_all [13, 10] text) asm_start with
    | fail c =>
      rw [hal] at hret
      have hc : c = 0 := (Prod.mk.inj (outcome.ret.inj hret)).1
      subst hc
      rcases asm_lines_fail _ _ _ hal with h1 | h1
      · exact absurd h1 (by decide)
      · exact absurd h1 (by decide)
    | undef => rw [hal] at hret; cases hret
    | ok st =>
      rw [hal] at hret
      simp only at hret
      cases hp : asm_put st (some BC_EOC) with
      | fail c => rw [hp] at hret; cases hret
      | undef => rw [hp] at hret; cases hret
      | ok st1 =>
        rw [hp] at hret
        simp only at hret
        cases hret
        obtain ⟨p1, p2, p3, _⟩ := asm_put_ct st st1 _ hp
        obtain ⟨d1, d2⟩ := asm_lines_spec _ asm_start st is [] 0 0 hal htext asm_start_length rfl
        have hct : st.ct < st.buf.length := by rw [d2]; omega
        have hle : st1.ct ≤ st1.buf.length := by rw [p3, List.length_set, d2]; exact p2
        refine ⟨_, st.ct, rfl, ?_, ?_, fun j hj => ?_⟩
        · rw [Nat.zero_add, List.nil_append] at d1
          refine dis_prog_congr st.buf _ _ 0 is st.ct d1 (fun j hj => ?_)
          rw [take_append_drop_get _ _ _ _ hle, if_pos (by omega), p3]
          exact get_set_ne _ _ _ _ (by omega)
        · rw [take_append_drop_get _ _ _ _ hle, if_pos (by omega), p3]
          exact get_set_eq _ _ _ hct
        · rw [take_append_drop_get _ _ _ _ hle, if_neg (by omega)]

theorem assemble_then_decode_example :
    parse_mcp (some c22_text) (some c22_dest)
        = outcome.ret (0, some ⟨some (c22_code ++ List.replicate 346 (some 0)), 3⟩)
      ∧ text_insts c22_text = some c22_insts
      ∧ ∃ code pc, (⟨some (c22_code ++ List.replicate 346 (some 0)), 3⟩ : mcp).code = some code
          ∧ dis_prog code c22_insts.length 0 = some (c22_insts, pc)
          ∧ code.get? pc = some (some BC_EOC)
          ∧ ∀ j, pc < j →
              code.get? j
                = (c22_dest.code.getD (List.replicate MAX_MCP_LENGTH none)).get? j :=
  ⟨by rfl, by rfl,
    assemble_then_decode c22_text c22_dest _ c22_insts
      (fun c hc => by
        have e : c = List.replicate MAX_MCP_LENGTH (some 0) := (Option.some.inj hc).symm
        rw [e, List.length_replicate]
        decide)
      (by rfl) (by rfl)⟩

/-- Pointer operands as `sscanf` with `%p` converts them: a sign, `(nil)` and
a value beyond 64 bits are accepted; a token without a digit converts nothing. -/
theorem scan_ptr_examples :
    scan_ptr (cs "0x2000") = some 8192
    ∧ scan_ptr (cs "2000") = some 8192
    ∧ scan_ptr (cs "-1") = some 18446744073709551615
    ∧ scan_ptr (cs "+5") = some 5
    ∧ scan_ptr (cs "(nil)") = some 0
    ∧ scan_ptr (cs "-0x10") = some 18446744073709551600
    ∧ scan_ptr (cs "fffffffffffffffffff") = some 18446744073709551615
    ∧ scan_ptr (cs "0x") = some 0
    ∧ scan_ptr (cs "zz") = none
    ∧ scan_ptr (cs "-") = none
    ∧ scan_ptr (cs "(nil") = none := by
  decide

/-- Integer operands as `atoi` converts them: a value beyond the range of
`long` stops at its limit and keeps the low 32 bits. -/
theorem atoi_examples :
    atoi (cs "5") = 5
    ∧ atoi (cs " -12x") = -12
    ∧ atoi (cs "abc") = 0
    ∧ atoi (cs "4294967301") = 5
    ∧ atoi (cs "99999999999999999999") = -1
    ∧ atoi (cs "-99999999999999999999") = 0 := by
  decide

/-- C22, failing input: the text `bmp 0x2000` / `bmp zz`.  The token `zz` is no
address: `sscanf` converts nothing and leaves the parsed argument as the line
before left it, the result of `sscanf` is not looked at, and `parse_mcp`
returns 0.  The bytes it wrote decode to `bmp 0x2000` twice: the operand of
the second instruction is the one of the first line, no value of its own
line, for which the text names no instruction.  For the text `bmp zz` alone
`parse_mcp` returns 0 as well and the eight bytes of the operand are the
uninitialised ones of the parsed argument, so the code does not decode.  For
every text in which each pointer operand is an address the claim holds, which
is stated first: decoding the assembled code from offset 0 yields exactly the
instructions of the text, followed by the `eoc` opcode as the last byte
written. -/
theorem c22_unconverted_pointer :
    (∀ (text : cstr) (m m1 : mcp) (is : List instr),
        (∀ c, m.code = some c → 0 < c.length) →
        parse_mcp (some text) (some m) = outcome.ret (0, some m1) →
        text_insts text = some is →
        ∃ code pc, m1.code = some code
          ∧ dis_prog code is.length 0 = some (is, pc)
          ∧ code.get? pc = some (some BC_EOC)
          ∧ ∀ j, pc < j →
              code.get? j = (m.code.getD (List.replicate MAX_MCP_LENGTH none)).get? j)
    ∧ scan_ptr (cs "zz") = none
    ∧ text_insts c22_bad_text = none
    ∧ parse_mcp (some c22_bad_text) (some c22_dest)
        = outcome.ret (0, some ⟨some (c22_bad_code ++ List.replicate 359 (some 0)), 3⟩)
    ∧ dis_prog (c22_bad_code ++ List.replicate 359 (some 0)) 2 0
        = some ([⟨BC_BMP, [operand.ptr 8192]⟩, ⟨BC_BMP, [operand.ptr 8192]⟩], 24)
    ∧ (c22_bad_code ++ List.replicate 359 (some 0)).get? 24 = some (some BC_EOC)
    ∧ parse_mcp (some (cs "bmp zz")) (some c22_dest)
        = outcome.ret (0, some ⟨some (c22_lone_code ++ List.replicate 371 (some 0)), 3⟩)
    ∧ dis_prog (c22_lone_code ++ List.replicate 371 (some 0)) 1 0 = none :=
  ⟨fun text m m1 is hm hret htext => assemble_then_decode text m m1 is hm hret htext,
    by decide, by decide, by rfl, by decide, by decide, by rfl, by decide⟩

/-! ## The pixel tests: symmetry, empty overlaps, and the region test -/

theorem pixel_region_test_scaled_span (fr : frame) (span : dimensions) (rect : box) :
    pixel_region_test_scaled fr span rect
      = if span.w < 1 ∨ span.h < 1 then 0 else pixel_region_test_scaled fr span rect := by
  by_cases h : span.w < 1 ∨ span.h < 1
  · rw [if_pos h]
    unfold pixel_region_test_scaled
    cases fr.mask with
    | none => rfl
    | some mask =>
      simp only
      rw [if_pos h]
  · rw [if_neg h]

theorem pixel_intersect_test_rows_apart (sfr : frame) (sbox : box) (tfr : frame) (tbox : box) :
    pixel_intersect_test sfr sbox tfr tbox
      = if min sbox.y2 tbox.y2 < max sbox.y1 tbox.y1 then 0
        else pixel_intersect_test sfr sbox tfr tbox := by
  by_cases h : min sbox.y2 tbox.y2 < max sbox.y1 tbox.y1
  · rw [if_pos h]
    unfold pixel_intersect_test
    cases sfr.mask with
    | none => rfl
    | some smask =>
      cases tfr.mask with
      | none => rfl
      | some tmask =>
        simp only
        have e : (min sbox.y2 tbox.y2 - max sbox.y1 tbox.y1 + 1).toNat = 0 := by
          rw [Int.toNat_eq_zero]
          omega
        rw [e]
        rfl
  · rw [if_neg h]

/-- C29, failing inputs.  First, two frames of 4x5 pixels with every mask
pixel set, in the boxes x 0..3 and x 10..13 of the rows 0..4: the boxes have
no common pixel, and `pixel_intersect_test` returns 1 (the line scan is
entered with the length `3 - 10 + 1 = -6` at offset 10 of the first mask,
which is pixel (2,2) of that frame).  Second, `pixel_intersect_test_scaled`
with both masks present and a span of width 0 returns whatever value the
`return;` of its failsafe leaves for the caller, not 0.  What does hold:
`pixel_region_test_scaled` returns 0 for a span of width or height below 1,
and `pixel_intersect_test` returns 0 for boxes that have no row in common. -/
theorem c29_disjoint_boxes_and_failsafe :
    (min (3 : Int) 13 < max 0 10
      ∧ pixel_intersect_test ex_full_frame ⟨0, 0, 3, 4⟩ ex_full_frame ⟨10, 0, 13, 4⟩ = 1)
    ∧ (∀ indet : Int,
        pixel_intersect_test_scaled indet ex_full_frame ⟨0, 5⟩ ⟨0, 0, 3, 4⟩
          ex_full_frame ⟨4, 5⟩ ⟨0, 0, 3, 4⟩ = indet)
    ∧ (∀ (fr : frame) (span : dimensions) (rect : box),
        pixel_region_test_scaled fr span rect
          = if span.w < 1 ∨ span.h < 1 then 0 else pixel_region_test_scaled fr span rect)
    ∧ (∀ (sfr : frame) (sbox : box) (tfr : frame) (tbox : box),
        pixel_intersect_test sfr sbox tfr tbox
          = if min sbox.y2 tbox.y2 < max sbox.y1 tbox.y1 then 0
            else pixel_intersect_test sfr sbox tfr tbox) :=
  ⟨by decide, fun _ => rfl, pixel_region_test_scaled_span, pixel_intersect_test_rows_apart⟩

theorem pixel_region_line_go_ne (mask : List Nat) (n : Nat) : ∀ buf : Int,
    pixel_region_line_go mask n buf ≠ 0 ↔ ∃ k : Nat, k < n ∧ rd mask (buf + k) ≠ 0 := by
  induction n with
  | zero =>
    intro buf
    simp [pixel_region_line_go]
  | succ n ih =>
    intro buf
    rw [pixel_region_line_go]
    by_cases h : rd mask buf ≠ 0
    · rw [if_pos h]
      exact ⟨fun _ => ⟨0, Nat.succ_pos _, by simpa using h⟩, fun _ => by decide⟩
    · rw [if_neg h, ih]
      constructor
      · rintro ⟨k, hk, hr⟩
        refine ⟨k + 1, by omega, ?_⟩
        have e : buf + ((k + 1 : Nat) : Int) = buf + 1 + (k : Int) := by push_cast; ring
        rw [e]; exact hr
      · rintro ⟨k, hk, hr⟩
        cases k with
        | zero => exact absurd (by simpa using hr) h
        | succ k =>
          refine ⟨k, by omega, ?_⟩
          have e : buf + ((k + 1 : Nat) : Int) = buf + 1 + (k : Int) := by push_cast; ring
          rw [e] at hr; exact hr

theorem pixel_region_rows_ne (mask : List Nat) (w len : Int) (n : Nat) : ∀ ptr : Int,
    pixel_region_rows mask w len n ptr ≠ 0
      ↔ ∃ j : Nat, j < n ∧ pixel_region_line len mask (ptr + j * w) ≠ 0 := by
  induction n with
  | zero =>
    intro ptr
    simp [pixel_region_rows]
  | succ n ih =>
    intro ptr
    rw [pixel_region_rows]
    by_cases h : pixel_region_line len mask ptr ≠ 0
    · rw [if_pos h]
      exact ⟨fun _ => ⟨0, Nat.succ_pos _, by simpa using h⟩, fun _ => by decide⟩
    · rw [if_neg h, ih]
      constructor
      · rintro ⟨j, hj, hr⟩
        refine ⟨j + 1, by omega, ?_⟩
        have e : ptr + ((j + 1 : Nat) : Int) * w = ptr + w + (j : Int) * w := by push_cast; ring
        rw [e]; exact hr
      · rintro ⟨j, hj, hr⟩
        cases j with
        | zero => exact absurd (by simpa using hr) h
        | succ j =>
          refine ⟨j, by omega, ?_⟩
          have e : ptr + ((j + 1 : Nat) : Int) * w = ptr + w + (j : Int) * w := by push_cast; ring
          rw [e] at hr; exact hr

theorem loop_count_of_nonneg (len : Int) (h0 : 0 ≤ len) (h1 : len < 4294967296) :
    loop_count len = len.toNat := by
  unfold loop_count
  rw [Int.emod_eq_of_lt h0 h1]

/-- C30, amended: for a frame whose width is a non-negative `int` and a rect
whose `x1` is not beyond its `x2`, `pixel_region_test` returns 1 exactly when
the frame has a mask and some pixel (x, y) of the rect clipped to the frame,
`max(x1, 0) <= x < min(x2, w)` and `max(y1, 0) <= y < min(y2, h)`, has a
non-zero mask byte at index `y * w + x`; in every other case it returns 0, so
for a frame without a mask and for a rect that does not meet the frame. -/
theorem c30_region_test (fr : frame) (rect : box) (hw : 0 ≤ fr.w) (hw2 : fr.w < 2147483648)
    (hx : rect.x1 ≤ rect.x2) :
    (pixel_region_test fr rect = 1
      ↔ fr.mask.isSome = true
        ∧ ∃ x y : Int, max rect.x1 0 ≤ x ∧ x < min rect.x2 fr.w
            ∧ max rect.y1 0 ≤ y ∧ y < min rect.y2 fr.h
            ∧ rd (fr.mask.getD []) (y * fr.w + x) ≠ 0)
    ∧ (pixel_region_test fr rect = 0 ∨ pixel_region_test fr rect = 1) := by
  refine ⟨?_, pixel_region_test_bool fr rect⟩
  have hb := pixel_region_test_bool fr rect
  have hne : pixel_region_test fr rect = 1 ↔ pixel_region_test fr rect ≠ 0 := by
    rcases hb with h | h <;> rw [h] <;> decide
  rw [hne]
  unfold pixel_region_test
  cases hm : fr.mask with
  | none => simp
  | some mask =>
    simp only [Option.isSome_some, Option.getD_some, true_and]
    by_cases hrej : rect.x1 ≥ fr.w ∨ rect.x2 ≤ 0 ∨ rect.y1 ≥ fr.h ∨ rect.y2 ≤ 0
    · rw [if_pos hrej]
      constructor
      · intro h; exact absurd rfl h
      · rintro ⟨x, y, h1, h2, h3, h4, _⟩
        exfalso
        have a1 := le_max_left rect.x1 0
        have a2 := le_max_right rect.x1 0
        have a3 := min_le_left rect.x2 fr.w
        have a4 := min_le_right rect.x2 fr.w
        have b1 := le_max_left rect.y1 0
        have b2 := le_max_right rect.y1 0
        have b3 := min_le_left rect.y2 fr.h
        have b4 := min_le_right rect.y2 fr.h
        rcases hrej with h | h | h | h <;> omega
    · rw [if_neg hrej]
      have c1 : ¬ rect.x1 ≥ fr.w := fun h => hrej (Or.inl h)
      have c2 : ¬ rect.x2 ≤ 0 := fun h => hrej (Or.inr (Or.inl h))
      have c3 : ¬ rect.y1 ≥ fr.h := fun h => hrej (Or.inr (Or.inr (Or.inl h)))
      have c4 : ¬ rect.y2 ≤ 0 := fun h => hrej (Or.inr (Or.inr (Or.inr h)))
      have ex1 : (if rect.x1 < 0 then 0 else rect.x1) = max rect.x1 0 := by
        split_ifs with h
        · rw [max_eq_right (by omega)]
        · rw [max_eq_left (by omega)]
      have ey1 : (if rect.y1 < 0 then 0 else rect.y1) = max rect.y1 0 := by
        split_ifs with h
        · rw [max_eq_right (by omega)]
        · rw [max_eq_left (by omega)]
      have ex2 : (if rect.x2 > fr.w then fr.w else rect.x2) = min rect.x2 fr.w := by
        split_ifs with h
        · rw [min_eq_right (by omega)]
        · rw [min_eq_left (by omega)]
      have ey2 : (if rect.y2 > fr.h then fr.h else rect.y2) = min rect.y2 fr.h := by
        split_ifs with h
        · rw [min_eq_right (by omega)]
        · rw [min_eq_left (by omega)]
      simp only [ex1, ey1, ex2, ey2]
      have a1 := le_max_left rect.x1 0
      have a2 := le_max_right rect.x1 0
      have a3 := min_le_left rect.x2 fr.w
      have a4 := min_le_right rect.x2 fr.w
      have hlen0 : 0 ≤ min rect.x2 fr.w - max rect.x1 0 := by
        have : max rect.x1 0 ≤ min rect.x2 fr.w :=
          le_min (max_le hx (by omega)) (max_le (by omega) hw)
        omega
      have hlen1 : min rect.x2 fr.w - max rect.x1 0 < 4294967296 := by omega
      rw [pixel_region_rows_ne]
      unfold pixel_region_line
      rw [loop_count_of_nonneg _ hlen0 hlen1]
      constructor
      · rintro ⟨j, hj, hline⟩
        obtain ⟨k, hk, hr⟩ := (pixel_region_line_go_ne mask _ _).mp hline
        refine ⟨max rect.x1 0 + k, max rect.y1 0 + j, by omega, by omega, by omega, by omega, ?_⟩
        have e : (max rect.y1 0 + (j : Int)) * fr.w + (max rect.x1 0 + (k : Int))
            = max rect.x1 0 + max rect.y1 0 * fr.w + (j : Int) * fr.w + (k : Int) := by ring
        rw [e]; exact hr
      · rintro ⟨x, y, h1, h2, h3, h4, hr⟩
        refine ⟨(y - max rect.y1 0).toNat, by omega, ?_⟩
        rw [pixel_region_line_go_ne]
        refine ⟨(x - max rect.x1 0).toNat, by omega, ?_⟩
        have e : max rect.x1 0 + max rect.y1 0 * fr.w
              + ((y - max rect.y1 0).toNat : Int) * fr.w + ((x - max rect.x1 0).toNat : Int)
            = y * fr.w + x := by
          rw [Int.toNat_of_nonneg (by omega), Int.toNat_of_nonneg (by omega)]
          ring
        rw [e]; exact hr

theorem c30_region_test_witness :
    ((0 : Int) ≤ ex_row_frame.w ∧ ex_row_frame.w < 2147483648 ∧ (3 : Int) ≤ 8)
    ∧ (pixel_region_test ex_row_frame ⟨3, 0, 8, 1⟩ = 1
        ↔ ex_row_frame.mask.isSome = true
          ∧ ∃ x y : Int, max (3 : Int) 0 ≤ x ∧ x < min 8 ex_row_frame.w
              ∧ max (0 : Int) 0 ≤ y ∧ y < min 1 ex_row_frame.h
              ∧ rd (ex_row_frame.mask.getD []) (y * ex_row_frame.w + x) ≠ 0)
    ∧ pixel_region_test ex_row_frame ⟨3, 0, 8, 1⟩ = 1 :=
  ⟨⟨by decide, by decide, by decide⟩,
    (c30_region_test ex_row_frame ⟨3, 0, 8, 1⟩ (by decide) (by decide) (by decide)).1,
    by decide⟩

/-- C30, counterexample: the frame of 10x1 pixels with the pixel x = 7 alone
set, and the rect with `x1 = 5`, `x2 = 3`, `y1 = 0`, `y2 = 1`.  No x has
`max(5, 0) <= x < min(3, 10)`, and `pixel_region_test` returns 1: the rect
passes the position checks, the line scan is entered with the length
`3 - 5 = -2`, which `while( len-- )` does not take for empty, and finds the set
pixel at x = 7. -/
theorem c30_inverted_rect_true :
    pixel_region_test ex_row_frame ⟨5, 0, 3, 1⟩ = 1
    ∧ ¬ (max (5 : Int) 0 < min 3 10) := by
  decide

/-! ## The setters of the sprite and the bounds cache -/

/-- C32: a write to the position by `set` or `add` does not recompute the
bounds cache, and `bmp` reads it.  The sprite at (0,0) on a map whose Box tile
covers the pixels 32..47 runs "set xpos, 32", "bmp 0x3000", "set yvel, 77": at
the moment `bmp` calls the collision engine the position is (32,0) and the
cache still holds the box (0,0,15,15), not the box (32,0,47,15) that
`update_bound_cache` would compute.  The collision engine finds no contact and
the run goes on to set the y-velocity to 77; for a sprite placed at (32,0)
with its cache up to date, `bmp` ends the run and the y-velocity stays 0.  The
other way round, a sprite at (32,0) that moves itself to (0,0) is still
reported on the tile.  A write to the frame variable does recompute the
cache. -/
theorem c32_stale_cache_at_bmp :
    before_bmp (ex_actor ⟨0, 0⟩ ⟨0, 0⟩ "set xpos, 32\nbmp 0x3000\nset yvel, 77")
        = some (⟨32, 0⟩, ⟨0, 0, 15, 15⟩, ⟨32, 0, 47, 15⟩)
    ∧ map_run (ex_actor ⟨0, 0⟩ ⟨0, 0⟩ "set xpos, 32\nbmp 0x3000\nset yvel, 77")
        = some (0, ⟨32, 0⟩, 77)
    ∧ map_run (ex_actor ⟨32, 0⟩ ⟨0, 0⟩ "bmp 0x3000\nset yvel, 77") = some (0, ⟨32, 0⟩, 0)
    ∧ map_run (ex_actor ⟨32, 0⟩ ⟨0, 0⟩ "set xpos, 0\nbmp 0x3000\nset yvel, 77")
        = some (0, ⟨0, 0⟩, 0)
    ∧ map_run (ex_actor ⟨0, 0⟩ ⟨0, 0⟩ "bmp 0x3000\nset yvel, 77") = some (0, ⟨0, 0⟩, 77)
    ∧ before_bmp (ex_actor ⟨0, 0⟩ ⟨0, 0⟩ "set frame, 0\nbmp 0x3000\nset yvel, 77")
        = some (⟨0, 0⟩, ⟨0, 0, 15, 15⟩, ⟨0, 0, 15, 15⟩) := by
  decide

/-! ## The map overlap test under translation -/

theorem map_sprite_tile_hit_moved (indet : Int) (s : sprite) (dx dy : Int) (t : tile)
    (clip sbox sbox1 tbox : box)
    (h : s.collides ≠ COLLISION_PIXEL ∨ t.collides ≠ COLLISION_PIXEL) :
    map_sprite_tile_hit indet (sprite_moved s dx dy) t clip sbox1 tbox
      = map_sprite_tile_hit indet s t clip sbox tbox := by
  unfold map_sprite_tile_hit
  have e1 : sprite_frame0 (sprite_moved s dx dy) = sprite_frame0 s := rfl
  have e2 : (sprite_moved s dx dy).collides = s.collides := rfl
  have e3 : (sprite_moved s dx dy).scale = s.scale := rfl
  simp only [e1, e2, e3]
  have h4 : ¬ (t.collides = COLLISION_PIXEL ∧ s.collides = COLLISION_PIXEL) :=
    fun c => h.elim (fun a => a c.2) (fun a => a c.1)
  rw [if_neg h4, if_neg h4]

theorem map_sprite_cell_hit_moved (indet : Int) (m : map) (s : sprite) (dx dy : Int)
    (locx locy : Int) (clip sbox sbox1 tbox : box)
    (h : s.collides ≠ COLLISION_PIXEL
      ∨ ∀ x y t, map_tile_at m x y = some t → t.collides ≠ COLLISION_PIXEL) :
    map_sprite_cell_hit indet m (sprite_moved s dx dy) locx locy clip sbox1 tbox
      = map_sprite_cell_hit indet m s locx locy clip sbox tbox := by
  unfold map_sprite_cell_hit
  by_cases c : locx ≥ 0 ∧ locx < m.w ∧ locy ≥ 0 ∧ locy < m.h
  · rw [if_pos c, if_pos c]
    cases ht : map_tile_at m locx locy with
    | none => rfl
    | some t =>
      exact map_sprite_tile_hit_moved indet s dx dy t clip sbox sbox1 tbox
        (h.elim Or.inl (fun a => Or.inr (a locx locy t ht)))
  · rw [if_neg c, if_neg c]

theorem map_sprite_row_moved (indet : Int) (m : map) (s : sprite) (dx dy : Int)
    (adjx locy : Int) (sbox sbox1 : box)
    (h : s.collides ≠ COLLISION_PIXEL
      ∨ ∀ x y t, map_tile_at m x y = some t → t.collides ≠ COLLISION_PIXEL) (n : Nat) :
    ∀ (locx : Int) (clip tbox : box),
    map_sprite_row indet m (sprite_moved s dx dy) adjx locy sbox1 n locx clip tbox
      = map_sprite_row indet m s adjx locy sbox n locx clip tbox := by
  induction n with
  | zero => intro _ _ _; rfl
  | succ n ih =>
    intro locx clip tbox
    rw [map_sprite_row, map_sprite_row, ih,
      map_sprite_cell_hit_moved indet m s dx dy locx locy clip sbox sbox1 tbox h]

theorem map_sprite_rows_moved (indet : Int) (m : map) (s : sprite) (dx dy : Int)
    (adj : vector) (rx1 rx2 : Int) (sbox sbox1 : box)
    (h : s.collides ≠ COLLISION_PIXEL
      ∨ ∀ x y t, map_tile_at m x y = some t → t.collides ≠ COLLISION_PIXEL) (n : Nat) :
    ∀ (locy : Int) (clip tbox : box),
    map_sprite_rows indet m (sprite_moved s dx dy) adj rx1 rx2 sbox1 n locy clip tbox
      = map_sprite_rows indet m s adj rx1 rx2 sbox n locy clip tbox := by
  induction n with
  | zero => intro _ _ _; rfl
  | succ n ih =>
    intro locy clip tbox
    rw [map_sprite_rows, map_sprite_rows,
      map_sprite_row_moved indet m s dx dy adj.x locy sbox sbox1 h]
    cases map_sprite_row indet m s adj.x locy sbox (rx2 - rx1).toNat rx1 clip tbox with
    | none => rfl
    | some p => exact ih _ _ _

/-- The map overlap test at an offset is the test at offset 0 of the moved
sprite, unless a Pixel sprite meets a Pixel tile. -/
theorem map_sprite_test_moved (indet : Int) (m : map) (s : sprite) (dx dy : Int)
    (h : s.collides ≠ COLLISION_PIXEL
      ∨ ∀ x y t, map_tile_at m x y = some t → t.collides ≠ COLLISION_PIXEL) :
    map_sprite_test indet m s dx dy = map_sprite_test indet m (sprite_moved s dx dy) 0 0 := by
  unfold map_sprite_test map_sprite_scan
  have e2 : (sprite_moved s dx dy).collides = s.collides := rfl
  have e3 : sprite_bound (sprite_moved s dx dy) = sprite_bound s := rfl
  have b1 : (sprite_moved s dx dy).bc.x1 = s.bc.x1 + dx := rfl
  have b2 : (sprite_moved s dx dy).bc.y1 = s.bc.y1 + dy := rfl
  have b3 : (sprite_moved s dx dy).bc.x2 = s.bc.x2 + dx := rfl
  have b4 : (sprite_moved s dx dy).bc.y2 = s.bc.y2 + dy := rfl
  simp only [e2, e3, b1, b2, b3, b4, Int.add_zero]
  by_cases c1 : s.collides = COLLISION_PIXEL
  · rw [if_pos c1, if_pos c1]
    exact (map_sprite_rows_moved indet m s dx dy _ _ _ _ _ h _ _ _ _).symm
  · rw [if_neg c1, if_neg c1]
    by_cases c2 : s.collides = COLLISION_BOX
    · rw [if_pos c2, if_pos c2]
      exact (map_sprite_rows_moved indet m s dx dy _ _ _ _ _ h _ _ _ _).symm
    · rw [if_neg c2, if_neg c2]

/-- C33: the map overlap test at an offset `(dx, dy)` equals the test at
offset 0 of the sprite moved by `(dx, dy)` whenever the sprite is not a Pixel
sprite or the map has no Pixel tile (Box/Box, Box/Pixel, Pixel/Box).  For a
Pixel sprite on a Pixel tile it does not: the mask intersection is handed the
sprite box `s->bc` without the offset.  The 4x3 sprite at (0,0) with a full
mask, tested at offset (2,0) against the 4x4 tile at cell (0,0) whose mask has
the column 1 alone, gives 1; the same sprite moved to (2,0), which covers the
columns 2..5 and none of the tile's set pixels, gives 0 at offset 0. -/
theorem c33_pixel_pixel_ignores_offset :
    (∀ (indet : Int) (m : map) (s : sprite) (dx dy : Int),
        (s.collides ≠ COLLISION_PIXEL
          ∨ ∀ x y t, map_tile_at m x y = some t → t.collides ≠ COLLISION_PIXEL) →
        map_sprite_test indet m s dx dy
          = map_sprite_test indet m (sprite_moved s dx dy) 0 0)
    ∧ map_sprite_test 0 ex_pixel_map ex_pixel_sprite 2 0 = 1
    ∧ map_sprite_test 0 ex_pixel_map (sprite_moved ex_pixel_sprite 2 0) 0 0 = 0
    ∧ sprite_moved ex_pixel_sprite 2 0 = sprite_set_position ex_pixel_sprite 2 0
    ∧ (sprite_moved ex_pixel_sprite 2 0).bc = ⟨2, 0, 5, 2⟩ :=
  ⟨map_sprite_test_moved, by decide, by decide, by decide, by decide⟩

/-! ## Where the motion against the map ends -/

theorem cwm_mark_mode_of (res : map_collision)
    (h : res.mode = COLLISION_NEVER ∨ res.mode = COLLISION_INMOTION) :
    (cwm_mark res).mode = COLLISION_INMOTION := by
  unfold cwm_mark
  rcases h with h | h
  · rw [if_pos h]
  · rw [if_neg (by rw [h]; decide)]
    exact h

theorem cwm_clear_mk (test : Int → Int → Int) (ofs : point) (p slip : Int)
    (res : map_collision)
    (hm : res.mode = COLLISION_NEVER ∨ res.mode = COLLISION_INMOTION)
    (hx : ofs.x = res.stop.x + res.go.x) (hy : ofs.y = res.stop.y + res.go.y)
    (ht : test ofs.x ofs.y = 0) : cwm_clear test ⟨ofs, p, slip, res⟩ := by
  refine ⟨hm, ?_, ?_⟩
  · show ofs = _
    rw [← hx, ← hy]
  · show test (res.stop.x + res.go.x) (res.stop.y + res.go.y) = 0
    rw [← hx, ← hy]
    exact ht

theorem cwm_account_x_plain (inc : point) (moty : Int) (res : map_collision)
    (h : res.mode = COLLISION_NEVER ∨ res.mode = COLLISION_INMOTION) :
    ((cwm_account_x inc ⟨inc.x, moty⟩ res).mode = COLLISION_NEVER
      ∨ (cwm_account_x inc ⟨inc.x, moty⟩ res).mode = COLLISION_INMOTION)
    ∧ (cwm_account_x inc ⟨inc.x, moty⟩ res).stop.x + (cwm_account_x inc ⟨inc.x, moty⟩ res).go.x
        = res.stop.x + res.go.x + inc.x
    ∧ (cwm_account_x inc ⟨inc.x, moty⟩ res).stop.y + (cwm_account_x inc ⟨inc.x, moty⟩ res).go.y
        = res.stop.y + res.go.y + moty := by
  unfold cwm_account_x
  by_cases c : res.mode = COLLISION_NEVER
  · rw [if_pos c]
    exact ⟨Or.inl c, by simp only; omega, by simp only; omega⟩
  · rw [if_neg c]
    exact ⟨h, by simp only; omega, by simp only; omega⟩

theorem cwm_account_y_plain (inc : point) (motx : Int) (res : map_collision)
    (h : res.mode = COLLISION_NEVER ∨ res.mode = COLLISION_INMOTION) :
    ((cwm_account_y inc ⟨motx, inc.y⟩ res).mode = COLLISION_NEVER
      ∨ (cwm_account_y inc ⟨motx, inc.y⟩ res).mode = COLLISION_INMOTION)
    ∧ (cwm_account_y inc ⟨motx, inc.y⟩ res).stop.x + (cwm_account_y inc ⟨motx, inc.y⟩ res).go.x
        = res.stop.x + res.go.x + motx
    ∧ (cwm_account_y inc ⟨motx, inc.y⟩ res).stop.y + (cwm_account_y inc ⟨motx, inc.y⟩ res).go.y
        = res.stop.y + res.go.y + inc.y := by
  unfold cwm_account_y
  by_cases c : res.mode = COLLISION_NEVER
  · rw [if_pos c]
    exact ⟨Or.inl c, by simp only; omega, by simp only; omega⟩
  · rw [if_neg c]
    exact ⟨h, by simp only; omega, by simp only; omega⟩

theorem cwm_xstep_clear_inv (test : Int → Int → Int) (inc : point) (dpr dpru : Int)
    (st : cwm_state) (hbool : ∀ x y, test x y = 0 ∨ test x y = 1)
    (h : cwm_clear test st) :
    match cwm_xstep test inc dpr dpru st with
    | cwm_step.ret res =>
      (res.mode = COLLISION_NEVER ∨ res.mode = COLLISION_INMOTION)
        ∧ test (res.stop.x + res.go.x) (res.stop.y + res.go.y) = 0
    | cwm_step.cont st1 => cwm_clear test st1 := by
  obtain ⟨hm, ho, ht⟩ := h
  have hox : st.ofs.x = st.res.stop.x + st.res.go.x := by rw [ho]
  have hoy : st.ofs.y = st.res.stop.y + st.res.go.y := by rw [ho]
  have hmk := cwm_mark_mode_of st.res hm
  have hret : ((cwm_mark st.res).mode = COLLISION_NEVER
        ∨ (cwm_mark st.res).mode = COLLISION_INMOTION)
      ∧ test ((cwm_mark st.res).stop.x + (cwm_mark st.res).go.x)
          ((cwm_mark st.res).stop.y + (cwm_mark st.res).go.y) = 0 := by
    rw [cwm_mark_eq]
    exact ⟨Or.inr hmk, ht⟩
  clear ho
  unfold cwm_xstep
  simp only [cwm_account_x_marked, hmk]
  by_cases hp : st.p > 0
  · simp only [if_pos hp]
    by_cases hc : test (st.ofs.x + inc.x) (st.ofs.y + inc.y) ≠ 0
    · rw [if_pos hc]
      by_cases hs : st.slip ≠ 0
      · rw [if_pos hs]
        by_cases hy : inc.y ≠ 0
        · rw [if_pos hy]
          have ha := hbool (st.ofs.x + inc.x - inc.x) (st.ofs.y + inc.y)
          have hb := hbool (st.ofs.x + inc.x) (st.ofs.y + inc.y - inc.y)
          by_cases f1 : -test (st.ofs.x + inc.x - inc.x) (st.ofs.y + inc.y) + test (st.ofs.x + inc.x) (st.ofs.y + inc.y - inc.y) < 0
          · rw [if_pos f1]
            simp only
            refine cwm_clear_mk _ _ _ _ _ (Or.inr rfl) (by simp only; omega) (by simp only; omega) ?_
            simp only
            omega
          · rw [if_neg f1]
            by_cases f2 : -test (st.ofs.x + inc.x - inc.x) (st.ofs.y + inc.y) + test (st.ofs.x + inc.x) (st.ofs.y + inc.y - inc.y) > 0
            · rw [if_pos f2]
              simp only
              refine cwm_clear_mk _ _ _ _ _ (Or.inr rfl) (by simp only; omega) (by simp only; omega) ?_
              simp only
              omega
            · rw [if_neg f2]
              exact hret
        · rw [if_neg hy]
          have hy0 : inc.y = 0 := not_not.mp hy
          have ha := hbool (st.ofs.x + inc.x) (st.ofs.y + inc.y + 1)
          have hb := hbool (st.ofs.x + inc.x) (st.ofs.y + inc.y - 1)
          by_cases f1 : -test (st.ofs.x + inc.x) (st.ofs.y + inc.y + 1) + test (st.ofs.x + inc.x) (st.ofs.y + inc.y - 1) < 0
          · rw [if_pos f1]
            simp only
            refine cwm_clear_mk _ _ _ _ _ (Or.inr rfl) (by simp only; omega) (by simp only; omega) ?_
            simp only
            omega
          · rw [if_neg f1]
            by_cases f2 : -test (st.ofs.x + inc.x) (st.ofs.y + inc.y + 1) + test (st.ofs.x + inc.x) (st.ofs.y + inc.y - 1) > 0
            · rw [if_pos f2]
              simp only
              refine cwm_clear_mk _ _ _ _ _ (Or.inr rfl) (by simp only; omega) (by simp only; omega) ?_
              simp only
              omega
            · rw [if_neg f2]
              simp only
              refine cwm_clear_mk _ _ _ _ _ (Or.inr rfl) (by simp only; omega) (by simp only; omega) ?_
              simp only
              rw [show st.ofs.x + inc.x - inc.x = st.res.stop.x + st.res.go.x from by omega, show st.ofs.y + inc.y = st.res.stop.y + st.res.go.y from by omega]
              exact ht
      · rw [if_neg hs]
        exact hret
    · rw [if_neg hc]
      obtain ⟨q1, q2, q3⟩ := cwm_account_x_plain inc inc.y st.res hm
      exact cwm_clear_mk test _ _ _ _ q1 (by simp only; omega) (by simp only; omega)
        (not_not.mp hc)
  · simp only [if_neg hp]
    by_cases hc : test (st.ofs.x + inc.x) st.ofs.y ≠ 0
    · rw [if_pos hc]
      by_cases hs : st.slip ≠ 0
      · rw [if_pos hs]
        rw [if_neg (show ¬ ((0 : Int) ≠ 0) from fun c => c rfl)]
        have ha := hbool (st.ofs.x + inc.x) (st.ofs.y + 1)
        have hb := hbool (st.ofs.x + inc.x) (st.ofs.y - 1)
        by_cases f1 : -test (st.ofs.x + inc.x) (st.ofs.y + 1) + test (st.ofs.x + inc.x) (st.ofs.y - 1) < 0
        · rw [if_pos f1]
          simp only
          refine cwm_clear_mk _ _ _ _ _ (Or.inr rfl) (by simp only; omega) (by simp only; omega) ?_
          simp only
          omega
        · rw [if_neg f1]
          by_cases f2 : -test (st.ofs.x + inc.x) (st.ofs.y + 1) + test (st.ofs.x + inc.x) (st.ofs.y - 1) > 0
          · rw [if_pos f2]
            simp only
            refine cwm_clear_mk _ _ _ _ _ (Or.inr rfl) (by simp only; omega) (by simp only; omega) ?_
            simp only
            omega
          · rw [if_neg f2]
            simp only
            refine cwm_clear_mk _ _ _ _ _ (Or.inr rfl) (by simp only; omega) (by simp only; omega) ?_
            simp only
            rw [show st.ofs.x + inc.x - inc.x = st.res.stop.x + st.res.go.x from by omega, show st.ofs.y = st.res.stop.y + st.res.go.y from by omega]
            exact ht
      · rw [if_neg hs]
        exact hret
    · rw [if_neg hc]
      obtain ⟨q1, q2, q3⟩ := cwm_account_x_plain inc 0 st.res hm
      exact cwm_clear_mk test _ _ _ _ q1 (by simp only; omega) (by simp only; omega)
        (not_not.mp hc)

theorem cwm_ystep_clear_inv (test : Int → Int → Int) (inc : point) (dpr dpru : Int)
    (st : cwm_state) (hbool : ∀ x y, test x y = 0 ∨ test x y = 1)
    (h : cwm_clear test st) :
    match cwm_ystep test inc dpr dpru st with
    | cwm_step.ret res =>
      (res.mode = COLLISION_NEVER ∨ res.mode = COLLISION_INMOTION)
        ∧ test (res.stop.x + res.go.x) (res.stop.y + res.go.y) = 0
    | cwm_step.cont st1 => cwm_clear test st1 := by
  obtain ⟨hm, ho, ht⟩ := h
  have hox : st.ofs.x = st.res.stop.x + st.res.go.x := by rw [ho]
  have hoy : st.ofs.y = st.res.stop.y + st.res.go.y := by rw [ho]
  have hmk := cwm_mark_mode_of st.res hm
  have hret : ((cwm_mark st.res).mode = COLLISION_NEVER
        ∨ (cwm_mark st.res).mode = COLLISION_INMOTION)
      ∧ test ((cwm_mark st.res).stop.x + (cwm_mark st.res).go.x)
          ((cwm_mark st.res).stop.y + (cwm_mark st.res).go.y) = 0 := by
    rw [cwm_mark_eq]
    exact ⟨Or.inr hmk, ht⟩
  clear ho
  unfold cwm_ystep
  simp only [cwm_account_y_marked, hmk]
  by_cases hp : st.p > 0
  · simp only [if_pos hp]
    by_cases hc : test (st.ofs.x + inc.x) (st.ofs.y + inc.y) ≠ 0
    · rw [if_pos hc]
      by_cases hs : st.slip ≠ 0
      · rw [if_pos hs]
        by_cases hy : inc.x ≠ 0
        · rw [if_pos hy]
          have ha := hbool (st.ofs.x + inc.x) (st.ofs.y + inc.y - inc.y)
          have hb := hbool (st.ofs.x + inc.x - inc.x) (st.ofs.y + inc.y)
          by_cases f1 : -test (st.ofs.x + inc.x) (st.ofs.y + inc.y - inc.y) + test (st.ofs.x + inc.x - inc.x) (st.ofs.y + inc.y) < 0
          · rw [if_pos f1]
            simp only
            refine cwm_clear_mk _ _ _ _ _ (Or.inr rfl) (by simp only; omega) (by simp only; omega) ?_
            simp only
            omega
          · rw [if_neg f1]
            by_cases f2 : -test (st.ofs.x + inc.x) (st.ofs.y + inc.y - inc.y) + test (st.ofs.x + inc.x - inc.x) (st.ofs.y + inc.y) > 0
            · rw [if_pos f2]
              simp only
              refine cwm_clear_mk _ _ _ _ _ (Or.inr rfl) (by simp only; omega) (by simp only; omega) ?_
              simp only
              omega
            · rw [if_neg f2]
              exact hret
        · rw [if_neg hy]
          have hy0 : inc.x = 0 := not_not.mp hy
          have ha := hbool (st.ofs.x + inc.x - 1) (st.ofs.y + inc.y)
          have hb := hbool (st.ofs.x + inc.x + 1) (st.ofs.y + inc.y)
          by_cases f1 : -test (st.ofs.x + inc.x - 1) (st.ofs.y + inc.y) + test (st.ofs.x + inc.x + 1) (st.ofs.y + inc.y) < 0
          · rw [if_pos f1]
            simp only
            refine cwm_clear_mk _ _ _ _ _ (Or.inr rfl) (by simp only; omega) (by simp only; omega) ?_
            simp only
            omega
          · rw [if_neg f1]
            by_cases f2 : -test (st.ofs.x + inc.x - 1) (st.ofs.y + inc.y) + test (st.ofs.x + inc.x + 1) (st.ofs.y + inc.y) > 0
            · rw [if_pos f2]
              simp only
              refine cwm_clear_mk _ _ _ _ _ (Or.inr rfl) (by simp only; omega) (by simp only; omega) ?_
              simp only
              omega
            · rw [if_neg f2]
              simp only
              refine cwm_clear_mk _ _ _ _ _ (Or.inr rfl) (by simp only; omega) (by simp only; omega) ?_
              simp only
              rw [show st.ofs.x + inc.x = st.res.stop.x + st.res.go.x from by omega, show st.ofs.y + inc.y - inc.y = st.res.stop.y + st.res.go.y from by omega]
              exact ht
      · rw [if_neg hs]
        exact hret
    · rw [if_neg hc]
      obtain ⟨q1, q2, q3⟩ := cwm_account_y_plain inc inc.x st.res hm
      exact cwm_clear_mk test _ _ _ _ q1 (by simp only; omega) (by simp only; omega)
        (not_not.mp hc)
  · simp only [if_neg hp]
    by_cases hc : test st.ofs.x (st.ofs.y + inc.y) ≠ 0
    · rw [if_pos hc]
      by_cases hs : st.slip ≠ 0
      · rw [if_pos hs]
        rw [if_neg (show ¬ ((0 : Int) ≠ 0) from fun c => c rfl)]
        have ha := hbool (st.ofs.x - 1) (st.ofs.y + inc.y)
        have hb := hbool (st.ofs.x + 1) (st.ofs.y + inc.y)
        by_cases f1 : -test (st.ofs.x - 1) (st.ofs.y + inc.y) + test (st.ofs.x + 1) (st.ofs.y + inc.y) < 0
        · rw [if_pos f1]
          simp only
          refine cwm_clear_mk _ _ _ _ _ (Or.inr rfl) (by simp only; omega) (by simp only; omega) ?_
          simp only
          omega
        · rw [if_neg f1]
          by_cases f2 : -test (st.ofs.x - 1) (st.ofs.y + inc.y) + test (st.ofs.x + 1) (st.ofs.y + inc.y) > 0
          · rw [if_pos f2]
            simp only
            refine cwm_clear_mk _ _ _ _ _ (Or.inr rfl) (by simp only; omega) (by simp only; omega) ?_
            simp only
            omega
          · rw [if_neg f2]
            simp only
            refine cwm_clear_mk _ _ _ _ _ (Or.inr rfl) (by simp only; omega) (by simp only; omega) ?_
            simp only
            rw [show st.ofs.x = st.res.stop.x + st.res.go.x from by omega, show st.ofs.y + inc.y - inc.y = st.res.stop.y + st.res.go.y from by omega]
            exact ht
      · rw [if_neg hs]
        exact hret
    · rw [if_neg hc]
      obtain ⟨q1, q2, q3⟩ := cwm_account_y_plain inc 0 st.res hm
      exact cwm_clear_mk test _ _ _ _ q1 (by simp only; omega) (by simp only; omega)
        (not_not.mp hc)

theorem cwm_xloop_clear_inv (test : Int → Int → Int) (inc : point) (dpr dpru : Int)
    (hbool : ∀ x y, test x y = 0 ∨ test x y = 1) (n : Nat) :
    ∀ st : cwm_state, cwm_clear test st →
      ((cwm_xloop test inc dpr dpru n st).mode = COLLISION_NEVER
        ∨ (cwm_xloop test inc dpr dpru n st).mode = COLLISION_INMOTION)
      ∧ test ((cwm_xloop test inc dpr dpru n st).stop.x + (cwm_xloop test inc dpr dpru n st).go.x)
          ((cwm_xloop test inc dpr dpru n st).stop.y + (cwm_xloop test inc dpr dpru n st).go.y)
          = 0 := by
  induction n with
  | zero =>
    intro st h
    exact ⟨h.1, h.2.2⟩
  | succ n ih =>
    intro st h
    have hs := cwm_xstep_clear_inv test inc dpr dpru st hbool h
    rw [cwm_xloop]
    cases hstep : cwm_xstep test inc dpr dpru st with
    | ret res =>
      rw [hstep] at hs
      exact hs
    | cont st1 =>
      rw [hstep] at hs
      exact ih st1 hs

theorem cwm_yloop_clear_inv (test : Int → Int → Int) (inc : point) (dpr dpru : Int)
    (hbool : ∀ x y, test x y = 0 ∨ test x y = 1) (n : Nat) :
    ∀ st : cwm_state, cwm_clear test st →
      ((cwm_yloop test inc dpr dpru n st).mode = COLLISION_NEVER
        ∨ (cwm_yloop test inc dpr dpru n st).mode = COLLISION_INMOTION)
      ∧ test ((cwm_yloop test inc dpr dpru n st).stop.x + (cwm_yloop test inc dpr dpru n st).go.x)
          ((cwm_yloop test inc dpr dpru n st).stop.y + (cwm_yloop test inc dpr dpru n st).go.y)
          = 0 := by
  induction n with
  | zero =>
    intro st h
    exact ⟨h.1, h.2.2⟩
  | succ n ih =>
    intro st h
    have hs := cwm_ystep_clear_inv test inc dpr dpru st hbool h
    rw [cwm_yloop]
    cases hstep : cwm_ystep test inc dpr dpru st with
    | ret res =>
      rw [hstep] at hs
      exact hs
    | cont st1 =>
      rw [hstep] at hs
      exact ih st1 hs

/-- The motion trace, entered at a clear offset (0,0), ends in mode Never or
InMotion with the overlap test false at `stop + go`. -/
theorem cwm_trace_clear (test : Int → Int → Int) (vel : vector) (slip : Int)
    (hbool : ∀ x y, test x y = 0 ∨ test x y = 1) (h0 : test 0 0 = 0) :
    ((cwm_trace test vel slip ⟨COLLISION_NEVER, ⟨0, 0⟩, ⟨0, 0⟩⟩).mode = COLLISION_NEVER
      ∨ (cwm_trace test vel slip ⟨COLLISION_NEVER, ⟨0, 0⟩, ⟨0, 0⟩⟩).mode = COLLISION_INMOTION)
    ∧ test
        ((cwm_trace test vel slip ⟨COLLISION_NEVER, ⟨0, 0⟩, ⟨0, 0⟩⟩).stop.x
          + (cwm_trace test vel slip ⟨COLLISION_NEVER, ⟨0, 0⟩, ⟨0, 0⟩⟩).go.x)
        ((cwm_trace test vel slip ⟨COLLISION_NEVER, ⟨0, 0⟩, ⟨0, 0⟩⟩).stop.y
          + (cwm_trace test vel slip ⟨COLLISION_NEVER, ⟨0, 0⟩, ⟨0, 0⟩⟩).go.y) = 0 := by
  have hstart : ∀ p : Int,
      cwm_clear test ⟨⟨0, 0⟩, p, slip, ⟨COLLISION_NEVER, ⟨0, 0⟩, ⟨0, 0⟩⟩⟩ :=
    fun p => cwm_clear_mk test _ _ _ _ (Or.inl rfl) rfl rfl h0
  unfold cwm_trace
  simp only
  by_cases hd : iabs vel.x ≥ iabs vel.y
  · rw [if_pos hd]
    exact cwm_xloop_clear_inv test _ _ _ hbool _ _ (hstart _)
  · rw [if_neg hd]
    exact cwm_yloop_clear_inv test _ _ _ hbool _ _ (hstart _)

/-- For a map and a sprite that is collidable (collision mode not Off, at
least one frame, frame index not negative), with any velocity and any slip
budget: when `collision_with_map` returns the mode Never or InMotion, the map
overlap test is false at the offset `stop + go`. -/
theorem collision_with_map_ends_clear (indet : Int) (s : sprite) (m : map) (slip : Int)
    (res : map_collision)
    (hs : ¬ (s.collides = COLLISION_OFF ∨ s.frame_ct = 0 ∨ s.cur_frame < 0))
    (hmode : (collision_with_map indet (some s) (some m) slip res).mode = COLLISION_NEVER
      ∨ (collision_with_map indet (some s) (some m) slip res).mode = COLLISION_INMOTION) :
    map_sprite_test indet m s
      ((collision_with_map indet (some s) (some m) slip res).stop.x
        + (collision_with_map indet (some s) (some m) slip res).go.x)
      ((collision_with_map indet (some s) (some m) slip res).stop.y
        + (collision_with_map indet (some s) (some m) slip res).go.y) = 0 := by
  cases hd : m.data with
  | none =>
    exfalso
    have e : (collision_with_map indet (some s) (some m) slip res).mode = ERR := by
      simp only [collision_with_map, hd, Option.isNone_none, if_true]
    rw [e] at hmode
    rcases hmode with c | c
    · exact absurd c (by decide)
    · exact absurd c (by decide)
  | some d =>
    have hdata : m.data.isSome = true := by rw [hd]; rfl
    rcases collision_with_map_cases indet s m slip res hdata with ⟨hg, _⟩ | ⟨_, e⟩ | ⟨h0, e⟩
    · exact absurd hg hs
    · exfalso
      rw [e] at hmode
      rcases hmode with c | c
      · exact absurd c (by decide)
      · exact absurd c (by decide)
    · rw [e]
      exact (cwm_trace_clear (map_sprite_test indet m s) s.vel slip
        (map_sprite_test_bool indet m s) h0).2

theorem collision_with_map_ends_clear_example :
    ¬ ((ex_sprite ⟨0, 30⟩ ⟨40, -20⟩).collides = COLLISION_OFF
        ∨ (ex_sprite ⟨0, 30⟩ ⟨40, -20⟩).frame_ct = 0 ∨ (ex_sprite ⟨0, 30⟩ ⟨40, -20⟩).cur_frame < 0)
    ∧ collision_with_map 0 (some (ex_sprite ⟨0, 30⟩ ⟨40, -20⟩)) (some ex_map) 50
        ⟨0, ⟨0, 0⟩, ⟨0, 0⟩⟩ = ⟨COLLISION_INMOTION, ⟨29, -14⟩, ⟨11, 0⟩⟩
    ∧ map_sprite_test 0 ex_map (ex_sprite ⟨0, 30⟩ ⟨40, -20⟩)
        ((collision_with_map 0 (some (ex_sprite ⟨0, 30⟩ ⟨40, -20⟩)) (some ex_map) 50
            ⟨0, ⟨0, 0⟩, ⟨0, 0⟩⟩).stop.x
          + (collision_with_map 0 (some (ex_sprite ⟨0, 30⟩ ⟨40, -20⟩)) (some ex_map) 50
            ⟨0, ⟨0, 0⟩, ⟨0, 0⟩⟩).go.x)
        ((collision_with_map 0 (some (ex_sprite ⟨0, 30⟩ ⟨40, -20⟩)) (some ex_map) 50
            ⟨0, ⟨0, 0⟩, ⟨0, 0⟩⟩).stop.y
          + (collision_with_map 0 (some (ex_sprite ⟨0, 30⟩ ⟨40, -20⟩)) (some ex_map) 50
            ⟨0, ⟨0, 0⟩, ⟨0, 0⟩⟩).go.y) = 0 :=
  ⟨by decide, by decide,
    collision_with_map_ends_clear 0 (ex_sprite ⟨0, 30⟩ ⟨40, -20⟩) ex_map 50 ⟨0, ⟨0, 0⟩, ⟨0, 0⟩⟩
      (by decide) (by decide)⟩

/-- C34, failing input: the Pixel sprite of one pixel at (0,0) with velocity
(1,0) on the map whose cell (0,0) holds the Pixel tile with the column x = 1
set.  `collision_with_map` reports Never with `stop = (1,0)` and `go = (0,0)`:
the overlap test at the offset (1,0) is false, because for a Pixel sprite on a
Pixel tile the mask intersection is handed the sprite box without the offset
and compares the sprite's pixel with the tile's pixel (0,0).  The sprite moved
by the reported motion lies on the tile's pixel (1,0), which is set, and
overlaps the map.  What the code does ensure is stated first: for every map,
collidable sprite, velocity and slip budget the overlap test is false at the
offset `stop + go` when the mode is Never or InMotion, and unless a Pixel
sprite meets a Pixel tile the moved sprite then does not overlap the map. -/
theorem c34_moved_sprite_overlaps :
    (∀ (indet : Int) (s : sprite) (m : map) (slip : Int) (res : map_collision),
        ¬ (s.collides = COLLISION_OFF ∨ s.frame_ct = 0 ∨ s.cur_frame < 0) →
        ((collision_with_map indet (some s) (some m) slip res).mode = COLLISION_NEVER
          ∨ (collision_with_map indet (some s) (some m) slip res).mode = COLLISION_INMOTION) →
        map_sprite_test indet m s
            ((collision_with_map indet (some s) (some m) slip res).stop.x
              + (collision_with_map indet (some s) (some m) slip res).go.x)
            ((collision_with_map indet (some s) (some m) slip res).stop.y
              + (collision_with_map indet (some s) (some m) slip res).go.y) = 0
        ∧ ((s.collides ≠ COLLISION_PIXEL
              ∨ ∀ x y t, map_tile_at m x y = some t → t.collides ≠ COLLISION_PIXEL) →
            map_sprite_test indet m
              (sprite_moved s
                ((collision_with_map indet (some s) (some m) slip res).stop.x
                  + (collision_with_map indet (some s) (some m) slip res).go.x)
                ((collision_with_map indet (some s) (some m) slip res).stop.y
                  + (collision_with_map indet (some s) (some m) slip res).go.y)) 0 0 = 0))
    ∧ collision_with_map 0 (some ex_pixel_dot) (some ex_pixel_map) 0 ⟨0, ⟨0, 0⟩, ⟨0, 0⟩⟩
        = ⟨COLLISION_NEVER, ⟨1, 0⟩, ⟨0, 0⟩⟩
    ∧ map_sprite_test 0 ex_pixel_map ex_pixel_dot 1 0 = 0
    ∧ map_sprite_test 0 ex_pixel_map (sprite_moved ex_pixel_dot 1 0) 0 0 = 1
    ∧ sprite_moved ex_pixel_dot 1 0 = sprite_set_position ex_pixel_dot 1 0
    ∧ (sprite_moved ex_pixel_dot 1 0).bc = ⟨1, 0, 1, 0⟩ := by
  refine ⟨fun indet s m slip res hs hmode => ?_, by decide, by decide, by decide, by decide,
    by decide⟩
  have h := collision_with_map_ends_clear indet s m slip res hs hmode
  refine ⟨h, fun hp => ?_⟩
  rw [← map_sprite_test_moved indet m s _ _ hp]
  exact h

/-! ## The broad phase of the sprite pair test -/

/-- When the sweep test rejects a pair, the sprites do not overlap at offset 0. -/
theorem sweep_reject_at_start (indet : Int) (spr tgt : sprite)
    (h : sprite_sweep_test spr tgt = 0) : sprite_sprite_test indet spr 0 0 tgt = 0 := by
  unfold sprite_sweep_test at h
  unfold sprite_sprite_test
  simp only at h ⊢
  by_cases c : (if spr.vel.x < 0 then spr.bc.x2 else if spr.vel.x > 0 then spr.bc.x2 + spr.vel.x
        else spr.bc.x2) < tgt.bc.x1
      ∨ (if spr.vel.x < 0 then spr.bc.x1 + spr.vel.x else spr.bc.x1) > tgt.bc.x2
      ∨ (if spr.vel.y < 0 then spr.bc.y2 else if spr.vel.y > 0 then spr.bc.y2 + spr.vel.y
        else spr.bc.y2) < tgt.bc.y1
      ∨ (if spr.vel.y < 0 then spr.bc.y1 + spr.vel.y else spr.bc.y1) > tgt.bc.y2
  · rw [if_pos ?_]
    rcases c with c | c | c | c
    · left; split_ifs at c <;> omega
    · right; left; split_ifs at c <;> omega
    · right; right; left; split_ifs at c <;> omega
    · right; right; right; split_ifs at c <;> omega
  · rw [if_neg c] at h
    exact absurd h (by decide)

/-- C35: A stands still with bounds box 0..15; B has bounds box 20..35 and
moves left by 10.  `sprite_sweep_test` extends A's box by A's velocity alone
and rejects the pair, so `sprite_collision_with_result` reports Never.  The
narrow phase without it, the overlap check at offset 0 and the trace of the
relative velocity (10,0), finds the contact on the fifth step: mode InMotion,
stop (4,0).  When the sweep test rejects a pair, the overlap check at offset 0
does find nothing; the trace is where the target's velocity comes in. -/
theorem c35_sweep_rejects_a_contact :
    sprite_sweep_test (ex_sprite ⟨0, 0⟩ ⟨0, 0⟩) (ex_sprite ⟨20, 0⟩ ⟨-10, 0⟩) = 0
    ∧ sprite_collision_with_result 0 (ex_sprite ⟨0, 0⟩ ⟨0, 0⟩) (ex_sprite ⟨20, 0⟩ ⟨-10, 0⟩)
        ⟨0, ⟨0, 0⟩, ⟨0, 0⟩, none⟩ = ⟨COLLISION_NEVER, ⟨0, 0⟩, ⟨0, 0⟩, none⟩
    ∧ narrow_phase 0 (ex_sprite ⟨0, 0⟩ ⟨0, 0⟩) (ex_sprite ⟨20, 0⟩ ⟨-10, 0⟩)
        ⟨0, ⟨0, 0⟩, ⟨0, 0⟩, none⟩ = ⟨COLLISION_INMOTION, ⟨1, 0⟩, ⟨4, 0⟩, none⟩
    ∧ (ex_sprite ⟨0, 0⟩ ⟨0, 0⟩).collides = COLLISION_BOX
    ∧ (ex_sprite ⟨20, 0⟩ ⟨-10, 0⟩).collides = COLLISION_BOX
    ∧ (∀ (indet : Int) (spr tgt : sprite), sprite_sweep_test spr tgt = 0 →
        sprite_sprite_test indet spr 0 0 tgt = 0) :=
  ⟨by decide, by decide, by decide, by decide, by decide, sweep_reject_at_start⟩

/-! ## The tracking of the ray -/

/-- The loops of `cast_ray` start from `ray_begin`. -/
theorem cast_ray_begin (a b : point) (m : map) :
    cast_ray a b m
      = if iabs (b.x - a.x) + 1 ≥ iabs (b.y - a.y) + 1 then
          ray_xloop m ⟨sign (b.x - a.x), sign (b.y - a.y)⟩
            ⟨if sign (b.x - a.x) < 0 then 0 else m.tw - 1,
              if sign (b.y - a.y) < 0 then 0 else m.th - 1⟩
            ((iabs (b.y - a.y) + 1) * 2)
            ((iabs (b.y - a.y) + 1) * 2 - (iabs (b.x - a.x) + 1) * 2)
            (iabs (b.x - a.x) + 1).toNat (ray_begin a b m)
        else
          ray_yloop m ⟨sign (b.x - a.x), sign (b.y - a.y)⟩
            ⟨if sign (b.x - a.x) < 0 then 0 else m.tw - 1,
              if sign (b.y - a.y) < 0 then 0 else m.th - 1⟩
            ((iabs (b.x - a.x) + 1) * 2)
            ((iabs (b.x - a.x) + 1) * 2 - (iabs (b.y - a.y) + 1) * 2)
            (iabs (b.y - a.y) + 1).toNat (ray_begin a b m) := by
  unfold cast_ray ray_begin
  simp only
  by_cases h : iabs (b.x - a.x) + 1 ≥ iabs (b.y - a.y) + 1
  · simp only [if_pos h]
  · simp only [if_neg h]

/-- C37: the setup of `cast_ray` is off for a start coordinate that is a
negative multiple of the tile size, and a step on an axis along which the ray
does not move resets the tracked pixel.  On the map of 16x16 tiles: for the
ray from (-16,0) to (40,0) the setup gives the cell -2 and the pixel 16 within
it, where the floor quotient and remainder of -16 by 16 are -1 and 0; the
pixel 16 never meets the boundary value 15, so after 20 iterations, with the
ray on x = 4, the tracked cell is still -2 and the tracked pixel 36, the Box
tile on the pixels 32..47 is never looked at and `cast_ray` returns 1.  From
(-15,0) the tracking is right (cell 0, pixel 5 on x = 5) and the ray is
stopped.  For the vertical ray from (15,0) to (15,5) the fourth iteration
takes a step of 0 along x, finds the tracked pixel 15 on the boundary value
and sets it to 0, while the ray is still on x = 15. -/
theorem c37_tracking_off :
    (∀ (a b : point) (m : map),
        cast_ray a b m
          = if iabs (b.x - a.x) + 1 ≥ iabs (b.y - a.y) + 1 then
              ray_xloop m ⟨sign (b.x - a.x), sign (b.y - a.y)⟩
                ⟨if sign (b.x - a.x) < 0 then 0 else m.tw - 1,
                  if sign (b.y - a.y) < 0 then 0 else m.th - 1⟩
                ((iabs (b.y - a.y) + 1) * 2)
                ((iabs (b.y - a.y) + 1) * 2 - (iabs (b.x - a.x) + 1) * 2)
                (iabs (b.x - a.x) + 1).toNat (ray_begin a b m)
            else
              ray_yloop m ⟨sign (b.x - a.x), sign (b.y - a.y)⟩
                ⟨if sign (b.x - a.x) < 0 then 0 else m.tw - 1,
                  if sign (b.y - a.y) < 0 then 0 else m.th - 1⟩
                ((iabs (b.x - a.x) + 1) * 2)
                ((iabs (b.x - a.x) + 1) * 2 - (iabs (b.y - a.y) + 1) * 2)
                (iabs (b.y - a.y) + 1).toNat (ray_begin a b m))
    ∧ ray_tracked ⟨-16, 0⟩ ⟨40, 0⟩ ex_map 0 = some (⟨-2, 0⟩, ⟨16, 0⟩, ⟨-16, 0⟩)
    ∧ ((-16 : Int) / ex_map.tw = -1 ∧ (-16 : Int) % ex_map.tw = 0)
    ∧ ray_tracked ⟨-16, 0⟩ ⟨40, 0⟩ ex_map 20 = some (⟨-2, 0⟩, ⟨36, 0⟩, ⟨4, 0⟩)
    ∧ cast_ray ⟨-16, 0⟩ ⟨40, 0⟩ ex_map = 1
    ∧ ray_tracked ⟨-15, 0⟩ ⟨40, 0⟩ ex_map 20 = some (⟨0, 0⟩, ⟨5, 0⟩, ⟨5, 0⟩)
    ∧ cast_ray ⟨-15, 0⟩ ⟨40, 0⟩ ex_map = 0
    ∧ ray_tracked ⟨15, 0⟩ ⟨15, 5⟩ ex_map 3 = some (⟨0, 0⟩, ⟨15, 3⟩, ⟨15, 3⟩)
    ∧ ray_tracked ⟨15, 0⟩ ⟨15, 5⟩ ex_map 4 = some (⟨0, 0⟩, ⟨0, 4⟩, ⟨15, 4⟩) :=
  ⟨cast_ray_begin, by decide, by decide, by decide, by decide, by decide, by decide, by decide,
    by decide⟩

/-! ## The write index of the assembler -/

theorem asm_put_at_end (st : asm_state) (b : cell) (h : st.ct = ASM_BUF_SIZE) :
    asm_put st b = asm_step.undef := by
  unfold asm_put
  rw [if_neg (by omega)]

/-- C39: the scratch buffer of `parse_mcp` has 255 bytes and the length check
waits for the write index 384.  Fifteen lines "set xvel, 5" followed by
fifteen lines "del" are assembled without a rejection and leave the write
index at 255, the size of the buffer, so the final eoc byte is written past
its end; any write at that index is outside the buffer.  A sixteenth line
"set xvel, 5" after fifteen puts the last byte of its value at index 255, and
one more "bmp 1" after fifteen stays inside with the index at 252. -/
theorem c39_write_index_reaches_buffer_size :
    asm_reach (rep_lines 15 "set xvel, 5" ++ rep_lines 15 "del") = some ASM_BUF_SIZE
    ∧ parse_status (rep_lines 15 "set xvel, 5" ++ rep_lines 15 "del") = none
    ∧ asm_reach (rep_lines 15 "set xvel, 5") = some 240
    ∧ asm_reach (rep_lines 15 "set xvel, 5" ++ cs "bmp 1") = some 252
    ∧ asm_reach (rep_lines 16 "set xvel, 5") = none
    ∧ parse_status (rep_lines 16 "set xvel, 5") = none
    ∧ ASM_BUF_SIZE < MAX_MCP_LENGTH
    ∧ (∀ (st : asm_state) (b : cell), st.ct = ASM_BUF_SIZE → asm_put st b = asm_step.undef) :=
  ⟨by decide, by decide, by decide, by decide, by decide, by decide, by decide,
    asm_put_at_end⟩

/-! ## The ends of the linked list -/

/-- C40: `list_empty`, `list_shift` and `list_pop` leave the other end of the
list pointing to a freed element.  After `list_empty` on the list of the one
item 7, and after `list_shift` took that item, `head` is `NULL` and `tail` is
the address of the freed element: the list is not well formed, and
`list_add(9)` then writes through `tail` into the freed element, which is
undefined, and leaves `head` at `NULL` where it is not.  After `list_pop` took
the only item, `tail` is `NULL` and `head` is not.  After `list_pop` on the
items 7, 8 the element of 7 still has the freed element as its `next`, and
`list_length` reads it.  After `list_shift` on the items 7, 8 the element of 8
keeps the freed element as its `prev`, and `list_remove` of 8 writes through
it.  `list_add`, `list_prepend` and `list_remove` keep the sample lists well
formed, and `list_remove` of the only item leaves a list on which `list_add`
works. -/
theorem c40_list_ends_dangle :
    listc.seen (listc.list_of [7]) = some (⟨100, 100⟩, true, some 1, some [7])
    ∧ listc.seen (listc.and_then (listc.list_of [7]) listc.list_empty)
        = some (⟨0, 100⟩, false, some 0, some [])
    ∧ listc.seen (listc.and_then (listc.and_then (listc.list_of [7]) listc.list_empty)
        (fun h l => listc.list_add h l 9)) = none
    ∧ listc.seen (listc.and_then (listc.list_of [7])
        (fun h l => listc.dropped (listc.list_shift h l)))
        = some (⟨0, 100⟩, false, some 0, some [])
    ∧ listc.seen (listc.and_then (listc.and_then (listc.list_of [7])
        (fun h l => listc.dropped (listc.list_shift h l)))
        (fun h l => listc.list_add h l 9)) = none
    ∧ listc.seen (listc.and_then (listc.list_of [7])
        (fun h l => listc.dropped (listc.list_pop h l)))
        = some (⟨100, 0⟩, false, none, none)
    ∧ listc.seen (listc.and_then (listc.list_of [7, 8])
        (fun h l => listc.dropped (listc.list_pop h l)))
        = some (⟨100, 100⟩, false, none, none)
    ∧ listc.seen (listc.and_then (listc.list_of [7, 8])
        (fun h l => listc.dropped (listc.list_shift h l)))
        = some (⟨101, 101⟩, true, some 1, some [8])
    ∧ listc.seen (listc.and_then (listc.and_then (listc.list_of [7, 8])
        (fun h l => listc.dropped (listc.list_shift h l)))
        (fun h l => listc.list_remove h l 8 listc.LIST_TAIL)) = none
    ∧ listc.seen (listc.list_of [7, 8, 9]) = some (⟨100, 102⟩, true, some 3, some [7, 8, 9])
    ∧ listc.seen (listc.and_then (listc.list_of [7, 8]) (fun h l => listc.list_prepend h l 5))
        = some (⟨102, 101⟩, true, some 3, some [5, 7, 8])
    ∧ listc.seen (listc.and_then (listc.list_of [7, 8, 9, 8])
        (fun h l => listc.list_remove h l 8 listc.LIST_ALL))
        = some (⟨100, 102⟩, true, some 2, some [7, 9])
    ∧ listc.seen (listc.and_then (listc.list_of [7, 8, 9, 8])
        (fun h l => listc.list_remove h l 8 listc.LIST_TAIL))
        = some (⟨100, 102⟩, true, some 3, some [7, 8, 9])
    ∧ listc.seen (listc.and_then (listc.and_then (listc.list_of [7])
        (fun h l => listc.list_remove h l 7 listc.LIST_HEAD))
        (fun h l => listc.list_add h l 9)) = some (⟨101, 101⟩, true, some 1, some [9]) :=
  ⟨by decide, by decide, by decide, by decide, by decide, by decide, by decide, by decide,
    by decide, by decide, by decide, by decide, by decide, by decide⟩

/-! ## The scaled pixel region test -/

/-! ## The Box sprite against a map of Box tiles -/
theorem tdiv_neg_nonpos (a b : Int) (ha : a < 0) (hb : 0 < b) : Int.tdiv a b ≤ 0 := by
  have h1 : Int.tdiv a b = -(Int.tdiv (-a) b) := by
    have := Int.neg_tdiv (-a) b
    rw [Int.neg_neg] at this
    exact this
  have h2 : 0 ≤ Int.tdiv (-a) b := Int.tdiv_nonneg (by omega) (by omega)
  omega

/-- The range of cells that `map_sprite_test` scans on one axis, among the
cells that are not negative: the cells whose pixels meet the span
`x1 .. x2`. -/
theorem cell_range (x1 x2 tw cx : Int) (htw : 0 < tw) (hcx : 0 ≤ cx) :
    ((if x1 < 0 then libdivide_s32_do x1 tw - 1 else libdivide_s32_do x1 tw) ≤ cx
      ∧ cx < (if x2 < 0 then libdivide_s32_do x2 tw else libdivide_s32_do x2 tw + 1))
    ↔ (cx * tw ≤ x2 ∧ x1 ≤ cx * tw + tw - 1) := by
  unfold libdivide_s32_do
  have hm : 0 ≤ cx * tw := Int.mul_nonneg hcx (by omega)
  have lo : (if x1 < 0 then Int.tdiv x1 tw - 1 else Int.tdiv x1 tw) ≤ cx
      ↔ x1 ≤ cx * tw + tw - 1 := by
    by_cases c : x1 < 0
    · rw [if_pos c]
      have := tdiv_neg_nonpos x1 tw c htw
      constructor
      · intro _; omega
      · intro _; omega
    · rw [if_neg c, Int.tdiv_eq_ediv (by omega) (by omega)]
      have e : x1 / tw ≤ cx ↔ x1 / tw < cx + 1 := by omega
      rw [e, Int.ediv_lt_iff_lt_mul htw, Int.add_mul, Int.one_mul]
      omega
  have hi : cx < (if x2 < 0 then Int.tdiv x2 tw else Int.tdiv x2 tw + 1) ↔ cx * tw ≤ x2 := by
    by_cases c : x2 < 0
    · rw [if_pos c]
      have := tdiv_neg_nonpos x2 tw c htw
      constructor
      · intro _; omega
      · intro _; omega
    · rw [if_neg c, Int.tdiv_eq_ediv (by omega) (by omega)]
      have e : cx < x2 / tw + 1 ↔ cx ≤ x2 / tw := by omega
      rw [e, Int.le_ediv_iff_mul_le htw]
  rw [lo, hi]
  exact And.comm

theorem map_sprite_tile_hit_box (indet : Int) (s : sprite) (t : tile) (clip sbox tbox : box)
    (hs : s.collides = COLLISION_BOX)
    (ht : t.collides = COLLISION_OFF ∨ t.collides = COLLISION_BOX) :
    map_sprite_tile_hit indet s t clip sbox tbox = true ↔ t.collides = COLLISION_BOX := by
  unfold map_sprite_tile_hit
  simp only [hs]
  rcases ht with ht | ht
  · rw [ht]
    simp [COLLISION_OFF, COLLISION_BOX, COLLISION_PIXEL]
  · rw [ht]
    simp

theorem map_sprite_cell_hit_box (indet : Int) (m : map) (s : sprite) (x y : Int)
    (clip sbox tbox : box) (hs : s.collides = COLLISION_BOX)
    (htiles : ∀ x y t, map_tile_at m x y = some t →
      t.collides = COLLISION_OFF ∨ t.collides = COLLISION_BOX) :
    map_sprite_cell_hit indet m s x y clip sbox tbox = true ↔ box_cell m x y := by
  unfold map_sprite_cell_hit box_cell
  by_cases c : x ≥ 0 ∧ x < m.w ∧ y ≥ 0 ∧ y < m.h
  · rw [if_pos c]
    cases ht : map_tile_at m x y with
    | none =>
      simp only [Bool.false_eq_true, false_iff]
      rintro ⟨_, _, _, _, t, h, _⟩
      cases h
    | some t =>
      simp only
      rw [map_sprite_tile_hit_box indet s t clip sbox tbox hs (htiles x y t ht)]
      constructor
      · intro h
        exact ⟨c.1, c.2.1, c.2.2.1, c.2.2.2, t, rfl, h⟩
      · rintro ⟨_, _, _, _, t1, h1, h2⟩
        cases h1
        exact h2
  · rw [if_neg c]
    simp only [Bool.false_eq_true, false_iff]
    rintro ⟨h1, h2, h3, h4, _⟩
    exact c ⟨h1, h2, h3, h4⟩

theorem map_sprite_row_box (indet : Int) (m : map) (s : sprite) (adjx locy : Int) (sbox : box)
    (hs : s.collides = COLLISION_BOX)
    (htiles : ∀ x y t, map_tile_at m x y = some t →
      t.collides = COLLISION_OFF ∨ t.collides = COLLISION_BOX) (n : Nat) :
    ∀ (locx : Int) (clip tbox : box),
    map_sprite_row indet m s adjx locy sbox n locx clip tbox = none
      ↔ ∃ k : Nat, k < n ∧ box_cell m (locx + k) locy := by
  induction n with
  | zero =>
    intro locx clip tbox
    rw [map_sprite_row]
    constructor
    · intro h; cases h
    · rintro ⟨k, hk, _⟩
      exact absurd hk (Nat.not_lt_zero _)
  | succ n ih =>
    intro locx clip tbox
    rw [map_sprite_row]
    by_cases c : map_sprite_cell_hit indet m s locx locy clip sbox tbox = true
    · rw [if_pos c]
      have := (map_sprite_cell_hit_box indet m s locx locy clip sbox tbox hs htiles).mp c
      exact ⟨fun _ => ⟨0, Nat.succ_pos _, by simpa using this⟩, fun _ => rfl⟩
    · rw [if_neg c, ih]
      have hn : ¬ box_cell m locx locy :=
        fun h => c ((map_sprite_cell_hit_box indet m s locx locy clip sbox tbox hs htiles).mpr h)
      constructor
      · rintro ⟨k, hk, h⟩
        refine ⟨k + 1, by omega, ?_⟩
        rw [show locx + ((k + 1 : Nat) : Int) = locx + 1 + (k : Int) by push_cast; omega]
        exact h
      · rintro ⟨k, hk, h⟩
        cases k with
        | zero => exact absurd (by simpa using h) hn
        | succ k =>
          refine ⟨k, by omega, ?_⟩
          rw [show locx + 1 + (k : Int) = locx + ((k + 1 : Nat) : Int) by push_cast; omega]
          exact h

theorem map_sprite_rows_box (indet : Int) (m : map) (s : sprite) (adj : vector)
    (rx1 rx2 : Int) (sbox : box) (hs : s.collides = COLLISION_BOX)
    (htiles : ∀ x y t, map_tile_at m x y = some t →
      t.collides = COLLISION_OFF ∨ t.collides = COLLISION_BOX) (n : Nat) :
    ∀ (locy : Int) (clip tbox : box),
    map_sprite_rows indet m s adj rx1 rx2 sbox n locy clip tbox = 1
      ↔ ∃ j : Nat, j < n ∧ ∃ k : Nat, k < (rx2 - rx1).toNat
          ∧ box_cell m (rx1 + k) (locy + j) := by
  induction n with
  | zero =>
    intro locy clip tbox
    rw [map_sprite_rows]
    constructor
    · intro h; exact absurd h (by decide)
    · rintro ⟨j, hj, _⟩
      exact absurd hj (Nat.not_lt_zero _)
  | succ n ih =>
    intro locy clip tbox
    rw [map_sprite_rows]
    have hrow := map_sprite_row_box indet m s adj.x locy sbox hs htiles (rx2 - rx1).toNat rx1
      clip tbox
    cases hr : map_sprite_row indet m s adj.x locy sbox (rx2 - rx1).toNat rx1 clip tbox with
    | none =>
      obtain ⟨k, hk, h⟩ := hrow.mp hr
      simp only
      exact ⟨fun _ => ⟨0, Nat.succ_pos _, k, hk, by simpa using h⟩, fun _ => trivial⟩
    | some p =>
      simp only
      rw [ih]
      have hn : ¬ ∃ k : Nat, k < (rx2 - rx1).toNat ∧ box_cell m (rx1 + k) locy := by
        intro h
        have := hrow.mpr h
        rw [hr] at this
        cases this
      constructor
      · rintro ⟨j, hj, k, hk, h⟩
        refine ⟨j + 1, by omega, k, hk, ?_⟩
        rw [show locy + ((j + 1 : Nat) : Int) = locy + 1 + (j : Int) by push_cast; omega]
        exact h
      · rintro ⟨j, hj, k, hk, h⟩
        cases j with
        | zero => exact absurd ⟨k, hk, by simpa using h⟩ hn
        | succ j =>
          refine ⟨j, by omega, k, hk, ?_⟩
          rw [show locy + 1 + (j : Int) = locy + ((j + 1 : Nat) : Int) by push_cast; omega]
          exact h

/-- Counting cells from the low corner of a range visits every cell of the
range. -/
theorem cell_scan_range (P : Int → Int → Prop) (rx1 rx2 ry1 ry2 : Int) :
    (∃ j, j < (ry2 - ry1).toNat ∧ ∃ k, k < (rx2 - rx1).toNat
        ∧ P (rx1 + (k : Int)) (ry1 + (j : Int)))
      ↔ ∃ cx cy : Int, (rx1 ≤ cx ∧ cx < rx2) ∧ (ry1 ≤ cy ∧ cy < ry2) ∧ P cx cy := by
  constructor
  · rintro ⟨j, hj, k, hk, h⟩
    rw [Int.lt_toNat] at hj hk
    exact ⟨_, _, ⟨by omega, by omega⟩, ⟨by omega, by omega⟩, h⟩
  · rintro ⟨cx, cy, ⟨x1, x2⟩, ⟨y1, y2⟩, h⟩
    refine ⟨(cy - ry1).toNat, ?_, (cx - rx1).toNat, ?_, ?_⟩
    · rw [Int.lt_toNat, Int.toNat_of_nonneg (by omega)]
      omega
    · rw [Int.lt_toNat, Int.toNat_of_nonneg (by omega)]
      omega
    · rw [Int.toNat_of_nonneg (by omega), Int.toNat_of_nonneg (by omega)]
      rw [show rx1 + (cx - rx1) = cx by omega, show ry1 + (cy - ry1) = cy by omega]
      exact h

/-- C38, amended: for a Box sprite whose bounds box is not empty and a map
with tiles of positive size that are all Off or Box, `map_sprite_test` at the
offset `(dx, dy)` returns 1 exactly when some cell of the map holds a Box tile
and a pixel `(px, py)` lies both in the pixel rectangle of that cell and in
the inclusive bounds box of the sprite translated by `(dx, dy)`; in every
other case it returns 0.  Negative coordinates are included. -/
theorem c38_box_map_test (indet : Int) (m : map) (s : sprite) (dx dy : Int)
    (htw : 0 < m.tw) (hth : 0 < m.th) (hs : s.collides = COLLISION_BOX)
    (htiles : ∀ x y t, map_tile_at m x y = some t →
      t.collides = COLLISION_OFF ∨ t.collides = COLLISION_BOX)
    (hbx : s.bc.x1 ≤ s.bc.x2) (hby : s.bc.y1 ≤ s.bc.y2) :
    (map_sprite_test indet m s dx dy = 1
      ↔ ∃ cx cy : Int, box_cell m cx cy
          ∧ ∃ px py : Int,
              (cx * m.tw ≤ px ∧ px ≤ cx * m.tw + m.tw - 1
                ∧ cy * m.th ≤ py ∧ py ≤ cy * m.th + m.th - 1)
              ∧ (s.bc.x1 + dx ≤ px ∧ px ≤ s.bc.x2 + dx
                ∧ s.bc.y1 + dy ≤ py ∧ py ≤ s.bc.y2 + dy))
    ∧ (map_sprite_test indet m s dx dy = 0 ∨ map_sprite_test indet m s dx dy = 1) := by
  refine ⟨?_, map_sprite_test_bool indet m s dx dy⟩
  unfold map_sprite_test map_sprite_scan
  rw [if_neg (by rw [hs]; decide), if_pos hs]
  simp only
  rw [map_sprite_rows_box indet m s _ _ _ _ hs htiles]
  have key := cell_scan_range (box_cell m)
    (if s.bc.x1 + dx < 0 then libdivide_s32_do (s.bc.x1 + dx) m.tw - 1
      else libdivide_s32_do (s.bc.x1 + dx) m.tw)
    (if s.bc.x2 + dx < 0 then libdivide_s32_do (s.bc.x2 + dx) m.tw
      else libdivide_s32_do (s.bc.x2 + dx) m.tw + 1)
    (if s.bc.y1 + dy < 0 then libdivide_s32_do (s.bc.y1 + dy) m.th - 1
      else libdivide_s32_do (s.bc.y1 + dy) m.th)
    (if s.bc.y2 + dy < 0 then libdivide_s32_do (s.bc.y2 + dy) m.th
      else libdivide_s32_do (s.bc.y2 + dy) m.th + 1)
  refine Iff.trans ?_ (Iff.trans key ?_)
  · exact Iff.rfl
  constructor
  · rintro ⟨cx, cy, hx, hy, hcell⟩
    have rx := (cell_range (s.bc.x1 + dx) (s.bc.x2 + dx) m.tw cx htw hcell.1).mp hx
    have ry := (cell_range (s.bc.y1 + dy) (s.bc.y2 + dy) m.th cy hth hcell.2.2.1).mp hy
    refine ⟨cx, cy, hcell, max (s.bc.x1 + dx) (cx * m.tw), max (s.bc.y1 + dy) (cy * m.th), ?_, ?_⟩
    · omega
    · omega
  · rintro ⟨cx, cy, hcell, px, py, ⟨a1, a2, a3, a4⟩, b1, b2, b3, b4⟩
    exact ⟨cx, cy,
      (cell_range (s.bc.x1 + dx) (s.bc.x2 + dx) m.tw cx htw hcell.1).mpr ⟨by omega, by omega⟩,
      (cell_range (s.bc.y1 + dy) (s.bc.y2 + dy) m.th cy hth hcell.2.2.1).mpr ⟨by omega, by omega⟩,
      hcell⟩

theorem map_tile_at_mem (m : map) (x y : Int) (t : tile) (h : map_tile_at m x y = some t) :
    some t ∈ m.tiles := by
  unfold map_tile_at at h
  simp only at h
  split_ifs at h with hi
  rw [List.getD_eq_getElem?_getD] at h
  cases hg : m.tiles[((m.data.getD []).getD (x + y * m.w).toNat 0).toNat]? with
  | none => rw [hg] at h; cases h
  | some v =>
    rw [hg] at h
    simp only [Option.getD_some] at h
    rw [← h]
    obtain ⟨hlt, hv⟩ := List.getElem?_eq_some.mp hg
    rw [← hv]
    exact List.getElem_mem _

theorem c38_box_map_test_witness :
    (map_sprite_test 0 ex_map (ex_sprite ⟨0, 0⟩ ⟨0, 0⟩) 20 0 = 1
      ↔ ∃ cx cy : Int, box_cell ex_map cx cy
          ∧ ∃ px py : Int,
              (cx * ex_map.tw ≤ px ∧ px ≤ cx * ex_map.tw + ex_map.tw - 1
                ∧ cy * ex_map.th ≤ py ∧ py ≤ cy * ex_map.th + ex_map.th - 1)
              ∧ ((ex_sprite ⟨0, 0⟩ ⟨0, 0⟩).bc.x1 + 20 ≤ px
                ∧ px ≤ (ex_sprite ⟨0, 0⟩ ⟨0, 0⟩).bc.x2 + 20
                ∧ (ex_sprite ⟨0, 0⟩ ⟨0, 0⟩).bc.y1 + 0 ≤ py
                ∧ py ≤ (ex_sprite ⟨0, 0⟩ ⟨0, 0⟩).bc.y2 + 0))
    ∧ (map_sprite_test 0 ex_map (ex_sprite ⟨0, 0⟩ ⟨0, 0⟩) 20 0 = 0
      ∨ map_sprite_test 0 ex_map (ex_sprite ⟨0, 0⟩ ⟨0, 0⟩) 20 0 = 1) :=
  c38_box_map_test 0 ex_map (ex_sprite ⟨0, 0⟩ ⟨0, 0⟩) 20 0 (by decide) (by decide) (by decide)
    (fun x y t h => by
      have hm := map_tile_at_mem ex_map x y t h
      simp only [ex_map, List.mem_cons, Option.some.injEq, List.mem_singleton,
        List.not_mem_nil, or_false] at hm
      rcases hm with hm | hm
      · cases hm
      · rw [hm]
        exact Or.inr (by decide))
    (by decide) (by decide)

/-- C38, counterexample: the Box sprite at (33,1) whose collision box is the
one `find_pixel_bounds` leaves for an empty mask of 4x4 pixels has the bounds
cache `(37, 5, 33, 1)`, which contains no pixel, so the sprite shares a pixel
with no cell.  On the map whose cell (2,0) holds a Box tile `map_sprite_test`
returns 1 at the offset (0,0): the cell range is computed from each corner
alone, `37 / 16 = 2` to `33 / 16 + 1 = 3`, and a Box tile in a scanned cell is
a hit without a look at the box. -/
theorem c38_empty_box_hits :
    map_sprite_test 0 ex_map ex_empty_box_sprite 0 0 = 1
    ∧ ex_empty_box_sprite.collides = COLLISION_BOX
    ∧ ex_empty_box_sprite.bc = ⟨37, 5, 33, 1⟩
    ∧ ¬ (∃ px py : Int, ex_empty_box_sprite.bc.x1 + 0 ≤ px ∧ px ≤ ex_empty_box_sprite.bc.x2 + 0
          ∧ ex_empty_box_sprite.bc.y1 + 0 ≤ py ∧ py ≤ ex_empty_box_sprite.bc.y2 + 0) := by
  refine ⟨by decide, by decide, by decide, ?_⟩
  rintro ⟨px, py, h1, h2, -, -⟩
  have e1 : ex_empty_box_sprite.bc.x1 = 37 := by decide
  have e2 : ex_empty_box_sprite.bc.x2 = 33 := by decide
  rw [e1] at h1
  rw [e2] at h2
  omega

end BEWorld
